import Mathlib

/-!
# The CEC protocol engine of `chip/npcx/cec.c`

A shallow embedding of the bit-level CEC transmitter/receiver: the timing
constants, the message transfer cursor, the timer helpers, `enter_state`, the
three event handlers and the host-facing entry points, followed by theorems
about them.

Conventions of the embedding.

* The file-scope variables of `cec.c` (`cec_state`, `cec_rx`, `cec_tx`,
  `cap_charge`, `cec_events`, `apb1_freq_div_10k`) are the fields of one record,
  `engine`, which every function takes and returns.
* `uint8_t` fields are naturals reduced modulo 256 where the code increments
  them; the tick arithmetic of the timing constants is unsigned 32-bit
  arithmetic (an `int` literal times the `uint32_t` clock divisor) and is
  reduced modulo 2^32; `int` locals are integers.
* The multi-function timer and the GPIO are the record `mft`, and the two
  `gpio` fields: the level last written with `gpio_set_level`, and the level
  that `gpio_get_level` reads, which belongs to the environment.
* `mkbp_log` lists the arguments of the `send_mkbp_event` calls made so far.
* `enum cap_edge` has no negative enumerator, so it is an unsigned type: the
  initializer -1 of the local `cap_edge` of `enter_state` leaves the largest
  value of that type, `cap_edge_init`, for which the test `cap_edge >= 0`
  holds. Hence `enter_state` programs every timeout with `tmr_cap_start`, also
  in the states that set no capture edge, and never with `tmr_oneshot_start`.

The password phase of `common/ccd_config.c` (`password_state`,
`ccd_tpm_reset_callback`, `manage_ccd_password`) and its configuration
(`ccd_load_config`, `ccd_reset_config`, the flags and the packed capabilities,
`ccd_is_cap_enabled`) are embedded first, in the namespace `Ccd`; their
theorems are at the end.
-/

/-! # The CCD password phase and configuration of `common/ccd_config.c` -/

namespace Ccd

/-- Error numbers that `ccd_config.c` takes from `common.h`. That header is not
part of the sources at hand, so the numbers are parameters of the embedding. -/
structure ec_error_list where
  EC_SUCCESS : Nat
  EC_ERROR_INVAL : Nat
  EC_ERROR_PARAM1 : Nat
  deriving Repr, DecidableEq

/-- The values of `enum vendor_cmd_rc` that `manage_ccd_password` returns
(symbolic; their numbers are in `tpm_vendor_cmds.h`). -/
inductive vendor_cmd_rc where
  | VENDOR_RC_SUCCESS
  | VENDOR_RC_BOGUS_ARGS
  | VENDOR_RC_INTERNAL_ERROR
  deriving Repr, DecidableEq

/-- `enum password_reset_phase`. -/
inductive password_reset_phase where
  | POST_RESET_STATE
  | PASSWORD_ALLOWED_STATE
  | PASSWORD_NOT_ALLOWED_STATE
  deriving Repr, DecidableEq

open password_reset_phase vendor_cmd_rc

/-- The initializer of `static uint8_t password_state`. -/
def password_state_init : password_reset_phase := PASSWORD_NOT_ALLOWED_STATE

/-- `ccd_tpm_reset_callback`: `password_state` afterwards. -/
def ccd_tpm_reset_callback (_password_state : password_reset_phase) : password_reset_phase :=
  POST_RESET_STATE

/-- What `manage_ccd_password` leaves: the value returned, the buffer,
`*response_size` and `password_state`. The argument `code` is not used. -/
structure manage_result where
  rv : vendor_cmd_rc
  buf : List Nat
  response_size : Nat
  password_state : password_reset_phase
  deriving Repr, DecidableEq

/-- The `do { ... } while (0)` block of `manage_ccd_password`: `rv`,
`error_code` and `password_state` when it is left. -/
def manage_ccd_password_block (E : ec_error_list) (buf : List Nat) (input_size : Nat)
    (password_state : password_reset_phase) : vendor_cmd_rc × Nat × password_reset_phase :=
  if input_size ≠ 1 then (VENDOR_RC_INTERNAL_ERROR, E.EC_ERROR_PARAM1, password_state)
  else
    let value := buf.getD 0 0
    if value = 0 then (VENDOR_RC_SUCCESS, E.EC_SUCCESS, PASSWORD_NOT_ALLOWED_STATE)
    else if password_state = POST_RESET_STATE then
      (VENDOR_RC_SUCCESS, E.EC_SUCCESS, PASSWORD_ALLOWED_STATE)
    else (VENDOR_RC_BOGUS_ARGS, E.EC_ERROR_INVAL, PASSWORD_NOT_ALLOWED_STATE)

/-- `manage_ccd_password`, with the bytes of `buf` and the value of
`password_state` as arguments. -/
def manage_ccd_password (E : ec_error_list) (buf : List Nat) (input_size : Nat)
    (password_state : password_reset_phase) : manage_result :=
  let r := manage_ccd_password_block E buf input_size password_state
  if r.1 = VENDOR_RC_SUCCESS then ⟨r.1, buf, 0, r.2.2⟩
  else ⟨r.1, buf.set 0 r.2.1, 1, r.2.2⟩

/-- `password_state` after a sequence of `manage_ccd_password` calls, each
given by its buffer and input size. -/
def manage_calls (E : ec_error_list) :
    List (List Nat × Nat) → password_reset_phase → password_reset_phase
  | [], st => st
  | c :: cs, st => manage_calls E cs (manage_ccd_password E c.1 c.2 st).password_state

end Ccd

/-! ## The CCD configuration and its capabilities -/

namespace Ccd

/-- Constants that `ccd_config.c` takes from `ccd_config.h`. That header is not
part of the sources at hand, so the constants are parameters of the
embedding. -/
structure ccd_config_h where
  CCD_CAP_COUNT : Nat
  CCD_CAP_GSC_RESTRICTED_CONSOLE : Nat
  CCD_FLAG_TEST_LAB : Nat
  CCD_FLAG_PASSWORD_SET_WHEN_UNLOCKED : Nat
  CCD_FLAG_OVERRIDE_WP_AT_BOOT : Nat
  CCD_FLAG_OVERRIDE_WP_STATE_ENABLED : Nat
  CCD_RESET_TEST_LAB : Nat
  CCD_RESET_UNLOCKED_ONLY : Nat
  CCD_RESET_RMA : Nat
  deriving Repr, DecidableEq

/-- `CCD_CONFIG_VERSION`. -/
def CCD_CONFIG_VERSION : Nat := 0x10

/-- `enum ccd_capability_state`: `CCD_CAP_STATE_DEFAULT`. -/
def CCD_CAP_STATE_DEFAULT : Nat := 0

/-- `enum ccd_capability_state`: `CCD_CAP_STATE_ALWAYS`. -/
def CCD_CAP_STATE_ALWAYS : Nat := 1

/-- `enum ccd_capability_state`: `CCD_CAP_STATE_UNLESS_LOCKED`. -/
def CCD_CAP_STATE_UNLESS_LOCKED : Nat := 2

/-- `enum ccd_capability_state`: `CCD_CAP_STATE_IF_OPENED`. -/
def CCD_CAP_STATE_IF_OPENED : Nat := 3

/-- `CCD_PASSWORD_SALT_SIZE`. -/
def CCD_PASSWORD_SALT_SIZE : Nat := 4

/-- `CCD_PASSWORD_DIGEST_SIZE`. -/
def CCD_PASSWORD_DIGEST_SIZE : Nat := 16

/-- `enum ccd_state`, declared in `ccd_config.h`: the three states that
`ccd_state_names` names, in its order. -/
inductive ccd_state where
  | CCD_STATE_LOCKED
  | CCD_STATE_UNLOCKED
  | CCD_STATE_OPENED
  deriving Repr, DecidableEq

open ccd_state

/-- `struct ccd_config`: every field is a `uint8_t` or an array of them. -/
structure ccd_config where
  version : Nat
  flags : List Nat
  capabilities : List Nat
  password_salt : List Nat
  password_digest : List Nat
  deriving Repr, DecidableEq

/-- The column `default_state` of `cap_info`. -/
def cap_info_default_state : List Nat :=
  [CCD_CAP_STATE_ALWAYS, CCD_CAP_STATE_ALWAYS, CCD_CAP_STATE_ALWAYS, CCD_CAP_STATE_IF_OPENED,
    CCD_CAP_STATE_IF_OPENED, CCD_CAP_STATE_IF_OPENED, CCD_CAP_STATE_IF_OPENED,
    CCD_CAP_STATE_IF_OPENED,
    CCD_CAP_STATE_IF_OPENED, CCD_CAP_STATE_ALWAYS, CCD_CAP_STATE_ALWAYS, CCD_CAP_STATE_IF_OPENED,
    CCD_CAP_STATE_IF_OPENED, CCD_CAP_STATE_ALWAYS, CCD_CAP_STATE_ALWAYS, CCD_CAP_STATE_IF_OPENED]

/-- The file-scope variables `ccd_state`, `config`, `ccd_config_loaded` and
`force_disabled` of `ccd_config.c`. -/
structure ccd_vars where
  ccd_state : ccd_state
  config : ccd_config
  ccd_config_loaded : Nat
  force_disabled : Nat
  deriving Repr, DecidableEq

/-- `sizeof(config)`: 1 + 3 + 8 + 4 + 16 bytes. -/
def sizeof_config : Nat := 32

/-- The bytes of a `struct ccd_config`, in the order of its fields. -/
def config_bytes (c : ccd_config) : List Nat :=
  [c.version] ++ c.flags ++ c.capabilities ++ c.password_salt ++ c.password_digest

/-- The `struct ccd_config` that 32 bytes hold. -/
def config_of_bytes (b : List Nat) : ccd_config :=
  ⟨b.getD 0 0, (b.drop 1).take 3, (b.drop 4).take 8, (b.drop 12).take CCD_PASSWORD_SALT_SIZE,
    (b.drop 16).take CCD_PASSWORD_DIGEST_SIZE⟩

/-- `memset(&config, 0, sizeof(config))`. -/
def config_zero : ccd_config :=
  ⟨0, List.replicate 3 0, List.replicate 8 0, List.replicate CCD_PASSWORD_SALT_SIZE 0,
    List.replicate CCD_PASSWORD_DIGEST_SIZE 0⟩

/-- `raw_get_flags`. -/
def raw_get_flags (config : ccd_config) : Nat :=
  (config.flags.getD 0 0 <<< 0) ||| (config.flags.getD 1 0 <<< 8) |||
    (config.flags.getD 2 0 <<< 16)

/-- `raw_set_flag`: `f` is a `uint32_t`. -/
def raw_set_flag (config : ccd_config) (flag : Nat) (value : Nat) : ccd_config :=
  let f := raw_get_flags config
  let f :=
    if value ≠ 0 then (f ||| flag) % 4294967296
    else f &&& (4294967295 ^^^ (flag % 4294967296))
  { config with flags := [(f >>> 0) % 256, (f >>> 8) % 256, (f >>> 16) % 256] }

/-- `raw_get_cap`. -/
def raw_get_cap (config : ccd_config) (cap : Nat) (translate_default : Nat) : Nat :=
  let c := (config.capabilities.getD (cap / 4) 0 >>> (2 * (cap % 4))) &&& 3
  if c = CCD_CAP_STATE_DEFAULT ∧ translate_default ≠ 0 then cap_info_default_state.getD cap 0
  else c

/-- `raw_set_cap`: the byte written is a `uint8_t`. -/
def raw_set_cap (config : ccd_config) (cap : Nat) (state : Nat) : ccd_config :=
  let b := config.capabilities.getD (cap / 4) 0 &&& (255 ^^^ (3 <<< (2 * (cap % 4))))
  let config := { config with capabilities := config.capabilities.set (cap / 4) b }
  let b := (config.capabilities.getD (cap / 4) 0 ||| ((state &&& 3) <<< (2 * (cap % 4)))) % 256
  { config with capabilities := config.capabilities.set (cap / 4) b }

/-- `raw_reset_password`. -/
def raw_reset_password (H : ccd_config_h) (config : ccd_config) : ccd_config :=
  let config := { config with password_salt := List.replicate CCD_PASSWORD_SALT_SIZE 0 }
  let config := { config with password_digest := List.replicate CCD_PASSWORD_DIGEST_SIZE 0 }
  raw_set_flag config H.CCD_FLAG_PASSWORD_SET_WHEN_UNLOCKED 0

/-- `ccd_get_flag`. -/
def ccd_get_flag (v : ccd_vars) (flag : Nat) : Nat :=
  let f := raw_get_flags v.config
  if v.ccd_config_loaded = 0 ∨ v.force_disabled ≠ 0 then 0
  else if f &&& flag ≠ 0 then 1 else 0

/-- `ccd_reset_config`: the variables afterwards. The value returned is that
of `ccd_save_config`, which writes the configuration to non-volatile memory and
changes none of the variables. -/
def ccd_reset_config (H : ccd_config_h) (flags : Nat) (v : ccd_vars) : ccd_vars :=
  let old_lab := ccd_get_flag v H.CCD_FLAG_TEST_LAB
  let config :=
    if flags &&& H.CCD_RESET_UNLOCKED_ONLY ≠ 0 then
      let config :=
        if ccd_get_flag v H.CCD_FLAG_PASSWORD_SET_WHEN_UNLOCKED ≠ 0 then
          raw_reset_password H v.config
        else v.config
      (List.range H.CCD_CAP_COUNT).foldl
        (fun config i =>
          if raw_get_cap config i 1 = CCD_CAP_STATE_IF_OPENED then config
          else raw_set_cap config i CCD_CAP_STATE_DEFAULT)
        config
    else
      { config_zero with version := CCD_CONFIG_VERSION }
  let config :=
    if flags &&& H.CCD_RESET_RMA ≠ 0 then
      let config := (List.range H.CCD_CAP_COUNT).foldl
        (fun config i =>
          if i = H.CCD_CAP_GSC_RESTRICTED_CONSOLE then config
          else raw_set_cap config i CCD_CAP_STATE_ALWAYS)
        config
      let config := raw_set_flag config H.CCD_FLAG_OVERRIDE_WP_AT_BOOT 1
      raw_set_flag config H.CCD_FLAG_OVERRIDE_WP_STATE_ENABLED 0
    else config
  let config :=
    if flags &&& H.CCD_RESET_TEST_LAB = 0 then raw_set_flag config H.CCD_FLAG_TEST_LAB old_lab
    else config
  { v with config := config }

/-- `ccd_load_config`, with what `getvar` returns (the bytes of the stored
tuple, if there is one) and what `board_is_first_factory_boot` returns as
arguments. -/
def ccd_load_config (H : ccd_config_h) (t : Option (List Nat)) (first_factory_boot : Bool)
    (v : ccd_vars) : ccd_vars :=
  if v.ccd_config_loaded ≠ 0 then v
  else
    match t with
    | none =>
      let v :=
        if first_factory_boot then
          ccd_reset_config H (H.CCD_RESET_TEST_LAB ||| H.CCD_RESET_RMA) v
        else ccd_reset_config H H.CCD_RESET_TEST_LAB v
      { v with ccd_config_loaded := 1 }
    | some val =>
      let n := min sizeof_config val.length
      let v := { v with config := config_of_bytes (val.take n ++ (config_bytes v.config).drop n) }
      let v :=
        if v.config.version ≠ CCD_CONFIG_VERSION ∨ val.length ≠ sizeof_config then
          ccd_reset_config H (if val.length < 2 then H.CCD_RESET_TEST_LAB else 0) v
        else v
      { v with ccd_config_loaded := 1 }

/-- `ccd_is_cap_enabled`. -/
def ccd_is_cap_enabled (v : ccd_vars) (cap : Nat) : Nat :=
  if v.ccd_config_loaded = 0 ∨ v.force_disabled ≠ 0 then 0
  else
    let c := raw_get_cap v.config cap 1
    if c = CCD_CAP_STATE_ALWAYS then 1
    else if c = CCD_CAP_STATE_UNLESS_LOCKED then
      (if v.ccd_state ≠ CCD_STATE_LOCKED then 1 else 0)
    else (if v.ccd_state = CCD_STATE_OPENED then 1 else 0)

/-- Values for the constants of `ccd_config.h`, for the examples. -/
def example_ccd_config_h : ccd_config_h := ⟨16, 8, 1, 2, 4, 8, 1, 2, 4⟩

/-- The variables before the configuration is loaded, for the examples. -/
def example_ccd_vars : ccd_vars := ⟨CCD_STATE_LOCKED, config_zero, 0, 0⟩

end Ccd

/-! # The CEC protocol engine -/

namespace Cec

/-! ## Constants of `ec_commands.h` -/

/-- Constants that `cec.c` takes from `ec_commands.h`. That header is not part
of the sources at hand, so the constants are parameters of the embedding. -/
structure ec_commands where
  MAX_CEC_MSG_LEN : Nat
  EC_MKBP_CEC_SEND_OK : Nat
  EC_MKBP_CEC_SEND_FAILED : Nat
  deriving Repr, DecidableEq

/-- Host command results used by `cec.c` (symbolic; their numbers are in
`ec_commands.h`). -/
inductive ec_status where
  | EC_RES_SUCCESS
  | EC_RES_INVALID_PARAM
  | EC_RES_UNAVAILABLE
  | EC_RES_BUSY
  deriving Repr, DecidableEq

/-! ## Unsigned 32-bit arithmetic -/

/-- Sum of two `uint32_t`. -/
def u32_add (a b : Nat) : Nat := (a + b) % 4294967296

/-- Difference of two `uint32_t`. -/
def u32_sub (a b : Nat) : Nat := (a % 4294967296 + 4294967296 - b % 4294967296) % 4294967296

/-- Product of two `uint32_t`. -/
def u32_mul (a b : Nat) : Nat := (a * b) % 4294967296

/-- Conversion of a `uint32_t` to `int`. -/
def u32_to_int (a : Nat) : Int :=
  if a % 4294967296 < 2147483648 then (a % 4294967296 : Nat) else (a % 4294967296 : Nat) - 4294967296

/-- Conversion of an `int` to `uint32_t` (the usual arithmetic conversion in a
comparison of an `int` with a `uint32_t`). -/
def int_to_u32 (t : Int) : Nat := (t % 4294967296).toNat

/-! ## Timing constants -/

/-- `APB1_TICKS(t)`: `(t) * apb1_freq_div_10k / 100`, time in us to timer ticks. -/
def APB1_TICKS (f : Nat) (t : Nat) : Nat := u32_mul t f / 100

def CEC_BROADCAST_ADDR : Nat := 15
def CEC_MAX_RESENDS : Nat := 5

def NOMINAL_BIT_TIME (f : Nat) : Nat := APB1_TICKS f 2400
def FREE_TIME_RS (f : Nat) : Nat := u32_mul 3 (NOMINAL_BIT_TIME f)
def FREE_TIME_NI (f : Nat) : Nat := u32_mul 5 (NOMINAL_BIT_TIME f)

def START_BIT_LOW (f : Nat) : Nat := APB1_TICKS f 3700
def START_BIT_MIN_LOW (f : Nat) : Nat := APB1_TICKS f 3500
def START_BIT_MAX_LOW (f : Nat) : Nat := APB1_TICKS f 3900
def START_BIT_HIGH (f : Nat) : Nat := APB1_TICKS f 800
def START_BIT_MIN_DURATION (f : Nat) : Nat := APB1_TICKS f 4300
def START_BIT_MAX_DURATION (f : Nat) : Nat := APB1_TICKS f 5700

def DATA_ZERO_LOW (f : Nat) : Nat := APB1_TICKS f 1500
def DATA_ZERO_MIN_LOW (f : Nat) : Nat := APB1_TICKS f 1300
def DATA_ZERO_MAX_LOW (f : Nat) : Nat := APB1_TICKS f 1700
def DATA_ZERO_HIGH (f : Nat) : Nat := APB1_TICKS f 900
def DATA_ZERO_MIN_DURATION (f : Nat) : Nat := APB1_TICKS f 2050
def DATA_ZERO_MAX_DURATION (f : Nat) : Nat := APB1_TICKS f 2750

def DATA_ONE_LOW (f : Nat) : Nat := APB1_TICKS f 600
def DATA_ONE_MIN_LOW (f : Nat) : Nat := APB1_TICKS f 400
def DATA_ONE_MAX_LOW (f : Nat) : Nat := APB1_TICKS f 800
def DATA_ONE_HIGH (f : Nat) : Nat := APB1_TICKS f 1800
def DATA_ONE_MIN_DURATION (f : Nat) : Nat := APB1_TICKS f 2050
def DATA_ONE_MAX_DURATION (f : Nat) : Nat := APB1_TICKS f 2750

/-- Time from low that it should be safe to sample an ACK. -/
def NOMINAL_SAMPLE_TIME (f : Nat) : Nat := APB1_TICKS f 1050

/-- `DATA_HIGH(data)`. -/
def DATA_HIGH (f : Nat) (data : Nat) : Nat :=
  if data ≠ 0 then DATA_ONE_HIGH f else DATA_ZERO_HIGH f

/-- `DATA_LOW(data)`. -/
def DATA_LOW (f : Nat) (data : Nat) : Nat :=
  if data ≠ 0 then DATA_ONE_LOW f else DATA_ZERO_LOW f

def VALID_TOLERANCE (f : Nat) : Nat := APB1_TICKS f 100

def CAP_START_LOW (f : Nat) : Nat := u32_add (START_BIT_MAX_LOW f) (VALID_TOLERANCE f)
def CAP_START_HIGH (f : Nat) : Nat :=
  u32_add (u32_sub (START_BIT_MAX_DURATION f) (START_BIT_MIN_LOW f)) (VALID_TOLERANCE f)
def CAP_DATA_LOW (f : Nat) : Nat := u32_add (DATA_ZERO_MAX_LOW f) (VALID_TOLERANCE f)
def CAP_DATA_HIGH (f : Nat) : Nat :=
  u32_add (u32_sub (DATA_ONE_MAX_DURATION f) (DATA_ONE_MIN_LOW f)) (VALID_TOLERANCE f)

/-- The three pulse classes the validity macros are instantiated with (the
`bit` argument that the macros paste into a constant name). -/
inductive pulse_class where
  | START_BIT
  | DATA_ZERO
  | DATA_ONE
  deriving Repr, DecidableEq

/-- `bit ## _MIN_LOW`. -/
def MIN_LOW (f : Nat) : pulse_class → Nat
  | .START_BIT => START_BIT_MIN_LOW f
  | .DATA_ZERO => DATA_ZERO_MIN_LOW f
  | .DATA_ONE => DATA_ONE_MIN_LOW f

/-- `bit ## _MAX_LOW`. -/
def MAX_LOW (f : Nat) : pulse_class → Nat
  | .START_BIT => START_BIT_MAX_LOW f
  | .DATA_ZERO => DATA_ZERO_MAX_LOW f
  | .DATA_ONE => DATA_ONE_MAX_LOW f

/-- `bit ## _MIN_DURATION`. -/
def MIN_DURATION (f : Nat) : pulse_class → Nat
  | .START_BIT => START_BIT_MIN_DURATION f
  | .DATA_ZERO => DATA_ZERO_MIN_DURATION f
  | .DATA_ONE => DATA_ONE_MIN_DURATION f

/-- `bit ## _MAX_DURATION`. -/
def MAX_DURATION (f : Nat) : pulse_class → Nat
  | .START_BIT => START_BIT_MAX_DURATION f
  | .DATA_ZERO => DATA_ZERO_MAX_DURATION f
  | .DATA_ONE => DATA_ONE_MAX_DURATION f

/-- `VALID_LOW(bit, t)`, that is `VALID_TIME(LOW, bit, t)`: the `int` `t` is
compared as a `uint32_t`. -/
def VALID_LOW (f : Nat) (bit : pulse_class) (t : Int) : Bool :=
  decide (int_to_u32 t ≥ u32_sub (MIN_LOW f bit) (VALID_TOLERANCE f)) &&
  decide (int_to_u32 t ≤ u32_add (MAX_LOW f bit) (VALID_TOLERANCE f))

/-- `VALID_HIGH(bit, low_time, high_time)`. -/
def VALID_HIGH (f : Nat) (bit : pulse_class) (low_time high_time : Int) : Bool :=
  decide (int_to_u32 (low_time + high_time) ≤ u32_add (MAX_DURATION f bit) (VALID_TOLERANCE f)) &&
  decide (int_to_u32 (low_time + high_time) ≥ u32_sub (MIN_DURATION f bit) (VALID_TOLERANCE f))

/-- `VALID_DATA_HIGH(data, low_time, high_time)`. -/
def VALID_DATA_HIGH (f : Nat) (data : Nat) (low_time high_time : Int) : Bool :=
  if data ≠ 0 then VALID_HIGH f .DATA_ONE low_time high_time
  else VALID_HIGH f .DATA_ZERO low_time high_time

/-! ## Data model -/

/-- `enum cec_state`, in the order of the declaration. -/
inductive cec_state where
  | DISABLED
  | IDLE
  | INITIATOR_FREE_TIME
  | INITIATOR_START_LOW
  | INITIATOR_START_HIGH
  | INITIATOR_HEADER_INIT_LOW
  | INITIATOR_HEADER_INIT_HIGH
  | INITIATOR_HEADER_DEST_LOW
  | INITIATOR_HEADER_DEST_HIGH
  | INITIATOR_DATA_LOW
  | INITIATOR_DATA_HIGH
  | INITIATOR_EOM_LOW
  | INITIATOR_EOM_HIGH
  | INITIATOR_ACK_LOW
  | INITIATOR_ACK_HIGH
  | INITIATOR_ACK_VERIFY
  | FOLLOWER_START_LOW
  | FOLLOWER_START_HIGH
  | FOLLOWER_HEADER_INIT_LOW
  | FOLLOWER_HEADER_INIT_HIGH
  | FOLLOWER_HEADER_DEST_LOW
  | FOLLOWER_HEADER_DEST_HIGH
  | FOLLOWER_EOM_LOW
  | FOLLOWER_EOM_HIGH
  | FOLLOWER_ACK_LOW
  | FOLLOWER_ACK_VERIFY
  | FOLLOWER_ACK_FINISH
  | FOLLOWER_DATA_LOW
  | FOLLOWER_DATA_HIGH
  deriving Repr, DecidableEq

open cec_state

/-- Value of the enumerator. -/
def cec_state.value : cec_state → Nat
  | DISABLED => 0
  | IDLE => 1
  | INITIATOR_FREE_TIME => 2
  | INITIATOR_START_LOW => 3
  | INITIATOR_START_HIGH => 4
  | INITIATOR_HEADER_INIT_LOW => 5
  | INITIATOR_HEADER_INIT_HIGH => 6
  | INITIATOR_HEADER_DEST_LOW => 7
  | INITIATOR_HEADER_DEST_HIGH => 8
  | INITIATOR_DATA_LOW => 9
  | INITIATOR_DATA_HIGH => 10
  | INITIATOR_EOM_LOW => 11
  | INITIATOR_EOM_HIGH => 12
  | INITIATOR_ACK_LOW => 13
  | INITIATOR_ACK_HIGH => 14
  | INITIATOR_ACK_VERIFY => 15
  | FOLLOWER_START_LOW => 16
  | FOLLOWER_START_HIGH => 17
  | FOLLOWER_HEADER_INIT_LOW => 18
  | FOLLOWER_HEADER_INIT_HIGH => 19
  | FOLLOWER_HEADER_DEST_LOW => 20
  | FOLLOWER_HEADER_DEST_HIGH => 21
  | FOLLOWER_EOM_LOW => 22
  | FOLLOWER_EOM_HIGH => 23
  | FOLLOWER_ACK_LOW => 24
  | FOLLOWER_ACK_VERIFY => 25
  | FOLLOWER_ACK_FINISH => 26
  | FOLLOWER_DATA_LOW => 27
  | FOLLOWER_DATA_HIGH => 28

/-- The enumerator with a given value (the last one for a value out of range). -/
def cec_state.of_value : Nat → cec_state
  | 0 => DISABLED
  | 1 => IDLE
  | 2 => INITIATOR_FREE_TIME
  | 3 => INITIATOR_START_LOW
  | 4 => INITIATOR_START_HIGH
  | 5 => INITIATOR_HEADER_INIT_LOW
  | 6 => INITIATOR_HEADER_INIT_HIGH
  | 7 => INITIATOR_HEADER_DEST_LOW
  | 8 => INITIATOR_HEADER_DEST_HIGH
  | 9 => INITIATOR_DATA_LOW
  | 10 => INITIATOR_DATA_HIGH
  | 11 => INITIATOR_EOM_LOW
  | 12 => INITIATOR_EOM_HIGH
  | 13 => INITIATOR_ACK_LOW
  | 14 => INITIATOR_ACK_HIGH
  | 15 => INITIATOR_ACK_VERIFY
  | 16 => FOLLOWER_START_LOW
  | 17 => FOLLOWER_START_HIGH
  | 18 => FOLLOWER_HEADER_INIT_LOW
  | 19 => FOLLOWER_HEADER_INIT_HIGH
  | 20 => FOLLOWER_HEADER_DEST_LOW
  | 21 => FOLLOWER_HEADER_DEST_HIGH
  | 22 => FOLLOWER_EOM_LOW
  | 23 => FOLLOWER_EOM_HIGH
  | 24 => FOLLOWER_ACK_LOW
  | 25 => FOLLOWER_ACK_VERIFY
  | 26 => FOLLOWER_ACK_FINISH
  | 27 => FOLLOWER_DATA_LOW
  | _ => FOLLOWER_DATA_HIGH

/-- `enum cap_edge`: `CAP_EDGE_FALLING`. -/
def CAP_EDGE_FALLING : Int := 0

/-- `enum cap_edge`: `CAP_EDGE_RISING`. -/
def CAP_EDGE_RISING : Int := 1

/-- `struct cec_msg_transfer`: the message, the bit offset and the byte offset. -/
structure cec_msg_transfer where
  buf : List Nat
  bit : Nat
  byte : Nat
  deriving Repr, DecidableEq

/-- `struct cec_rx`: receive buffer and states. -/
structure cec_rx where
  msgt : cec_msg_transfer
  eom : Nat
  broadcast_nak : Nat
  low_time : Int
  deriving Repr, DecidableEq

/-- `struct cec_tx`: transfer buffer and states. -/
structure cec_tx where
  msgt : cec_msg_transfer
  len : Nat
  resends : Nat
  ack : Nat
  deriving Repr, DecidableEq

/-- The registers of multi-function timer module 1 that `cec.c` writes or
reads, and the interrupt enable of the module. -/
structure mft where
  /-- `NPCX_TMCTRL_TAEDG`: capture on the rising edge. -/
  taedg : Bool
  /-- `NPCX_TIEN_TCIEN`: capture timeout interrupt enabled. -/
  tcien : Bool
  /-- `NPCX_TIEN_TAIEN`. -/
  taien : Bool
  /-- `NPCX_TIEN_TDIEN`. -/
  tdien : Bool
  /-- `NPCX_TCNT1`. -/
  tcnt1 : Int
  /-- `NPCX_TCNT2`. -/
  tcnt2 : Int
  /-- `NPCX_TCRA`: the capture register. -/
  tcra : Int
  /-- `NPCX_TCKC_C1CSEL_FIELD`. -/
  c1csel : Nat
  /-- `NPCX_TCKC_C2CSEL_FIELD`. -/
  c2csel : Nat
  /-- Whether `NPCX_IRQ_MFT_1` is enabled. -/
  irq : Bool
  deriving Repr, DecidableEq

/-- The state of the engine: the file-scope variables of `cec.c` and the
hardware they drive. -/
structure engine where
  cec_state : cec_state
  cec_rx : cec_rx
  cec_tx : cec_tx
  cap_charge : Int
  cec_events : Nat
  apb1_freq_div_10k : Nat
  /-- Level last written to `CEC_GPIO_OUT` with `gpio_set_level`. -/
  gpio_out : Int
  /-- Level that `gpio_get_level(CEC_GPIO_OUT)` reads. -/
  gpio_in : Nat
  mft : mft
  /-- Arguments of the calls of `send_mkbp_event`, oldest first. -/
  mkbp_log : List Nat
  deriving Repr, DecidableEq

/-- `static uint8_t cec_addr = 5`: the CEC address of ourself; nothing in the
file writes it. -/
def cec_addr : Nat := 5

/-! ## Helpers -/

/-- Modelled from the spec: `atomic_or`, which is not part of the sources at
hand. The pending-event bitmap is set with an atomic fetch-or: the variable
afterwards is the bitwise or of its value and the bits. -/
def atomic_or (v bits : Nat) : Nat := v ||| bits

/-- Modelled from the spec: `atomic_read_clear`, which is not part of the
sources at hand. The consumer reads the pending-event bitmap with an atomic
fetch-and-clear: the value returned is the value of the variable, and the
variable afterwards is 0. -/
def atomic_read_clear (v : Nat) : Nat × Nat := (v, 0)

/-- `send_mkbp_event`: the event is or-ed into `cec_events` and the host is
notified. -/
def send_mkbp_event (event : Nat) (s : engine) : engine :=
  { s with cec_events := atomic_or s.cec_events event, mkbp_log := s.mkbp_log ++ [event] }

/-- `tmr_cap_start`. -/
def tmr_cap_start (edge : Int) (timeout : Int) (s : engine) : engine :=
  let s := { s with mft := { s.mft with taedg := decide (edge = CAP_EDGE_RISING) } }
  let s :=
    if timeout > 0 then
      { s with cap_charge := timeout, mft := { s.mft with tcnt1 := timeout, tcien := true } }
    else
      { s with mft := { s.mft with tcien := false, tcnt1 := 0 } }
  { s with mft := { s.mft with tcra := 0, c1csel := 1 } }

/-- `tmr_cap_stop`. -/
def tmr_cap_stop (s : engine) : engine :=
  { s with mft := { s.mft with tcien := false, c1csel := 0 } }

/-- `tmr_cap_get`. -/
def tmr_cap_get (s : engine) : Int := s.cap_charge - s.mft.tcra

/-- `tmr_oneshot_start`. -/
def tmr_oneshot_start (timeout : Int) (s : engine) : engine :=
  { s with mft := { s.mft with tcnt1 := timeout, c1csel := 1 } }

/-- `tmr2_start`. -/
def tmr2_start (timeout : Int) (s : engine) : engine :=
  { s with mft := { s.mft with tcnt2 := timeout, c2csel := 1 } }

/-- `tmr2_stop`. -/
def tmr2_stop (s : engine) : engine :=
  { s with mft := { s.mft with c2csel := 0 } }

/-- `gpio_set_level(CEC_GPIO_OUT, level)`. -/
def gpio_set_level (level : Int) (s : engine) : engine :=
  { s with gpio_out := level }

/-- `gpio_get_level(CEC_GPIO_OUT)`. -/
def gpio_get_level (s : engine) : Nat := s.gpio_in

/-! ## Message transfer cursor -/

/-- `msgt_get_bit`. -/
def msgt_get_bit (K : ec_commands) (msgt : cec_msg_transfer) : Nat :=
  if msgt.byte ≥ K.MAX_CEC_MSG_LEN then 0
  else msgt.buf.getD msgt.byte 0 &&& (0x80 >>> msgt.bit)

/-- `msgt_set_bit`. -/
def msgt_set_bit (K : ec_commands) (msgt : cec_msg_transfer) (val : Nat) : cec_msg_transfer :=
  if msgt.byte ≥ K.MAX_CEC_MSG_LEN then msgt
  else
    let bit_flag := (0x80 >>> msgt.bit) % 256
    let b := msgt.buf.getD msgt.byte 0 &&& (255 ^^^ bit_flag)
    let b := if val ≠ 0 then b ||| bit_flag else b
    { msgt with buf := msgt.buf.set msgt.byte b }

/-- `msgt_inc_bit`. -/
def msgt_inc_bit (K : ec_commands) (msgt : cec_msg_transfer) : cec_msg_transfer :=
  let msgt := { msgt with bit := (msgt.bit + 1) % 256 }
  if msgt.bit = 8 then
    if msgt.byte ≥ K.MAX_CEC_MSG_LEN then msgt
    else { msgt with bit := 0, byte := (msgt.byte + 1) % 256 }
  else msgt

/-- `msgt_is_eom`. -/
def msgt_is_eom (msgt : cec_msg_transfer) (len : Nat) : Nat :=
  if msgt.bit ≠ 0 then 0
  else if msgt.byte = len then 1 else 0

/-! ## State machine -/

/-- The locals `gpio`, `timeout` and `cap_edge` of `enter_state`. The two
`int`s start at -1, which stands for "leave unchanged" or "none"; `cap_edge`
starts at `cap_edge_init`. -/
structure entry_locals where
  gpio : Int
  timeout : Int
  cap_edge : Int
  deriving Repr, DecidableEq

/-- The value of the local `cap_edge` of `enter_state` after its initializer,
`enum cap_edge cap_edge = -1`. The enumeration has no negative enumerator, so
its type is an unsigned one, and -1 converts to the largest value of that type
(written here for 32 bits). That value is not negative and is neither
enumerator: the test `cap_edge >= 0` of `enter_state` holds for it, and
`tmr_cap_start` compares it with `CAP_EDGE_RISING` only. -/
@[simp]
def cap_edge_init : Int := 4294967295

/-- The end of `enter_state`: drive the line and program the timer as the
locals say. Every case of `enter_state` leaves in `cap_edge` an enumerator or
`cap_edge_init`, none of them negative, so whenever a timeout is set it is
`tmr_cap_start` that runs. -/
def enter_state_program (l : entry_locals) (s : engine) : engine :=
  let s := if l.gpio ≥ 0 then gpio_set_level l.gpio s else s
  if l.timeout ≥ 0 then
    if l.cap_edge ≥ 0 then tmr_cap_start l.cap_edge l.timeout s
    else tmr_oneshot_start l.timeout s
  else s

/-- The body of `enter_state`, with the nested call `enter_state(
CEC_STATE_INITIATOR_FREE_TIME)` of the `CEC_STATE_IDLE` case passed in as
`nested`. -/
def enter_state_body (K : ec_commands) (nested : engine → engine) (new_state : cec_state)
    (s : engine) : engine :=
  let f := s.apb1_freq_div_10k
  let s := { s with cec_state := new_state }
  match new_state with
  | DISABLED =>
    let s := { s with
      cec_rx := ⟨⟨List.replicate K.MAX_CEC_MSG_LEN 0, 0, 0⟩, 0, 0, 0⟩,
      cec_tx := ⟨⟨List.replicate K.MAX_CEC_MSG_LEN 0, 0, 0⟩, 0, 0, 0⟩,
      cap_charge := 0,
      cec_events := 0 }
    enter_state_program ⟨1, -1, cap_edge_init⟩ s
  | IDLE =>
    let s := { s with
      cec_tx := { s.cec_tx with msgt := { s.cec_tx.msgt with bit := 0, byte := 0 } },
      cec_rx := { s.cec_rx with msgt := { s.cec_rx.msgt with bit := 0, byte := 0 } } }
    if s.cec_tx.len > 0 then
      enter_state_program ⟨-1, -1, cap_edge_init⟩ (nested s)
    else
      enter_state_program ⟨1, 0, CAP_EDGE_FALLING⟩ s
  | INITIATOR_FREE_TIME =>
    if s.cec_tx.resends ≠ 0 then
      enter_state_program ⟨1, u32_to_int (FREE_TIME_RS f), CAP_EDGE_FALLING⟩ s
    else
      enter_state_program ⟨1, u32_to_int (FREE_TIME_NI f), CAP_EDGE_FALLING⟩ s
  | INITIATOR_START_LOW =>
    let s := { s with
      cec_tx := { s.cec_tx with msgt := { s.cec_tx.msgt with bit := 0, byte := 0 } } }
    enter_state_program ⟨0, u32_to_int (START_BIT_LOW f), cap_edge_init⟩ s
  | INITIATOR_START_HIGH =>
    enter_state_program ⟨1, u32_to_int (START_BIT_HIGH f), CAP_EDGE_FALLING⟩ s
  | INITIATOR_HEADER_INIT_LOW
  | INITIATOR_HEADER_DEST_LOW
  | INITIATOR_DATA_LOW =>
    enter_state_program
      ⟨0, u32_to_int (DATA_LOW f (msgt_get_bit K s.cec_tx.msgt)), cap_edge_init⟩ s
  | INITIATOR_HEADER_INIT_HIGH =>
    enter_state_program
      ⟨1, u32_to_int (DATA_HIGH f (msgt_get_bit K s.cec_tx.msgt)), CAP_EDGE_FALLING⟩ s
  | INITIATOR_HEADER_DEST_HIGH
  | INITIATOR_DATA_HIGH =>
    enter_state_program
      ⟨1, u32_to_int (DATA_HIGH f (msgt_get_bit K s.cec_tx.msgt)), cap_edge_init⟩ s
  | INITIATOR_EOM_LOW =>
    enter_state_program
      ⟨0, u32_to_int (DATA_LOW f (msgt_is_eom s.cec_tx.msgt s.cec_tx.len)), cap_edge_init⟩
      s
  | INITIATOR_EOM_HIGH =>
    enter_state_program
      ⟨1, u32_to_int (DATA_HIGH f (msgt_is_eom s.cec_tx.msgt s.cec_tx.len)), cap_edge_init⟩
      s
  | INITIATOR_ACK_LOW =>
    enter_state_program ⟨0, u32_to_int (DATA_LOW f 1), cap_edge_init⟩ s
  | INITIATOR_ACK_HIGH =>
    enter_state_program
      ⟨1, u32_to_int (u32_sub (u32_add (DATA_ONE_LOW f) (DATA_ZERO_LOW f) / 2) (DATA_ONE_LOW f)),
        cap_edge_init⟩ s
  | INITIATOR_ACK_VERIFY =>
    let s := { s with cec_tx := { s.cec_tx with ack := if gpio_get_level s ≠ 0 then 0 else 1 } }
    let s :=
      if s.cec_tx.msgt.buf.getD 0 0 &&& 0x0f = CEC_BROADCAST_ADDR then
        { s with cec_tx := { s.cec_tx with ack := if s.cec_tx.ack ≠ 0 then 0 else 1 } }
      else s
    enter_state_program
      ⟨-1, u32_to_int (u32_sub (NOMINAL_BIT_TIME f) (NOMINAL_SAMPLE_TIME f)), cap_edge_init⟩
      s
  | FOLLOWER_START_LOW =>
    enter_state_program ⟨-1, u32_to_int (CAP_START_LOW f), CAP_EDGE_RISING⟩ s
  | FOLLOWER_START_HIGH =>
    enter_state_program ⟨-1, u32_to_int (CAP_START_HIGH f), CAP_EDGE_FALLING⟩ s
  | FOLLOWER_HEADER_INIT_LOW
  | FOLLOWER_HEADER_DEST_LOW
  | FOLLOWER_EOM_LOW =>
    enter_state_program ⟨-1, u32_to_int (CAP_DATA_LOW f), CAP_EDGE_RISING⟩ s
  | FOLLOWER_HEADER_INIT_HIGH
  | FOLLOWER_HEADER_DEST_HIGH
  | FOLLOWER_EOM_HIGH =>
    enter_state_program ⟨-1, u32_to_int (CAP_DATA_HIGH f), CAP_EDGE_FALLING⟩ s
  | FOLLOWER_ACK_LOW =>
    let addr := s.cec_rx.msgt.buf.getD 0 0 &&& 0x0f
    if addr = cec_addr then
      enter_state_program ⟨0, u32_to_int (NOMINAL_SAMPLE_TIME f), cap_edge_init⟩ s
    else if addr = CEC_BROADCAST_ADDR then
      enter_state_program ⟨-1, u32_to_int (NOMINAL_SAMPLE_TIME f), cap_edge_init⟩ s
    else
      enter_state_program ⟨-1, -1, cap_edge_init⟩ s
  | FOLLOWER_ACK_VERIFY =>
    let s :=
      if s.cec_rx.msgt.buf.getD 0 0 &&& 0x0f = CEC_BROADCAST_ADDR then
        { s with cec_rx := { s.cec_rx with
            broadcast_nak := if gpio_get_level s ≠ 0 then 0 else 1 } }
      else
        { s with cec_rx := { s.cec_rx with broadcast_nak := 0 } }
    enter_state_program
      ⟨-1, u32_to_int (u32_sub (DATA_ZERO_LOW f) (NOMINAL_SAMPLE_TIME f)), cap_edge_init⟩
      s
  | FOLLOWER_ACK_FINISH =>
    if s.cec_rx.eom ≠ 0 ∨ s.cec_rx.msgt.byte ≥ K.MAX_CEC_MSG_LEN then
      enter_state_program ⟨1, u32_to_int (DATA_ZERO_HIGH f), cap_edge_init⟩ s
    else
      enter_state_program ⟨1, u32_to_int (CAP_DATA_HIGH f), CAP_EDGE_FALLING⟩ s
  | FOLLOWER_DATA_LOW =>
    enter_state_program ⟨-1, u32_to_int (CAP_DATA_LOW f), CAP_EDGE_RISING⟩ s
  | FOLLOWER_DATA_HIGH =>
    enter_state_program ⟨-1, u32_to_int (CAP_DATA_HIGH f), CAP_EDGE_FALLING⟩ s

/-- `enter_state`. The only recursive call is the one of the `CEC_STATE_IDLE`
case, on `CEC_STATE_INITIATOR_FREE_TIME`, whose own case makes no call. -/
def enter_state (K : ec_commands) (new_state : cec_state) (s : engine) : engine :=
  enter_state_body K (enter_state_body K id INITIATOR_FREE_TIME) new_state s

/-- `cec_event_timeout`. -/
def cec_event_timeout (K : ec_commands) (s : engine) : engine :=
  match s.cec_state with
  | DISABLED
  | IDLE => s
  | INITIATOR_FREE_TIME => enter_state K INITIATOR_START_LOW s
  | INITIATOR_START_LOW => enter_state K INITIATOR_START_HIGH s
  | INITIATOR_START_HIGH => enter_state K INITIATOR_HEADER_INIT_LOW s
  | INITIATOR_HEADER_INIT_LOW => enter_state K INITIATOR_HEADER_INIT_HIGH s
  | INITIATOR_HEADER_INIT_HIGH =>
    let s := { s with cec_tx := { s.cec_tx with msgt := msgt_inc_bit K s.cec_tx.msgt } }
    if s.cec_tx.msgt.bit = 4 then enter_state K INITIATOR_HEADER_DEST_LOW s
    else enter_state K INITIATOR_HEADER_INIT_LOW s
  | INITIATOR_HEADER_DEST_LOW => enter_state K INITIATOR_HEADER_DEST_HIGH s
  | INITIATOR_HEADER_DEST_HIGH =>
    let s := { s with cec_tx := { s.cec_tx with msgt := msgt_inc_bit K s.cec_tx.msgt } }
    if s.cec_tx.msgt.byte = 1 then enter_state K INITIATOR_EOM_LOW s
    else enter_state K INITIATOR_HEADER_DEST_LOW s
  | INITIATOR_EOM_LOW => enter_state K INITIATOR_EOM_HIGH s
  | INITIATOR_EOM_HIGH => enter_state K INITIATOR_ACK_LOW s
  | INITIATOR_ACK_LOW => enter_state K INITIATOR_ACK_HIGH s
  | INITIATOR_ACK_HIGH => enter_state K INITIATOR_ACK_VERIFY s
  | INITIATOR_ACK_VERIFY =>
    if s.cec_tx.ack ≠ 0 then
      if msgt_is_eom s.cec_tx.msgt s.cec_tx.len = 0 then
        enter_state K INITIATOR_DATA_LOW s
      else
        let s := { s with cec_tx := { s.cec_tx with len := 0, resends := 0 } }
        send_mkbp_event K.EC_MKBP_CEC_SEND_OK (enter_state K IDLE s)
    else
      if s.cec_tx.resends < CEC_MAX_RESENDS then
        let s := { s with cec_tx := { s.cec_tx with resends := (s.cec_tx.resends + 1) % 256 } }
        enter_state K INITIATOR_FREE_TIME s
      else
        let s := { s with cec_tx := { s.cec_tx with len := 0, resends := 0 } }
        send_mkbp_event K.EC_MKBP_CEC_SEND_FAILED (enter_state K IDLE s)
  | INITIATOR_DATA_LOW => enter_state K INITIATOR_DATA_HIGH s
  | INITIATOR_DATA_HIGH =>
    let s := { s with cec_tx := { s.cec_tx with msgt := msgt_inc_bit K s.cec_tx.msgt } }
    if s.cec_tx.msgt.bit = 0 then enter_state K INITIATOR_EOM_LOW s
    else enter_state K INITIATOR_DATA_LOW s
  | FOLLOWER_ACK_LOW => enter_state K FOLLOWER_ACK_VERIFY s
  | FOLLOWER_ACK_VERIFY =>
    if s.cec_rx.broadcast_nak ≠ 0 then enter_state K IDLE s
    else enter_state K FOLLOWER_ACK_FINISH s
  | FOLLOWER_START_LOW
  | FOLLOWER_START_HIGH
  | FOLLOWER_HEADER_INIT_LOW
  | FOLLOWER_HEADER_INIT_HIGH
  | FOLLOWER_HEADER_DEST_LOW
  | FOLLOWER_HEADER_DEST_HIGH
  | FOLLOWER_EOM_LOW
  | FOLLOWER_EOM_HIGH
  | FOLLOWER_ACK_FINISH
  | FOLLOWER_DATA_LOW
  | FOLLOWER_DATA_HIGH => enter_state K IDLE s

/-- `cec_event_cap`. -/
def cec_event_cap (K : ec_commands) (s : engine) : engine :=
  let f := s.apb1_freq_div_10k
  match s.cec_state with
  | IDLE => enter_state K FOLLOWER_START_LOW s
  | INITIATOR_FREE_TIME
  | INITIATOR_START_HIGH
  | INITIATOR_HEADER_INIT_HIGH =>
    let s := { s with
      cec_tx := { s.cec_tx with msgt := { s.cec_tx.msgt with bit := 0, byte := 0 } } }
    enter_state K FOLLOWER_START_LOW s
  | FOLLOWER_START_LOW =>
    let t := tmr_cap_get s
    if VALID_LOW f .START_BIT t then
      let s := { s with cec_rx := { s.cec_rx with low_time := t } }
      enter_state K FOLLOWER_START_HIGH s
    else enter_state K IDLE s
  | FOLLOWER_START_HIGH =>
    if VALID_HIGH f .START_BIT s.cec_rx.low_time (tmr_cap_get s) then
      enter_state K FOLLOWER_HEADER_INIT_LOW s
    else enter_state K IDLE s
  | FOLLOWER_HEADER_INIT_LOW
  | FOLLOWER_HEADER_DEST_LOW
  | FOLLOWER_DATA_LOW =>
    let t := tmr_cap_get s
    if VALID_LOW f .DATA_ZERO t then
      let s := { s with cec_rx := { s.cec_rx with
        low_time := t, msgt := msgt_set_bit K s.cec_rx.msgt 0 } }
      enter_state K (cec_state.of_value (s.cec_state.value + 1)) s
    else if VALID_LOW f .DATA_ONE t then
      let s := { s with cec_rx := { s.cec_rx with
        low_time := t, msgt := msgt_set_bit K s.cec_rx.msgt 1 } }
      enter_state K (cec_state.of_value (s.cec_state.value + 1)) s
    else enter_state K IDLE s
  | FOLLOWER_HEADER_INIT_HIGH =>
    let t := tmr_cap_get s
    let data := msgt_get_bit K s.cec_rx.msgt
    if VALID_DATA_HIGH f data s.cec_rx.low_time t then
      let s := { s with cec_rx := { s.cec_rx with msgt := msgt_inc_bit K s.cec_rx.msgt } }
      if s.cec_rx.msgt.bit = 4 then enter_state K FOLLOWER_HEADER_DEST_LOW s
      else enter_state K FOLLOWER_HEADER_INIT_LOW s
    else enter_state K IDLE s
  | FOLLOWER_HEADER_DEST_HIGH =>
    let t := tmr_cap_get s
    let data := msgt_get_bit K s.cec_rx.msgt
    if VALID_DATA_HIGH f data s.cec_rx.low_time t then
      let s := { s with cec_rx := { s.cec_rx with msgt := msgt_inc_bit K s.cec_rx.msgt } }
      if s.cec_rx.msgt.bit = 0 then enter_state K FOLLOWER_EOM_LOW s
      else enter_state K FOLLOWER_HEADER_DEST_LOW s
    else enter_state K IDLE s
  | FOLLOWER_EOM_LOW =>
    let t := tmr_cap_get s
    if VALID_LOW f .DATA_ZERO t then
      let s := { s with cec_rx := { s.cec_rx with low_time := t, eom := 0 } }
      enter_state K FOLLOWER_EOM_HIGH s
    else if VALID_LOW f .DATA_ONE t then
      let s := { s with cec_rx := { s.cec_rx with low_time := t, eom := 1 } }
      enter_state K FOLLOWER_EOM_HIGH s
    else enter_state K IDLE s
  | FOLLOWER_EOM_HIGH =>
    let t := tmr_cap_get s
    let data := s.cec_rx.eom
    if VALID_DATA_HIGH f data s.cec_rx.low_time t then enter_state K FOLLOWER_ACK_LOW s
    else enter_state K IDLE s
  | FOLLOWER_ACK_LOW => enter_state K FOLLOWER_ACK_FINISH s
  | FOLLOWER_ACK_FINISH => enter_state K FOLLOWER_DATA_LOW s
  | FOLLOWER_DATA_HIGH =>
    let t := tmr_cap_get s
    let data := msgt_get_bit K s.cec_rx.msgt
    if VALID_DATA_HIGH f data s.cec_rx.low_time t then
      let s := { s with cec_rx := { s.cec_rx with msgt := msgt_inc_bit K s.cec_rx.msgt } }
      if s.cec_rx.msgt.bit = 0 then enter_state K FOLLOWER_EOM_LOW s
      else enter_state K FOLLOWER_DATA_LOW s
    else enter_state K IDLE s
  | _ => s

/-- `cec_event_tx`. -/
def cec_event_tx (K : ec_commands) (s : engine) : engine :=
  if s.cec_state = IDLE then enter_state K INITIATOR_FREE_TIME s else s

/-- `memcpy(dst, src, n)` for a source holding at least `n` bytes. -/
def memcpy (dst src : List Nat) (n : Nat) : List Nat := src.take n ++ dst.drop n

/-- `cec_send`: the return value and the engine afterwards. -/
def cec_send (msg : List Nat) (len : Nat) (s : engine) : Int × engine :=
  if s.cec_tx.len ≠ 0 then (-1, s)
  else
    let s := { s with cec_tx := { s.cec_tx with len := len } }
    let s := { s with cec_tx := { s.cec_tx with
      msgt := { s.cec_tx.msgt with buf := memcpy s.cec_tx.msgt.buf msg len } } }
    (0, tmr2_start 0 s)

/-- `hc_cec_write`, with `params->msg` and `args->params_size` as arguments. -/
def hc_cec_write (K : ec_commands) (msg : List Nat) (params_size : Nat) (s : engine) :
    ec_status × engine :=
  if s.cec_state = DISABLED then (.EC_RES_UNAVAILABLE, s)
  else if params_size = 0 ∨ params_size > K.MAX_CEC_MSG_LEN then (.EC_RES_INVALID_PARAM, s)
  else
    let r := cec_send msg (params_size % 256) s
    if r.1 ≠ 0 then (.EC_RES_BUSY, r.2) else (.EC_RES_SUCCESS, r.2)

/-! ## Interrupt delivery

The hardware side of an interrupt: what the peripheral latches before the
handler runs. -/

/-- An interrupt of the multi-function timer, as the handlers see it. -/
inductive cec_irq where
  /-- Capture edge; `t` is the duration that `tmr_cap_get` then measures. -/
  | capture (t : Int)
  /-- Capture or oneshot timeout; `level` is the line level that a
  `gpio_get_level` in the handler samples. -/
  | timeout (level : Nat)
  /-- Expiry of the secondary oneshot timer that `cec_send` arms. -/
  | transmit
  deriving Repr, DecidableEq

/-- Run the handler of one interrupt. For a capture the capture register holds
the count latched at the edge, `cap_charge - t`. -/
def deliver (K : ec_commands) (e : cec_irq) (s : engine) : engine :=
  match e with
  | .capture t => cec_event_cap K { s with mft := { s.mft with tcra := s.cap_charge - t } }
  | .timeout level => cec_event_timeout K { s with gpio_in := level }
  | .transmit => cec_event_tx K (tmr2_stop s)

/-- The engine after a sequence of interrupts. -/
def run (K : ec_commands) : List cec_irq → engine → engine
  | [], s => s
  | e :: es, s => run K es (deliver K e s)

/-- The engines after each interrupt of a sequence, in order. -/
def trace (K : ec_commands) : List cec_irq → engine → List engine
  | [], _ => []
  | e :: es, s => deliver K e s :: trace K es (deliver K e s)

/-- Number of interrupts of a sequence after which the engine is in `st`. No
handler leaves an initiator state on a timeout, or a follower state on a
capture or a timeout, without entering a state, and none of them enters the
state it is in, so for these this is the number of times `st` is entered. -/
def entries (st : cec_state) (tr : List engine) : Nat :=
  tr.countP (fun e => decide (e.cec_state = st))

/-- `n` timeout interrupts in a row, the `i`-th with the line reading `lv i`. -/
def timeouts (lv : Nat → Nat) (n : Nat) : List cec_irq :=
  (List.range n).map (fun i => cec_irq.timeout (lv i))

/-- Bit `k` of a byte, 0 or 1. -/
def bit_of (h k : Nat) : Nat := h / 2 ^ k % 2

/-- What an observer of the line sees of an engine: the protocol state, the
level driven and the timeout programmed. -/
def line_view (e : engine) : cec_state × Int × Int := (e.cec_state, e.gpio_out, e.mft.tcnt1)

/-- The low half of a bit period of value `d` as `line_view` shows it in state
`st`: the line driven low, with timeout `DATA_LOW(d)`. -/
def low_half (st : cec_state) (f d : Nat) : cec_state × Int × Int :=
  (st, 0, Int.ofNat (DATA_LOW f d))

/-- The high half of a bit period of value `d` as `line_view` shows it in state
`st`: the line released, with timeout `DATA_HIGH(d)`. -/
def high_half (st : cec_state) (f d : Nat) : cec_state × Int × Int :=
  (st, 1, Int.ofNat (DATA_HIGH f d))

/-- The initiator side of an engine: it is in state `st` with the frame `buf`
of `len` bytes queued, the transmit cursor at (`bit`, `byte`), `resends`
resends counted and the notifications `log` made so far. -/
def tx_at (e : engine) (st : cec_state) (buf : List Nat) (bit byte len resends : Nat)
    (log : List Nat) : Prop :=
  e.cec_state = st ∧ e.cec_tx.msgt.buf = buf ∧ e.cec_tx.msgt.bit = bit ∧
  e.cec_tx.msgt.byte = byte ∧ e.cec_tx.len = len ∧ e.cec_tx.resends = resends ∧
  e.mkbp_log = log

/-- The protocol states of a list of engines. -/
def states (tr : List engine) : List cec_state := tr.map (fun e => e.cec_state)

/-- Whether a frame is a broadcast: the destination nibble of its header is
`CEC_BROADCAST_ADDR`. -/
def is_broadcast (buf : List Nat) : Prop := buf.getD 0 0 &&& 0x0f = CEC_BROADCAST_ADDR

instance (buf : List Nat) : Decidable (is_broadcast buf) := by
  unfold is_broadcast
  infer_instance

/-- Whether a sampled line level acknowledges a frame: low for a directed
frame, high for a broadcast. -/
def acknowledges (buf : List Nat) (level : Nat) : Prop :=
  if is_broadcast buf then level ≠ 0 else level = 0

instance (buf : List Nat) (level : Nat) : Decidable (acknowledges buf level) := by
  unfold acknowledges
  infer_instance

/-- The states an initiator passes through in one attempt that stops after
the header byte: the start bit, the eight header bits, the EOM bit, the ACK bit
and the state `last` that the ACK decides. -/
def attempt_states (last : cec_state) : List cec_state :=
  [INITIATOR_START_LOW, INITIATOR_START_HIGH, INITIATOR_HEADER_INIT_LOW,
    INITIATOR_HEADER_INIT_HIGH, INITIATOR_HEADER_INIT_LOW,
    INITIATOR_HEADER_INIT_HIGH, INITIATOR_HEADER_INIT_LOW,
    INITIATOR_HEADER_INIT_HIGH, INITIATOR_HEADER_INIT_LOW,
    INITIATOR_HEADER_INIT_HIGH, INITIATOR_HEADER_DEST_LOW,
    INITIATOR_HEADER_DEST_HIGH, INITIATOR_HEADER_DEST_LOW,
    INITIATOR_HEADER_DEST_HIGH, INITIATOR_HEADER_DEST_LOW,
    INITIATOR_HEADER_DEST_HIGH, INITIATOR_HEADER_DEST_LOW,
    INITIATOR_HEADER_DEST_HIGH, INITIATOR_EOM_LOW,
    INITIATOR_EOM_HIGH, INITIATOR_ACK_LOW, INITIATOR_ACK_HIGH, INITIATOR_ACK_VERIFY, last]

/-- Values for the constants of `ec_commands.h`, for the examples. -/
def example_constants : ec_commands := ⟨16, 65536, 131072⟩

/-- An idle engine with a 1 MHz clock (one tick per microsecond), empty buffers
and the line released, for the examples. -/
def example_idle : engine :=
  ⟨IDLE, ⟨⟨List.replicate 16 0, 0, 0⟩, 0, 0, 0⟩, ⟨⟨List.replicate 16 0, 0, 0⟩, 0, 0, 0⟩,
    0, 0, 100, 1, 1, ⟨false, false, true, true, 0, 0, 0, 1, 0, true⟩, []⟩

/-- The example engine with the two-byte frame [0x05, 0x82] queued and admitted
into Initiator.FreeTime. -/
def example_sending : engine :=
  { example_idle with
    cec_state := INITIATOR_FREE_TIME,
    cec_tx := ⟨⟨[5, 130] ++ List.replicate 14 0, 0, 0⟩, 2, 0, 0⟩ }

/-- The example engine at the ACK of the sixteenth byte of a frame addressed to
it (header 0x15) whose EOM bits were all 0: in Follower.AckVerify, with the
receive cursor at byte 16 and the line driven low. -/
def example_oversized : engine :=
  { example_idle with
    cec_state := FOLLOWER_ACK_VERIFY,
    cec_rx := ⟨⟨[0x15] ++ List.replicate 15 0, 0, 16⟩, 0, 0, 1500⟩,
    gpio_out := 0 }

/-! ### The follower's input -/

/-- The byte that `msgt_set_bit` leaves in the buffer: bit `7 - bit` of `old`
cleared, then set when `val` is non-zero. -/
def set_bit_byte (old bit val : Nat) : Nat :=
  let bit_flag := (0x80 >>> bit) % 256
  let b := old &&& (255 ^^^ bit_flag)
  if val ≠ 0 then b ||| bit_flag else b

/-- The pulse class of a data or EOM bit of value `d`. -/
def data_class (d : Nat) : pulse_class := if d ≠ 0 then .DATA_ONE else .DATA_ZERO

/-- A measured bit period (low duration, high duration) is valid for a class:
the low duration is inside the class's low window, and low + high inside its
total-duration window. -/
def valid_pulse (f : Nat) (c : pulse_class) (p : Int × Int) : Prop :=
  VALID_LOW f c p.1 = true ∧ VALID_HIGH f c p.1 p.2 = true

/-- What the line carries for one byte of a frame: the byte encoded, the
measured periods of its eight bits (index 0 is the first bit on the line, bit
7 of the byte), the EOM value and the measured period of the EOM bit, and the
line level that the follower samples in its ACK. -/
structure rx_byte where
  value : Nat
  bits : Nat → Int × Int
  eom_value : Nat
  eom : Int × Int
  level : Nat

/-- The periods of a byte are valid for the bits they encode. -/
def well_timed (f : Nat) (x : rx_byte) : Prop :=
  x.value < 256 ∧
  (∀ i, i < 8 → valid_pulse f (data_class (bit_of x.value (7 - i))) (x.bits i)) ∧
  valid_pulse f (data_class x.eom_value) x.eom

/-- The captures of `c` consecutive bit periods, from bit index `j` on: for each
the rising edge, which measures the low duration, then the falling edge, which
measures the high duration. -/
def bits_irqs (bits : Nat → Int × Int) : Nat → Nat → List cec_irq
  | _, 0 => []
  | j, c + 1 => .capture (bits j).1 :: .capture (bits j).2 :: bits_irqs bits (j + 1) c

/-- The interrupts of one byte: the captures of its eight bits and of its EOM
bit, then the two timeouts of the follower's own ACK phases (Follower.AckLow
and Follower.AckVerify), which end in Follower.AckFinish. -/
def byte_irqs (x : rx_byte) : List cec_irq :=
  bits_irqs x.bits 0 8 ++
    [.capture x.eom.1, .capture x.eom.2, .timeout x.level, .timeout x.level]

/-- The interrupts of the bytes after the first: each starts with the falling
edge that ends the ACK bit, which the handler does not measure. -/
def rest_irqs : List rx_byte → List cec_irq
  | [] => []
  | x :: xs => .capture 0 :: (byte_irqs x ++ rest_irqs xs)

/-- The interrupts of a frame at a follower: the falling edge of the start bit
(not measured), the two measured edges of the start bit, and the bytes. -/
def frame_irqs (start : Int × Int) : List rx_byte → List cec_irq
  | [] => []
  | x :: xs =>
    .capture 0 :: .capture start.1 :: .capture start.2 :: (byte_irqs x ++ rest_irqs xs)

/-- The follower side of an engine with clock divisor `f`: it is in state `st`
with receive buffer `buf` and the receive cursor at (`bit`, `byte`), and drives
the line at level `g`. -/
def rx_at (e : engine) (f : Nat) (st : cec_state) (buf : List Nat) (bit byte : Nat)
    (g : Int) : Prop :=
  e.cec_state = st ∧ e.cec_rx.msgt.buf = buf ∧ e.cec_rx.msgt.bit = bit ∧
  e.cec_rx.msgt.byte = byte ∧ e.apb1_freq_div_10k = f ∧ e.gpio_out = g

/-- The follower state that awaits the rising edge of bit `j` of byte `k`. -/
def rx_low_state (k j : Nat) : cec_state :=
  if k = 0 then (if j < 4 then FOLLOWER_HEADER_INIT_LOW else FOLLOWER_HEADER_DEST_LOW)
  else FOLLOWER_DATA_LOW

/-- The level a follower drives the line at during the ACK of a frame whose
header byte is `hdr`: low when the frame is addressed to it, released
otherwise. -/
def ack_drive (hdr : Nat) : Int := if hdr &&& 0x0f = cec_addr then 0 else 1

/-- What a follower does on a trace in which it went through the ACK of `n`
bytes: it entered Follower.AckLow and Follower.AckFinish `n` times each, never
fell back to Idle (no validity check failed), drove the line at level `drv`
while in Follower.AckLow and Follower.AckVerify, and had it released in every
other state. -/
def rx_summary (tr : List engine) (n : Nat) (drv : Int) : Prop :=
  entries FOLLOWER_ACK_LOW tr = n ∧ entries FOLLOWER_ACK_FINISH tr = n ∧
  entries IDLE tr = 0 ∧
  ∀ e ∈ tr, e.gpio_out =
    (if e.cec_state = FOLLOWER_ACK_LOW ∨ e.cec_state = FOLLOWER_ACK_VERIFY then drv else 1)

/-- The EOM flag a follower holds after the bytes `xs`, when it held `e0`
before: the EOM value of the last byte received. -/
def last_eom : Nat → List rx_byte → Nat
  | e0, [] => e0
  | _, x :: xs => last_eom (if x.eom_value ≠ 0 then 1 else 0) xs

/-- EOM is 1 after the last byte of a frame and 0 after every other byte. -/
def eom_at_end : List rx_byte → Prop
  | [] => True
  | [x] => x.eom_value ≠ 0
  | x :: y :: r => x.eom_value = 0 ∧ eom_at_end (y :: r)

/-- The top `j` bits of the byte `v` are those of `b`. -/
def prefix_ok (j v b : Nat) : Prop := v % 256 / 2 ^ (8 - j) = b / 2 ^ (8 - j)

/-- The header byte 0x15 (source 1, destination 5) as the line carries it at one
tick per microsecond, with EOM = 1: nominal bit periods, ones at bit indices 3,
5 and 7. -/
def example_header : rx_byte :=
  ⟨0x15, fun i => if i = 3 ∨ i = 5 ∨ i = 7 then (600, 1800) else (1500, 900), 1, (600, 1800), 0⟩

/-- The initiator state of the low period of bit index `i` of byte `k`. -/
def tx_low_state (k i : Nat) : cec_state :=
  if k = 0 then
    (if i < 4 then INITIATOR_HEADER_INIT_LOW else INITIATOR_HEADER_DEST_LOW)
  else INITIATOR_DATA_LOW

/-- The initiator state of the high period of bit index `i` of byte `k`. -/
def tx_high_state (k i : Nat) : cec_state :=
  if k = 0 then
    (if i < 4 then INITIATOR_HEADER_INIT_HIGH else INITIATOR_HEADER_DEST_HIGH)
  else INITIATOR_DATA_HIGH

/-- The start bit as an initiator `tx` puts it on the line when only timeouts
occur: the timeouts it programs on entering Initiator.StartLow (its first
timeout) and Initiator.StartHigh (its second). -/
def line_start (K : ec_commands) (tx : engine) (lv : Nat → Nat) : Int × Int :=
  ((run K (timeouts lv 1) tx).mft.tcnt1, (run K (timeouts lv 2) tx).mft.tcnt1)

/-- Byte `k` of its frame as an initiator `tx` puts it on the line when only
timeouts occur and every byte is acknowledged: the byte queued, the timeouts
programmed for the low and high period of each of its bits (after
`3 + 21 k + 2 i` and `4 + 21 k + 2 i` timeouts for bit index `i`) and of its
EOM bit (after `19 + 21 k` and `20 + 21 k` timeouts), the EOM value sent, and
the line level of the ACK bit, which the initiator samples with timeout
`22 + 21 k` and which a follower on the same line samples too. -/
def line_byte (K : ec_commands) (tx : engine) (lv : Nat → Nat) (k : Nat) : rx_byte :=
  ⟨tx.cec_tx.msgt.buf.getD k 0,
    fun i => ((run K (timeouts lv (3 + 21 * k + 2 * i)) tx).mft.tcnt1,
      (run K (timeouts lv (4 + 21 * k + 2 * i)) tx).mft.tcnt1),
    if k + 1 = tx.cec_tx.len then 1 else 0,
    ((run K (timeouts lv (19 + 21 * k)) tx).mft.tcnt1,
      (run K (timeouts lv (20 + 21 * k)) tx).mft.tcnt1),
    lv (22 + 21 * k)⟩

/-- The first `n` bytes of its frame as an initiator puts them on the line. -/
def line_frame (K : ec_commands) (tx : engine) (lv : Nat → Nat) (n : Nat) : List rx_byte :=
  (List.range n).map (line_byte K tx lv)

/-- What `enter_state_program` does to the timer registers. -/
def program_mft (l : entry_locals) (m : mft) : mft :=
  if l.timeout ≥ 0 then
    if l.cap_edge ≥ 0 then
      { m with
        taedg := decide (l.cap_edge = CAP_EDGE_RISING),
        tcnt1 := l.timeout,
        tcien := decide (l.timeout > 0),
        tcra := 0,
        c1csel := 1 }
    else { m with tcnt1 := l.timeout, c1csel := 1 }
  else m

/-! ### Windows, abandoned receives and listening engines -/

/-- The values of a C `int`. -/
def is_int (t : Int) : Prop := -2147483648 ≤ t ∧ t < 2147483648

/-- The low window of a pulse class as the specification states it: the
duration lies within `[min - tolerance, max + tolerance]`. -/
def low_window (f : Nat) (c : pulse_class) (t : Int) : Prop :=
  (MIN_LOW f c : Int) - (VALID_TOLERANCE f : Int) ≤ t ∧
  t ≤ (MAX_LOW f c : Int) + (VALID_TOLERANCE f : Int)

/-- The total-duration window of a pulse class as the specification states it:
low plus high lies within `[min - tolerance, max + tolerance]`. -/
def duration_window (f : Nat) (c : pulse_class) (low high : Int) : Prop :=
  (MIN_DURATION f c : Int) - (VALID_TOLERANCE f : Int) ≤ low + high ∧
  low + high ≤ (MAX_DURATION f c : Int) + (VALID_TOLERANCE f : Int)

/-- A receive abandoned: the engine `r` is what `enter_state(CEC_STATE_IDLE)`
makes of `s`, its receive cursor is at (0, 0), and it is in Idle when no frame
is queued for sending. -/
def forced_idle (K : ec_commands) (s r : engine) : Prop :=
  r = enter_state K IDLE s ∧ r.cec_rx.msgt.bit = 0 ∧ r.cec_rx.msgt.byte = 0 ∧
  (s.cec_tx.len = 0 → r.cec_state = IDLE)

/-- The engine as the capture handler finds it: the capture register holds the
count latched at the edge. -/
def latched (s : engine) (t : Int) : engine :=
  { s with mft := { s.mft with tcra := s.cap_charge - t } }

/-- An engine that only listens: no frame is queued for sending and the
protocol state is Idle or a follower state. -/
def listening (s : engine) : Prop :=
  s.cec_tx.len = 0 ∧
  s.cec_state ∈ [IDLE, FOLLOWER_START_LOW, FOLLOWER_START_HIGH, FOLLOWER_HEADER_INIT_LOW,
    FOLLOWER_HEADER_INIT_HIGH, FOLLOWER_HEADER_DEST_LOW, FOLLOWER_HEADER_DEST_HIGH,
    FOLLOWER_EOM_LOW, FOLLOWER_EOM_HIGH, FOLLOWER_ACK_LOW, FOLLOWER_ACK_VERIFY,
    FOLLOWER_ACK_FINISH, FOLLOWER_DATA_LOW, FOLLOWER_DATA_HIGH]

/-! ### Cursor accesses -/

/-- The buffer index and the shift count of the access
`buf[byte] & (0x80 >> bit)` of `msgt_get_bit`, which are also those of the
accesses to `buf[byte]` with `bit_flag = 0x80 >> bit` of `msgt_set_bit`; none
when the function returns before the access. -/
def msgt_access (K : ec_commands) (msgt : cec_msg_transfer) : Option (Nat × Nat) :=
  if msgt.byte ≥ K.MAX_CEC_MSG_LEN then none else some (msgt.byte, msgt.bit)

/-- What the engine does to a cursor: `msgt_inc_bit`, `msgt_set_bit` with a
value, and the reset `bit = 0; byte = 0` of `enter_state`. -/
inductive cursor_op where
  | inc
  | set (val : Nat)
  | reset
  deriving Repr, DecidableEq

/-- One operation on a cursor. -/
def cursor_step (K : ec_commands) (m : cec_msg_transfer) : cursor_op → cec_msg_transfer
  | .inc => msgt_inc_bit K m
  | .set val => msgt_set_bit K m val
  | .reset => { m with bit := 0, byte := 0 }

/-- A sequence of operations on a cursor, first to last. -/
def cursor_run (K : ec_commands) : List cursor_op → cec_msg_transfer → cec_msg_transfer
  | [], m => m
  | o :: os, m => cursor_run K os (cursor_step K m o)

/-- The range that the cursor stays in: the byte offset is at most
MAX_CEC_MSG_LEN, and the bit offset at most 7 before the buffer is
exhausted. -/
def cursor_in_range (K : ec_commands) (m : cec_msg_transfer) : Prop :=
  m.byte ≤ K.MAX_CEC_MSG_LEN ∧ (m.byte < K.MAX_CEC_MSG_LEN → m.bit ≤ 7)

/-! ### Calls from the host -/

/-- `cec_set_enable`: the result and the engine afterwards. -/
def cec_set_enable (K : ec_commands) (enable : Nat) (s : engine) : ec_status × engine :=
  if enable ≠ 0 ∧ enable ≠ 1 then (.EC_RES_INVALID_PARAM, s)
  else if enable ≠ 0 ∧ s.cec_state ≠ DISABLED then (.EC_RES_SUCCESS, s)
  else if ¬ enable ≠ 0 ∧ s.cec_state = DISABLED then (.EC_RES_SUCCESS, s)
  else if enable ≠ 0 then
    let s := enter_state K IDLE s
    let s := tmr_cap_start CAP_EDGE_FALLING 0 s
    let s := { s with mft := { s.mft with taien := true } }
    let s := { s with mft := { s.mft with tdien := true } }
    let s := { s with mft := { s.mft with irq := true } }
    (.EC_RES_SUCCESS, s)
  else
    let s := { s with mft := { s.mft with taien := false } }
    let s := { s with mft := { s.mft with tdien := false } }
    let s := tmr2_stop s
    let s := tmr_cap_stop s
    let s := { s with mft := { s.mft with irq := false } }
    (.EC_RES_SUCCESS, enter_state K DISABLED s)

/-- `cec_get_next_event`: the 32-bit value that the four bytes written to `out`
hold, the return value `sizeof(event_out)`, and the engine afterwards. -/
def cec_get_next_event (s : engine) : Nat × Nat × engine :=
  let r := atomic_read_clear s.cec_events
  (r.1, 4, { s with cec_events := r.2 })

/-- A call into the engine: the host commands that reach `cec_set_enable` and
`hc_cec_write`, the event source `cec_get_next_event`, and an interrupt. -/
inductive cec_call where
  | set_enable (enable : Nat)
  | write (msg : List Nat) (params_size : Nat)
  | get_next_event
  | irq (e : cec_irq)
  deriving Repr, DecidableEq

/-- The engine after one call. -/
def call (K : ec_commands) (c : cec_call) (s : engine) : engine :=
  match c with
  | .set_enable enable => (cec_set_enable K enable s).2
  | .write msg params_size => (hc_cec_write K msg params_size s).2
  | .get_next_event => (cec_get_next_event s).2.2
  | .irq e => deliver K e s

/-- The engine after a sequence of calls. -/
def calls (K : ec_commands) : List cec_call → engine → engine
  | [], s => s
  | c :: cs, s => calls K cs (call K c s)

/-- The file-scope variables as they are before the first call: zero, which
makes the state `CEC_STATE_DISABLED`, with nothing notified yet. -/
def initial (K : ec_commands) (s : engine) : Prop :=
  s.cec_state = DISABLED ∧
  s.cec_rx = ⟨⟨List.replicate K.MAX_CEC_MSG_LEN 0, 0, 0⟩, 0, 0, 0⟩ ∧
  s.cec_tx = ⟨⟨List.replicate K.MAX_CEC_MSG_LEN 0, 0, 0⟩, 0, 0, 0⟩ ∧
  s.cap_charge = 0 ∧ s.cec_events = 0 ∧ s.mkbp_log = []

/-- The example engine before it is enabled. -/
def example_disabled : engine :=
  ⟨DISABLED, ⟨⟨List.replicate 16 0, 0, 0⟩, 0, 0, 0⟩, ⟨⟨List.replicate 16 0, 0, 0⟩, 0, 0, 0⟩,
    0, 0, 100, 1, 1, ⟨false, false, false, false, 0, 0, 0, 0, 0, false⟩, []⟩

/-! ### Invariants of the reachable engines -/

/-- The follower states from the first bit of the header on: in these the
receive cursor counts the bits received. -/
def receiving (st : cec_state) : Prop :=
  st ∈ [FOLLOWER_HEADER_INIT_LOW, FOLLOWER_HEADER_INIT_HIGH, FOLLOWER_HEADER_DEST_LOW,
    FOLLOWER_HEADER_DEST_HIGH, FOLLOWER_EOM_LOW, FOLLOWER_EOM_HIGH, FOLLOWER_ACK_LOW,
    FOLLOWER_ACK_VERIFY, FOLLOWER_ACK_FINISH, FOLLOWER_DATA_LOW, FOLLOWER_DATA_HIGH]

instance (st : cec_state) : Decidable (receiving st) := by
  unfold receiving
  infer_instance

/-- The receive buffer has its MAX_CEC_MSG_LEN bytes, and the receive cursor is
at (0, 0) in every state before the first bit of a header. -/
def rx_reset (K : ec_commands) (s : engine) : Prop :=
  s.cec_rx.msgt.buf.length = K.MAX_CEC_MSG_LEN ∧
  (¬ receiving s.cec_state → s.cec_rx.msgt.bit = 0 ∧ s.cec_rx.msgt.byte = 0)

/-! ## Theorems -/

section basic

/-- A `uint32_t` below 2^31 converts to the same `int`. -/
theorem u32_to_int_of_lt (a : Nat) (h : a < 2147483648) : u32_to_int a = (a : Int) := by
  unfold u32_to_int
  have h1 : a % 4294967296 = a := Nat.mod_eq_of_lt (by omega)
  rw [h1, if_pos h]

/-- A tick count is at most 2^32 / 100. -/
theorem APB1_TICKS_le (f t : Nat) : APB1_TICKS f t ≤ 42949672 := by
  unfold APB1_TICKS u32_mul
  have hx : t * f % 4294967296 < 4294967296 := Nat.mod_lt _ (by norm_num)
  generalize t * f % 4294967296 = x at hx
  omega

/-- Integer value of a single tick count: `APB1_TICKS` never reaches 2^31. -/
theorem u32_to_int_APB1_TICKS (f t : Nat) :
    u32_to_int (APB1_TICKS f t) = (APB1_TICKS f t : Nat) :=
  u32_to_int_of_lt _ (by have := APB1_TICKS_le f t; omega)

/-- The free time timeouts are non-negative as `int`. -/
theorem free_time_nonneg (f : Nat) :
    0 ≤ u32_to_int (FREE_TIME_RS f) ∧ 0 ≤ u32_to_int (FREE_TIME_NI f) := by
  have hy := APB1_TICKS_le f 2400
  unfold FREE_TIME_RS FREE_TIME_NI NOMINAL_BIT_TIME u32_mul
  generalize APB1_TICKS f 2400 = y at hy
  have h3 : 3 * y % 4294967296 = 3 * y := Nat.mod_eq_of_lt (by omega)
  have h5 : 5 * y % 4294967296 = 5 * y := Nat.mod_eq_of_lt (by omega)
  rw [h3, h5, u32_to_int_of_lt _ (by omega), u32_to_int_of_lt _ (by omega)]
  omega

/-- The end of `enter_state` field by field. -/
theorem enter_state_program_eq (l : entry_locals) (s : engine) :
    enter_state_program l s =
      { s with
        gpio_out := if l.gpio ≥ 0 then l.gpio else s.gpio_out,
        cap_charge :=
          if l.timeout ≥ 0 ∧ l.cap_edge ≥ 0 ∧ l.timeout > 0 then l.timeout else s.cap_charge,
        mft := program_mft l s.mft } := by
  unfold enter_state_program program_mft tmr_cap_start tmr_oneshot_start gpio_set_level
  have h0 : ¬ l.timeout > 0 → l.timeout ≥ 0 → (0 : Int) = l.timeout := by omega
  by_cases h1 : l.gpio ≥ 0 <;> by_cases h2 : l.timeout ≥ 0 <;> by_cases h3 : l.cap_edge ≥ 0 <;>
    by_cases h4 : l.timeout > 0 <;> simp [h1, h2, h3, h4] <;> exact h0 h4 h2

end basic

/-- C5. Arbitration loss: a capture event in Idle, Initiator.FreeTime,
Initiator.StartHigh or Initiator.HeaderInitHigh leads to Follower.StartLow and
leaves the queued frame (length and buffer) and the resend counter unchanged;
from the three initiator states the transmit cursor is reset to bit 0, byte 0. -/
theorem cec_event_cap_arbitration (K : ec_commands) (s : engine)
    (h : s.cec_state = IDLE ∨ s.cec_state = INITIATOR_FREE_TIME ∨
      s.cec_state = INITIATOR_START_HIGH ∨ s.cec_state = INITIATOR_HEADER_INIT_HIGH) :
    (cec_event_cap K s).cec_state = FOLLOWER_START_LOW ∧
    (cec_event_cap K s).cec_tx.len = s.cec_tx.len ∧
    (cec_event_cap K s).cec_tx.msgt.buf = s.cec_tx.msgt.buf ∧
    (cec_event_cap K s).cec_tx.resends = s.cec_tx.resends ∧
    (s.cec_state ≠ IDLE →
      (cec_event_cap K s).cec_tx.msgt.bit = 0 ∧ (cec_event_cap K s).cec_tx.msgt.byte = 0) := by
  rcases h with h | h | h | h <;>
    simp [cec_event_cap, h, enter_state, enter_state_body, enter_state_program_eq]

/-- C5, at a frame [0x05, 0x82] queued in Initiator.FreeTime. -/
theorem cec_event_cap_arbitration_witness :
    (cec_event_cap ⟨16, 65536, 131072⟩
      ⟨INITIATOR_FREE_TIME, ⟨⟨List.replicate 16 0, 0, 0⟩, 0, 0, 0⟩,
        ⟨⟨[5, 130] ++ List.replicate 14 0, 0, 0⟩, 2, 0, 0⟩, 0, 0, 1500, 1, 1,
        ⟨false, false, true, true, 0, 0, 0, 1, 0, true⟩, []⟩).cec_state = FOLLOWER_START_LOW :=
  (cec_event_cap_arbitration ⟨16, 65536, 131072⟩
      ⟨INITIATOR_FREE_TIME, ⟨⟨List.replicate 16 0, 0, 0⟩, 0, 0, 0⟩,
        ⟨⟨[5, 130] ++ List.replicate 14 0, 0, 0⟩, 2, 0, 0⟩, 0, 0, 1500, 1, 1,
        ⟨false, false, true, true, 0, 0, 0, 1, 0, true⟩, []⟩ (Or.inr (Or.inl rfl))).1

/-- C6. Postponed send on return to Idle: `enter_state(CEC_STATE_IDLE)` resets
both cursors; with a frame queued (`tx.len != 0`) it ends in Initiator.FreeTime
with the line released and a falling-edge capture armed with the free-time
timeout (the resend one when `resends != 0`); with no frame queued it ends in
Idle with the line released and a falling-edge capture armed without timeout. -/
theorem enter_state_idle_postponed_send (K : ec_commands) (s : engine) :
    ((enter_state K IDLE s).cec_tx.msgt.bit = 0 ∧ (enter_state K IDLE s).cec_tx.msgt.byte = 0 ∧
      (enter_state K IDLE s).cec_rx.msgt.bit = 0 ∧ (enter_state K IDLE s).cec_rx.msgt.byte = 0 ∧
      (enter_state K IDLE s).gpio_out = 1 ∧ (enter_state K IDLE s).mft.taedg = false ∧
      (enter_state K IDLE s).mft.c1csel = 1) ∧
    (s.cec_tx.len ≠ 0 →
      (enter_state K IDLE s).cec_state = INITIATOR_FREE_TIME ∧
      (enter_state K IDLE s).mft.tcnt1 =
        u32_to_int (if s.cec_tx.resends ≠ 0 then FREE_TIME_RS s.apb1_freq_div_10k
          else FREE_TIME_NI s.apb1_freq_div_10k) ∧
      (enter_state K IDLE s).mft.tcien = decide (0 < (enter_state K IDLE s).mft.tcnt1)) ∧
    (s.cec_tx.len = 0 →
      (enter_state K IDLE s).cec_state = IDLE ∧
      (enter_state K IDLE s).mft.tcnt1 = 0 ∧
      (enter_state K IDLE s).mft.tcien = false) := by
  have hf := free_time_nonneg s.apb1_freq_div_10k
  by_cases hl : s.cec_tx.len = 0
  · simp [enter_state, enter_state_body, enter_state_program_eq, program_mft, hl,
      CAP_EDGE_FALLING, CAP_EDGE_RISING]
  · have hl2 : 0 < s.cec_tx.len := Nat.pos_of_ne_zero hl
    by_cases hr : s.cec_tx.resends = 0
    · simp [enter_state, enter_state_body, enter_state_program_eq, program_mft, hl, hl2, hr, hf.2,
        CAP_EDGE_FALLING, CAP_EDGE_RISING]
    · simp [enter_state, enter_state_body, enter_state_program_eq, program_mft, hl, hl2, hr, hf.1,
        CAP_EDGE_FALLING, CAP_EDGE_RISING]

/-- C7. Send admission only from Idle: `cec_event_tx` enters
Initiator.FreeTime (line released, both contexts untouched) when the state is
Idle, and changes nothing at all in every other state. -/
theorem cec_event_tx_admission (K : ec_commands) (s : engine) :
    (s.cec_state = IDLE →
      (cec_event_tx K s).cec_state = INITIATOR_FREE_TIME ∧
      (cec_event_tx K s).cec_tx = s.cec_tx ∧ (cec_event_tx K s).cec_rx = s.cec_rx ∧
      (cec_event_tx K s).gpio_out = 1) ∧
    (s.cec_state ≠ IDLE → cec_event_tx K s = s) := by
  constructor
  · intro h
    by_cases hr : s.cec_tx.resends = 0 <;>
      simp [cec_event_tx, h, enter_state, enter_state_body, enter_state_program_eq, hr]
  · intro h
    simp [cec_event_tx, h]

/-- C8. Busy is atomic: with a frame queued (`tx.len != 0`) `cec_send` returns
-1 and the engine is unchanged, whatever the message; `hc_cec_write`, once its
own checks of the state and of the size have passed, then returns
`EC_RES_BUSY`, again with the engine unchanged. -/
theorem cec_send_busy (K : ec_commands) (msg : List Nat) (len : Nat) (s : engine)
    (h : s.cec_tx.len ≠ 0) :
    cec_send msg len s = (-1, s) ∧
    (s.cec_state ≠ DISABLED → 1 ≤ len → len ≤ K.MAX_CEC_MSG_LEN →
      hc_cec_write K msg len s = (.EC_RES_BUSY, s)) := by
  constructor
  · simp [cec_send, h]
  · intro hd h1 h2
    have h3 : ¬ (len = 0 ∨ len > K.MAX_CEC_MSG_LEN) := by omega
    simp [hc_cec_write, hd, h3, cec_send, h]

/-- C8, with the frame [0x05, 0x82] queued and sent again. -/
theorem cec_send_busy_witness :
    cec_send [5, 130] 2
      ⟨INITIATOR_FREE_TIME, ⟨⟨List.replicate 16 0, 0, 0⟩, 0, 0, 0⟩,
        ⟨⟨[5, 130] ++ List.replicate 14 0, 0, 0⟩, 2, 0, 0⟩, 0, 0, 1500, 1, 1,
        ⟨false, false, true, true, 0, 0, 0, 1, 0, true⟩, []⟩ =
      (-1, ⟨INITIATOR_FREE_TIME, ⟨⟨List.replicate 16 0, 0, 0⟩, 0, 0, 0⟩,
        ⟨⟨[5, 130] ++ List.replicate 14 0, 0, 0⟩, 2, 0, 0⟩, 0, 0, 1500, 1, 1,
        ⟨false, false, true, true, 0, 0, 0, 1, 0, true⟩, []⟩) :=
  (cec_send_busy ⟨16, 65536, 131072⟩ [5, 130] 2
      ⟨INITIATOR_FREE_TIME, ⟨⟨List.replicate 16 0, 0, 0⟩, 0, 0, 0⟩,
        ⟨⟨[5, 130] ++ List.replicate 14 0, 0, 0⟩, 2, 0, 0⟩, 0, 0, 1500, 1, 1,
        ⟨false, false, true, true, 0, 0, 0, 1, 0, true⟩, []⟩ (by decide)).1

/-- C9. Accepted send mutates only the queued frame: with no frame queued
(`tx.len = 0`) and a message of `len` bytes, 1 <= len <= MAX_CEC_MSG_LEN,
`cec_send` returns 0, sets `tx.len = len` and the first `len` bytes of the
transmit buffer to the message, keeps the rest of the buffer and its size, arms
the secondary timer with zero delay, and leaves the protocol state, the
transmit cursor, the resend counter, the ack flag, the receive context, the
pending events and the notification log unchanged. -/
theorem cec_send_accepted (K : ec_commands) (msg : List Nat) (len : Nat) (s : engine)
    (h : s.cec_tx.len = 0) (hm : msg.length = len) (h1 : 1 ≤ len)
    (h2 : len ≤ K.MAX_CEC_MSG_LEN) (hb : s.cec_tx.msgt.buf.length = K.MAX_CEC_MSG_LEN) :
    (cec_send msg len s).1 = 0 ∧
    (cec_send msg len s).2.cec_tx.len = len ∧
    (cec_send msg len s).2.cec_tx.msgt.buf.take len = msg ∧
    (cec_send msg len s).2.cec_tx.msgt.buf.drop len = s.cec_tx.msgt.buf.drop len ∧
    (cec_send msg len s).2.cec_tx.msgt.buf.length = K.MAX_CEC_MSG_LEN ∧
    (cec_send msg len s).2.mft.tcnt2 = 0 ∧ (cec_send msg len s).2.mft.c2csel = 1 ∧
    (cec_send msg len s).2.cec_state = s.cec_state ∧
    (cec_send msg len s).2.cec_tx.msgt.bit = s.cec_tx.msgt.bit ∧
    (cec_send msg len s).2.cec_tx.msgt.byte = s.cec_tx.msgt.byte ∧
    (cec_send msg len s).2.cec_tx.resends = s.cec_tx.resends ∧
    (cec_send msg len s).2.cec_tx.ack = s.cec_tx.ack ∧
    (cec_send msg len s).2.cec_rx = s.cec_rx ∧
    (cec_send msg len s).2.cec_events = s.cec_events ∧
    (cec_send msg len s).2.mkbp_log = s.mkbp_log := by
  subst hm
  simp [cec_send, h, tmr2_start, memcpy, hb]
  omega

/-- C9, with the frame [0x05, 0x82] sent to an idle engine. -/
theorem cec_send_accepted_witness :
    (cec_send [5, 130] 2
      ⟨IDLE, ⟨⟨List.replicate 16 0, 0, 0⟩, 0, 0, 0⟩,
        ⟨⟨List.replicate 16 0, 0, 0⟩, 0, 0, 0⟩, 0, 0, 1500, 1, 1,
        ⟨false, false, true, true, 0, 0, 0, 1, 0, true⟩, []⟩).2.cec_tx.msgt.buf.take 2 =
      [5, 130] :=
  (cec_send_accepted ⟨16, 65536, 131072⟩ [5, 130] 2
      ⟨IDLE, ⟨⟨List.replicate 16 0, 0, 0⟩, 0, 0, 0⟩,
        ⟨⟨List.replicate 16 0, 0, 0⟩, 0, 0, 0⟩, 0, 0, 1500, 1, 1,
        ⟨false, false, true, true, 0, 0, 0, 1, 0, true⟩, []⟩
      rfl rfl (by decide) (by decide) (by decide)).2.2.1

section bits

/-- Masking with a single bit is non-zero exactly when that bit is set. -/
theorem and_two_pow_ne_zero (h k : Nat) : h &&& 2 ^ k ≠ 0 ↔ bit_of h k ≠ 0 := by
  have hb : bit_of h k ≠ 0 ↔ h.testBit k = true := by
    unfold bit_of
    rw [Nat.testBit_to_div_mod]
    simp
  rw [hb]
  constructor
  · intro hne
    by_contra hc
    apply hne
    apply Nat.eq_of_testBit_eq
    intro i
    rw [Nat.testBit_and, Nat.testBit_two_pow]
    by_cases hki : k = i
    · subst hki
      simp at hc
      simp [hc]
    · simp [hki]
  · intro ht h0
    have h1 := congrArg (fun x => x.testBit k) h0
    simp [Nat.testBit_and, Nat.testBit_two_pow_self, ht] at h1

/-- `DATA_LOW` of what `msgt_get_bit` reads is `DATA_LOW` of the bit. -/
theorem DATA_LOW_and (f h k : Nat) : DATA_LOW f (h &&& 2 ^ k) = DATA_LOW f (bit_of h k) := by
  unfold DATA_LOW
  by_cases hc : h &&& 2 ^ k ≠ 0
  · rw [if_pos hc, if_pos ((and_two_pow_ne_zero h k).1 hc)]
  · rw [if_neg hc, if_neg (fun hh => hc ((and_two_pow_ne_zero h k).2 hh))]

/-- `DATA_HIGH` of what `msgt_get_bit` reads is `DATA_HIGH` of the bit. -/
theorem DATA_HIGH_and (f h k : Nat) : DATA_HIGH f (h &&& 2 ^ k) = DATA_HIGH f (bit_of h k) := by
  unfold DATA_HIGH
  by_cases hc : h &&& 2 ^ k ≠ 0
  · rw [if_pos hc, if_pos ((and_two_pow_ne_zero h k).1 hc)]
  · rw [if_neg hc, if_neg (fun hh => hc ((and_two_pow_ne_zero h k).2 hh))]

@[simp] theorem u32_to_int_DATA_LOW (f d : Nat) : u32_to_int (DATA_LOW f d) = (DATA_LOW f d : Nat) := by
  unfold DATA_LOW DATA_ONE_LOW DATA_ZERO_LOW
  split <;> exact u32_to_int_APB1_TICKS _ _

@[simp] theorem u32_to_int_DATA_HIGH (f d : Nat) :
    u32_to_int (DATA_HIGH f d) = (DATA_HIGH f d : Nat) := by
  unfold DATA_HIGH DATA_ONE_HIGH DATA_ZERO_HIGH
  split <;> exact u32_to_int_APB1_TICKS _ _

end bits

set_option maxRecDepth 100000 in
set_option maxHeartbeats 4000000 in
/-- C10. Header is sent MSB-first: from Initiator.StartHigh with the cursor at
bit 0, byte 0, the next sixteen timeouts take the initiator through eight bit
periods, low then high, whose timeouts are `DATA_LOW` and `DATA_HIGH` of bits
7, 6, ..., 0 of transmit buffer byte 0, the first four periods in
Initiator.HeaderInitLow/High and the last four in Initiator.HeaderDestLow/High,
and the seventeenth timeout enters Initiator.EomLow. The buffer size
MAX_CEC_MSG_LEN is at least 1, so that byte 0 exists. -/
theorem initiator_header_msb_first (K : ec_commands) (s : engine) (lv : Nat → Nat)
    (hN : 1 ≤ K.MAX_CEC_MSG_LEN) (hs : s.cec_state = INITIATOR_START_HIGH)
    (hbit : s.cec_tx.msgt.bit = 0) (hbyte : s.cec_tx.msgt.byte = 0) :
    (trace K (timeouts lv 17) s).map line_view =
      [low_half INITIATOR_HEADER_INIT_LOW s.apb1_freq_div_10k (bit_of (s.cec_tx.msgt.buf.getD 0 0) 7),
        high_half INITIATOR_HEADER_INIT_HIGH s.apb1_freq_div_10k (bit_of (s.cec_tx.msgt.buf.getD 0 0) 7),
        low_half INITIATOR_HEADER_INIT_LOW s.apb1_freq_div_10k (bit_of (s.cec_tx.msgt.buf.getD 0 0) 6),
        high_half INITIATOR_HEADER_INIT_HIGH s.apb1_freq_div_10k (bit_of (s.cec_tx.msgt.buf.getD 0 0) 6),
        low_half INITIATOR_HEADER_INIT_LOW s.apb1_freq_div_10k (bit_of (s.cec_tx.msgt.buf.getD 0 0) 5),
        high_half INITIATOR_HEADER_INIT_HIGH s.apb1_freq_div_10k (bit_of (s.cec_tx.msgt.buf.getD 0 0) 5),
        low_half INITIATOR_HEADER_INIT_LOW s.apb1_freq_div_10k (bit_of (s.cec_tx.msgt.buf.getD 0 0) 4),
        high_half INITIATOR_HEADER_INIT_HIGH s.apb1_freq_div_10k (bit_of (s.cec_tx.msgt.buf.getD 0 0) 4),
        low_half INITIATOR_HEADER_DEST_LOW s.apb1_freq_div_10k (bit_of (s.cec_tx.msgt.buf.getD 0 0) 3),
        high_half INITIATOR_HEADER_DEST_HIGH s.apb1_freq_div_10k (bit_of (s.cec_tx.msgt.buf.getD 0 0) 3),
        low_half INITIATOR_HEADER_DEST_LOW s.apb1_freq_div_10k (bit_of (s.cec_tx.msgt.buf.getD 0 0) 2),
        high_half INITIATOR_HEADER_DEST_HIGH s.apb1_freq_div_10k (bit_of (s.cec_tx.msgt.buf.getD 0 0) 2),
        low_half INITIATOR_HEADER_DEST_LOW s.apb1_freq_div_10k (bit_of (s.cec_tx.msgt.buf.getD 0 0) 1),
        high_half INITIATOR_HEADER_DEST_HIGH s.apb1_freq_div_10k (bit_of (s.cec_tx.msgt.buf.getD 0 0) 1),
        low_half INITIATOR_HEADER_DEST_LOW s.apb1_freq_div_10k (bit_of (s.cec_tx.msgt.buf.getD 0 0) 0),
        high_half INITIATOR_HEADER_DEST_HIGH s.apb1_freq_div_10k (bit_of (s.cec_tx.msgt.buf.getD 0 0) 0),
        low_half INITIATOR_EOM_LOW s.apb1_freq_div_10k (if s.cec_tx.len = 1 then 1 else 0)] := by
  have hN0 : ¬ K.MAX_CEC_MSG_LEN ≤ 0 := by omega
  have hN1 : K.MAX_CEC_MSG_LEN ≠ 0 := by omega
  have hlen : (1 = s.cec_tx.len) ↔ (s.cec_tx.len = 1) := eq_comm
  have e7 := DATA_LOW_and s.apb1_freq_div_10k (s.cec_tx.msgt.buf.getD 0 0) 7
  have e6 := DATA_LOW_and s.apb1_freq_div_10k (s.cec_tx.msgt.buf.getD 0 0) 6
  have e5 := DATA_LOW_and s.apb1_freq_div_10k (s.cec_tx.msgt.buf.getD 0 0) 5
  have e4 := DATA_LOW_and s.apb1_freq_div_10k (s.cec_tx.msgt.buf.getD 0 0) 4
  have e3 := DATA_LOW_and s.apb1_freq_div_10k (s.cec_tx.msgt.buf.getD 0 0) 3
  have e2 := DATA_LOW_and s.apb1_freq_div_10k (s.cec_tx.msgt.buf.getD 0 0) 2
  have e1 := DATA_LOW_and s.apb1_freq_div_10k (s.cec_tx.msgt.buf.getD 0 0) 1
  have e0 := DATA_LOW_and s.apb1_freq_div_10k (s.cec_tx.msgt.buf.getD 0 0) 0
  have g7 := DATA_HIGH_and s.apb1_freq_div_10k (s.cec_tx.msgt.buf.getD 0 0) 7
  have g6 := DATA_HIGH_and s.apb1_freq_div_10k (s.cec_tx.msgt.buf.getD 0 0) 6
  have g5 := DATA_HIGH_and s.apb1_freq_div_10k (s.cec_tx.msgt.buf.getD 0 0) 5
  have g4 := DATA_HIGH_and s.apb1_freq_div_10k (s.cec_tx.msgt.buf.getD 0 0) 4
  have g3 := DATA_HIGH_and s.apb1_freq_div_10k (s.cec_tx.msgt.buf.getD 0 0) 3
  have g2 := DATA_HIGH_and s.apb1_freq_div_10k (s.cec_tx.msgt.buf.getD 0 0) 2
  have g1 := DATA_HIGH_and s.apb1_freq_div_10k (s.cec_tx.msgt.buf.getD 0 0) 1
  have g0 := DATA_HIGH_and s.apb1_freq_div_10k (s.cec_tx.msgt.buf.getD 0 0) 0
  norm_num at e7 e6 e5 e4 e3 e2 e1 e0 g7 g6 g5 g4 g3 g2 g1 g0
  simp [timeouts, List.range, List.range.loop, trace, deliver, line_view, low_half, high_half,
    cec_event_timeout,
    enter_state, enter_state_body, enter_state_program_eq, program_mft, msgt_inc_bit,
    msgt_get_bit, msgt_is_eom, hs, hbit, hbyte, hN0, hN1, hlen, CAP_EDGE_FALLING,
    CAP_EDGE_RISING, e7, e6, e5, e4, e3, e2, e1, e0, g7, g6, g5, g4, g3, g2, g1, g0]

section initiator

theorem run_append (K : ec_commands) (a b : List cec_irq) (s : engine) :
    run K (a ++ b) s = run K b (run K a s) := by
  induction a generalizing s with
  | nil => rfl
  | cons e es ih => exact ih (deliver K e s)

theorem trace_append (K : ec_commands) (a b : List cec_irq) (s : engine) :
    trace K (a ++ b) s = trace K a s ++ trace K b (run K a s) := by
  induction a generalizing s with
  | nil => rfl
  | cons e es ih =>
    show deliver K e s :: trace K (es ++ b) (deliver K e s) = _
    rw [ih (deliver K e s)]
    rfl

theorem timeouts_add (lv : Nat → Nat) (i n : Nat) :
    timeouts lv (i + n) = timeouts lv i ++ timeouts (fun j => lv (i + j)) n := by
  unfold timeouts
  rw [List.range_add, List.map_append, List.map_map]
  rfl

theorem states_append (a b : List engine) : states (a ++ b) = states a ++ states b := by
  unfold states
  exact List.map_append _ _ _

theorem entries_eq (st : cec_state) (tr : List engine) :
    entries st tr = (states tr).count st := by
  unfold entries states
  induction tr with
  | nil => rfl
  | cons e es ih =>
    rw [List.map_cons, List.countP_cons, List.count_cons, ih]
    by_cases h : e.cec_state = st <;> simp [h]

/-- The start bit: three timeouts take Initiator.FreeTime to the first low
period of the header with the cursor at the start of the frame. -/
theorem tx_start (K : ec_commands) (t : engine) (lv : Nat → Nat) (buf : List Nat)
    (bit byte len r : Nat) (log : List Nat)
    (h : tx_at t INITIATOR_FREE_TIME buf bit byte len r log) :
    tx_at (run K (timeouts lv 3) t) INITIATOR_HEADER_INIT_LOW buf 0 0 len r log ∧
    states (trace K (timeouts lv 3) t) =
      [INITIATOR_START_LOW, INITIATOR_START_HIGH, INITIATOR_HEADER_INIT_LOW] := by
  obtain ⟨hs, rfl, rfl, rfl, rfl, rfl, rfl⟩ := h
  simp [tx_at, states, timeouts, List.range, List.range.loop, run, trace, deliver,
    cec_event_timeout, enter_state, enter_state_body, enter_state_program_eq, hs]

set_option maxRecDepth 100000 in
set_option maxHeartbeats 4000000 in
/-- The header byte: sixteen timeouts take the first low period of the header to
the low period of its EOM bit, with the cursor at byte 1. -/
theorem tx_header (K : ec_commands) (t : engine) (lv : Nat → Nat) (buf : List Nat)
    (len r : Nat) (log : List Nat) (hN : 1 ≤ K.MAX_CEC_MSG_LEN)
    (h : tx_at t INITIATOR_HEADER_INIT_LOW buf 0 0 len r log) :
    tx_at (run K (timeouts lv 16) t) INITIATOR_EOM_LOW buf 0 1 len r log ∧
    states (trace K (timeouts lv 16) t) =
      [INITIATOR_HEADER_INIT_HIGH, INITIATOR_HEADER_INIT_LOW,
        INITIATOR_HEADER_INIT_HIGH, INITIATOR_HEADER_INIT_LOW,
        INITIATOR_HEADER_INIT_HIGH, INITIATOR_HEADER_INIT_LOW,
        INITIATOR_HEADER_INIT_HIGH, INITIATOR_HEADER_DEST_LOW,
        INITIATOR_HEADER_DEST_HIGH, INITIATOR_HEADER_DEST_LOW,
        INITIATOR_HEADER_DEST_HIGH, INITIATOR_HEADER_DEST_LOW,
        INITIATOR_HEADER_DEST_HIGH, INITIATOR_HEADER_DEST_LOW,
        INITIATOR_HEADER_DEST_HIGH, INITIATOR_EOM_LOW] := by
  obtain ⟨hs, rfl, hb, hy, rfl, rfl, rfl⟩ := h
  have hN0 : ¬ K.MAX_CEC_MSG_LEN ≤ 0 := by omega
  have hN1 : K.MAX_CEC_MSG_LEN ≠ 0 := by omega
  simp [tx_at, states, timeouts, List.range, List.range.loop, run, trace, deliver,
    cec_event_timeout, enter_state, enter_state_body, enter_state_program_eq, msgt_inc_bit,
    hs, hb, hy, hN0, hN1]

set_option maxRecDepth 100000 in
set_option maxHeartbeats 4000000 in
/-- A data byte: sixteen timeouts take the first low period of byte `k` to the
low period of its EOM bit, with the cursor at byte `k + 1`. -/
theorem tx_data (K : ec_commands) (t : engine) (lv : Nat → Nat) (buf : List Nat)
    (k len r : Nat) (log : List Nat) (hk : k < K.MAX_CEC_MSG_LEN) (hk2 : k < 255)
    (h : tx_at t INITIATOR_DATA_LOW buf 0 k len r log) :
    tx_at (run K (timeouts lv 16) t) INITIATOR_EOM_LOW buf 0 (k + 1) len r log ∧
    states (trace K (timeouts lv 16) t) =
      [INITIATOR_DATA_HIGH, INITIATOR_DATA_LOW, INITIATOR_DATA_HIGH, INITIATOR_DATA_LOW,
        INITIATOR_DATA_HIGH, INITIATOR_DATA_LOW, INITIATOR_DATA_HIGH, INITIATOR_DATA_LOW,
        INITIATOR_DATA_HIGH, INITIATOR_DATA_LOW, INITIATOR_DATA_HIGH, INITIATOR_DATA_LOW,
        INITIATOR_DATA_HIGH, INITIATOR_DATA_LOW, INITIATOR_DATA_HIGH, INITIATOR_EOM_LOW] := by
  obtain ⟨hs, rfl, hb, hy, rfl, rfl, rfl⟩ := h
  have hN0 : ¬ K.MAX_CEC_MSG_LEN ≤ k := by omega
  have hk3 : (k + 1) % 256 = k + 1 := Nat.mod_eq_of_lt (by omega)
  simp [tx_at, states, timeouts, List.range, List.range.loop, run, trace, deliver,
    cec_event_timeout, enter_state, enter_state_body, enter_state_program_eq, msgt_inc_bit,
    hs, hb, hy, hN0, hk3]

/-- The EOM bit and the low part of the ACK bit: three timeouts take the low
period of the EOM bit to Initiator.AckHigh, whose timeout samples the line. -/
theorem tx_eom (K : ec_commands) (t : engine) (lv : Nat → Nat) (buf : List Nat)
    (k len r : Nat) (log : List Nat)
    (h : tx_at t INITIATOR_EOM_LOW buf 0 k len r log) :
    tx_at (run K (timeouts lv 3) t) INITIATOR_ACK_HIGH buf 0 k len r log ∧
    states (trace K (timeouts lv 3) t) =
      [INITIATOR_EOM_HIGH, INITIATOR_ACK_LOW, INITIATOR_ACK_HIGH] := by
  obtain ⟨hs, rfl, hb, hy, rfl, rfl, rfl⟩ := h
  simp [tx_at, states, timeouts, List.range, List.range.loop, run, trace, deliver,
    cec_event_timeout, enter_state, enter_state_body, enter_state_program_eq, hs, hb, hy]

/-- An acknowledged byte that is not the last: the next byte follows. -/
theorem tx_ack_more (K : ec_commands) (t : engine) (lv : Nat → Nat) (buf : List Nat)
    (k len r : Nat) (log : List Nat) (hk : k ≠ len) (ha : acknowledges buf (lv 0))
    (h : tx_at t INITIATOR_ACK_HIGH buf 0 k len r log) :
    tx_at (run K (timeouts lv 2) t) INITIATOR_DATA_LOW buf 0 k len r log ∧
    states (trace K (timeouts lv 2) t) =
      [INITIATOR_ACK_VERIFY, INITIATOR_DATA_LOW] := by
  obtain ⟨hs, rfl, hb, hy, rfl, rfl, rfl⟩ := h
  unfold acknowledges is_broadcast at ha
  by_cases hbc : t.cec_tx.msgt.buf.getD 0 0 &&& 0x0f = CEC_BROADCAST_ADDR
  · rw [if_pos hbc] at ha
    simp at hbc
    simp [tx_at, states, timeouts, List.range, List.range.loop, run, trace, deliver,
      cec_event_timeout, enter_state, enter_state_body, enter_state_program_eq, msgt_is_eom,
      gpio_get_level, hs, hb, hy, hk, ha, hbc]
  · rw [if_neg hbc] at ha
    simp at hbc
    simp [tx_at, states, timeouts, List.range, List.range.loop, run, trace, deliver,
      cec_event_timeout, enter_state, enter_state_body, enter_state_program_eq, msgt_is_eom,
      gpio_get_level, hs, hb, hy, hk, ha, hbc]

/-- The last byte acknowledged: the send succeeds, the frame is cleared and
`EC_MKBP_CEC_SEND_OK` is posted. -/
theorem tx_ack_done (K : ec_commands) (t : engine) (lv : Nat → Nat) (buf : List Nat)
    (len r : Nat) (log : List Nat) (ha : acknowledges buf (lv 0))
    (h : tx_at t INITIATOR_ACK_HIGH buf 0 len len r log) :
    tx_at (run K (timeouts lv 2) t) IDLE buf 0 0 0 0 (log ++ [K.EC_MKBP_CEC_SEND_OK]) ∧
    states (trace K (timeouts lv 2) t) =
      [INITIATOR_ACK_VERIFY, IDLE] := by
  obtain ⟨hs, rfl, hb, hy, rfl, rfl, rfl⟩ := h
  unfold acknowledges is_broadcast at ha
  by_cases hbc : t.cec_tx.msgt.buf.getD 0 0 &&& 0x0f = CEC_BROADCAST_ADDR
  · rw [if_pos hbc] at ha
    simp at hbc
    simp [tx_at, states, timeouts, List.range, List.range.loop, run, trace, deliver,
      cec_event_timeout, enter_state, enter_state_body, enter_state_program_eq, msgt_is_eom,
      gpio_get_level, send_mkbp_event, hs, hb, hy, ha, hbc]
  · rw [if_neg hbc] at ha
    simp at hbc
    simp [tx_at, states, timeouts, List.range, List.range.loop, run, trace, deliver,
      cec_event_timeout, enter_state, enter_state_body, enter_state_program_eq, msgt_is_eom,
      gpio_get_level, send_mkbp_event, hs, hb, hy, ha, hbc]

/-- A byte that is not acknowledged, with resends left: the resend counter is
incremented and the engine is back in Initiator.FreeTime. -/
theorem tx_nack_resend (K : ec_commands) (t : engine) (lv : Nat → Nat) (buf : List Nat)
    (k len r : Nat) (log : List Nat) (hr : r < CEC_MAX_RESENDS)
    (ha : ¬ acknowledges buf (lv 0))
    (h : tx_at t INITIATOR_ACK_HIGH buf 0 k len r log) :
    tx_at (run K (timeouts lv 2) t) INITIATOR_FREE_TIME buf 0 k len (r + 1) log ∧
    states (trace K (timeouts lv 2) t) =
      [INITIATOR_ACK_VERIFY, INITIATOR_FREE_TIME] := by
  obtain ⟨hs, rfl, hb, hy, rfl, rfl, rfl⟩ := h
  unfold acknowledges is_broadcast at ha
  have hr2 : (t.cec_tx.resends + 1) % 256 = t.cec_tx.resends + 1 :=
    Nat.mod_eq_of_lt (by unfold CEC_MAX_RESENDS at hr; omega)
  by_cases hbc : t.cec_tx.msgt.buf.getD 0 0 &&& 0x0f = CEC_BROADCAST_ADDR
  · rw [if_pos hbc] at ha
    simp at hbc ha
    simp [tx_at, states, timeouts, List.range, List.range.loop, run, trace, deliver,
      cec_event_timeout, enter_state, enter_state_body, enter_state_program_eq, msgt_is_eom,
      gpio_get_level, hs, hb, hy, ha, hbc, hr, hr2]
  · rw [if_neg hbc] at ha
    simp at hbc
    simp [tx_at, states, timeouts, List.range, List.range.loop, run, trace, deliver,
      cec_event_timeout, enter_state, enter_state_body, enter_state_program_eq, msgt_is_eom,
      gpio_get_level, hs, hb, hy, ha, hbc, hr, hr2]

/-- A byte that is not acknowledged, with no resend left: the send fails, the
frame is cleared and `EC_MKBP_CEC_SEND_FAILED` is posted. -/
theorem tx_nack_fail (K : ec_commands) (t : engine) (lv : Nat → Nat) (buf : List Nat)
    (k len r : Nat) (log : List Nat) (hr : ¬ r < CEC_MAX_RESENDS)
    (ha : ¬ acknowledges buf (lv 0))
    (h : tx_at t INITIATOR_ACK_HIGH buf 0 k len r log) :
    tx_at (run K (timeouts lv 2) t) IDLE buf 0 0 0 0 (log ++ [K.EC_MKBP_CEC_SEND_FAILED]) ∧
    states (trace K (timeouts lv 2) t) =
      [INITIATOR_ACK_VERIFY, IDLE] := by
  obtain ⟨hs, rfl, hb, hy, rfl, rfl, rfl⟩ := h
  unfold acknowledges is_broadcast at ha
  by_cases hbc : t.cec_tx.msgt.buf.getD 0 0 &&& 0x0f = CEC_BROADCAST_ADDR
  · rw [if_pos hbc] at ha
    simp at hbc ha
    simp [tx_at, states, timeouts, List.range, List.range.loop, run, trace, deliver,
      cec_event_timeout, enter_state, enter_state_body, enter_state_program_eq, msgt_is_eom,
      gpio_get_level, send_mkbp_event, hs, hb, hy, ha, hbc, hr]
  · rw [if_neg hbc] at ha
    simp at hbc
    simp [tx_at, states, timeouts, List.range, List.range.loop, run, trace, deliver,
      cec_event_timeout, enter_state, enter_state_body, enter_state_program_eq, msgt_is_eom,
      gpio_get_level, send_mkbp_event, hs, hb, hy, ha, hbc, hr]

/-- Chaining: a phase of `n` timeouts appended to a run of `i` timeouts. -/
theorem reach_step (K : ec_commands) (s : engine) (lv : Nat → Nat) (i n : Nat)
    (sts sts' : List cec_state) (st : cec_state) (buf : List Nat) (bit byte len r : Nat)
    (log : List Nat)
    (hs : states (trace K (timeouts lv i) s) = sts)
    (step : tx_at (run K (timeouts (fun j => lv (i + j)) n) (run K (timeouts lv i) s))
        st buf bit byte len r log ∧
      states (trace K (timeouts (fun j => lv (i + j)) n) (run K (timeouts lv i) s)) = sts') :
    tx_at (run K (timeouts lv (i + n)) s) st buf bit byte len r log ∧
    states (trace K (timeouts lv (i + n)) s) = sts ++ sts' := by
  rw [timeouts_add, run_append, trace_append, states_append, hs, step.2]
  exact ⟨step.1, rfl⟩

/-- Once idle with no frame queued, timeouts change nothing of the protocol. -/
theorem idle_stays (K : ec_commands) (t : engine) (lv : Nat → Nat) (n : Nat)
    (h : t.cec_state = IDLE) :
    (run K (timeouts lv n) t).cec_state = IDLE ∧
    (run K (timeouts lv n) t).cec_tx = t.cec_tx ∧
    (run K (timeouts lv n) t).mkbp_log = t.mkbp_log ∧
    states (trace K (timeouts lv n) t) = List.replicate n IDLE := by
  induction n with
  | zero => simp [timeouts, run, trace, states, h]
  | succ n ih =>
    obtain ⟨h1, h2, h3, h4⟩ := ih
    have e : timeouts lv (n + 1) = timeouts lv n ++ [cec_irq.timeout (lv n)] := by
      simp [timeouts, List.range_succ]
    rw [e, run_append, trace_append, states_append, h4]
    simp [run, trace, states, deliver, cec_event_timeout, h1, h2, h3, List.replicate_succ']

/-- One attempt up to the ACK sample: from Initiator.FreeTime, twenty-two
timeouts send the start bit and the header byte and reach Initiator.AckHigh. -/
theorem tx_attempt_to_sample (K : ec_commands) (s : engine) (lv : Nat → Nat) (i : Nat)
    (buf : List Nat) (bit byte len r : Nat) (log : List Nat) (sts : List cec_state)
    (hN : 1 ≤ K.MAX_CEC_MSG_LEN)
    (h : tx_at (run K (timeouts lv i) s) INITIATOR_FREE_TIME buf bit byte len r log)
    (hs : states (trace K (timeouts lv i) s) = sts) :
    tx_at (run K (timeouts lv (i + 3 + 16 + 3)) s) INITIATOR_ACK_HIGH buf 0 1 len r log ∧
    states (trace K (timeouts lv (i + 3 + 16 + 3)) s) =
      sts ++ [INITIATOR_START_LOW, INITIATOR_START_HIGH, INITIATOR_HEADER_INIT_LOW] ++
        [INITIATOR_HEADER_INIT_HIGH, INITIATOR_HEADER_INIT_LOW,
        INITIATOR_HEADER_INIT_HIGH, INITIATOR_HEADER_INIT_LOW,
        INITIATOR_HEADER_INIT_HIGH, INITIATOR_HEADER_INIT_LOW,
        INITIATOR_HEADER_INIT_HIGH, INITIATOR_HEADER_DEST_LOW,
        INITIATOR_HEADER_DEST_HIGH, INITIATOR_HEADER_DEST_LOW,
        INITIATOR_HEADER_DEST_HIGH, INITIATOR_HEADER_DEST_LOW,
        INITIATOR_HEADER_DEST_HIGH, INITIATOR_HEADER_DEST_LOW,
        INITIATOR_HEADER_DEST_HIGH, INITIATOR_EOM_LOW] ++
        [INITIATOR_EOM_HIGH, INITIATOR_ACK_LOW, INITIATOR_ACK_HIGH] := by
  have a := reach_step K s lv i 3 sts _ _ _ _ _ _ _ _ hs (tx_start K _ _ buf bit byte len r log h)
  have b := reach_step K s lv (i + 3) 16 _ _ _ _ _ _ _ _ _ a.2
    (tx_header K _ _ buf len r log hN a.1)
  exact reach_step K s lv (i + 3 + 16) 3 _ _ _ _ _ _ _ _ _ b.2 (tx_eom K _ _ buf 1 len r log b.1)

/-- One unacknowledged attempt with resends left: twenty-four timeouts lead
from Initiator.FreeTime back to it, with one more resend counted. -/
theorem tx_attempt_resend (K : ec_commands) (s : engine) (lv : Nat → Nat) (i : Nat)
    (buf : List Nat) (bit byte len r : Nat) (log : List Nat) (sts : List cec_state)
    (hN : 1 ≤ K.MAX_CEC_MSG_LEN) (hd : ¬ is_broadcast buf) (hr : r < CEC_MAX_RESENDS)
    (hhigh : ∀ j, (run K (timeouts lv j) s).cec_state = INITIATOR_ACK_HIGH → lv j ≠ 0)
    (h : tx_at (run K (timeouts lv i) s) INITIATOR_FREE_TIME buf bit byte len r log)
    (hs : states (trace K (timeouts lv i) s) = sts) :
    tx_at (run K (timeouts lv (i + 24)) s) INITIATOR_FREE_TIME buf 0 1 len (r + 1) log ∧
    states (trace K (timeouts lv (i + 24)) s) = sts ++ attempt_states INITIATOR_FREE_TIME := by
  have a := tx_attempt_to_sample K s lv i buf bit byte len r log sts hN h hs
  have hl : lv (i + 3 + 16 + 3) ≠ 0 := hhigh _ a.1.1
  have hna : ¬ acknowledges buf (lv (i + 3 + 16 + 3 + 0)) := by
    unfold acknowledges
    rw [if_neg hd]
    exact hl
  have b := reach_step K s lv (i + 3 + 16 + 3) 2 _ _ _ _ _ _ _ _ _ a.2
    (tx_nack_resend K _ _ buf 1 len r log hr hna a.1)
  have e : i + 3 + 16 + 3 + 2 = i + 24 := by omega
  rw [e] at b
  refine ⟨b.1, ?_⟩
  rw [b.2]
  simp [attempt_states]

/-- The unacknowledged attempt after the last resend: twenty-four timeouts lead
from Initiator.FreeTime to Idle, the frame cleared and the failure posted by
the last of them. -/
theorem tx_attempt_fail (K : ec_commands) (s : engine) (lv : Nat → Nat) (i : Nat)
    (buf : List Nat) (bit byte len r : Nat) (log : List Nat) (sts : List cec_state)
    (hN : 1 ≤ K.MAX_CEC_MSG_LEN) (hd : ¬ is_broadcast buf) (hr : ¬ r < CEC_MAX_RESENDS)
    (hhigh : ∀ j, (run K (timeouts lv j) s).cec_state = INITIATOR_ACK_HIGH → lv j ≠ 0)
    (h : tx_at (run K (timeouts lv i) s) INITIATOR_FREE_TIME buf bit byte len r log)
    (hs : states (trace K (timeouts lv i) s) = sts) :
    tx_at (run K (timeouts lv (i + 24)) s) IDLE buf 0 0 0 0
      (log ++ [K.EC_MKBP_CEC_SEND_FAILED]) ∧
    states (trace K (timeouts lv (i + 24)) s) = sts ++ attempt_states IDLE ∧
    (run K (timeouts lv (i + 22)) s).mkbp_log = log := by
  have a := tx_attempt_to_sample K s lv i buf bit byte len r log sts hN h hs
  have hl : lv (i + 3 + 16 + 3) ≠ 0 := hhigh _ a.1.1
  have hna : ¬ acknowledges buf (lv (i + 3 + 16 + 3 + 0)) := by
    unfold acknowledges
    rw [if_neg hd]
    exact hl
  have b := reach_step K s lv (i + 3 + 16 + 3) 2 _ _ _ _ _ _ _ _ _ a.2
    (tx_nack_fail K _ _ buf 1 len r log hr hna a.1)
  have e : i + 3 + 16 + 3 + 2 = i + 24 := by omega
  have e2 : i + 3 + 16 + 3 = i + 22 := by omega
  rw [e] at b
  refine ⟨b.1, ?_, ?_⟩
  · rw [b.2]
    simp [attempt_states]
  · rw [← e2]
    exact a.1.2.2.2.2.2.2

/-- The EOM and ACK of an acknowledged byte that is not the last, and the next
byte: twenty-one timeouts from one EOM low period to the next. -/
theorem tx_next_byte (K : ec_commands) (s : engine) (lv : Nat → Nat) (i : Nat)
    (buf : List Nat) (k len r : Nat) (log : List Nat)
    (hk : k < len) (h2 : len ≤ K.MAX_CEC_MSG_LEN) (hN : K.MAX_CEC_MSG_LEN ≤ 255)
    (hack : ∀ j, (run K (timeouts lv j) s).cec_state = INITIATOR_ACK_HIGH →
      acknowledges buf (lv j))
    (h : tx_at (run K (timeouts lv i) s) INITIATOR_EOM_LOW buf 0 k len r log) :
    tx_at (run K (timeouts lv (i + 21)) s) INITIATOR_EOM_LOW buf 0 (k + 1) len r log ∧
    states (trace K (timeouts lv (i + 21)) s) =
      states (trace K (timeouts lv i) s) ++
        [INITIATOR_EOM_HIGH, INITIATOR_ACK_LOW, INITIATOR_ACK_HIGH] ++
        [INITIATOR_ACK_VERIFY, INITIATOR_DATA_LOW] ++
        [INITIATOR_DATA_HIGH, INITIATOR_DATA_LOW, INITIATOR_DATA_HIGH, INITIATOR_DATA_LOW,
          INITIATOR_DATA_HIGH, INITIATOR_DATA_LOW, INITIATOR_DATA_HIGH, INITIATOR_DATA_LOW,
          INITIATOR_DATA_HIGH, INITIATOR_DATA_LOW, INITIATOR_DATA_HIGH, INITIATOR_DATA_LOW,
          INITIATOR_DATA_HIGH, INITIATOR_DATA_LOW, INITIATOR_DATA_HIGH,
          INITIATOR_EOM_LOW] := by
  have a := reach_step K s lv i 3 _ _ _ _ _ _ _ _ _ rfl (tx_eom K _ _ buf k len r log h)
  have ha : acknowledges buf (lv (i + 3 + 0)) := hack _ a.1.1
  have b := reach_step K s lv (i + 3) 2 _ _ _ _ _ _ _ _ _ a.2
    (tx_ack_more K _ _ buf k len r log (by omega) ha a.1)
  have c := reach_step K s lv (i + 3 + 2) 16 _ _ _ _ _ _ _ _ _ b.2
    (tx_data K _ _ buf k len r log (by omega) (by omega) b.1)
  have e : i + 3 + 2 + 16 = i + 21 := by omega
  rw [e] at c
  exact c

/-- After the start bit and `d + 1` acknowledged bytes the initiator is in the
EOM low period of byte `d`, having entered Initiator.StartLow once,
Initiator.EomLow `d + 1` times, the data-low states `8 * (d + 1)` times and
Initiator.FreeTime never. -/
theorem tx_bytes_sent (K : ec_commands) (s : engine) (lv : Nat → Nat)
    (buf : List Nat) (bit byte len r : Nat) (log : List Nat)
    (h : tx_at s INITIATOR_FREE_TIME buf bit byte len r log)
    (h2 : len ≤ K.MAX_CEC_MSG_LEN) (hN : K.MAX_CEC_MSG_LEN ≤ 255)
    (hack : ∀ j, (run K (timeouts lv j) s).cec_state = INITIATOR_ACK_HIGH →
      acknowledges buf (lv j))
    (d : Nat) (hd : d + 1 ≤ len) :
    tx_at (run K (timeouts lv (19 + 21 * d)) s) INITIATOR_EOM_LOW buf 0 (d + 1) len r log ∧
    (states (trace K (timeouts lv (19 + 21 * d)) s)).count INITIATOR_START_LOW = 1 ∧
    (states (trace K (timeouts lv (19 + 21 * d)) s)).count INITIATOR_EOM_LOW = d + 1 ∧
    (states (trace K (timeouts lv (19 + 21 * d)) s)).count INITIATOR_FREE_TIME = 0 ∧
    (states (trace K (timeouts lv (19 + 21 * d)) s)).count INITIATOR_HEADER_INIT_LOW +
      (states (trace K (timeouts lv (19 + 21 * d)) s)).count INITIATOR_HEADER_DEST_LOW +
      (states (trace K (timeouts lv (19 + 21 * d)) s)).count INITIATOR_DATA_LOW
        = 8 * (d + 1) := by
  induction d with
  | zero =>
    have a := reach_step K s lv 0 3 [] _ _ _ _ _ _ _ _ rfl
      (tx_start K _ _ buf bit byte len r log h)
    have b := reach_step K s lv (0 + 3) 16 _ _ _ _ _ _ _ _ _ a.2
      (tx_header K _ _ buf len r log (by omega) a.1)
    have hb : states (trace K (timeouts lv (19 + 21 * 0)) s) = _ := b.2
    refine ⟨b.1, ?_, ?_, ?_, ?_⟩ <;> rw [hb] <;> decide
  | succ d ih =>
    obtain ⟨i1, i2, i3, i4, i5⟩ := ih (by omega)
    have a := tx_next_byte K s lv (19 + 21 * d) buf (d + 1) len r log (by omega) h2 hN hack i1
    have e : 19 + 21 * d + 21 = 19 + 21 * (d + 1) := by omega
    rw [e] at a
    refine ⟨a.1, ?_, ?_, ?_, ?_⟩
    · rw [a.2]
      simp only [List.count_append, i2]
      rfl
    · rw [a.2]
      simp only [List.count_append, i3]
      rfl
    · rw [a.2]
      simp only [List.count_append, i4]
      rfl
    · rw [a.2]
      simp +decide only [List.count_append, List.count_cons, List.count_nil, if_true, if_false]
      omega

end initiator

/-- C2. Resend bound: a directed frame of 1 to MAX_CEC_MSG_LEN bytes admitted
into Initiator.FreeTime with no resend counted, whose every ACK sample reads
the line high, and only timeouts occurring: the engine enters
Initiator.StartLow exactly 6 times, however long one waits; nothing is posted
during the first 142 timeouts; the 144th timeout posts
`EC_MKBP_CEC_SEND_FAILED` and leaves the engine in Idle with `tx.len = 0` and
`resends = 0`; and any `cec_send` is then accepted (returns 0). -/
theorem resend_bound (K : ec_commands) (s : engine) (lv : Nat → Nat) (buf : List Nat)
    (bit byte len : Nat) (log : List Nat)
    (h : tx_at s INITIATOR_FREE_TIME buf bit byte len 0 log)
    (hd : ¬ is_broadcast buf) (h1 : 1 ≤ len) (h2 : len ≤ K.MAX_CEC_MSG_LEN)
    (hhigh : ∀ j, (run K (timeouts lv j) s).cec_state = INITIATOR_ACK_HIGH → lv j ≠ 0) :
    (∀ m, entries INITIATOR_START_LOW (trace K (timeouts lv (144 + m)) s) = 6) ∧
    (run K (timeouts lv 142) s).mkbp_log = log ∧
    tx_at (run K (timeouts lv 144) s) IDLE buf 0 0 0 0 (log ++ [K.EC_MKBP_CEC_SEND_FAILED]) ∧
    ∀ msg n, (cec_send msg n (run K (timeouts lv 144) s)).1 = 0 := by
  have hN : 1 ≤ K.MAX_CEC_MSG_LEN := by omega
  have s0 : states (trace K (timeouts lv 0) s) = [] := rfl
  have a1 := tx_attempt_resend K s lv 0 buf bit byte len 0 log _ hN hd (by decide) hhigh h s0
  have a2 := tx_attempt_resend K s lv _ buf _ _ len 1 log _ hN hd (by decide) hhigh a1.1 a1.2
  have a3 := tx_attempt_resend K s lv _ buf _ _ len 2 log _ hN hd (by decide) hhigh a2.1 a2.2
  have a4 := tx_attempt_resend K s lv _ buf _ _ len 3 log _ hN hd (by decide) hhigh a3.1 a3.2
  have a5 := tx_attempt_resend K s lv _ buf _ _ len 4 log _ hN hd (by decide) hhigh a4.1 a4.2
  have a6 := tx_attempt_fail K s lv _ buf _ _ len 5 log _ hN hd (by decide) hhigh a5.1 a5.2
  norm_num at a6
  obtain ⟨b1, b2, b3⟩ := a6
  refine ⟨?_, b3, b1, ?_⟩
  · intro m
    have c := idle_stays K (run K (timeouts lv 144) s) (fun j => lv (144 + j)) m b1.1
    have d : (attempt_states INITIATOR_FREE_TIME ++ (attempt_states INITIATOR_FREE_TIME ++
        (attempt_states INITIATOR_FREE_TIME ++ (attempt_states INITIATOR_FREE_TIME ++
        (attempt_states INITIATOR_FREE_TIME ++ attempt_states IDLE))))).count
          INITIATOR_START_LOW = 6 := by decide
    rw [entries_eq, timeouts_add, trace_append, states_append, b2, c.2.2.2, List.count_append, d,
      List.count_replicate]
    rfl
  · intro msg n
    simp [cec_send, b1.2.2.2.2.1]

/-- C2, for the frame [0x05, 0x82] with the line read high at every timeout. -/
theorem resend_bound_witness :
    tx_at (run example_constants (timeouts (fun _ => 1) 144) example_sending) IDLE
      ([5, 130] ++ List.replicate 14 0) 0 0 0 0 [131072] :=
  (resend_bound example_constants example_sending (fun _ => 1)
    ([5, 130] ++ List.replicate 14 0) 0 0 2 []
    ⟨rfl, rfl, rfl, rfl, rfl, rfl, rfl⟩ (by decide) (by decide) (by decide)
    (fun _ _ => Nat.one_ne_zero)).2.2.1

/-- C10, for the frame [0x05, 0x82] after its start bit. -/
theorem initiator_header_msb_first_witness :
    (trace example_constants (timeouts (fun _ => 1) 17)
      { example_sending with cec_state := INITIATOR_START_HIGH }).map line_view =
      [low_half INITIATOR_HEADER_INIT_LOW 100 (bit_of 5 7),
        high_half INITIATOR_HEADER_INIT_HIGH 100 (bit_of 5 7),
        low_half INITIATOR_HEADER_INIT_LOW 100 (bit_of 5 6),
        high_half INITIATOR_HEADER_INIT_HIGH 100 (bit_of 5 6),
        low_half INITIATOR_HEADER_INIT_LOW 100 (bit_of 5 5),
        high_half INITIATOR_HEADER_INIT_HIGH 100 (bit_of 5 5),
        low_half INITIATOR_HEADER_INIT_LOW 100 (bit_of 5 4),
        high_half INITIATOR_HEADER_INIT_HIGH 100 (bit_of 5 4),
        low_half INITIATOR_HEADER_DEST_LOW 100 (bit_of 5 3),
        high_half INITIATOR_HEADER_DEST_HIGH 100 (bit_of 5 3),
        low_half INITIATOR_HEADER_DEST_LOW 100 (bit_of 5 2),
        high_half INITIATOR_HEADER_DEST_HIGH 100 (bit_of 5 2),
        low_half INITIATOR_HEADER_DEST_LOW 100 (bit_of 5 1),
        high_half INITIATOR_HEADER_DEST_HIGH 100 (bit_of 5 1),
        low_half INITIATOR_HEADER_DEST_LOW 100 (bit_of 5 0),
        high_half INITIATOR_HEADER_DEST_HIGH 100 (bit_of 5 0),
        low_half INITIATOR_EOM_LOW 100 0] :=
  initiator_header_msb_first example_constants
    { example_sending with cec_state := INITIATOR_START_HIGH } (fun _ => 1)
    (by decide) rfl rfl rfl

section timing

/-- Below the largest divisor that `cec_init` computes no tick count wraps. -/
theorem ticks_eq (f t : Nat) (hf : f ≤ 429496) (ht : t ≤ 10000) :
    APB1_TICKS f t = t * f / 100 := by
  unfold APB1_TICKS u32_mul
  have h : t * f ≤ 10000 * 429496 := Nat.mul_le_mul ht hf
  rw [Nat.mod_eq_of_lt (by omega)]

theorem u32_add_eq (a b : Nat) (h : a + b < 4294967296) : u32_add a b = a + b := by
  unfold u32_add
  exact Nat.mod_eq_of_lt h

theorem u32_sub_eq (a b : Nat) (h : b ≤ a) (ha : a < 4294967296) : u32_sub a b = a - b := by
  unfold u32_sub
  omega

/-- The low windows in ticks, for a clock divisor that `cec_init` computes. -/
theorem valid_low_iff (f : Nat) (c : pulse_class) (t : Int) (hf : f ≤ 429496) :
    VALID_LOW f c t = true ↔
      match c with
      | .START_BIT => 34 * f ≤ int_to_u32 t ∧ int_to_u32 t ≤ 40 * f
      | .DATA_ZERO => 12 * f ≤ int_to_u32 t ∧ int_to_u32 t ≤ 18 * f
      | .DATA_ONE => 3 * f ≤ int_to_u32 t ∧ int_to_u32 t ≤ 9 * f := by
  have e1 : APB1_TICKS f 100 = f := by rw [ticks_eq f _ hf (by norm_num)]; omega
  have e35 : APB1_TICKS f 3500 = 35 * f := by rw [ticks_eq f _ hf (by norm_num)]; omega
  have e39 : APB1_TICKS f 3900 = 39 * f := by rw [ticks_eq f _ hf (by norm_num)]; omega
  have e13 : APB1_TICKS f 1300 = 13 * f := by rw [ticks_eq f _ hf (by norm_num)]; omega
  have e17 : APB1_TICKS f 1700 = 17 * f := by rw [ticks_eq f _ hf (by norm_num)]; omega
  have e4 : APB1_TICKS f 400 = 4 * f := by rw [ticks_eq f _ hf (by norm_num)]; omega
  have e8 : APB1_TICKS f 800 = 8 * f := by rw [ticks_eq f _ hf (by norm_num)]; omega
  unfold VALID_LOW
  simp only [Bool.and_eq_true, decide_eq_true_eq]
  cases c <;>
    simp only [MIN_LOW, MAX_LOW, VALID_TOLERANCE, START_BIT_MIN_LOW, START_BIT_MAX_LOW,
      DATA_ZERO_MIN_LOW, DATA_ZERO_MAX_LOW, DATA_ONE_MIN_LOW, DATA_ONE_MAX_LOW,
      e1, e35, e39, e13, e17, e4, e8] <;>
    rw [u32_sub_eq _ _ (by omega) (by omega), u32_add_eq _ _ (by omega)] <;>
    omega

/-- The total-duration windows in ticks, for a clock divisor that `cec_init`
computes. -/
theorem valid_high_iff (f : Nat) (c : pulse_class) (lo hi : Int) (hf : f ≤ 429496) :
    VALID_HIGH f c lo hi = true ↔
      match c with
      | .START_BIT => 42 * f ≤ int_to_u32 (lo + hi) ∧ int_to_u32 (lo + hi) ≤ 58 * f
      | .DATA_ZERO =>
        2050 * f / 100 - f ≤ int_to_u32 (lo + hi) ∧ int_to_u32 (lo + hi) ≤ 2750 * f / 100 + f
      | .DATA_ONE =>
        2050 * f / 100 - f ≤ int_to_u32 (lo + hi) ∧ int_to_u32 (lo + hi) ≤ 2750 * f / 100 + f := by
  have e1 : APB1_TICKS f 100 = f := by rw [ticks_eq f _ hf (by norm_num)]; omega
  have e43 : APB1_TICKS f 4300 = 43 * f := by rw [ticks_eq f _ hf (by norm_num)]; omega
  have e57 : APB1_TICKS f 5700 = 57 * f := by rw [ticks_eq f _ hf (by norm_num)]; omega
  have e20 : APB1_TICKS f 2050 = 2050 * f / 100 := ticks_eq f _ hf (by norm_num)
  have e27 : APB1_TICKS f 2750 = 2750 * f / 100 := ticks_eq f _ hf (by norm_num)
  unfold VALID_HIGH
  simp only [Bool.and_eq_true, decide_eq_true_eq]
  cases c <;>
    simp only [MIN_DURATION, MAX_DURATION, VALID_TOLERANCE, START_BIT_MIN_DURATION,
      START_BIT_MAX_DURATION, DATA_ZERO_MIN_DURATION, DATA_ZERO_MAX_DURATION,
      DATA_ONE_MIN_DURATION, DATA_ONE_MAX_DURATION, e1, e43, e57, e20, e27] <;>
    rw [u32_sub_eq _ _ (by omega) (by omega), u32_add_eq _ _ (by omega)] <;>
    omega

/-- The low window of a data one lies below the low window of a data zero. -/
theorem zero_one_disjoint (f : Nat) (t : Int) (h1 : 1 ≤ f) (h2 : f ≤ 429496)
    (h : VALID_LOW f .DATA_ONE t = true) : VALID_LOW f .DATA_ZERO t = false := by
  rw [valid_low_iff f _ t h2] at h
  rw [← Bool.not_eq_true, valid_low_iff f _ t h2]
  simp only at h ⊢
  omega

/-- The two data classes have the same total-duration window. -/
theorem valid_high_data (f : Nat) (d : Nat) (lo hi : Int) (hf : f ≤ 429496) :
    VALID_DATA_HIGH f d lo hi = VALID_HIGH f .DATA_ZERO lo hi := by
  unfold VALID_DATA_HIGH
  split
  · rw [Bool.eq_iff_iff, valid_high_iff f _ lo hi hf, valid_high_iff f _ lo hi hf]
  · rfl

end timing

section follower

/-- `msgt_set_bit` inside the buffer. -/
theorem msgt_set_bit_eq (K : ec_commands) (m : cec_msg_transfer) (v : Nat)
    (h : m.byte < K.MAX_CEC_MSG_LEN) :
    msgt_set_bit K m v =
      { m with buf := m.buf.set m.byte (set_bit_byte (m.buf.getD m.byte 0) m.bit v) } := by
  unfold msgt_set_bit set_bit_byte
  rw [if_neg (by omega)]

/-- Only the low eight bits of the old byte matter to `msgt_set_bit`. -/
theorem set_bit_byte_mod (v j d : Nat) : set_bit_byte v j d = set_bit_byte (v % 256) j d := by
  have hm : ∀ M, M < 256 → v &&& M = v % 256 &&& M := by
    intro M hM
    have h1 : M &&& 255 = M := Nat.and_pow_two_sub_one_of_lt_two_pow (n := 8) hM
    have h2 : v &&& 255 = v % 256 := Nat.and_pow_two_sub_one_eq_mod v 8
    calc v &&& M = v &&& (M &&& 255) := by rw [h1]
      _ = v &&& (255 &&& M) := by rw [Nat.and_comm M 255]
      _ = (v &&& 255) &&& M := by rw [Nat.and_assoc]
      _ = v % 256 &&& M := by rw [h2]
  have hx : 255 ^^^ (0x80 >>> j) % 256 < 256 :=
    Nat.xor_lt_two_pow (n := 8) (by norm_num) (Nat.mod_lt _ (by norm_num))
  unfold set_bit_byte
  simp only [hm _ hx]

set_option maxRecDepth 1000000 in
/-- One `msgt_set_bit` on a byte: the result is a byte whose top `j + 1` bits
are the top `j` bits of the old byte followed by the bit written. -/
theorem set_bit_byte_step (j : Nat) (hj : j < 8) :
    ∀ w, w < 256 →
      (set_bit_byte w j 0 < 256 ∧ set_bit_byte w j 0 / 2 ^ (7 - j) = 2 * (w / 2 ^ (8 - j))) ∧
      (set_bit_byte w j 1 < 256 ∧ set_bit_byte w j 1 / 2 ^ (7 - j) = 2 * (w / 2 ^ (8 - j)) + 1) ∧
      (set_bit_byte w j 0 &&& (0x80 >>> j) = 0) ∧ (set_bit_byte w j 1 &&& (0x80 >>> j) ≠ 0) := by
  interval_cases j <;> decide

/-- `msgt_set_bit` only tests whether the value is zero. -/
theorem set_bit_byte_nonzero (w j d : Nat) (hd : d ≠ 0) : set_bit_byte w j d = set_bit_byte w j 1 := by
  unfold set_bit_byte
  simp [hd]

/-- Writing the next bit of `b` extends the prefix of `b` held in the byte. -/
theorem prefix_step (j v b : Nat) (hj : j < 8) (h : prefix_ok j v b) :
    prefix_ok (j + 1) (set_bit_byte v j (bit_of b (7 - j))) b ∧
    set_bit_byte v j (bit_of b (7 - j)) < 256 := by
  have hs := set_bit_byte_step j hj (v % 256) (Nat.mod_lt _ (by norm_num))
  rw [set_bit_byte_mod]
  unfold prefix_ok at *
  unfold bit_of
  have e1 : 8 - (j + 1) = 7 - j := by omega
  rw [e1]
  have hp : 0 < 2 ^ (7 - j) := Nat.pow_pos (by norm_num)
  have e2 : 2 ^ (8 - j) = 2 ^ (7 - j) * 2 := by
    rw [← Nat.pow_succ]
    congr 1
    omega
  have e3 : b / 2 ^ (8 - j) = b / 2 ^ (7 - j) / 2 := by
    rw [e2, Nat.div_div_eq_div_mul]
  rw [e3] at h
  by_cases hb : b / 2 ^ (7 - j) % 2 = 0
  · rw [hb]
    obtain ⟨⟨h1, h2⟩, _⟩ := hs
    refine ⟨?_, h1⟩
    rw [Nat.mod_eq_of_lt h1, h2, h]
    omega
  · have hb1 : b / 2 ^ (7 - j) % 2 = 1 := by omega
    rw [hb1]
    obtain ⟨_, ⟨h1, h2⟩, _⟩ := hs
    refine ⟨?_, h1⟩
    rw [Nat.mod_eq_of_lt h1, h2, h]
    omega

/-- Reading back the bit just written. -/
theorem get_after_set (v j d : Nat) (hj : j < 8) :
    set_bit_byte v j d &&& (0x80 >>> j) ≠ 0 ↔ d ≠ 0 := by
  have hs := set_bit_byte_step j hj (v % 256) (Nat.mod_lt _ (by norm_num))
  rw [set_bit_byte_mod]
  by_cases hd : d = 0
  · subst hd
    simp [hs.2.2.1]
  · rw [set_bit_byte_nonzero _ _ _ hd]
    simp [hs.2.2.2, hd]

theorem rx_summary_nil (drv : Int) : rx_summary [] 0 drv := by
  simp [rx_summary, entries]

theorem rx_summary_append (a b : List engine) (n m : Nat) (drv : Int)
    (ha : rx_summary a n drv) (hb : rx_summary b m drv) : rx_summary (a ++ b) (n + m) drv := by
  unfold rx_summary entries at *
  obtain ⟨a1, a2, a3, a4⟩ := ha
  obtain ⟨b1, b2, b3, b4⟩ := hb
  refine ⟨?_, ?_, ?_, ?_⟩
  · rw [List.countP_append, a1, b1]
  · rw [List.countP_append, a2, b2]
  · rw [List.countP_append, a3, b3]
  · intro e he
    rcases List.mem_append.1 he with h | h
    · exact a4 e h
    · exact b4 e h

/-- One data bit at a follower: the rising edge records the bit and the falling
edge advances the cursor. -/
theorem rx_bit (K : ec_commands) (t : engine) (f : Nat) (buf0 : List Nat) (v j k d : Nat)
    (p : Int × Int) (drv : Int) (hf1 : 1 ≤ f) (hf2 : f ≤ 429496) (hj : j < 8)
    (hk : k < K.MAX_CEC_MSG_LEN) (hk2 : k < 255) (hlen : k < buf0.length)
    (hp : valid_pulse f (data_class d) p)
    (h : rx_at t f (rx_low_state k j) (buf0.set k v) j k 1) :
    rx_at (run K [.capture p.1, .capture p.2] t) f
      (if j = 7 then FOLLOWER_EOM_LOW else rx_low_state k (j + 1))
      (buf0.set k (set_bit_byte v j d)) (if j = 7 then 0 else j + 1)
      (if j = 7 then k + 1 else k) 1 ∧
    rx_summary (trace K [.capture p.1, .capture p.2] t) 0 drv := by
  obtain ⟨hs, hb, hbit, hbyte, hf, hg⟩ := h
  obtain ⟨hlo, hhi⟩ := hp
  have hN0 : ¬ K.MAX_CEC_MSG_LEN ≤ k := by omega
  have hk3 : (k + 1) % 256 = k + 1 := Nat.mod_eq_of_lt (by omega)
  have hh : VALID_HIGH f .DATA_ZERO p.1 p.2 = true := by
    rw [← valid_high_data f d _ _ hf2]
    unfold VALID_DATA_HIGH
    unfold data_class at hhi
    split <;> simp_all
  by_cases hd : d = 0
  · subst hd
    have hz : VALID_LOW f .DATA_ZERO p.1 = true := hlo
    by_cases hk0 : k = 0
    · subst hk0
      interval_cases j <;>
      simp [rx_at, rx_summary, entries, run, trace, deliver, cec_event_cap, tmr_cap_get,
        enter_state, enter_state_body, enter_state_program_eq, msgt_inc_bit, msgt_set_bit_eq,
        msgt_get_bit, rx_low_state, cec_state.value, cec_state.of_value,
        valid_high_data f _ _ _ hf2, hs, hb, hbit, hbyte, hf, hg, hN0, hz, hh, hlen, hk]
    · interval_cases j <;>
      simp [rx_at, rx_summary, entries, run, trace, deliver, cec_event_cap, tmr_cap_get,
        enter_state, enter_state_body, enter_state_program_eq, msgt_inc_bit, msgt_set_bit_eq,
        msgt_get_bit, rx_low_state, cec_state.value, cec_state.of_value,
        valid_high_data f _ _ _ hf2, hs, hb, hbit, hbyte, hf, hg, hN0, hz, hh, hlen, hk, hk0,
        hk3]
  · have ho : VALID_LOW f .DATA_ONE p.1 = true := by
      unfold data_class at hlo
      rw [if_pos hd] at hlo
      exact hlo
    have hz : VALID_LOW f .DATA_ZERO p.1 = false := zero_one_disjoint f _ hf1 hf2 ho
    rw [set_bit_byte_nonzero v j d hd]
    by_cases hk0 : k = 0
    · subst hk0
      interval_cases j <;>
      simp [rx_at, rx_summary, entries, run, trace, deliver, cec_event_cap, tmr_cap_get,
        enter_state, enter_state_body, enter_state_program_eq, msgt_inc_bit, msgt_set_bit_eq,
        msgt_get_bit, rx_low_state, cec_state.value, cec_state.of_value,
        valid_high_data f _ _ _ hf2, hs, hb, hbit, hbyte, hf, hg, hN0, hz, ho, hh, hlen, hk]
    · interval_cases j <;>
      simp [rx_at, rx_summary, entries, run, trace, deliver, cec_event_cap, tmr_cap_get,
        enter_state, enter_state_body, enter_state_program_eq, msgt_inc_bit, msgt_set_bit_eq,
        msgt_get_bit, rx_low_state, cec_state.value, cec_state.of_value,
        valid_high_data f _ _ _ hf2, hs, hb, hbit, hbyte, hf, hg, hN0, hz, ho, hh, hlen, hk,
        hk0, hk3]

/-- The bits of a byte from bit index `j` on: the follower ends in the low
period of the EOM bit with the byte stored. -/
theorem rx_bits (K : ec_commands) (f : Nat) (buf0 : List Nat) (k b : Nat)
    (bits : Nat → Int × Int) (drv : Int) (hf1 : 1 ≤ f) (hf2 : f ≤ 429496)
    (hk : k < K.MAX_CEC_MSG_LEN) (hk2 : k < 255) (hlen : k < buf0.length)
    (hbits : ∀ i, i < 8 → valid_pulse f (data_class (bit_of b (7 - i))) (bits i)) :
    ∀ c j v t, j + c = 8 → prefix_ok j v b → (1 ≤ j → v < 256) →
      rx_at t f (if j = 8 then FOLLOWER_EOM_LOW else rx_low_state k j) (buf0.set k v)
        (if j = 8 then 0 else j) (if j = 8 then k + 1 else k) 1 →
      rx_at (run K (bits_irqs bits j c) t) f FOLLOWER_EOM_LOW (buf0.set k b) 0 (k + 1) 1 ∧
      rx_summary (trace K (bits_irqs bits j c) t) 0 drv := by
  intro c
  induction c with
  | zero =>
    intro j v t hj hp hv h
    have hj8 : j = 8 := by omega
    subst hj8
    have hvb : v = b := by
      have := hv (by norm_num)
      unfold prefix_ok at hp
      omega
    subst hvb
    simp only [if_true] at h
    exact ⟨h, rx_summary_nil drv⟩
  | succ c ih =>
    intro j v t hj hp hv h
    have hj8 : j < 8 := by omega
    have hne : ¬ j = 8 := by omega
    simp only [if_neg hne] at h
    have a := rx_bit K t f buf0 v j k (bit_of b (7 - j)) (bits j) drv hf1 hf2 hj8 hk hk2 hlen
      (hbits j hj8) h
    have ps := prefix_step j v b hj8 hp
    have e7 : j = 7 ↔ j + 1 = 8 := by omega
    simp only [e7] at a
    have r := ih (j + 1) _ _ (by omega) ps.1 (fun _ => ps.2) a.1
    have e : bits_irqs bits j (c + 1) =
        [.capture (bits j).1, .capture (bits j).2] ++ bits_irqs bits (j + 1) c := rfl
    rw [e, run_append, trace_append]
    exact ⟨r.1, rx_summary_append _ _ 0 0 drv a.2 r.2⟩

set_option maxHeartbeats 2000000 in
/-- The EOM bit and the follower's ACK phases: addressed, the follower drives
the line low in Follower.AckLow and Follower.AckVerify and releases it in
Follower.AckFinish; otherwise it leaves the line released, and a broadcast
goes on when the line is sampled high. -/
theorem rx_eom_ack (K : ec_commands) (t : engine) (f : Nat) (buf : List Nat) (k e lv : Nat)
    (p : Int × Int) (hf1 : 1 ≤ f) (hf2 : f ≤ 429496)
    (hp : valid_pulse f (data_class e) p)
    (hnak : is_broadcast buf → lv ≠ 0)
    (h : rx_at t f FOLLOWER_EOM_LOW buf 0 k 1) :
    rx_at (run K [.capture p.1, .capture p.2, .timeout lv, .timeout lv] t) f
      FOLLOWER_ACK_FINISH buf 0 k 1 ∧
    (run K [.capture p.1, .capture p.2, .timeout lv, .timeout lv] t).cec_rx.eom =
      (if e ≠ 0 then 1 else 0) ∧
    rx_summary (trace K [.capture p.1, .capture p.2, .timeout lv, .timeout lv] t) 1
      (ack_drive (buf.getD 0 0)) := by
  obtain ⟨hs, hb, hbit, hbyte, hf, hg⟩ := h
  obtain ⟨hlo, hhi⟩ := hp
  have hh : VALID_HIGH f .DATA_ZERO p.1 p.2 = true := by
    rw [← valid_high_data f e _ _ hf2]
    unfold VALID_DATA_HIGH
    unfold data_class at hhi
    split <;> simp_all
  unfold is_broadcast at hnak
  unfold ack_drive
  simp only [List.getD_eq_getElem?_getD] at hnak ⊢
  have hbc : ¬ cec_addr = CEC_BROADCAST_ADDR := by decide
  have hbc2 : ¬ CEC_BROADCAST_ADDR = cec_addr := by decide
  have hzo : VALID_LOW f .DATA_ZERO p.1 = true ∧ e = 0 ∨
      VALID_LOW f .DATA_ZERO p.1 = false ∧ VALID_LOW f .DATA_ONE p.1 = true ∧ e ≠ 0 := by
    by_cases hd : e = 0
    · subst hd
      exact Or.inl ⟨hlo, rfl⟩
    · have ho : VALID_LOW f .DATA_ONE p.1 = true := by
        unfold data_class at hlo
        rw [if_pos hd] at hlo
        exact hlo
      exact Or.inr ⟨zero_one_disjoint f _ hf1 hf2 ho, ho, hd⟩
  by_cases ha : buf[0]?.getD 0 &&& 0x0f = cec_addr
  · have hbr : ¬ buf[0]?.getD 0 &&& 0x0f = CEC_BROADCAST_ADDR := by
      rw [ha]
      exact hbc
    rcases hzo with ⟨hz, hd⟩ | ⟨hz, ho, hd⟩
    · by_cases hN : K.MAX_CEC_MSG_LEN ≤ k <;>
      simp [rx_at, rx_summary, entries, run, trace, deliver, cec_event_cap, cec_event_timeout,
        tmr_cap_get, gpio_get_level, enter_state, enter_state_body, enter_state_program_eq,
        valid_high_data f _ _ _ hf2, hs, hb, hbit, hbyte, hf, hg, hz, hh, ha, hbr, hN, hd, hbc]
    · by_cases hN : K.MAX_CEC_MSG_LEN ≤ k <;>
      simp [rx_at, rx_summary, entries, run, trace, deliver, cec_event_cap, cec_event_timeout,
        tmr_cap_get, gpio_get_level, enter_state, enter_state_body, enter_state_program_eq,
        valid_high_data f _ _ _ hf2, hs, hb, hbit, hbyte, hf, hg, hz, ho, hh, ha, hbr, hN, hd, hbc]
  · by_cases hbr : buf[0]?.getD 0 &&& 0x0f = CEC_BROADCAST_ADDR
    · have hl := hnak hbr
      rcases hzo with ⟨hz, hd⟩ | ⟨hz, ho, hd⟩
      · by_cases hN : K.MAX_CEC_MSG_LEN ≤ k <;>
        simp [rx_at, rx_summary, entries, run, trace, deliver, cec_event_cap, cec_event_timeout,
          tmr_cap_get, gpio_get_level, enter_state, enter_state_body, enter_state_program_eq,
          valid_high_data f _ _ _ hf2, hs, hb, hbit, hbyte, hf, hg, hz, hh, ha, hbr, hN, hd, hl, hbc2]
      · by_cases hN : K.MAX_CEC_MSG_LEN ≤ k <;>
        simp [rx_at, rx_summary, entries, run, trace, deliver, cec_event_cap, cec_event_timeout,
          tmr_cap_get, gpio_get_level, enter_state, enter_state_body, enter_state_program_eq,
          valid_high_data f _ _ _ hf2, hs, hb, hbit, hbyte, hf, hg, hz, ho, hh, ha, hbr, hN, hd, hl, hbc2]
    · rcases hzo with ⟨hz, hd⟩ | ⟨hz, ho, hd⟩
      · by_cases hN : K.MAX_CEC_MSG_LEN ≤ k <;>
        simp [rx_at, rx_summary, entries, run, trace, deliver, cec_event_cap, cec_event_timeout,
          tmr_cap_get, gpio_get_level, enter_state, enter_state_body, enter_state_program_eq,
          valid_high_data f _ _ _ hf2, hs, hb, hbit, hbyte, hf, hg, hz, hh, ha, hbr, hN, hd]
      · by_cases hN : K.MAX_CEC_MSG_LEN ≤ k <;>
        simp [rx_at, rx_summary, entries, run, trace, deliver, cec_event_cap, cec_event_timeout,
          tmr_cap_get, gpio_get_level, enter_state, enter_state_body, enter_state_program_eq,
          valid_high_data f _ _ _ hf2, hs, hb, hbit, hbyte, hf, hg, hz, ho, hh, ha, hbr, hN, hd]

theorem list_set_getD_self (l : List Nat) (k : Nat) : l.set k (l.getD k 0) = l := by
  induction l generalizing k with
  | nil => rfl
  | cons a l ih =>
    cases k with
    | zero => rfl
    | succ k =>
      have := ih k
      simp only [List.getD_eq_getElem?_getD] at this
      simp [this]

theorem list_set_append_length (pre suf : List Nat) (a v : Nat) :
    (pre ++ a :: suf).set pre.length v = pre ++ [v] ++ suf := by
  induction pre with
  | nil => rfl
  | cons b pre ih => simp [ih]

/-- One byte at a follower: the eight bits are stored, the EOM bit is recorded
and the ACK phases are gone through. -/
theorem rx_byte_block (K : ec_commands) (t : engine) (f : Nat) (buf : List Nat) (k : Nat)
    (x : rx_byte) (hf1 : 1 ≤ f) (hf2 : f ≤ 429496)
    (hk : k < K.MAX_CEC_MSG_LEN) (hk2 : k < 255) (hlen : k < buf.length)
    (hw : well_timed f x)
    (hnak : is_broadcast (buf.set k x.value) → x.level ≠ 0)
    (h : rx_at t f (rx_low_state k 0) buf 0 k 1) :
    rx_at (run K (byte_irqs x) t) f FOLLOWER_ACK_FINISH (buf.set k x.value) 0 (k + 1) 1 ∧
    (run K (byte_irqs x) t).cec_rx.eom = (if x.eom_value ≠ 0 then 1 else 0) ∧
    rx_summary (trace K (byte_irqs x) t) 1 (ack_drive ((buf.set k x.value).getD 0 0)) := by
  obtain ⟨hv, hbits, heom⟩ := hw
  have h0 : rx_at t f (if 0 = 8 then FOLLOWER_EOM_LOW else rx_low_state k 0)
      (buf.set k (buf.getD k 0)) (if 0 = 8 then 0 else 0) (if 0 = 8 then k + 1 else k) 1 := by
    rw [list_set_getD_self]
    simpa using h
  have hp0 : prefix_ok 0 (buf.getD k 0) x.value := by
    unfold prefix_ok
    omega
  have a := rx_bits K f buf k x.value x.bits (ack_drive ((buf.set k x.value).getD 0 0))
    hf1 hf2 hk hk2 hlen hbits 8 0 (buf.getD k 0) t rfl hp0 (by omega) h0
  have b := rx_eom_ack K _ f _ (k + 1) x.eom_value x.level x.eom hf1 hf2 heom hnak a.1
  unfold byte_irqs
  rw [run_append, trace_append]
  exact ⟨b.1, b.2.1, rx_summary_append _ _ 0 1 _ a.2 b.2.2⟩

/-- The falling edge that ends the ACK bit starts the next byte. -/
theorem rx_next (K : ec_commands) (t : engine) (f : Nat) (buf : List Nat) (k : Nat)
    (drv : Int) (h : rx_at t f FOLLOWER_ACK_FINISH buf 0 k 1) :
    rx_at (run K [.capture 0] t) f FOLLOWER_DATA_LOW buf 0 k 1 ∧
    (run K [.capture 0] t).cec_rx.eom = t.cec_rx.eom ∧
    rx_summary (trace K [.capture 0] t) 0 drv := by
  obtain ⟨hs, hb, hbit, hbyte, hf, hg⟩ := h
  simp [rx_at, rx_summary, entries, run, trace, deliver, cec_event_cap, enter_state,
    enter_state_body, enter_state_program_eq, hs, hb, hbit, hbyte, hf, hg]

/-- The start bit at an idle follower. -/
theorem rx_start (K : ec_commands) (t : engine) (f : Nat) (buf : List Nat)
    (p : Int × Int) (drv : Int) (hp : valid_pulse f .START_BIT p)
    (h : rx_at t f IDLE buf 0 0 1) :
    rx_at (run K [.capture 0, .capture p.1, .capture p.2] t) f FOLLOWER_HEADER_INIT_LOW
      buf 0 0 1 ∧
    (run K [.capture 0, .capture p.1, .capture p.2] t).cec_rx.eom = t.cec_rx.eom ∧
    rx_summary (trace K [.capture 0, .capture p.1, .capture p.2] t) 0 drv := by
  obtain ⟨hs, hb, hbit, hbyte, hf, hg⟩ := h
  obtain ⟨hlo, hhi⟩ := hp
  simp [rx_at, rx_summary, entries, run, trace, deliver, cec_event_cap, tmr_cap_get,
    enter_state, enter_state_body, enter_state_program_eq, hs, hb, hbit, hbyte, hf, hg, hlo,
    hhi]

/-- The bytes after the first at a follower: each is stored behind the
previous ones and its ACK phases are gone through. -/
theorem rx_rest (K : ec_commands) (f : Nat) (hf1 : 1 ≤ f) (hf2 : f ≤ 429496)
    (hN : K.MAX_CEC_MSG_LEN ≤ 255) :
    ∀ (xs : List rx_byte) (pre suf : List Nat) (t : engine),
      (pre ++ suf).length = K.MAX_CEC_MSG_LEN → xs.length ≤ suf.length →
      (∀ y ∈ xs, well_timed f y) → 1 ≤ pre.length →
      (∀ y ∈ xs, is_broadcast pre → y.level ≠ 0) →
      rx_at t f FOLLOWER_ACK_FINISH (pre ++ suf) 0 pre.length 1 →
      rx_at (run K (rest_irqs xs) t) f FOLLOWER_ACK_FINISH
        (pre ++ xs.map (fun y => y.value) ++ suf.drop xs.length) 0 (pre.length + xs.length) 1 ∧
      (run K (rest_irqs xs) t).cec_rx.eom = last_eom t.cec_rx.eom xs ∧
      rx_summary (trace K (rest_irqs xs) t) xs.length (ack_drive (pre.getD 0 0)) := by
  intro xs
  induction xs with
  | nil =>
    intro pre suf t _ _ _ _ _ h
    simpa [rest_irqs, run, trace, rx_summary_nil, last_eom] using h
  | cons x xs ih =>
    intro pre suf t hl hs hw hp hnak h
    cases suf with
    | nil => simp at hs
    | cons a suf =>
      have hk : pre.length < K.MAX_CEC_MSG_LEN := by
        rw [← hl, List.length_append, List.length_cons]
        omega
      have n1 := rx_next K t f _ _ (ack_drive (pre.getD 0 0)) h
      have hst : rx_low_state pre.length 0 = FOLLOWER_DATA_LOW := by
        unfold rx_low_state
        rw [if_neg (by omega)]
      rw [← hst] at n1
      have hset : (pre ++ a :: suf).set pre.length x.value = pre ++ [x.value] ++ suf :=
        list_set_append_length pre suf a x.value
      have hpre0 : (pre ++ [x.value] ++ suf).getD 0 0 = pre.getD 0 0 := by
        cases pre with
        | nil => simp at hp
        | cons b pre => rfl
      have hpre1 : (pre ++ [x.value]).getD 0 0 = pre.getD 0 0 := by
        cases pre with
        | nil => simp at hp
        | cons b pre => rfl
      have hbr : ∀ l : List Nat, l.getD 0 0 = pre.getD 0 0 → is_broadcast l → is_broadcast pre := by
        intro l hl0 hb
        unfold is_broadcast at *
        rw [← hl0]
        exact hb
      have b := rx_byte_block K _ f (pre ++ a :: suf) pre.length x hf1 hf2 hk (by omega)
        (by rw [List.length_append, List.length_cons]; omega) (hw x (List.mem_cons_self _ _))
        (by
          rw [hset]
          intro hb
          exact hnak x (List.mem_cons_self _ _) (hbr _ hpre0 hb))
        n1.1
      rw [hset, hpre0] at b
      have hpl : (pre ++ [x.value]).length = pre.length + 1 := by simp
      rw [← hpl] at b
      have r := ih (pre ++ [x.value]) suf _
        (by rw [← hl]; simp)
        (by simpa using hs)
        (fun y hy => hw y (List.mem_cons_of_mem _ hy))
        (by rw [hpl]; omega)
        (fun y hy hb => hnak y (List.mem_cons_of_mem _ hy) (hbr _ hpre1 hb))
        b.1
      rw [hpre1] at r
      have e : rest_irqs (x :: xs) = [.capture 0] ++ (byte_irqs x ++ rest_irqs xs) := rfl
      rw [e, run_append, run_append, trace_append, trace_append]
      refine ⟨?_, ?_, ?_⟩
      · have r1 := r.1
        rw [hpl] at r1
        simpa [Nat.add_assoc, Nat.add_comm 1] using r1
      · rw [r.2.1, b.2.1]
        rfl
      · have := rx_summary_append _ _ 0 (1 + xs.length) _ n1.2.2
          (rx_summary_append _ _ 1 xs.length _ b.2.2 r.2.2)
        simpa [Nat.add_comm] using this

theorem last_eom_at_end (xs : List rx_byte) (e0 : Nat) (h : eom_at_end xs) (hne : xs ≠ []) :
    last_eom e0 xs = 1 := by
  induction xs generalizing e0 with
  | nil => exact absurd rfl hne
  | cons x xs ih =>
    cases xs with
    | nil =>
      have hx : x.eom_value ≠ 0 := h
      simp [last_eom, hx]
    | cons y r =>
      have h2 : eom_at_end (y :: r) := h.2
      show last_eom (if x.eom_value ≠ 0 then 1 else 0) (y :: r) = 1
      exact ih _ h2 (List.cons_ne_nil _ _)

/-- A whole frame at an idle follower. -/
theorem rx_frame (K : ec_commands) (s : engine) (f : Nat) (buf : List Nat)
    (start : Int × Int) (x : rx_byte) (xs : List rx_byte)
    (hf1 : 1 ≤ f) (hf2 : f ≤ 429496) (hN : K.MAX_CEC_MSG_LEN ≤ 255)
    (hbuf : buf.length = K.MAX_CEC_MSG_LEN) (hlen : xs.length + 1 ≤ K.MAX_CEC_MSG_LEN)
    (hstart : valid_pulse f .START_BIT start) (hw : ∀ y ∈ x :: xs, well_timed f y)
    (hnak : ∀ y ∈ x :: xs, is_broadcast [x.value] → y.level ≠ 0)
    (h : rx_at s f IDLE buf 0 0 1) :
    rx_at (run K (frame_irqs start (x :: xs)) s) f FOLLOWER_ACK_FINISH
      ((x :: xs).map (fun y => y.value) ++ buf.drop (xs.length + 1)) 0 (xs.length + 1) 1 ∧
    (run K (frame_irqs start (x :: xs)) s).cec_rx.eom = last_eom s.cec_rx.eom (x :: xs) ∧
    rx_summary (trace K (frame_irqs start (x :: xs)) s) (xs.length + 1)
      (ack_drive x.value) := by
  cases buf with
  | nil => simp at hbuf; omega
  | cons a buf =>
    have a1 := rx_start K s f _ start (ack_drive x.value) hstart h
    have hst : rx_low_state 0 0 = FOLLOWER_HEADER_INIT_LOW := rfl
    rw [← hst] at a1
    have hset : (a :: buf).set 0 x.value = [x.value] ++ buf := rfl
    have hbr : is_broadcast ([x.value] ++ buf) → is_broadcast [x.value] := fun hb => hb
    have b := rx_byte_block K _ f (a :: buf) 0 x hf1 hf2 (by omega) (by omega)
      (by simp) (hw x (List.mem_cons_self _ _))
      (by rw [hset]; exact fun hb => hnak x (List.mem_cons_self _ _) (hbr hb)) a1.1
    rw [hset] at b
    have r := rx_rest K f hf1 hf2 hN xs [x.value] buf _
      (by rw [← hbuf]; rfl) (by simp at hbuf; omega)
      (fun y hy => hw y (List.mem_cons_of_mem _ hy)) (by simp)
      (fun y hy hb => hnak y (List.mem_cons_of_mem _ hy) hb) b.1
    have e : frame_irqs start (x :: xs) =
        [.capture 0, .capture start.1, .capture start.2] ++ (byte_irqs x ++ rest_irqs xs) := rfl
    rw [e, run_append, run_append, trace_append, trace_append]
    refine ⟨?_, ?_, ?_⟩
    · simpa [Nat.add_comm] using r.1
    · rw [r.2.1, b.2.1]
      rfl
    · have h1 : ack_drive (([x.value] ++ buf).getD 0 0) = ack_drive x.value := rfl
      have h2 : ack_drive ([x.value].getD 0 0) = ack_drive x.value := rfl
      have b2 := b.2.2
      have r2 := r.2.2
      rw [h1] at b2
      rw [h2] at r2
      have := rx_summary_append _ _ 0 (1 + xs.length) _ a1.2.2
        (rx_summary_append _ _ 1 xs.length _ b2 r2)
      simpa [Nat.add_comm] using this

end follower

section round_trip

theorem enter_state_f (K : ec_commands) (st : cec_state) (s : engine) :
    (enter_state K st s).apb1_freq_div_10k = s.apb1_freq_div_10k := by
  cases st <;> simp [enter_state, enter_state_body, enter_state_program_eq] <;>
    (repeat' split) <;> simp [enter_state_body, enter_state_program_eq]

theorem deliver_f (K : ec_commands) (e : cec_irq) (s : engine) :
    (deliver K e s).apb1_freq_div_10k = s.apb1_freq_div_10k := by
  cases e with
  | capture t =>
    simp only [deliver, cec_event_cap]
    repeat' split
    all_goals simp [enter_state_f]
  | timeout lv =>
    simp only [deliver, cec_event_timeout]
    repeat' split
    all_goals simp [enter_state_f, send_mkbp_event]
  | transmit =>
    simp only [deliver, cec_event_tx]
    split <;> simp [enter_state_f, tmr2_stop]

theorem run_f (K : ec_commands) (es : List cec_irq) (s : engine) :
    (run K es s).apb1_freq_div_10k = s.apb1_freq_div_10k := by
  induction es generalizing s with
  | nil => rfl
  | cons e es ih =>
    show (run K es (deliver K e s)).apb1_freq_div_10k = _
    rw [ih, deliver_f]

section views

/-- The engine after `j + 1` of the `n` timeouts is the `j`-th of the trace. -/
theorem trace_timeouts (K : ec_commands) (lv : Nat → Nat) (n : Nat) (s : engine) :
    trace K (timeouts lv n) s =
      (List.range n).map (fun j => run K (timeouts lv (j + 1)) s) := by
  induction n with
  | zero => rfl
  | succ n ih =>
    have e : timeouts lv (n + 1) = timeouts lv n ++ [cec_irq.timeout (lv n)] := by
      simp [timeouts, List.range_succ]
    rw [e, trace_append, ih, List.range_succ, List.map_append]
    congr 1
    show [deliver K (cec_irq.timeout (lv n)) (run K (timeouts lv n) s)] =
      [run K (timeouts lv (n + 1)) s]
    rw [e, run_append]
    rfl

/-- Reading one engine of a phase off the view of the phase. -/
theorem view_at (K : ec_commands) (s : engine) (lv : Nat → Nat) (a n j : Nat)
    (L : List (cec_state × Int × Int)) (hj : j < n)
    (h : (trace K (timeouts (fun i => lv (a + i)) n) (run K (timeouts lv a) s)).map line_view
      = L) :
    L[j]? = some (line_view (run K (timeouts lv (a + (j + 1))) s)) := by
  rw [← h, trace_timeouts, List.map_map, List.getElem?_map, List.getElem?_range hj]
  simp only [Option.map_some', Function.comp]
  rw [timeouts_add lv a (j + 1), run_append]

end views

section tx_views

/-- A non-negative timeout is programmed as it is, with or without capture. -/
theorem timeout_or_zero (n : Nat) : (if 0 < n then (n : Int) else 0) = (n : Int) := by
  split
  · rfl
  · have : n = 0 := by omega
    subst this
    rfl

/-- The start bit as the line shows it, and the first low period of the
header. -/
theorem tx_start_view (K : ec_commands) (t : engine) (lv : Nat → Nat) (f : Nat)
    (buf : List Nat) (bit byte len r : Nat) (log : List Nat)
    (hN : 1 ≤ K.MAX_CEC_MSG_LEN) (hf : t.apb1_freq_div_10k = f)
    (h : tx_at t INITIATOR_FREE_TIME buf bit byte len r log) :
    (trace K (timeouts lv 3) t).map line_view =
      [(INITIATOR_START_LOW, 0, Int.ofNat (START_BIT_LOW f)),
        (INITIATOR_START_HIGH, 1, Int.ofNat (START_BIT_HIGH f)),
        low_half INITIATOR_HEADER_INIT_LOW f (bit_of (buf.getD 0 0) 7)] := by
  obtain ⟨hs, rfl, rfl, rfl, rfl, rfl, rfl⟩ := h
  have hN0 : ¬ K.MAX_CEC_MSG_LEN ≤ 0 := by omega
  have hN1 : K.MAX_CEC_MSG_LEN ≠ 0 := by omega
  have e7 := DATA_LOW_and f (t.cec_tx.msgt.buf.getD 0 0) 7
  norm_num at e7
  have u1 : u32_to_int (START_BIT_LOW f) = (START_BIT_LOW f : Nat) := u32_to_int_APB1_TICKS f _
  have u2 : u32_to_int (START_BIT_HIGH f) = (START_BIT_HIGH f : Nat) := u32_to_int_APB1_TICKS f _
  simp [timeouts, List.range, List.range.loop, trace, deliver, line_view, low_half, high_half,
    cec_event_timeout, enter_state, enter_state_body, enter_state_program_eq, program_mft,
    msgt_get_bit, hs, hf, hN0, hN1, CAP_EDGE_FALLING, CAP_EDGE_RISING, u1, u2, e7,
    timeout_or_zero]

set_option maxRecDepth 100000 in
set_option maxHeartbeats 4000000 in
/-- The header byte as the line shows it, from the high period of its first bit
to the low period of its EOM bit. -/
theorem tx_header_view (K : ec_commands) (t : engine) (lv : Nat → Nat) (f : Nat)
    (buf : List Nat) (len r : Nat) (log : List Nat)
    (hN : 1 ≤ K.MAX_CEC_MSG_LEN) (hf : t.apb1_freq_div_10k = f)
    (h : tx_at t INITIATOR_HEADER_INIT_LOW buf 0 0 len r log) :
    (trace K (timeouts lv 16) t).map line_view =
      [high_half INITIATOR_HEADER_INIT_HIGH f (bit_of (buf.getD 0 0) 7),
        low_half INITIATOR_HEADER_INIT_LOW f (bit_of (buf.getD 0 0) 6),
        high_half INITIATOR_HEADER_INIT_HIGH f (bit_of (buf.getD 0 0) 6),
        low_half INITIATOR_HEADER_INIT_LOW f (bit_of (buf.getD 0 0) 5),
        high_half INITIATOR_HEADER_INIT_HIGH f (bit_of (buf.getD 0 0) 5),
        low_half INITIATOR_HEADER_INIT_LOW f (bit_of (buf.getD 0 0) 4),
        high_half INITIATOR_HEADER_INIT_HIGH f (bit_of (buf.getD 0 0) 4),
        low_half INITIATOR_HEADER_DEST_LOW f (bit_of (buf.getD 0 0) 3),
        high_half INITIATOR_HEADER_DEST_HIGH f (bit_of (buf.getD 0 0) 3),
        low_half INITIATOR_HEADER_DEST_LOW f (bit_of (buf.getD 0 0) 2),
        high_half INITIATOR_HEADER_DEST_HIGH f (bit_of (buf.getD 0 0) 2),
        low_half INITIATOR_HEADER_DEST_LOW f (bit_of (buf.getD 0 0) 1),
        high_half INITIATOR_HEADER_DEST_HIGH f (bit_of (buf.getD 0 0) 1),
        low_half INITIATOR_HEADER_DEST_LOW f (bit_of (buf.getD 0 0) 0),
        high_half INITIATOR_HEADER_DEST_HIGH f (bit_of (buf.getD 0 0) 0),
        low_half INITIATOR_EOM_LOW f (if len = 1 then 1 else 0)] := by
  obtain ⟨hs, rfl, hb, hy, rfl, rfl, rfl⟩ := h
  have hN0 : ¬ K.MAX_CEC_MSG_LEN ≤ 0 := by omega
  have hN1 : K.MAX_CEC_MSG_LEN ≠ 0 := by omega
  have hlen : (1 = t.cec_tx.len) ↔ (t.cec_tx.len = 1) := eq_comm
  have e0 := DATA_LOW_and f (t.cec_tx.msgt.buf.getD 0 0) 0
  have g0 := DATA_HIGH_and f (t.cec_tx.msgt.buf.getD 0 0) 0
  have e1 := DATA_LOW_and f (t.cec_tx.msgt.buf.getD 0 0) 1
  have g1 := DATA_HIGH_and f (t.cec_tx.msgt.buf.getD 0 0) 1
  have e2 := DATA_LOW_and f (t.cec_tx.msgt.buf.getD 0 0) 2
  have g2 := DATA_HIGH_and f (t.cec_tx.msgt.buf.getD 0 0) 2
  have e3 := DATA_LOW_and f (t.cec_tx.msgt.buf.getD 0 0) 3
  have g3 := DATA_HIGH_and f (t.cec_tx.msgt.buf.getD 0 0) 3
  have e4 := DATA_LOW_and f (t.cec_tx.msgt.buf.getD 0 0) 4
  have g4 := DATA_HIGH_and f (t.cec_tx.msgt.buf.getD 0 0) 4
  have e5 := DATA_LOW_and f (t.cec_tx.msgt.buf.getD 0 0) 5
  have g5 := DATA_HIGH_and f (t.cec_tx.msgt.buf.getD 0 0) 5
  have e6 := DATA_LOW_and f (t.cec_tx.msgt.buf.getD 0 0) 6
  have g6 := DATA_HIGH_and f (t.cec_tx.msgt.buf.getD 0 0) 6
  have e7 := DATA_LOW_and f (t.cec_tx.msgt.buf.getD 0 0) 7
  have g7 := DATA_HIGH_and f (t.cec_tx.msgt.buf.getD 0 0) 7
  norm_num at e7 e6 e5 e4 e3 e2 e1 e0 g7 g6 g5 g4 g3 g2 g1 g0
  simp [timeouts, List.range, List.range.loop, trace, deliver, line_view, low_half, high_half,
    cec_event_timeout, enter_state, enter_state_body, enter_state_program_eq, program_mft,
    msgt_inc_bit, msgt_get_bit, msgt_is_eom, hs, hb, hy, hf, hN0, hN1, hlen, CAP_EDGE_FALLING,
    CAP_EDGE_RISING, e7, e6, e5, e4, e3, e2, e1, e0, g7, g6, g5, g4, g3, g2, g1, g0, timeout_or_zero]

set_option maxRecDepth 100000 in
set_option maxHeartbeats 4000000 in
/-- A data byte as the line shows it, from the high period of its first bit to
the low period of its EOM bit. -/
theorem tx_data_view (K : ec_commands) (t : engine) (lv : Nat → Nat) (f : Nat)
    (buf : List Nat) (k len r : Nat) (log : List Nat)
    (hk : k < K.MAX_CEC_MSG_LEN) (hk2 : k < 255) (hf : t.apb1_freq_div_10k = f)
    (h : tx_at t INITIATOR_DATA_LOW buf 0 k len r log) :
    (trace K (timeouts lv 16) t).map line_view =
      [high_half INITIATOR_DATA_HIGH f (bit_of (buf.getD k 0) 7),
        low_half INITIATOR_DATA_LOW f (bit_of (buf.getD k 0) 6),
        high_half INITIATOR_DATA_HIGH f (bit_of (buf.getD k 0) 6),
        low_half INITIATOR_DATA_LOW f (bit_of (buf.getD k 0) 5),
        high_half INITIATOR_DATA_HIGH f (bit_of (buf.getD k 0) 5),
        low_half INITIATOR_DATA_LOW f (bit_of (buf.getD k 0) 4),
        high_half INITIATOR_DATA_HIGH f (bit_of (buf.getD k 0) 4),
        low_half INITIATOR_DATA_LOW f (bit_of (buf.getD k 0) 3),
        high_half INITIATOR_DATA_HIGH f (bit_of (buf.getD k 0) 3),
        low_half INITIATOR_DATA_LOW f (bit_of (buf.getD k 0) 2),
        high_half INITIATOR_DATA_HIGH f (bit_of (buf.getD k 0) 2),
        low_half INITIATOR_DATA_LOW f (bit_of (buf.getD k 0) 1),
        high_half INITIATOR_DATA_HIGH f (bit_of (buf.getD k 0) 1),
        low_half INITIATOR_DATA_LOW f (bit_of (buf.getD k 0) 0),
        high_half INITIATOR_DATA_HIGH f (bit_of (buf.getD k 0) 0),
        low_half INITIATOR_EOM_LOW f (if k + 1 = len then 1 else 0)] := by
  obtain ⟨hs, rfl, hb, hy, rfl, rfl, rfl⟩ := h
  have hN0 : ¬ K.MAX_CEC_MSG_LEN ≤ k := by omega
  have hk3 : (k + 1) % 256 = k + 1 := Nat.mod_eq_of_lt (by omega)
  have e0 := DATA_LOW_and f (t.cec_tx.msgt.buf.getD k 0) 0
  have g0 := DATA_HIGH_and f (t.cec_tx.msgt.buf.getD k 0) 0
  have e1 := DATA_LOW_and f (t.cec_tx.msgt.buf.getD k 0) 1
  have g1 := DATA_HIGH_and f (t.cec_tx.msgt.buf.getD k 0) 1
  have e2 := DATA_LOW_and f (t.cec_tx.msgt.buf.getD k 0) 2
  have g2 := DATA_HIGH_and f (t.cec_tx.msgt.buf.getD k 0) 2
  have e3 := DATA_LOW_and f (t.cec_tx.msgt.buf.getD k 0) 3
  have g3 := DATA_HIGH_and f (t.cec_tx.msgt.buf.getD k 0) 3
  have e4 := DATA_LOW_and f (t.cec_tx.msgt.buf.getD k 0) 4
  have g4 := DATA_HIGH_and f (t.cec_tx.msgt.buf.getD k 0) 4
  have e5 := DATA_LOW_and f (t.cec_tx.msgt.buf.getD k 0) 5
  have g5 := DATA_HIGH_and f (t.cec_tx.msgt.buf.getD k 0) 5
  have e6 := DATA_LOW_and f (t.cec_tx.msgt.buf.getD k 0) 6
  have g6 := DATA_HIGH_and f (t.cec_tx.msgt.buf.getD k 0) 6
  have e7 := DATA_LOW_and f (t.cec_tx.msgt.buf.getD k 0) 7
  have g7 := DATA_HIGH_and f (t.cec_tx.msgt.buf.getD k 0) 7
  norm_num at e7 e6 e5 e4 e3 e2 e1 e0 g7 g6 g5 g4 g3 g2 g1 g0
  simp [timeouts, List.range, List.range.loop, trace, deliver, line_view, low_half, high_half,
    cec_event_timeout, enter_state, enter_state_body, enter_state_program_eq, program_mft,
    msgt_inc_bit, msgt_get_bit, msgt_is_eom, hs, hb, hy, hf, hN0, hk3, CAP_EDGE_FALLING,
    CAP_EDGE_RISING, e7, e6, e5, e4, e3, e2, e1, e0, g7, g6, g5, g4, g3, g2, g1, g0, timeout_or_zero]

/-- The high period of the EOM bit as the line shows it. -/
theorem tx_eom_view (K : ec_commands) (t : engine) (lv : Nat → Nat) (f : Nat)
    (buf : List Nat) (k len r : Nat) (log : List Nat) (hf : t.apb1_freq_div_10k = f)
    (h : tx_at t INITIATOR_EOM_LOW buf 0 k len r log) :
    (trace K (timeouts lv 1) t).map line_view =
      [high_half INITIATOR_EOM_HIGH f (if k = len then 1 else 0)] := by
  obtain ⟨hs, rfl, hb, hy, rfl, rfl, rfl⟩ := h
  simp [timeouts, List.range, List.range.loop, trace, deliver, line_view, low_half, high_half,
    cec_event_timeout, enter_state, enter_state_body, enter_state_program_eq, program_mft,
    msgt_is_eom, hs, hb, hy, hf]

/-- The first low period of the byte that follows an acknowledged byte, as the
line shows it. -/
theorem tx_ack_more_view (K : ec_commands) (t : engine) (lv : Nat → Nat) (f : Nat)
    (buf : List Nat) (k len r : Nat) (log : List Nat) (hk : k ≠ len)
    (hkN : k < K.MAX_CEC_MSG_LEN) (ha : acknowledges buf (lv 0))
    (hf : t.apb1_freq_div_10k = f)
    (h : tx_at t INITIATOR_ACK_HIGH buf 0 k len r log) :
    ((trace K (timeouts lv 2) t).map line_view)[1]? =
      some (low_half INITIATOR_DATA_LOW f (bit_of (buf.getD k 0) 7)) := by
  obtain ⟨hs, rfl, hb, hy, rfl, rfl, rfl⟩ := h
  have hN0 : ¬ K.MAX_CEC_MSG_LEN ≤ k := by omega
  have e7 := DATA_LOW_and f (t.cec_tx.msgt.buf.getD k 0) 7
  norm_num at e7
  unfold acknowledges is_broadcast at ha
  by_cases hbc : t.cec_tx.msgt.buf.getD 0 0 &&& 0x0f = CEC_BROADCAST_ADDR
  · rw [if_pos hbc] at ha
    simp at hbc
    simp [timeouts, List.range, List.range.loop, trace, deliver, line_view, low_half,
      cec_event_timeout, enter_state, enter_state_body, enter_state_program_eq, program_mft,
      msgt_is_eom, msgt_get_bit, gpio_get_level, hs, hb, hy, hf, hk, ha, hbc, hN0, e7]
  · rw [if_neg hbc] at ha
    simp at hbc
    simp [timeouts, List.range, List.range.loop, trace, deliver, line_view, low_half,
      cec_event_timeout, enter_state, enter_state_body, enter_state_program_eq, program_mft,
      msgt_is_eom, msgt_get_bit, gpio_get_level, hs, hb, hy, hf, hk, ha, hbc, hN0, e7]

end tx_views

theorem int_to_u32_ofNat (n : Nat) (h : n < 4294967296) : int_to_u32 (n : Int) = n := by
  unfold int_to_u32
  omega

/-- The start bit that the initiator programs is valid for a follower with the
same clock. -/
theorem programmed_start_valid (f : Nat) (hf : f ≤ 429496) :
    valid_pulse f .START_BIT (Int.ofNat (START_BIT_LOW f), Int.ofNat (START_BIT_HIGH f)) := by
  have e37 : START_BIT_LOW f = 37 * f := by
    unfold START_BIT_LOW; rw [ticks_eq f _ hf (by norm_num)]; omega
  have e8 : START_BIT_HIGH f = 8 * f := by
    unfold START_BIT_HIGH; rw [ticks_eq f _ hf (by norm_num)]; omega
  unfold valid_pulse
  rw [valid_low_iff f _ _ hf, valid_high_iff f _ _ _ hf, e37, e8]
  simp only [Int.ofNat_eq_coe]
  rw [← Int.ofNat_add, int_to_u32_ofNat _ (by omega), int_to_u32_ofNat _ (by omega)]
  omega

/-- The bit period that the initiator programs for a data or EOM bit is valid
for its class at a follower with the same clock. -/
theorem programmed_bit_valid (f d : Nat) (hf : f ≤ 429496) :
    valid_pulse f (data_class d) (Int.ofNat (DATA_LOW f d), Int.ofNat (DATA_HIGH f d)) := by
  have e15 : DATA_ZERO_LOW f = 15 * f := by
    unfold DATA_ZERO_LOW; rw [ticks_eq f _ hf (by norm_num)]; omega
  have e9 : DATA_ZERO_HIGH f = 9 * f := by
    unfold DATA_ZERO_HIGH; rw [ticks_eq f _ hf (by norm_num)]; omega
  have e6 : DATA_ONE_LOW f = 6 * f := by
    unfold DATA_ONE_LOW; rw [ticks_eq f _ hf (by norm_num)]; omega
  have e18 : DATA_ONE_HIGH f = 18 * f := by
    unfold DATA_ONE_HIGH; rw [ticks_eq f _ hf (by norm_num)]; omega
  unfold valid_pulse data_class DATA_LOW DATA_HIGH
  by_cases hd : d ≠ 0
  · rw [if_pos hd, if_pos hd, if_pos hd, valid_low_iff f _ _ hf, valid_high_iff f _ _ _ hf,
      e6, e18]
    simp only [Int.ofNat_eq_coe]
    rw [← Int.ofNat_add, int_to_u32_ofNat _ (by omega), int_to_u32_ofNat _ (by omega)]
    omega
  · rw [if_neg hd, if_neg hd, if_neg hd, valid_low_iff f _ _ hf, valid_high_iff f _ _ _ hf,
      e15, e9]
    simp only [Int.ofNat_eq_coe]
    rw [← Int.ofNat_add, int_to_u32_ofNat _ (by omega), int_to_u32_ofNat _ (by omega)]
    omega

theorem view_at0 (K : ec_commands) (s : engine) (lv : Nat → Nat) (n j : Nat)
    (L : List (cec_state × Int × Int)) (hj : j < n)
    (h : (trace K (timeouts lv n) s).map line_view = L) :
    L[j]? = some (line_view (run K (timeouts lv (j + 1)) s)) := by
  rw [← h, trace_timeouts, List.map_map, List.getElem?_map, List.getElem?_range hj]
  rfl


set_option maxHeartbeats 1000000 in
/-- What the line shows of byte `k` of an acknowledged send: for each bit index
`i` the low and the high period of bit `7 - i` of the byte, at timeouts
`3 + 21 k + 2 i` and `4 + 21 k + 2 i`, and the low period of the EOM bit at
timeout `19 + 21 k`. -/
theorem tx_byte_views (K : ec_commands) (s : engine) (lv : Nat → Nat) (f : Nat)
    (buf : List Nat) (bit byte len r : Nat) (log : List Nat)
    (h : tx_at s INITIATOR_FREE_TIME buf bit byte len r log) (hf : s.apb1_freq_div_10k = f)
    (h2 : len ≤ K.MAX_CEC_MSG_LEN) (hN : K.MAX_CEC_MSG_LEN ≤ 255)
    (hack : ∀ j, (run K (timeouts lv j) s).cec_state = INITIATOR_ACK_HIGH →
      acknowledges buf (lv j))
    (k : Nat) (hk : k < len) :
    (∀ i, i < 8 →
      line_view (run K (timeouts lv (3 + 21 * k + 2 * i)) s) =
        low_half (tx_low_state k i) f (bit_of (buf.getD k 0) (7 - i)) ∧
      line_view (run K (timeouts lv (4 + 21 * k + 2 * i)) s) =
        high_half (tx_high_state k i) f (bit_of (buf.getD k 0) (7 - i))) ∧
    line_view (run K (timeouts lv (19 + 21 * k)) s) =
      low_half INITIATOR_EOM_LOW f (if k + 1 = len then 1 else 0) := by
  have hN1 : 1 ≤ K.MAX_CEC_MSG_LEN := by omega
  cases k with
  | zero =>
    have r0 := reach_step K s lv 0 3 [] _ _ _ _ _ _ _ _ rfl (tx_start K _ _ buf bit byte len r log h)
    have v1 := tx_start_view K s lv f buf bit byte len r log hN1 hf h
    have v2 := tx_header_view K _ (fun i => lv (0 + 3 + i)) f buf len r log hN1
      (by rw [run_f]; exact hf) r0.1
    have hl : (0 + 1 = len) ↔ (len = 1) := by omega
    refine ⟨?_, ?_⟩
    · intro i hi
      interval_cases i
      · constructor
        · have q := view_at0 K s lv 3 2 _ (by norm_num) v1
          simp only [List.getElem?_cons_succ, List.getElem?_cons_zero, Option.some.injEq] at q
          exact q.symm
        · have q := view_at K s lv (0 + 3) 16 0 _ (by norm_num) v2
          simp only [List.getElem?_cons_succ, List.getElem?_cons_zero, Option.some.injEq] at q
          exact q.symm
      · constructor
        · have q := view_at K s lv (0 + 3) 16 1 _ (by norm_num) v2
          simp only [List.getElem?_cons_succ, List.getElem?_cons_zero, Option.some.injEq] at q
          exact q.symm
        · have q := view_at K s lv (0 + 3) 16 2 _ (by norm_num) v2
          simp only [List.getElem?_cons_succ, List.getElem?_cons_zero, Option.some.injEq] at q
          exact q.symm
      · constructor
        · have q := view_at K s lv (0 + 3) 16 3 _ (by norm_num) v2
          simp only [List.getElem?_cons_succ, List.getElem?_cons_zero, Option.some.injEq] at q
          exact q.symm
        · have q := view_at K s lv (0 + 3) 16 4 _ (by norm_num) v2
          simp only [List.getElem?_cons_succ, List.getElem?_cons_zero, Option.some.injEq] at q
          exact q.symm
      · constructor
        · have q := view_at K s lv (0 + 3) 16 5 _ (by norm_num) v2
          simp only [List.getElem?_cons_succ, List.getElem?_cons_zero, Option.some.injEq] at q
          exact q.symm
        · have q := view_at K s lv (0 + 3) 16 6 _ (by norm_num) v2
          simp only [List.getElem?_cons_succ, List.getElem?_cons_zero, Option.some.injEq] at q
          exact q.symm
      · constructor
        · have q := view_at K s lv (0 + 3) 16 7 _ (by norm_num) v2
          simp only [List.getElem?_cons_succ, List.getElem?_cons_zero, Option.some.injEq] at q
          exact q.symm
        · have q := view_at K s lv (0 + 3) 16 8 _ (by norm_num) v2
          simp only [List.getElem?_cons_succ, List.getElem?_cons_zero, Option.some.injEq] at q
          exact q.symm
      · constructor
        · have q := view_at K s lv (0 + 3) 16 9 _ (by norm_num) v2
          simp only [List.getElem?_cons_succ, List.getElem?_cons_zero, Option.some.injEq] at q
          exact q.symm
        · have q := view_at K s lv (0 + 3) 16 10 _ (by norm_num) v2
          simp only [List.getElem?_cons_succ, List.getElem?_cons_zero, Option.some.injEq] at q
          exact q.symm
      · constructor
        · have q := view_at K s lv (0 + 3) 16 11 _ (by norm_num) v2
          simp only [List.getElem?_cons_succ, List.getElem?_cons_zero, Option.some.injEq] at q
          exact q.symm
        · have q := view_at K s lv (0 + 3) 16 12 _ (by norm_num) v2
          simp only [List.getElem?_cons_succ, List.getElem?_cons_zero, Option.some.injEq] at q
          exact q.symm
      · constructor
        · have q := view_at K s lv (0 + 3) 16 13 _ (by norm_num) v2
          simp only [List.getElem?_cons_succ, List.getElem?_cons_zero, Option.some.injEq] at q
          exact q.symm
        · have q := view_at K s lv (0 + 3) 16 14 _ (by norm_num) v2
          simp only [List.getElem?_cons_succ, List.getElem?_cons_zero, Option.some.injEq] at q
          exact q.symm
    · have q := view_at K s lv (0 + 3) 16 15 _ (by norm_num) v2
      simp only [List.getElem?_cons_succ, List.getElem?_cons_zero, Option.some.injEq] at q
      rw [← q]
      simp only [hl]
  | succ d =>
    have hb := (tx_bytes_sent K s lv buf bit byte len r log h h2 hN hack d (by omega)).1
    have r1 := reach_step K s lv (19 + 21 * d) 3 _ _ _ _ _ _ _ _ _ rfl
      (tx_eom K _ _ buf (d + 1) len r log hb)
    have ha : acknowledges buf (lv (19 + 21 * d + 3 + 0)) := hack _ r1.1.1
    have v3 := tx_ack_more_view K _ (fun i => lv (19 + 21 * d + 3 + i)) f buf (d + 1) len r log
      (by omega) (by omega) ha (by rw [run_f]; exact hf) r1.1
    have r2 := reach_step K s lv (19 + 21 * d + 3) 2 _ _ _ _ _ _ _ _ _ r1.2
      (tx_ack_more K _ _ buf (d + 1) len r log (by omega) ha r1.1)
    have v4 := tx_data_view K _ (fun i => lv (19 + 21 * d + 3 + 2 + i)) f buf (d + 1) len r log
      (by omega) (by omega) (by rw [run_f]; exact hf) r2.1
    refine ⟨?_, ?_⟩
    · intro i hi
      interval_cases i
      · constructor
        · have q := view_at K s lv (19 + 21 * d + 3) 2 1 _ (by norm_num) rfl
          rw [v3] at q
          have e : 3 + 21 * (d + 1) + 2 * 0 = 19 + 21 * d + 3 + (1 + 1) := by omega
          rw [e, ← Option.some.inj q]
          rfl
        · have q := view_at K s lv (19 + 21 * d + 3 + 2) 16 0 _ (by norm_num) v4
          simp only [List.getElem?_cons_succ, List.getElem?_cons_zero, Option.some.injEq] at q
          have e : 4 + 21 * (d + 1) + 2 * 0 = 19 + 21 * d + 3 + 2 + (0 + 1) := by omega
          rw [e, ← q]
          rfl
      · constructor
        · have q := view_at K s lv (19 + 21 * d + 3 + 2) 16 1 _ (by norm_num) v4
          simp only [List.getElem?_cons_succ, List.getElem?_cons_zero, Option.some.injEq] at q
          have e : 3 + 21 * (d + 1) + 2 * 1 = 19 + 21 * d + 3 + 2 + (1 + 1) := by omega
          rw [e, ← q]
          rfl
        · have q := view_at K s lv (19 + 21 * d + 3 + 2) 16 2 _ (by norm_num) v4
          simp only [List.getElem?_cons_succ, List.getElem?_cons_zero, Option.some.injEq] at q
          have e : 4 + 21 * (d + 1) + 2 * 1 = 19 + 21 * d + 3 + 2 + (2 + 1) := by omega
          rw [e, ← q]
          rfl
      · constructor
        · have q := view_at K s lv (19 + 21 * d + 3 + 2) 16 3 _ (by norm_num) v4
          simp only [List.getElem?_cons_succ, List.getElem?_cons_zero, Option.some.injEq] at q
          have e : 3 + 21 * (d + 1) + 2 * 2 = 19 + 21 * d + 3 + 2 + (3 + 1) := by omega
          rw [e, ← q]
          rfl
        · have q := view_at K s lv (19 + 21 * d + 3 + 2) 16 4 _ (by norm_num) v4
          simp only [List.getElem?_cons_succ, List.getElem?_cons_zero, Option.some.injEq] at q
          have e : 4 + 21 * (d + 1) + 2 * 2 = 19 + 21 * d + 3 + 2 + (4 + 1) := by omega
          rw [e, ← q]
          rfl
      · constructor
        · have q := view_at K s lv (19 + 21 * d + 3 + 2) 16 5 _ (by norm_num) v4
          simp only [List.getElem?_cons_succ, List.getElem?_cons_zero, Option.some.injEq] at q
          have e : 3 + 21 * (d + 1) + 2 * 3 = 19 + 21 * d + 3 + 2 + (5 + 1) := by omega
          rw [e, ← q]
          rfl
        · have q := view_at K s lv (19 + 21 * d + 3 + 2) 16 6 _ (by norm_num) v4
          simp only [List.getElem?_cons_succ, List.getElem?_cons_zero, Option.some.injEq] at q
          have e : 4 + 21 * (d + 1) + 2 * 3 = 19 + 21 * d + 3 + 2 + (6 + 1) := by omega
          rw [e, ← q]
          rfl
      · constructor
        · have q := view_at K s lv (19 + 21 * d + 3 + 2) 16 7 _ (by norm_num) v4
          simp only [List.getElem?_cons_succ, List.getElem?_cons_zero, Option.some.injEq] at q
          have e : 3 + 21 * (d + 1) + 2 * 4 = 19 + 21 * d + 3 + 2 + (7 + 1) := by omega
          rw [e, ← q]
          rfl
        · have q := view_at K s lv (19 + 21 * d + 3 + 2) 16 8 _ (by norm_num) v4
          simp only [List.getElem?_cons_succ, List.getElem?_cons_zero, Option.some.injEq] at q
          have e : 4 + 21 * (d + 1) + 2 * 4 = 19 + 21 * d + 3 + 2 + (8 + 1) := by omega
          rw [e, ← q]
          rfl
      · constructor
        · have q := view_at K s lv (19 + 21 * d + 3 + 2) 16 9 _ (by norm_num) v4
          simp only [List.getElem?_cons_succ, List.getElem?_cons_zero, Option.some.injEq] at q
          have e : 3 + 21 * (d + 1) + 2 * 5 = 19 + 21 * d + 3 + 2 + (9 + 1) := by omega
          rw [e, ← q]
          rfl
        · have q := view_at K s lv (19 + 21 * d + 3 + 2) 16 10 _ (by norm_num) v4
          simp only [List.getElem?_cons_succ, List.getElem?_cons_zero, Option.some.injEq] at q
          have e : 4 + 21 * (d + 1) + 2 * 5 = 19 + 21 * d + 3 + 2 + (10 + 1) := by omega
          rw [e, ← q]
          rfl
      · constructor
        · have q := view_at K s lv (19 + 21 * d + 3 + 2) 16 11 _ (by norm_num) v4
          simp only [List.getElem?_cons_succ, List.getElem?_cons_zero, Option.some.injEq] at q
          have e : 3 + 21 * (d + 1) + 2 * 6 = 19 + 21 * d + 3 + 2 + (11 + 1) := by omega
          rw [e, ← q]
          rfl
        · have q := view_at K s lv (19 + 21 * d + 3 + 2) 16 12 _ (by norm_num) v4
          simp only [List.getElem?_cons_succ, List.getElem?_cons_zero, Option.some.injEq] at q
          have e : 4 + 21 * (d + 1) + 2 * 6 = 19 + 21 * d + 3 + 2 + (12 + 1) := by omega
          rw [e, ← q]
          rfl
      · constructor
        · have q := view_at K s lv (19 + 21 * d + 3 + 2) 16 13 _ (by norm_num) v4
          simp only [List.getElem?_cons_succ, List.getElem?_cons_zero, Option.some.injEq] at q
          have e : 3 + 21 * (d + 1) + 2 * 7 = 19 + 21 * d + 3 + 2 + (13 + 1) := by omega
          rw [e, ← q]
          rfl
        · have q := view_at K s lv (19 + 21 * d + 3 + 2) 16 14 _ (by norm_num) v4
          simp only [List.getElem?_cons_succ, List.getElem?_cons_zero, Option.some.injEq] at q
          have e : 4 + 21 * (d + 1) + 2 * 7 = 19 + 21 * d + 3 + 2 + (14 + 1) := by omega
          rw [e, ← q]
          rfl
    · have q := view_at K s lv (19 + 21 * d + 3 + 2) 16 15 _ (by norm_num) v4
      simp only [List.getElem?_cons_succ, List.getElem?_cons_zero, Option.some.injEq] at q
      have e : 19 + 21 * (d + 1) = 19 + 21 * d + 3 + 2 + (15 + 1) := by omega
      rw [e, ← q]

/-- The high period of the EOM bit of byte `k` at timeout `20 + 21 k`, and
Initiator.AckHigh, whose timeout samples the line, at timeout `22 + 21 k`. -/
theorem tx_eom_views (K : ec_commands) (s : engine) (lv : Nat → Nat) (f : Nat)
    (buf : List Nat) (bit byte len r : Nat) (log : List Nat)
    (h : tx_at s INITIATOR_FREE_TIME buf bit byte len r log) (hf : s.apb1_freq_div_10k = f)
    (h2 : len ≤ K.MAX_CEC_MSG_LEN) (hN : K.MAX_CEC_MSG_LEN ≤ 255)
    (hack : ∀ j, (run K (timeouts lv j) s).cec_state = INITIATOR_ACK_HIGH →
      acknowledges buf (lv j))
    (k : Nat) (hk : k < len) :
    line_view (run K (timeouts lv (20 + 21 * k)) s) =
      high_half INITIATOR_EOM_HIGH f (if k + 1 = len then 1 else 0) ∧
    (run K (timeouts lv (22 + 21 * k)) s).cec_state = INITIATOR_ACK_HIGH := by
  have hb := (tx_bytes_sent K s lv buf bit byte len r log h h2 hN hack k (by omega)).1
  have v := tx_eom_view K _ (fun i => lv (19 + 21 * k + i)) f buf (k + 1) len r log
    (by rw [run_f]; exact hf) hb
  have q := view_at K s lv (19 + 21 * k) 1 0 _ (by norm_num) v
  simp only [List.getElem?_cons_zero, Option.some.injEq] at q
  have r1 := reach_step K s lv (19 + 21 * k) 3 _ _ _ _ _ _ _ _ _ rfl
    (tx_eom K _ _ buf (k + 1) len r log hb)
  have e1 : 20 + 21 * k = 19 + 21 * k + (0 + 1) := by omega
  have e2 : 22 + 21 * k = 19 + 21 * k + 3 := by omega
  rw [e1, e2, ← q]
  exact ⟨rfl, r1.1.1⟩

/-- The EOM flag after a frame is the EOM value of its last byte. -/
theorem last_eom_concat (xs : List rx_byte) (y : rx_byte) (e0 : Nat) :
    last_eom e0 (xs ++ [y]) = (if y.eom_value ≠ 0 then 1 else 0) := by
  induction xs generalizing e0 with
  | nil => rfl
  | cons x xs ih => exact ih _

/-- Reading the first `n` bytes of a buffer one by one gives its prefix. -/
theorem range_map_getD (l : List Nat) (n : Nat) (h : n ≤ l.length) :
    (List.range n).map (fun k => l.getD k 0) = l.take n := by
  induction n with
  | zero => simp
  | succ n ih =>
    have hn : n < l.length := by omega
    rw [List.range_succ, List.map_append, ih (by omega), List.take_succ]
    simp [List.getD_eq_getElem?_getD, List.getElem?_eq_getElem hn]

/-- The bytes that an acknowledged initiator puts on the line are well timed
for a follower with the same clock. -/
theorem line_byte_well_timed (K : ec_commands) (tx : engine) (lv : Nat → Nat) (f : Nat)
    (buf : List Nat) (bit byte len r : Nat) (log : List Nat)
    (h : tx_at tx INITIATOR_FREE_TIME buf bit byte len r log) (hf : tx.apb1_freq_div_10k = f)
    (hf2 : f ≤ 429496) (h2 : len ≤ K.MAX_CEC_MSG_LEN) (hN : K.MAX_CEC_MSG_LEN ≤ 255)
    (hack : ∀ j, (run K (timeouts lv j) tx).cec_state = INITIATOR_ACK_HIGH →
      acknowledges buf (lv j))
    (k : Nat) (hk : k < len) (hv : buf.getD k 0 < 256) :
    well_timed f (line_byte K tx lv k) ∧
    (is_broadcast buf → (line_byte K tx lv k).level ≠ 0) := by
  have v := tx_byte_views K tx lv f buf bit byte len r log h hf h2 hN hack k hk
  have w := tx_eom_views K tx lv f buf bit byte len r log h hf h2 hN hack k hk
  have hbuf : tx.cec_tx.msgt.buf = buf := h.2.1
  have hlen : tx.cec_tx.len = len := h.2.2.2.2.1
  refine ⟨⟨?_, ?_, ?_⟩, ?_⟩
  · show tx.cec_tx.msgt.buf.getD k 0 < 256
    rw [hbuf]
    exact hv
  · intro i hi
    have a := (v.1 i hi).1
    have b := (v.1 i hi).2
    have a2 : (run K (timeouts lv (3 + 21 * k + 2 * i)) tx).mft.tcnt1 =
        Int.ofNat (DATA_LOW f (bit_of (buf.getD k 0) (7 - i))) := congrArg (fun x => x.2.2) a
    have b2 : (run K (timeouts lv (4 + 21 * k + 2 * i)) tx).mft.tcnt1 =
        Int.ofNat (DATA_HIGH f (bit_of (buf.getD k 0) (7 - i))) := congrArg (fun x => x.2.2) b
    show valid_pulse f (data_class (bit_of (tx.cec_tx.msgt.buf.getD k 0) (7 - i)))
      ((run K (timeouts lv (3 + 21 * k + 2 * i)) tx).mft.tcnt1,
        (run K (timeouts lv (4 + 21 * k + 2 * i)) tx).mft.tcnt1)
    rw [a2, b2, hbuf]
    exact programmed_bit_valid f _ hf2
  · have a2 : (run K (timeouts lv (19 + 21 * k)) tx).mft.tcnt1 =
        Int.ofNat (DATA_LOW f (if k + 1 = len then 1 else 0)) := congrArg (fun x => x.2.2) v.2
    have b2 : (run K (timeouts lv (20 + 21 * k)) tx).mft.tcnt1 =
        Int.ofNat (DATA_HIGH f (if k + 1 = len then 1 else 0)) := congrArg (fun x => x.2.2) w.1
    show valid_pulse f (data_class (if k + 1 = tx.cec_tx.len then 1 else 0))
      ((run K (timeouts lv (19 + 21 * k)) tx).mft.tcnt1,
        (run K (timeouts lv (20 + 21 * k)) tx).mft.tcnt1)
    rw [a2, b2, hlen]
    exact programmed_bit_valid f _ hf2
  · intro hb
    have a := hack _ w.2
    unfold acknowledges at a
    rw [if_pos hb] at a
    exact a

/-- The start bit that an initiator puts on the line. -/
theorem line_start_view (K : ec_commands) (tx : engine) (lv : Nat → Nat) (f : Nat)
    (buf : List Nat) (bit byte len r : Nat) (log : List Nat)
    (h : tx_at tx INITIATOR_FREE_TIME buf bit byte len r log) (hf : tx.apb1_freq_div_10k = f)
    (hN : 1 ≤ K.MAX_CEC_MSG_LEN) :
    line_view (run K (timeouts lv 1) tx) =
      (INITIATOR_START_LOW, 0, Int.ofNat (START_BIT_LOW f)) ∧
    line_view (run K (timeouts lv 2) tx) =
      (INITIATOR_START_HIGH, 1, Int.ofNat (START_BIT_HIGH f)) := by
  have v1 := tx_start_view K tx lv f buf bit byte len r log hN hf h
  have q0 := view_at0 K tx lv 3 0 _ (by norm_num) v1
  have q1 := view_at0 K tx lv 3 1 _ (by norm_num) v1
  simp only [List.getElem?_cons_succ, List.getElem?_cons_zero, Option.some.injEq] at q0 q1
  exact ⟨q0.symm, q1.symm⟩

/-- What a follower makes of the first `n` bytes that an acknowledged initiator
with the same clock puts on the line. -/
theorem rx_line_frame (K : ec_commands) (tx rx : engine) (lv : Nat → Nat) (f : Nat)
    (tbuf rbuf : List Nat) (bit byte len r : Nat) (log : List Nat)
    (hf1 : 1 ≤ f) (hf2 : f ≤ 429496) (hN : K.MAX_CEC_MSG_LEN ≤ 255)
    (htx : tx_at tx INITIATOR_FREE_TIME tbuf bit byte len r log)
    (htf : tx.apb1_freq_div_10k = f)
    (h2 : len ≤ K.MAX_CEC_MSG_LEN) (hlt : len ≤ tbuf.length)
    (hbytes : ∀ k, k < len → tbuf.getD k 0 < 256)
    (hack : ∀ j, (run K (timeouts lv j) tx).cec_state = INITIATOR_ACK_HIGH →
      acknowledges tbuf (lv j))
    (hrx : rx_at rx f IDLE rbuf 0 0 1) (hrbuf : rbuf.length = K.MAX_CEC_MSG_LEN)
    (n : Nat) (hn1 : 1 ≤ n) (hn2 : n ≤ len) :
    (run K (frame_irqs (line_start K tx lv) (line_frame K tx lv n)) rx).cec_rx.msgt.buf.take n
      = tbuf.take n ∧
    (run K (frame_irqs (line_start K tx lv) (line_frame K tx lv n)) rx).cec_state =
      FOLLOWER_ACK_FINISH ∧
    (run K (frame_irqs (line_start K tx lv) (line_frame K tx lv n)) rx).cec_rx.eom =
      (if n = len then 1 else 0) ∧
    rx_summary (trace K (frame_irqs (line_start K tx lv) (line_frame K tx lv n)) rx) n
      (ack_drive (tbuf.getD 0 0)) := by
  obtain ⟨n', rfl⟩ : ∃ n', n = n' + 1 := ⟨n - 1, by omega⟩
  have hbuf : tx.cec_tx.msgt.buf = tbuf := htx.2.1
  have hlen : tx.cec_tx.len = len := htx.2.2.2.2.1
  have hfr : line_frame K tx lv (n' + 1) =
      line_byte K tx lv 0 :: (List.range n').map (fun k => line_byte K tx lv (k + 1)) := by
    unfold line_frame
    rw [List.range_succ_eq_map]
    simp [Function.comp_def]
  have hfr2 : line_frame K tx lv (n' + 1) = line_frame K tx lv n' ++ [line_byte K tx lv n'] := by
    unfold line_frame
    rw [List.range_succ, List.map_append]
    rfl
  have hmem : ∀ y ∈ line_frame K tx lv (n' + 1), ∃ k, k < len ∧ y = line_byte K tx lv k := by
    intro y hy
    unfold line_frame at hy
    obtain ⟨k, hk, e⟩ := List.mem_map.1 hy
    exact ⟨k, by have := List.mem_range.1 hk; omega, e.symm⟩
  have hsv := line_start_view K tx lv f tbuf bit byte len r log htx htf (by omega)
  have hstart : valid_pulse f .START_BIT (line_start K tx lv) := by
    have a1 : (run K (timeouts lv 1) tx).mft.tcnt1 = Int.ofNat (START_BIT_LOW f) :=
      congrArg (fun x => x.2.2) hsv.1
    have a2 : (run K (timeouts lv 2) tx).mft.tcnt1 = Int.ofNat (START_BIT_HIGH f) :=
      congrArg (fun x => x.2.2) hsv.2
    unfold line_start
    rw [a1, a2]
    exact programmed_start_valid f hf2
  have hval : (line_byte K tx lv 0).value = tbuf.getD 0 0 := by
    show tx.cec_tx.msgt.buf.getD 0 0 = _
    rw [hbuf]
  have hxs : ((List.range n').map (fun k => line_byte K tx lv (k + 1))).length = n' := by simp
  have r := rx_frame K rx f rbuf (line_start K tx lv) (line_byte K tx lv 0)
    ((List.range n').map (fun k => line_byte K tx lv (k + 1))) hf1 hf2 hN hrbuf
    (by rw [hxs]; omega) hstart
    (by
      rw [← hfr]
      intro y hy
      obtain ⟨k, hk, rfl⟩ := hmem y hy
      exact (line_byte_well_timed K tx lv f tbuf bit byte len r log htx htf hf2 h2 hN hack k hk
        (hbytes k hk)).1)
    (by
      rw [← hfr]
      intro y hy hb
      obtain ⟨k, hk, rfl⟩ := hmem y hy
      have hb2 : is_broadcast tbuf := by
        unfold is_broadcast at *
        rw [hval] at hb
        exact hb
      exact (line_byte_well_timed K tx lv f tbuf bit byte len r log htx htf hf2 h2 hN hack k hk
        (hbytes k hk)).2 hb2)
    hrx
  rw [← hfr, hxs, hval] at r
  obtain ⟨⟨r1, r2, _⟩, r3, r4⟩ := r
  have hvals : (line_frame K tx lv (n' + 1)).map (fun y => y.value) = tbuf.take (n' + 1) := by
    unfold line_frame
    rw [List.map_map, ← range_map_getD tbuf (n' + 1) (by omega)]
    apply List.map_congr_left
    intro k _
    show tx.cec_tx.msgt.buf.getD k 0 = _
    rw [hbuf]
  refine ⟨?_, r1, ?_, r4⟩
  · rw [r2, hvals]
    have hl : (tbuf.take (n' + 1)).length = n' + 1 := by
      rw [List.length_take]
      omega
    exact List.take_left' hl
  · rw [r3, hfr2, last_eom_concat]
    show (if (if n' + 1 = tx.cec_tx.len then 1 else 0) ≠ 0 then 1 else 0) = _
    by_cases hc : n' + 1 = len <;> simp [hc, hlen]

/-- A byte of the queued frame, read from the transmit buffer. -/
theorem take_getD (l m : List Nat) (n k : Nat) (h : l.take n = m) (hn : n = m.length)
    (hk : k < n) : l.getD k 0 = m.getD k 0 := by
  subst h
  simp [List.getD_eq_getElem?_getD, List.getElem?_take, hk]

end round_trip

/-- C3. Follower decode and acknowledgement: an idle follower (receive cursor
at bit 0, byte 0, line released) whose clock divisor is one that `cec_init`
computes and is at least 1 receives a frame of 1 to MAX_CEC_MSG_LEN bytes
addressed to its own address, in which the start bit and every data and EOM bit
is valid for its class and EOM is 1 only after the last byte. It then holds
exactly the bytes of the frame at the start of its receive buffer, the rest of
the buffer unchanged, has EOM set, and has gone through the ACK once per byte:
it entered Follower.AckLow and Follower.AckFinish `n` times each, drove the
line low in Follower.AckLow and Follower.AckVerify, released it in
Follower.AckFinish and in every other state, and never fell back to Idle. The
receive buffer has MAX_CEC_MSG_LEN bytes, a number that fits the 8-bit byte
cursor. -/
theorem follower_decode_and_ack (K : ec_commands) (s : engine) (apb1_freq : Nat)
    (buf : List Nat) (start : Int × Int) (frame : List rx_byte)
    (hq : apb1_freq < 4294967296) (hf1 : 10000 ≤ apb1_freq)
    (hN : K.MAX_CEC_MSG_LEN ≤ 255) (hbuf : buf.length = K.MAX_CEC_MSG_LEN)
    (h : rx_at s (apb1_freq / 10000) IDLE buf 0 0 1)
    (h1 : 1 ≤ frame.length) (h2 : frame.length ≤ K.MAX_CEC_MSG_LEN)
    (hstart : valid_pulse (apb1_freq / 10000) .START_BIT start)
    (hw : ∀ y ∈ frame, well_timed (apb1_freq / 10000) y)
    (haddr : (frame.map (fun y => y.value)).getD 0 0 &&& 0x0f = cec_addr)
    (heom : eom_at_end frame) :
    (run K (frame_irqs start frame) s).cec_rx.msgt.buf.take frame.length =
      frame.map (fun y => y.value) ∧
    (run K (frame_irqs start frame) s).cec_rx.msgt.buf.drop frame.length =
      buf.drop frame.length ∧
    (run K (frame_irqs start frame) s).cec_state = FOLLOWER_ACK_FINISH ∧
    (run K (frame_irqs start frame) s).cec_rx.eom = 1 ∧
    rx_summary (trace K (frame_irqs start frame) s) frame.length 0 := by
  cases frame with
  | nil => simp at h1
  | cons x xs =>
    have hx : x.value &&& 0x0f = cec_addr := by simpa using haddr
    have hnb : ¬ is_broadcast [x.value] := by
      unfold is_broadcast
      show ¬ (x.value &&& 0x0f = CEC_BROADCAST_ADDR)
      rw [hx]
      decide
    have hd : ack_drive x.value = 0 := by
      unfold ack_drive
      rw [if_pos hx]
    have r := rx_frame K s (apb1_freq / 10000) buf start x xs (by omega) (by omega) hN hbuf
      (by simpa using h2) hstart hw (fun y _ hb => absurd hb hnb) h
    rw [hd] at r
    obtain ⟨⟨r1, r2, _⟩, r3, r4⟩ := r
    have hl : ((x :: xs).map (fun y => y.value)).length = (x :: xs).length := by simp
    refine ⟨?_, ?_, r1, ?_, r4⟩
    · rw [r2, ← hl, List.take_left]
    · rw [r2, ← hl, List.drop_left]
      simp
    · rw [r3]
      exact last_eom_at_end _ _ heom (List.cons_ne_nil _ _)

/-- C3, for the header byte 0x15 with EOM = 1 and nominal timing at one tick
per microsecond. -/
theorem follower_decode_and_ack_witness :
    (run example_constants (frame_irqs (3700, 800) [example_header])
      example_idle).cec_rx.msgt.buf.take 1 = [0x15] :=
  (follower_decode_and_ack example_constants example_idle 1000000 (List.replicate 16 0)
    (3700, 800) [example_header] (by decide) (by decide) (by decide) rfl
    ⟨rfl, rfl, rfl, rfl, rfl, rfl⟩ (by decide) (by decide) ⟨by decide, by decide⟩
    (by
      intro y hy
      have e : y = example_header := by simpa using hy
      subst e
      refine ⟨by decide, ?_, ⟨by decide, by decide⟩⟩
      intro i hi
      interval_cases i <;> exact ⟨by decide, by decide⟩)
    (by decide) (show example_header.eom_value ≠ 0 by decide)).1

/-- C1. Round trip between the two roles. An initiator whose clock divisor is
one that `cec_init` computes and is at least 1 holds a frame `m` of 1 to
MAX_CEC_MSG_LEN bytes, admitted into Initiator.FreeTime, and transmits it with
every ACK sample acknowledging. The low and high timeouts it programs are
the nominal start bit, then for each byte the bits 7 to 0 of that byte of `m`
and an EOM bit that is 1 for the last byte only, and each of these periods
passes the validity checks of its class. Delivered as measured capture
durations to an idle follower with the same clock divisor, whose ACK phases
are advanced by timeouts, they leave after the ACK of byte `n - 1` the bytes
0 to `n - 1` of the receive buffer equal to those of `m`, in order, the
follower in Follower.AckFinish with the EOM flag 1 exactly when `n` is the
length of `m`, and the follower has gone through `n` ACKs without ever falling
back to Idle. Both buffers have room for MAX_CEC_MSG_LEN bytes, a number that
fits the 8-bit byte cursor, and the follower samples in its ACK the line level
that the initiator samples. -/
theorem round_trip (K : ec_commands) (tx rx : engine) (lv : Nat → Nat) (apb1_freq : Nat)
    (m tbuf rbuf : List Nat) (bit byte r : Nat) (log : List Nat)
    (hq : apb1_freq < 4294967296) (hf1 : 10000 ≤ apb1_freq)
    (hN : K.MAX_CEC_MSG_LEN ≤ 255)
    (h1 : 1 ≤ m.length) (h2 : m.length ≤ K.MAX_CEC_MSG_LEN) (hm : ∀ b ∈ m, b < 256)
    (htx : tx_at tx INITIATOR_FREE_TIME tbuf bit byte m.length r log)
    (htm : tbuf.take m.length = m)
    (htf : tx.apb1_freq_div_10k = apb1_freq / 10000)
    (hack : ∀ j, (run K (timeouts lv j) tx).cec_state = INITIATOR_ACK_HIGH →
      acknowledges tbuf (lv j))
    (hrx : rx_at rx (apb1_freq / 10000) IDLE rbuf 0 0 1)
    (hrbuf : rbuf.length = K.MAX_CEC_MSG_LEN) :
    (line_start K tx lv = (Int.ofNat (START_BIT_LOW (apb1_freq / 10000)),
        Int.ofNat (START_BIT_HIGH (apb1_freq / 10000))) ∧
      valid_pulse (apb1_freq / 10000) .START_BIT (line_start K tx lv)) ∧
    (∀ k, k < m.length →
      (∀ i, i < 8 → (line_byte K tx lv k).bits i =
        (Int.ofNat (DATA_LOW (apb1_freq / 10000) (bit_of (m.getD k 0) (7 - i))),
          Int.ofNat (DATA_HIGH (apb1_freq / 10000) (bit_of (m.getD k 0) (7 - i))))) ∧
      (line_byte K tx lv k).eom =
        (Int.ofNat (DATA_LOW (apb1_freq / 10000) (if k + 1 = m.length then 1 else 0)),
          Int.ofNat (DATA_HIGH (apb1_freq / 10000) (if k + 1 = m.length then 1 else 0))) ∧
      (line_byte K tx lv k).value = m.getD k 0 ∧
      well_timed (apb1_freq / 10000) (line_byte K tx lv k)) ∧
    ∀ n, 1 ≤ n → n ≤ m.length →
      (run K (frame_irqs (line_start K tx lv) (line_frame K tx lv n)) rx).cec_rx.msgt.buf.take n
        = m.take n ∧
      (run K (frame_irqs (line_start K tx lv) (line_frame K tx lv n)) rx).cec_state =
        FOLLOWER_ACK_FINISH ∧
      (run K (frame_irqs (line_start K tx lv) (line_frame K tx lv n)) rx).cec_rx.eom =
        (if n = m.length then 1 else 0) ∧
      rx_summary (trace K (frame_irqs (line_start K tx lv) (line_frame K tx lv n)) rx) n
        (ack_drive (m.getD 0 0)) := by
  have g1 : 1 ≤ apb1_freq / 10000 := by omega
  have g2 : apb1_freq / 10000 ≤ 429496 := by omega
  have hbuf : tx.cec_tx.msgt.buf = tbuf := htx.2.1
  have hlen : tx.cec_tx.len = m.length := htx.2.2.2.2.1
  have hlt : m.length ≤ tbuf.length := by
    have e := congrArg List.length htm
    rw [List.length_take] at e
    omega
  have hget : ∀ k, k < m.length → tbuf.getD k 0 = m.getD k 0 :=
    fun k hk => take_getD tbuf m m.length k htm rfl hk
  have hbytes : ∀ k, k < m.length → tbuf.getD k 0 < 256 := by
    intro k hk
    rw [hget k hk, List.getD_eq_getElem?_getD, List.getElem?_eq_getElem hk]
    exact hm _ (List.getElem_mem hk)
  refine ⟨?_, ?_, ?_⟩
  · have hsv := line_start_view K tx lv _ tbuf bit byte m.length r log htx htf (by omega)
    have a1 : (run K (timeouts lv 1) tx).mft.tcnt1 =
        Int.ofNat (START_BIT_LOW (apb1_freq / 10000)) := congrArg (fun x => x.2.2) hsv.1
    have a2 : (run K (timeouts lv 2) tx).mft.tcnt1 =
        Int.ofNat (START_BIT_HIGH (apb1_freq / 10000)) := congrArg (fun x => x.2.2) hsv.2
    have e : line_start K tx lv = (Int.ofNat (START_BIT_LOW (apb1_freq / 10000)),
        Int.ofNat (START_BIT_HIGH (apb1_freq / 10000))) := by
      unfold line_start
      rw [a1, a2]
    refine ⟨e, ?_⟩
    rw [e]
    exact programmed_start_valid _ g2
  · intro k hk
    have v := tx_byte_views K tx lv _ tbuf bit byte m.length r log htx htf h2 hN hack k hk
    have w := tx_eom_views K tx lv _ tbuf bit byte m.length r log htx htf h2 hN hack k hk
    refine ⟨?_, ?_, ?_, ?_⟩
    · intro i hi
      have a := congrArg (fun x => x.2.2) (v.1 i hi).1
      have b := congrArg (fun x => x.2.2) (v.1 i hi).2
      rw [hget k hk] at a b
      exact Prod.ext a b
    · have a := congrArg (fun x => x.2.2) v.2
      have b := congrArg (fun x => x.2.2) w.1
      exact Prod.ext a b
    · show tx.cec_tx.msgt.buf.getD k 0 = _
      rw [hbuf]
      exact hget k hk
    · exact (line_byte_well_timed K tx lv _ tbuf bit byte m.length r log htx htf g2 h2 hN hack
        k hk (hbytes k hk)).1
  · intro n hn1 hn2
    have q := rx_line_frame K tx rx lv _ tbuf rbuf bit byte m.length r log g1 g2 hN htx htf h2
      hlt hbytes hack hrx hrbuf n hn1 hn2
    rw [hget 0 (by omega)] at q
    refine ⟨?_, q.2.1, q.2.2.1, q.2.2.2⟩
    rw [q.1, ← htm, List.take_take]
    congr 1
    omega

/-- C1, for the frame [0x05, 0x82] at one tick per microsecond, the line
read low at every timeout: after both bytes the follower holds the frame. -/
theorem round_trip_witness :
    (run example_constants
      (frame_irqs (line_start example_constants example_sending (fun _ => 0))
        (line_frame example_constants example_sending (fun _ => 0) 2))
      example_idle).cec_rx.msgt.buf.take 2 = [5, 130] :=
  ((round_trip example_constants example_sending example_idle (fun _ => 0) 1000000
    [5, 130] ([5, 130] ++ List.replicate 14 0) (List.replicate 16 0) 0 0 0 []
    (by decide) (by decide) (by decide) (by decide) (by decide) (by decide)
    ⟨rfl, rfl, rfl, rfl, rfl, rfl, rfl⟩ rfl rfl
    (fun _ _ => (by decide : acknowledges ([5, 130] ++ List.replicate 14 0) 0))
    ⟨rfl, rfl, rfl, rfl, rfl, rfl⟩ rfl).2.2 2 (by decide) (by decide)).1

section eom_ack

/-- A run of timeouts depends on the line levels at those timeouts only. -/
theorem timeouts_congr (lv lv2 : Nat → Nat) (n : Nat) (h : ∀ j, j < n → lv j = lv2 j) :
    timeouts lv n = timeouts lv2 n := by
  unfold timeouts
  apply List.map_congr_left
  intro j hj
  rw [h j (List.mem_range.1 hj)]

/-- The states after the low period of an EOM bit, whatever the line reads:
the high period of the EOM bit, then the low period, the high period and the
sample point of the ACK bit. -/
theorem tx_eom_states (K : ec_commands) (t : engine) (lv : Nat → Nat) (buf : List Nat)
    (k len r : Nat) (log : List Nat)
    (h : tx_at t INITIATOR_EOM_LOW buf 0 k len r log) :
    (run K (timeouts lv 1) t).cec_state = INITIATOR_EOM_HIGH ∧
    (run K (timeouts lv 2) t).cec_state = INITIATOR_ACK_LOW ∧
    (run K (timeouts lv 3) t).cec_state = INITIATOR_ACK_HIGH ∧
    (run K (timeouts lv 4) t).cec_state = INITIATOR_ACK_VERIFY := by
  obtain ⟨hs, rfl, hb, hy, rfl, rfl, rfl⟩ := h
  refine ⟨?_, ?_, ?_, ?_⟩
  · simp [timeouts, List.range, List.range.loop, run, deliver,
      cec_event_timeout, enter_state, enter_state_body, enter_state_program_eq, hs, hb, hy]
  · simp [timeouts, List.range, List.range.loop, run, deliver,
      cec_event_timeout, enter_state, enter_state_body, enter_state_program_eq, hs, hb, hy]
  · simp [timeouts, List.range, List.range.loop, run, deliver,
      cec_event_timeout, enter_state, enter_state_body, enter_state_program_eq, hs, hb, hy]
  · by_cases hbc : t.cec_tx.msgt.buf[0]?.getD 0 &&& 15 = CEC_BROADCAST_ADDR <;>
      by_cases hl : lv 3 = 0 <;>
      simp [timeouts, List.range, List.range.loop, run, deliver, gpio_get_level,
        cec_event_timeout, enter_state, enter_state_body, enter_state_program_eq, hs, hb, hy,
        hbc, hl]

end eom_ack

/-- C11. EOM and ACK follow every byte. A frame of `len` bytes, at most
MAX_CEC_MSG_LEN (which fits the 8-bit byte offset), is admitted into
Initiator.FreeTime and only timeouts occur. For every byte index `k < len`
(the header is byte 0) whose preceding bytes were acknowledged, the high
period of the last bit of byte `k`, after `18 + 21 k` timeouts, is followed in
this order by Initiator.EomLow, EomHigh, AckLow, AckHigh and AckVerify, one
timeout each, whatever the line reads in this ACK. The EOM bit is sent with
the line low for `DATA_LOW(e)` and released for `DATA_HIGH(e)`, where the EOM
value `e` is 1 if byte `k` is the last of the frame and 0 otherwise. -/
theorem eom_and_ack_follow_every_byte (K : ec_commands) (s : engine) (lv : Nat → Nat)
    (buf : List Nat) (bit byte len r : Nat) (log : List Nat)
    (h : tx_at s INITIATOR_FREE_TIME buf bit byte len r log)
    (h2 : len ≤ K.MAX_CEC_MSG_LEN) (hN : K.MAX_CEC_MSG_LEN ≤ 255)
    (k : Nat) (hk : k < len)
    (hack : ∀ j, j < 22 + 21 * k →
      (run K (timeouts lv j) s).cec_state = INITIATOR_ACK_HIGH → acknowledges buf (lv j)) :
    (run K (timeouts lv (18 + 21 * k)) s).cec_state = tx_high_state k 7 ∧
    line_view (run K (timeouts lv (19 + 21 * k)) s) =
      low_half INITIATOR_EOM_LOW s.apb1_freq_div_10k (if k + 1 = len then 1 else 0) ∧
    line_view (run K (timeouts lv (20 + 21 * k)) s) =
      high_half INITIATOR_EOM_HIGH s.apb1_freq_div_10k (if k + 1 = len then 1 else 0) ∧
    (run K (timeouts lv (21 + 21 * k)) s).cec_state = INITIATOR_ACK_LOW ∧
    (run K (timeouts lv (22 + 21 * k)) s).cec_state = INITIATOR_ACK_HIGH ∧
    (run K (timeouts lv (23 + 21 * k)) s).cec_state = INITIATOR_ACK_VERIFY := by
  have hq : ∀ n, n ≤ 22 + 21 * k →
      timeouts (fun j => if j < 22 + 21 * k then lv j else if is_broadcast buf then 1 else 0) n
        = timeouts lv n := by
    intro n hn
    apply timeouts_congr
    intro j hj
    rw [if_pos (by omega)]
  have hack2 : ∀ j, (run K (timeouts
      (fun j => if j < 22 + 21 * k then lv j else if is_broadcast buf then 1 else 0) j)
        s).cec_state = INITIATOR_ACK_HIGH →
      acknowledges buf
        ((fun j => if j < 22 + 21 * k then lv j else if is_broadcast buf then 1 else 0) j) := by
    intro j hj
    by_cases hlt : j < 22 + 21 * k
    · rw [hq j (by omega)] at hj
      simp only [hlt, if_true]
      exact hack j hlt hj
    · simp only [hlt, if_false]
      unfold acknowledges
      by_cases hb : is_broadcast buf <;> simp [hb]
  have v := tx_byte_views K s _ s.apb1_freq_div_10k buf bit byte len r log h rfl h2 hN hack2 k hk
  have w := tx_eom_views K s _ s.apb1_freq_div_10k buf bit byte len r log h rfl h2 hN hack2 k hk
  have b := (tx_bytes_sent K s _ buf bit byte len r log h h2 hN hack2 k (by omega)).1
  have v7 := (v.1 7 (by norm_num)).2
  rw [hq _ (by omega)] at v7 b
  have v19 := v.2
  rw [hq _ (by omega)] at v19
  have w20 := w.1
  rw [hq _ (by omega)] at w20
  have st := tx_eom_states K _ (fun i => lv (19 + 21 * k + i)) buf (k + 1) len r log b
  have e18 : 18 + 21 * k = 4 + 21 * k + 2 * 7 := by omega
  have e21 : 21 + 21 * k = 19 + 21 * k + 2 := by omega
  have e22 : 22 + 21 * k = 19 + 21 * k + 3 := by omega
  have e23 : 23 + 21 * k = 19 + 21 * k + 4 := by omega
  refine ⟨?_, v19, w20, ?_, ?_, ?_⟩
  · rw [e18]
    exact congrArg (fun x => x.1) v7
  · rw [e21, timeouts_add, run_append]
    exact st.2.1
  · rw [e22, timeouts_add, run_append]
    exact st.2.2.1
  · rw [e23, timeouts_add, run_append]
    exact st.2.2.2

/-- C11, for the last byte of the frame [0x05, 0x82] with the line read low at
every timeout: its EOM bit is sent as a one. -/
theorem eom_and_ack_follow_every_byte_witness :
    line_view (run example_constants (timeouts (fun _ => 0) (19 + 21 * 1)) example_sending) =
      low_half INITIATOR_EOM_LOW example_sending.apb1_freq_div_10k (if 1 + 1 = 2 then 1 else 0) :=
  (eom_and_ack_follow_every_byte example_constants example_sending (fun _ => 0)
    ([5, 130] ++ List.replicate 14 0) 0 0 2 0 []
    ⟨rfl, rfl, rfl, rfl, rfl, rfl, rfl⟩ (by decide) (by decide) 1 (by decide)
    (fun _ _ _ => (by decide : acknowledges ([5, 130] ++ List.replicate 14 0) 0))).2.1

section entry

/-- What `enter_state(CEC_STATE_IDLE)` leaves: both cursors at (0, 0), the line
released, the engine in Idle when no frame is queued and in
Initiator.FreeTime when one is, and the buffers, the queued length, the events
and the notifications as they were. -/
theorem enter_idle (K : ec_commands) (s : engine) :
    (enter_state K IDLE s).cec_rx.msgt.bit = 0 ∧ (enter_state K IDLE s).cec_rx.msgt.byte = 0 ∧
    (enter_state K IDLE s).cec_tx.msgt.bit = 0 ∧ (enter_state K IDLE s).cec_tx.msgt.byte = 0 ∧
    (enter_state K IDLE s).gpio_out = 1 ∧
    (s.cec_tx.len = 0 → (enter_state K IDLE s).cec_state = IDLE) ∧
    (s.cec_tx.len ≠ 0 → (enter_state K IDLE s).cec_state = INITIATOR_FREE_TIME) ∧
    (enter_state K IDLE s).cec_rx.msgt.buf = s.cec_rx.msgt.buf ∧
    (enter_state K IDLE s).cec_tx.msgt.buf = s.cec_tx.msgt.buf ∧
    (enter_state K IDLE s).cec_tx.len = s.cec_tx.len ∧
    (enter_state K IDLE s).cec_events = s.cec_events ∧
    (enter_state K IDLE s).mkbp_log = s.mkbp_log := by
  by_cases ht : 0 < s.cec_tx.len
  · have ht2 : s.cec_tx.len ≠ 0 := by omega
    by_cases hr : s.cec_tx.resends = 0 <;>
      simp [enter_state, enter_state_body, enter_state_program_eq, ht, ht2, hr]
  · have ht2 : s.cec_tx.len = 0 := by omega
    simp [enter_state, enter_state_body, enter_state_program_eq, ht2]

/-- Entering Follower.AckFinish releases the line. -/
theorem enter_ack_finish_gpio (K : ec_commands) (s : engine) :
    (enter_state K FOLLOWER_ACK_FINISH s).gpio_out = 1 ∧
    (enter_state K FOLLOWER_ACK_FINISH s).cec_state = FOLLOWER_ACK_FINISH := by
  by_cases he : s.cec_rx.eom ≠ 0 ∨ s.cec_rx.msgt.byte ≥ K.MAX_CEC_MSG_LEN <;>
    simp [enter_state, enter_state_body, enter_state_program_eq, he]

end entry

/-- C12. Initiator ACK polarity: on entering Initiator.AckVerify `tx.ack` is
set to 0 or 1, and to 1 exactly when one and only one of these holds: the line
is sampled low, the destination nibble of transmit buffer byte 0 is the
broadcast address. So a directed frame is acknowledged exactly when the line
is low, and a broadcast frame exactly when it is not. Nothing else of the
transmit context changes. -/
theorem initiator_ack_polarity (K : ec_commands) (s : engine) :
    ((enter_state K INITIATOR_ACK_VERIFY s).cec_tx.ack = 1 ↔
      Xor' (gpio_get_level s = 0)
        (s.cec_tx.msgt.buf.getD 0 0 &&& 0x0f = CEC_BROADCAST_ADDR)) ∧
    ((enter_state K INITIATOR_ACK_VERIFY s).cec_tx.ack = 0 ∨
      (enter_state K INITIATOR_ACK_VERIFY s).cec_tx.ack = 1) ∧
    (¬ is_broadcast s.cec_tx.msgt.buf →
      ((enter_state K INITIATOR_ACK_VERIFY s).cec_tx.ack = 1 ↔ gpio_get_level s = 0)) ∧
    (is_broadcast s.cec_tx.msgt.buf →
      ((enter_state K INITIATOR_ACK_VERIFY s).cec_tx.ack = 1 ↔ gpio_get_level s ≠ 0)) ∧
    (enter_state K INITIATOR_ACK_VERIFY s).cec_tx =
      { s.cec_tx with ack := (enter_state K INITIATOR_ACK_VERIFY s).cec_tx.ack } := by
  unfold is_broadcast
  by_cases hl : s.gpio_in = 0 <;>
    by_cases hb : s.cec_tx.msgt.buf.getD 0 0 &&& 0x0f = CEC_BROADCAST_ADDR <;>
    simp only [List.getD_eq_getElem?_getD] at hb ⊢ <;>
    simp [enter_state, enter_state_body, enter_state_program_eq, gpio_get_level, Xor', hl, hb]

/-- C13. Follower ACK participation: entering Follower.AckLow drives the line
low when the destination nibble of receive buffer byte 0 is the engine's own
address and leaves the level driven untouched for every other destination, the
broadcast address included; so the line is driven low only if the destination
is the own or the broadcast address. For a broadcast frame the entries of
Follower.AckLow and Follower.AckVerify leave the level untouched and the entry
of Follower.AckFinish releases the line, and through the two timeouts that
follow the entry of Follower.AckLow the level driven is the one before the ACK
or released. -/
theorem follower_ack_participation (K : ec_commands) (s : engine) :
    (s.cec_rx.msgt.buf.getD 0 0 &&& 0x0f = cec_addr →
      (enter_state K FOLLOWER_ACK_LOW s).gpio_out = 0) ∧
    (s.cec_rx.msgt.buf.getD 0 0 &&& 0x0f ≠ cec_addr →
      (enter_state K FOLLOWER_ACK_LOW s).gpio_out = s.gpio_out) ∧
    ((enter_state K FOLLOWER_ACK_LOW s).gpio_out ≠ s.gpio_out →
      s.cec_rx.msgt.buf.getD 0 0 &&& 0x0f = cec_addr ∨
      s.cec_rx.msgt.buf.getD 0 0 &&& 0x0f = CEC_BROADCAST_ADDR) ∧
    (s.cec_rx.msgt.buf.getD 0 0 &&& 0x0f = CEC_BROADCAST_ADDR →
      cec_addr ≠ CEC_BROADCAST_ADDR ∧
      (enter_state K FOLLOWER_ACK_LOW s).gpio_out = s.gpio_out ∧
      (enter_state K FOLLOWER_ACK_VERIFY s).gpio_out = s.gpio_out ∧
      (enter_state K FOLLOWER_ACK_FINISH s).gpio_out = 1 ∧
      ∀ l1 l2, ∀ e ∈ trace K [.timeout l1, .timeout l2] (enter_state K FOLLOWER_ACK_LOW s),
        e.gpio_out = s.gpio_out ∨ e.gpio_out = 1) := by
  simp only [List.getD_eq_getElem?_getD]
  have hne : ¬ CEC_BROADCAST_ADDR = cec_addr := by decide
  refine ⟨?_, ?_, ?_, ?_⟩
  · intro h
    simp [enter_state, enter_state_body, enter_state_program_eq, h]
  · intro h
    by_cases hb : s.cec_rx.msgt.buf[0]?.getD 0 &&& 0x0f = CEC_BROADCAST_ADDR <;>
      simp [enter_state, enter_state_body, enter_state_program_eq, h, hb, hne]
  · intro h
    by_cases ha : s.cec_rx.msgt.buf[0]?.getD 0 &&& 0x0f = cec_addr
    · exact Or.inl ha
    · exfalso
      apply h
      by_cases hb : s.cec_rx.msgt.buf[0]?.getD 0 &&& 0x0f = CEC_BROADCAST_ADDR <;>
        simp [enter_state, enter_state_body, enter_state_program_eq, ha, hb, hne]
  · intro hb
    have ha : ¬ (s.cec_rx.msgt.buf[0]?.getD 0 &&& 0x0f = cec_addr) := by
      rw [hb]
      decide
    have hb2 : s.cec_rx.msgt.buf[0]?.getD 0 &&& 15 = 15 := hb
    refine ⟨by decide, ?_, ?_, ?_, ?_⟩
    · simp [enter_state, enter_state_body, enter_state_program_eq, ha, hb, hne]
    · simp [enter_state, enter_state_body, enter_state_program_eq, ha, hb, hne]
    · by_cases he : s.cec_rx.eom ≠ 0 ∨ s.cec_rx.msgt.byte ≥ K.MAX_CEC_MSG_LEN <;>
        simp [enter_state, enter_state_body, enter_state_program_eq, he]
    · intro l1 l2 e he
      have h1 : (deliver K (.timeout l1) (enter_state K FOLLOWER_ACK_LOW s)).gpio_out =
            s.gpio_out ∧
          (deliver K (.timeout l1) (enter_state K FOLLOWER_ACK_LOW s)).cec_state =
            FOLLOWER_ACK_VERIFY := by
        simp [deliver, cec_event_timeout, enter_state, enter_state_body, enter_state_program_eq,
          ha, hb, hne]
      simp only [trace, List.mem_cons, List.mem_singleton, List.not_mem_nil, or_false] at he
      rcases he with rfl | rfl
      · exact Or.inl h1.1
      · right
        generalize deliver K (.timeout l1) (enter_state K FOLLOWER_ACK_LOW s) = t at h1
        unfold deliver cec_event_timeout
        simp only [h1.2]
        split
        · exact (enter_idle K _).2.2.2.2.1
        · exact (enter_ack_finish_gpio K _).1

/-- C14. Broadcast NAK abandons the frame. Entering Follower.AckVerify for a
broadcast frame sets `broadcast_nak` exactly when the line is sampled low, and
for a directed frame clears it. The timeout that follows then takes the
transition `enter_state(CEC_STATE_IDLE)` when the frame is a broadcast and the
line was low: the receive cursor is reset to (0, 0) and the engine is in Idle,
or, with a frame queued for sending, in Initiator.FreeTime. In every other
case, so always for a directed frame, it enters Follower.AckFinish. -/
theorem broadcast_nak_abandons (K : ec_commands) (s : engine) (level : Nat) :
    (is_broadcast s.cec_rx.msgt.buf →
      (((enter_state K FOLLOWER_ACK_VERIFY s).cec_rx.broadcast_nak ≠ 0 ↔ gpio_get_level s = 0) ∧
      (gpio_get_level s = 0 →
        deliver K (.timeout level) (enter_state K FOLLOWER_ACK_VERIFY s) =
          enter_state K IDLE { enter_state K FOLLOWER_ACK_VERIFY s with gpio_in := level } ∧
        (deliver K (.timeout level) (enter_state K FOLLOWER_ACK_VERIFY s)).cec_rx.msgt.bit = 0 ∧
        (deliver K (.timeout level) (enter_state K FOLLOWER_ACK_VERIFY s)).cec_rx.msgt.byte = 0 ∧
        (s.cec_tx.len = 0 →
          (deliver K (.timeout level) (enter_state K FOLLOWER_ACK_VERIFY s)).cec_state = IDLE) ∧
        (s.cec_tx.len ≠ 0 →
          (deliver K (.timeout level) (enter_state K FOLLOWER_ACK_VERIFY s)).cec_state =
            INITIATOR_FREE_TIME)) ∧
      (gpio_get_level s ≠ 0 →
        (deliver K (.timeout level) (enter_state K FOLLOWER_ACK_VERIFY s)).cec_state =
          FOLLOWER_ACK_FINISH))) ∧
    (¬ is_broadcast s.cec_rx.msgt.buf →
      (enter_state K FOLLOWER_ACK_VERIFY s).cec_rx.broadcast_nak = 0 ∧
      (deliver K (.timeout level) (enter_state K FOLLOWER_ACK_VERIFY s)).cec_state =
        FOLLOWER_ACK_FINISH) := by
  unfold is_broadcast gpio_get_level
  simp only [List.getD_eq_getElem?_getD]
  have hfin : ∀ t : engine, t.cec_state = FOLLOWER_ACK_VERIFY → t.cec_rx.broadcast_nak = 0 →
      (deliver K (.timeout level) t).cec_state = FOLLOWER_ACK_FINISH := by
    intro t h1 h2
    unfold deliver cec_event_timeout
    simp only [h1, h2, ne_eq, not_true_eq_false, if_false]
    exact (enter_ack_finish_gpio K _).2
  have hidle : ∀ t : engine, t.cec_state = FOLLOWER_ACK_VERIFY → t.cec_rx.broadcast_nak = 1 →
      deliver K (.timeout level) t = enter_state K IDLE { t with gpio_in := level } := by
    intro t h1 h2
    unfold deliver cec_event_timeout
    simp only [h1, h2, ne_eq, one_ne_zero, not_false_eq_true, if_true]
  refine ⟨?_, ?_⟩
  · intro hb
    have hst : (enter_state K FOLLOWER_ACK_VERIFY s).cec_state = FOLLOWER_ACK_VERIFY := by
      simp [enter_state, enter_state_body, enter_state_program_eq, hb]
    have hlen : (enter_state K FOLLOWER_ACK_VERIFY s).cec_tx.len = s.cec_tx.len := by
      simp [enter_state, enter_state_body, enter_state_program_eq, hb]
    by_cases hl : s.gpio_in = 0
    · have hnak : (enter_state K FOLLOWER_ACK_VERIFY s).cec_rx.broadcast_nak = 1 := by
        simp [enter_state, enter_state_body, enter_state_program_eq, gpio_get_level, hb, hl]
      refine ⟨?_, ?_, fun h => absurd hl h⟩
      · rw [hnak]
        simp [hl]
      · intro _
        rw [hidle _ hst hnak]
        have q := enter_idle K { enter_state K FOLLOWER_ACK_VERIFY s with gpio_in := level }
        refine ⟨rfl, q.1, q.2.1, ?_, ?_⟩
        · intro h0
          exact q.2.2.2.2.2.1 (by rw [← h0]; exact hlen)
        · intro h0
          exact q.2.2.2.2.2.2.1 (by show (enter_state K FOLLOWER_ACK_VERIFY s).cec_tx.len ≠ 0
                                    rw [hlen]; exact h0)
    · have hnak : (enter_state K FOLLOWER_ACK_VERIFY s).cec_rx.broadcast_nak = 0 := by
        simp [enter_state, enter_state_body, enter_state_program_eq, gpio_get_level, hb, hl]
      refine ⟨?_, fun h => absurd h hl, fun _ => hfin _ hst hnak⟩
      rw [hnak]
      simp [hl]
  · intro hb
    have hst : (enter_state K FOLLOWER_ACK_VERIFY s).cec_state = FOLLOWER_ACK_VERIFY := by
      simp [enter_state, enter_state_body, enter_state_program_eq, hb]
    have hnak : (enter_state K FOLLOWER_ACK_VERIFY s).cec_rx.broadcast_nak = 0 := by
      simp [enter_state, enter_state_body, enter_state_program_eq, hb]
    exact ⟨hnak, hfin _ hst hnak⟩

/-- C17, as amended. A timeout in a follower state that waits for an edge
(Follower.StartLow/High, HeaderInitLow/High, HeaderDestLow/High, EomLow/High,
AckFinish, DataLow/High) takes the transition `enter_state(CEC_STATE_IDLE)`:
the receive cursor is reset to (0, 0) and, with no frame queued, the engine is
in Idle. The two ACK states that the follower times itself are different: a
timeout in Follower.AckLow enters Follower.AckVerify, and a timeout in
Follower.AckVerify enters Follower.AckFinish unless `broadcast_nak` is set, in
which case it takes the transition to Idle too. -/
theorem follower_timeout (K : ec_commands) (s : engine) :
    (s.cec_state ∈ [FOLLOWER_START_LOW, FOLLOWER_START_HIGH, FOLLOWER_HEADER_INIT_LOW,
        FOLLOWER_HEADER_INIT_HIGH, FOLLOWER_HEADER_DEST_LOW, FOLLOWER_HEADER_DEST_HIGH,
        FOLLOWER_EOM_LOW, FOLLOWER_EOM_HIGH, FOLLOWER_ACK_FINISH, FOLLOWER_DATA_LOW,
        FOLLOWER_DATA_HIGH] →
      cec_event_timeout K s = enter_state K IDLE s ∧
      (cec_event_timeout K s).cec_rx.msgt.bit = 0 ∧
      (cec_event_timeout K s).cec_rx.msgt.byte = 0 ∧
      (s.cec_tx.len = 0 → (cec_event_timeout K s).cec_state = IDLE)) ∧
    (s.cec_state = FOLLOWER_ACK_LOW →
      cec_event_timeout K s = enter_state K FOLLOWER_ACK_VERIFY s ∧
      (cec_event_timeout K s).cec_state = FOLLOWER_ACK_VERIFY) ∧
    (s.cec_state = FOLLOWER_ACK_VERIFY →
      (s.cec_rx.broadcast_nak = 0 →
        cec_event_timeout K s = enter_state K FOLLOWER_ACK_FINISH s ∧
        (cec_event_timeout K s).cec_state = FOLLOWER_ACK_FINISH) ∧
      (s.cec_rx.broadcast_nak ≠ 0 → cec_event_timeout K s = enter_state K IDLE s)) := by
  refine ⟨?_, ?_, ?_⟩
  · intro h
    have e : cec_event_timeout K s = enter_state K IDLE s := by
      simp only [List.mem_cons, List.mem_singleton, List.not_mem_nil, or_false] at h
      unfold cec_event_timeout
      rcases h with h | h | h | h | h | h | h | h | h | h | h <;> simp only [h]
    rw [e]
    have q := enter_idle K s
    exact ⟨rfl, q.1, q.2.1, q.2.2.2.2.2.1⟩
  · intro h
    have e : cec_event_timeout K s = enter_state K FOLLOWER_ACK_VERIFY s := by
      unfold cec_event_timeout
      simp only [h]
    rw [e]
    refine ⟨rfl, ?_⟩
    by_cases hb : s.cec_rx.msgt.buf[0]?.getD 0 &&& 15 = CEC_BROADCAST_ADDR <;>
      simp [enter_state, enter_state_body, enter_state_program_eq, hb]
  · intro h
    refine ⟨?_, ?_⟩
    · intro hn
      have e : cec_event_timeout K s = enter_state K FOLLOWER_ACK_FINISH s := by
        unfold cec_event_timeout
        simp only [h, hn, ne_eq, not_true_eq_false, if_false]
      rw [e]
      exact ⟨rfl, (enter_ack_finish_gpio K s).2⟩
    · intro hn
      unfold cec_event_timeout
      simp only [h, hn, ne_eq, not_false_eq_true, if_true]

/-- C17 fails as stated for Follower.AckLow: with an idle engine put in that
state, a timeout enters Follower.AckVerify and not Idle. -/
theorem follower_timeout_counterexample :
    (cec_event_timeout example_constants
      { example_idle with cec_state := FOLLOWER_ACK_LOW }).cec_state = FOLLOWER_ACK_VERIFY ∧
    (enter_state example_constants IDLE
      { example_idle with cec_state := FOLLOWER_ACK_LOW }).cec_state = IDLE ∧
    cec_event_timeout example_constants { example_idle with cec_state := FOLLOWER_ACK_LOW } ≠
      enter_state example_constants IDLE { example_idle with cec_state := FOLLOWER_ACK_LOW } := by
  have a : (cec_event_timeout example_constants
      { example_idle with cec_state := FOLLOWER_ACK_LOW }).cec_state = FOLLOWER_ACK_VERIFY := by
    decide
  have b : (enter_state example_constants IDLE
      { example_idle with cec_state := FOLLOWER_ACK_LOW }).cec_state = IDLE := by
    decide
  refine ⟨a, b, ?_⟩
  intro h
  rw [h, b] at a
  exact absurd a (by decide)

/-- C18, as amended. For a clock divisor that `cec_init` computes and that is
at least 1, the timeout programmed on entering Initiator.FreeTime for a resend
(`tx.resends != 0`) is `FREE_TIME_RS`, three nominal bit times, and is shorter
than the one programmed for a first attempt (`tx.resends = 0`), which is
`FREE_TIME_NI`, five nominal bit times. -/
theorem free_time_resend_shorter (K : ec_commands) (s : engine) (apb1_freq : Nat)
    (hq : apb1_freq < 4294967296) (hf1 : 10000 ≤ apb1_freq)
    (hf : s.apb1_freq_div_10k = apb1_freq / 10000) (hr : s.cec_tx.resends ≠ 0) :
    (enter_state K INITIATOR_FREE_TIME s).mft.tcnt1 =
      Int.ofNat (FREE_TIME_RS (apb1_freq / 10000)) ∧
    (enter_state K INITIATOR_FREE_TIME
      { s with cec_tx := { s.cec_tx with resends := 0 } }).mft.tcnt1 =
      Int.ofNat (FREE_TIME_NI (apb1_freq / 10000)) ∧
    FREE_TIME_RS (apb1_freq / 10000) = 3 * NOMINAL_BIT_TIME (apb1_freq / 10000) ∧
    FREE_TIME_NI (apb1_freq / 10000) = 5 * NOMINAL_BIT_TIME (apb1_freq / 10000) ∧
    0 < NOMINAL_BIT_TIME (apb1_freq / 10000) ∧
    (enter_state K INITIATOR_FREE_TIME s).mft.tcnt1 <
      (enter_state K INITIATOR_FREE_TIME
        { s with cec_tx := { s.cec_tx with resends := 0 } }).mft.tcnt1 := by
  have g1 : 1 ≤ apb1_freq / 10000 := by omega
  have g2 : apb1_freq / 10000 ≤ 429496 := by omega
  generalize apb1_freq / 10000 = f at hf g1 g2
  have en : NOMINAL_BIT_TIME f = 24 * f := by
    unfold NOMINAL_BIT_TIME
    rw [ticks_eq f _ g2 (by norm_num)]
    omega
  have ers : FREE_TIME_RS f = 72 * f := by
    unfold FREE_TIME_RS u32_mul
    rw [en]
    omega
  have eni : FREE_TIME_NI f = 120 * f := by
    unfold FREE_TIME_NI u32_mul
    rw [en]
    omega
  have irs : u32_to_int (FREE_TIME_RS f) = Int.ofNat (FREE_TIME_RS f) := by
    rw [u32_to_int_of_lt _ (by omega)]
    rfl
  have ini : u32_to_int (FREE_TIME_NI f) = Int.ofNat (FREE_TIME_NI f) := by
    rw [u32_to_int_of_lt _ (by omega)]
    rfl
  have prs : (0 : Int) < Int.ofNat (FREE_TIME_RS f) := by
    rw [ers]
    simp only [Int.ofNat_eq_coe]
    omega
  have pni : (0 : Int) < Int.ofNat (FREE_TIME_NI f) := by
    rw [eni]
    simp only [Int.ofNat_eq_coe]
    omega
  have a : (enter_state K INITIATOR_FREE_TIME s).mft.tcnt1 = Int.ofNat (FREE_TIME_RS f) := by
    simp [enter_state, enter_state_body, enter_state_program_eq, program_mft, CAP_EDGE_FALLING,
      hr, hf, irs, prs, le_of_lt prs]
  have b : (enter_state K INITIATOR_FREE_TIME
      { s with cec_tx := { s.cec_tx with resends := 0 } }).mft.tcnt1 =
      Int.ofNat (FREE_TIME_NI f) := by
    simp [enter_state, enter_state_body, enter_state_program_eq, program_mft, CAP_EDGE_FALLING,
      hf, ini, pni, le_of_lt pni]
  refine ⟨a, b, by omega, by omega, by omega, ?_⟩
  rw [a, b, ers, eni]
  simp only [Int.ofNat_eq_coe]
  omega

/-- C18, as amended, at one tick per microsecond with one resend counted. -/
theorem free_time_resend_shorter_witness :
    (enter_state example_constants INITIATOR_FREE_TIME
      { example_idle with cec_tx := { example_idle.cec_tx with resends := 1 } }).mft.tcnt1 <
    (enter_state example_constants INITIATOR_FREE_TIME
      { { example_idle with cec_tx := { example_idle.cec_tx with resends := 1 } } with
        cec_tx := { example_idle.cec_tx with resends := 0 } }).mft.tcnt1 :=
  (free_time_resend_shorter example_constants
    { example_idle with cec_tx := { example_idle.cec_tx with resends := 1 } } 1000000
    (by decide) (by decide) rfl (by decide)).2.2.2.2.2

/-- C18 fails as stated: at one tick per microsecond the timeout programmed on
entering Initiator.FreeTime is 7200 ticks for a resend and 12000 ticks for a
first attempt, so the resend free time is not the longer one. -/
theorem free_time_resend_counterexample :
    (enter_state example_constants INITIATOR_FREE_TIME
      { example_idle with cec_tx := { example_idle.cec_tx with resends := 1 } }).mft.tcnt1
      = 7200 ∧
    (enter_state example_constants INITIATOR_FREE_TIME example_idle).mft.tcnt1 = 12000 ∧
    ¬ ((enter_state example_constants INITIATOR_FREE_TIME example_idle).mft.tcnt1 <
      (enter_state example_constants INITIATOR_FREE_TIME
        { example_idle with cec_tx := { example_idle.cec_tx with resends := 1 } }).mft.tcnt1) := by
  decide

/-- C20, as amended. For a cursor with bit in 0..7 and byte in
0..MAX_CEC_MSG_LEN, other than the last bit of a cursor that is already at
byte MAX_CEC_MSG_LEN, `msgt_inc_bit` gives a cursor with bit in 0..7 and byte
in 0..MAX_CEC_MSG_LEN again: the bit offset plus one and the same byte when
bit < 7, and bit 0 of the next byte when bit = 7. The buffer is untouched.
MAX_CEC_MSG_LEN fits the 8-bit byte offset. -/
theorem msgt_inc_bit_ranges (K : ec_commands) (m : cec_msg_transfer)
    (hN : K.MAX_CEC_MSG_LEN ≤ 255) (hb : m.bit ≤ 7) (hy : m.byte ≤ K.MAX_CEC_MSG_LEN)
    (hc : m.bit = 7 → m.byte < K.MAX_CEC_MSG_LEN) :
    (msgt_inc_bit K m).bit ≤ 7 ∧ (msgt_inc_bit K m).byte ≤ K.MAX_CEC_MSG_LEN ∧
    (m.bit < 7 → msgt_inc_bit K m = { m with bit := m.bit + 1 }) ∧
    (m.bit = 7 → msgt_inc_bit K m = { m with bit := 0, byte := m.byte + 1 }) ∧
    (msgt_inc_bit K m).buf = m.buf := by
  by_cases h7 : m.bit = 7
  · have hlt := hc h7
    have e : msgt_inc_bit K m = { m with bit := 0, byte := m.byte + 1 } := by
      have h1 : ¬ K.MAX_CEC_MSG_LEN ≤ m.byte := by omega
      have h2 : (m.byte + 1) % 256 = m.byte + 1 := Nat.mod_eq_of_lt (by omega)
      simp [msgt_inc_bit, h7, h1, h2]
    rw [e]
    refine ⟨by simp, ?_, fun h => by omega, fun _ => rfl, rfl⟩
    show m.byte + 1 ≤ K.MAX_CEC_MSG_LEN
    omega
  · have e : msgt_inc_bit K m = { m with bit := m.bit + 1 } := by
      have h1 : (m.bit + 1) % 256 = m.bit + 1 := Nat.mod_eq_of_lt (by omega)
      have h2 : ¬ m.bit + 1 = 8 := by omega
      simp [msgt_inc_bit, h1, h2]
    rw [e]
    refine ⟨?_, hy, fun _ => rfl, fun h => absurd h h7, rfl⟩
    show m.bit + 1 ≤ 7
    omega

/-- C20, as amended, for the cursor (7, 0) of a 16-byte buffer. -/
theorem msgt_inc_bit_ranges_witness :
    msgt_inc_bit example_constants ⟨List.replicate 16 0, 7, 0⟩ =
      { (⟨List.replicate 16 0, 7, 0⟩ : cec_msg_transfer) with bit := 0, byte := 0 + 1 } :=
  (msgt_inc_bit_ranges example_constants ⟨List.replicate 16 0, 7, 0⟩ (by decide) (by decide)
    (by decide) (fun _ => by decide)).2.2.2.1 rfl

/-- C20 fails as stated at the last bit of a cursor at byte MAX_CEC_MSG_LEN:
with 16-byte buffers, advancing the cursor (7, 16) leaves the bit offset at 8
and the byte offset at 16. -/
theorem msgt_inc_bit_counterexample :
    msgt_inc_bit example_constants ⟨List.replicate 16 0, 7, 16⟩ =
      ⟨List.replicate 16 0, 8, 16⟩ ∧
    ¬ ((msgt_inc_bit example_constants ⟨List.replicate 16 0, 7, 16⟩).bit ≤ 7) := by
  decide

section windows

/-- The low check of the code is the low window of the specification, for a
clock divisor that `cec_init` computes. -/
theorem valid_low_window (f : Nat) (c : pulse_class) (t : Int) (hf : f ≤ 429496)
    (ht : is_int t) : VALID_LOW f c t = true ↔ low_window f c t := by
  have e1 : APB1_TICKS f 100 = f := by rw [ticks_eq f _ hf (by norm_num)]; omega
  have e35 : APB1_TICKS f 3500 = 35 * f := by rw [ticks_eq f _ hf (by norm_num)]; omega
  have e39 : APB1_TICKS f 3900 = 39 * f := by rw [ticks_eq f _ hf (by norm_num)]; omega
  have e13 : APB1_TICKS f 1300 = 13 * f := by rw [ticks_eq f _ hf (by norm_num)]; omega
  have e17 : APB1_TICKS f 1700 = 17 * f := by rw [ticks_eq f _ hf (by norm_num)]; omega
  have e4 : APB1_TICKS f 400 = 4 * f := by rw [ticks_eq f _ hf (by norm_num)]; omega
  have e8 : APB1_TICKS f 800 = 8 * f := by rw [ticks_eq f _ hf (by norm_num)]; omega
  rw [valid_low_iff f c t hf]
  unfold low_window is_int int_to_u32 at *
  cases c <;>
    simp only [MIN_LOW, MAX_LOW, VALID_TOLERANCE, START_BIT_MIN_LOW, START_BIT_MAX_LOW,
      DATA_ZERO_MIN_LOW, DATA_ZERO_MAX_LOW, DATA_ONE_MIN_LOW, DATA_ONE_MAX_LOW,
      e1, e35, e39, e13, e17, e4, e8] <;>
    omega

/-- The total-duration check of the code is the total-duration window of the
specification, for a clock divisor that `cec_init` computes. -/
theorem valid_high_window (f : Nat) (c : pulse_class) (lo hi : Int) (hf : f ≤ 429496)
    (ht : is_int (lo + hi)) : VALID_HIGH f c lo hi = true ↔ duration_window f c lo hi := by
  have e1 : APB1_TICKS f 100 = f := by rw [ticks_eq f _ hf (by norm_num)]; omega
  have e43 : APB1_TICKS f 4300 = 43 * f := by rw [ticks_eq f _ hf (by norm_num)]; omega
  have e57 : APB1_TICKS f 5700 = 57 * f := by rw [ticks_eq f _ hf (by norm_num)]; omega
  have e20 : APB1_TICKS f 2050 = 2050 * f / 100 := ticks_eq f _ hf (by norm_num)
  have e27 : APB1_TICKS f 2750 = 2750 * f / 100 := ticks_eq f _ hf (by norm_num)
  rw [valid_high_iff f c lo hi hf]
  unfold duration_window is_int int_to_u32 at *
  generalize lo + hi = x at *
  cases c <;>
    simp only [MIN_DURATION, MAX_DURATION, VALID_TOLERANCE, START_BIT_MIN_DURATION,
      START_BIT_MAX_DURATION, DATA_ZERO_MIN_DURATION, DATA_ZERO_MAX_DURATION,
      DATA_ONE_MIN_DURATION, DATA_ONE_MAX_DURATION, e1, e43, e57, e20, e27] <;>
    omega

/-- The two data classes have the same total-duration window. -/
theorem duration_window_data (f : Nat) (lo hi : Int) :
    duration_window f .DATA_ONE lo hi ↔ duration_window f .DATA_ZERO lo hi := Iff.rfl

end windows

section captures

/-- The capture handler measures the duration that the interrupt carries. -/
theorem tmr_cap_get_latched (s : engine) (t : Int) : tmr_cap_get (latched s t) = t := by
  unfold tmr_cap_get latched
  simp

/-- Entering a follower state that waits for an edge only programs the capture
timer. -/
theorem enter_follower_wait (K : ec_commands) (st : cec_state) (x : engine)
    (h : st ∈ [FOLLOWER_START_LOW, FOLLOWER_START_HIGH, FOLLOWER_HEADER_INIT_LOW,
      FOLLOWER_HEADER_INIT_HIGH, FOLLOWER_HEADER_DEST_LOW, FOLLOWER_HEADER_DEST_HIGH,
      FOLLOWER_EOM_LOW, FOLLOWER_EOM_HIGH, FOLLOWER_DATA_LOW, FOLLOWER_DATA_HIGH]) :
    (enter_state K st x).cec_state = st ∧ (enter_state K st x).cec_rx = x.cec_rx ∧
    (enter_state K st x).cec_tx = x.cec_tx ∧ (enter_state K st x).gpio_out = x.gpio_out ∧
    (enter_state K st x).cec_events = x.cec_events ∧
    (enter_state K st x).mkbp_log = x.mkbp_log ∧
    (enter_state K st x).apb1_freq_div_10k = x.apb1_freq_div_10k := by
  simp only [List.mem_cons, List.mem_singleton, List.not_mem_nil, or_false] at h
  rcases h with h | h | h | h | h | h | h | h | h | h <;> subst h <;>
    simp [enter_state, enter_state_body, enter_state_program_eq]

/-- The state after `enter_state(CEC_STATE_IDLE)` is Idle or
Initiator.FreeTime. -/
theorem enter_idle_state (K : ec_commands) (s : engine) :
    (enter_state K IDLE s).cec_state = IDLE ∨
    (enter_state K IDLE s).cec_state = INITIATOR_FREE_TIME := by
  by_cases h : s.cec_tx.len = 0
  · exact Or.inl ((enter_idle K s).2.2.2.2.2.1 h)
  · exact Or.inr ((enter_idle K s).2.2.2.2.2.2.1 h)

/-- The transition to Idle abandons the receive. -/
theorem forced_idle_intro (K : ec_commands) (s r : engine) (h : r = enter_state K IDLE s) :
    forced_idle K s r := by
  subst h
  have q := enter_idle K s
  exact ⟨rfl, q.1, q.2.1, q.2.2.2.2.2.1⟩

/-- A rising edge in a follower data-low state, as `cec_event_cap` handles
it. -/
theorem cap_data_low (K : ec_commands) (s : engine) (t : Int) (lo hi : cec_state)
    (hp : (lo, hi) ∈ [(FOLLOWER_HEADER_INIT_LOW, FOLLOWER_HEADER_INIT_HIGH),
      (FOLLOWER_HEADER_DEST_LOW, FOLLOWER_HEADER_DEST_HIGH),
      (FOLLOWER_DATA_LOW, FOLLOWER_DATA_HIGH)])
    (hs : s.cec_state = lo) :
    deliver K (.capture t) s =
      if VALID_LOW s.apb1_freq_div_10k .DATA_ZERO t = true then
        enter_state K hi { latched s t with cec_rx := { s.cec_rx with
          low_time := t, msgt := msgt_set_bit K s.cec_rx.msgt 0 } }
      else if VALID_LOW s.apb1_freq_div_10k .DATA_ONE t = true then
        enter_state K hi { latched s t with cec_rx := { s.cec_rx with
          low_time := t, msgt := msgt_set_bit K s.cec_rx.msgt 1 } }
      else enter_state K IDLE (latched s t) := by
  obtain ⟨st, rx, tx, cc, ev, f, go, gi, m, log⟩ := s
  simp only [List.mem_cons, List.mem_singleton, List.not_mem_nil, or_false, Prod.mk.injEq] at hp
  simp only at hs
  subst hs
  rcases hp with ⟨h1, h2⟩ | ⟨h1, h2⟩ | ⟨h1, h2⟩ <;> subst h1 <;> subst h2 <;>
    simp only [deliver, cec_event_cap, tmr_cap_get, latched, sub_sub_cancel, cec_state.value,
      cec_state.of_value]

/-- A falling edge in a follower data-high state, as `cec_event_cap` handles
it: the state entered when the bit is accepted depends on the cursor after the
advance. -/
theorem cap_data_high (K : ec_commands) (s : engine) (t : Int)
    (hs : s.cec_state ∈ [FOLLOWER_HEADER_INIT_HIGH, FOLLOWER_HEADER_DEST_HIGH,
      FOLLOWER_DATA_HIGH]) :
    deliver K (.capture t) s =
      if VALID_DATA_HIGH s.apb1_freq_div_10k (msgt_get_bit K s.cec_rx.msgt) s.cec_rx.low_time t
          = true then
        enter_state K
          (match s.cec_state with
            | FOLLOWER_HEADER_INIT_HIGH =>
              if (msgt_inc_bit K s.cec_rx.msgt).bit = 4 then FOLLOWER_HEADER_DEST_LOW
              else FOLLOWER_HEADER_INIT_LOW
            | FOLLOWER_HEADER_DEST_HIGH =>
              if (msgt_inc_bit K s.cec_rx.msgt).bit = 0 then FOLLOWER_EOM_LOW
              else FOLLOWER_HEADER_DEST_LOW
            | _ =>
              if (msgt_inc_bit K s.cec_rx.msgt).bit = 0 then FOLLOWER_EOM_LOW
              else FOLLOWER_DATA_LOW)
          { latched s t with cec_rx := { s.cec_rx with msgt := msgt_inc_bit K s.cec_rx.msgt } }
      else enter_state K IDLE (latched s t) := by
  obtain ⟨st, rx, tx, cc, ev, f, go, gi, m, log⟩ := s
  simp only [List.mem_cons, List.mem_singleton, List.not_mem_nil, or_false] at hs
  rcases hs with h | h | h <;> subst h <;>
    simp only [deliver, cec_event_cap, tmr_cap_get, latched, sub_sub_cancel] <;>
    split <;> try rfl
  all_goals split <;> rfl

end captures

section classification

/-- Reading back the bit that `msgt_set_bit` has just recorded at a cursor
inside the buffer. -/
theorem get_bit_set_bit (K : ec_commands) (m : cec_msg_transfer) (v : Nat)
    (hbit : m.bit < 8) (hbyte : m.byte < K.MAX_CEC_MSG_LEN) (hlen : m.byte < m.buf.length) :
    msgt_get_bit K (msgt_set_bit K m v) ≠ 0 ↔ v ≠ 0 := by
  rw [msgt_set_bit_eq K m v hbyte]
  unfold msgt_get_bit
  have h1 : ¬ K.MAX_CEC_MSG_LEN ≤ m.byte := by omega
  simp only [ge_iff_le, h1, if_false]
  have e : (m.buf.set m.byte (set_bit_byte (m.buf.getD m.byte 0) m.bit v)).getD m.byte 0 =
      set_bit_byte (m.buf.getD m.byte 0) m.bit v := by
    simp [List.getD_eq_getElem?_getD, hlen]
  rw [e]
  exact get_after_set _ _ _ hbit

/-- `VALID_DATA_HIGH` checks the total duration against the class of the
bit. -/
theorem valid_data_high_class (f d : Nat) (lo hi : Int) :
    VALID_DATA_HIGH f d lo hi = VALID_HIGH f (data_class d) lo hi := by
  unfold VALID_DATA_HIGH data_class
  split <;> rfl

end classification

/-- C15. Two-stage bit classification, for a clock divisor that `cec_init`
computes. First stage: in a follower data-low state (Follower.HeaderInitLow,
HeaderDestLow, DataLow) with the receive cursor inside the buffer, a rising
edge that measures the low duration `t` takes the follower to the matching
high state with bit 0 recorded at the cursor exactly when `t` is in the low
window of a data zero, and with bit 1 recorded exactly when `t` is not a valid
zero and is in the low window of a data one; `t` is then kept as the low time
and the cursor stays. Second stage: in a follower data-high state, the falling
edge that measures the high duration `t` accepts the bit, the follower going
on to a low state with the cursor advanced by `msgt_inc_bit`, exactly when the
low time plus `t` is in the total-duration window of the class of the recorded
bit. The measured durations are values of a C `int`. -/
theorem two_stage_bit_classification (K : ec_commands) (s : engine) (apb1_freq : Nat)
    (t : Int) (hq : apb1_freq < 4294967296) (hf : s.apb1_freq_div_10k = apb1_freq / 10000) :
    (∀ lo hi, (lo, hi) ∈ [(FOLLOWER_HEADER_INIT_LOW, FOLLOWER_HEADER_INIT_HIGH),
        (FOLLOWER_HEADER_DEST_LOW, FOLLOWER_HEADER_DEST_HIGH),
        (FOLLOWER_DATA_LOW, FOLLOWER_DATA_HIGH)] →
      s.cec_state = lo → is_int t → s.cec_rx.msgt.bit < 8 →
      s.cec_rx.msgt.byte < K.MAX_CEC_MSG_LEN → s.cec_rx.msgt.byte < s.cec_rx.msgt.buf.length →
      (((deliver K (.capture t) s).cec_state = hi ∧
          msgt_get_bit K (deliver K (.capture t) s).cec_rx.msgt = 0) ↔
        low_window (apb1_freq / 10000) .DATA_ZERO t) ∧
      (((deliver K (.capture t) s).cec_state = hi ∧
          msgt_get_bit K (deliver K (.capture t) s).cec_rx.msgt ≠ 0) ↔
        (¬ low_window (apb1_freq / 10000) .DATA_ZERO t ∧
          low_window (apb1_freq / 10000) .DATA_ONE t)) ∧
      ((deliver K (.capture t) s).cec_state = hi →
        (deliver K (.capture t) s).cec_rx.low_time = t ∧
        (deliver K (.capture t) s).cec_rx.msgt.bit = s.cec_rx.msgt.bit ∧
        (deliver K (.capture t) s).cec_rx.msgt.byte = s.cec_rx.msgt.byte)) ∧
    (s.cec_state ∈ [FOLLOWER_HEADER_INIT_HIGH, FOLLOWER_HEADER_DEST_HIGH,
        FOLLOWER_DATA_HIGH] →
      is_int (s.cec_rx.low_time + t) →
      (((deliver K (.capture t) s).cec_state ∈ [FOLLOWER_HEADER_INIT_LOW,
            FOLLOWER_HEADER_DEST_LOW, FOLLOWER_DATA_LOW, FOLLOWER_EOM_LOW] ∧
          (deliver K (.capture t) s).cec_rx.msgt = msgt_inc_bit K s.cec_rx.msgt) ↔
        duration_window (apb1_freq / 10000) (data_class (msgt_get_bit K s.cec_rx.msgt))
          s.cec_rx.low_time t) ∧
      ((deliver K (.capture t) s).cec_state ∈ [FOLLOWER_HEADER_INIT_LOW,
          FOLLOWER_HEADER_DEST_LOW, FOLLOWER_DATA_LOW, FOLLOWER_EOM_LOW] ↔
        duration_window (apb1_freq / 10000) (data_class (msgt_get_bit K s.cec_rx.msgt))
          s.cec_rx.low_time t)) := by
  have g2 : apb1_freq / 10000 ≤ 429496 := by omega
  generalize apb1_freq / 10000 = f at hf g2
  refine ⟨?_, ?_⟩
  · intro lo hi hp hs ht hbit hbyte hlen
    have wz := valid_low_window f .DATA_ZERO t g2 ht
    have wo := valid_low_window f .DATA_ONE t g2 ht
    have hhi : hi ∈ [FOLLOWER_START_LOW, FOLLOWER_START_HIGH, FOLLOWER_HEADER_INIT_LOW,
        FOLLOWER_HEADER_INIT_HIGH, FOLLOWER_HEADER_DEST_LOW, FOLLOWER_HEADER_DEST_HIGH,
        FOLLOWER_EOM_LOW, FOLLOWER_EOM_HIGH, FOLLOWER_DATA_LOW, FOLLOWER_DATA_HIGH] := by
      simp only [List.mem_cons, List.mem_singleton, List.not_mem_nil, or_false,
        Prod.mk.injEq] at hp
      rcases hp with ⟨_, h⟩ | ⟨_, h⟩ | ⟨_, h⟩ <;> rw [h] <;> decide
    have hne : hi ≠ IDLE ∧ hi ≠ INITIATOR_FREE_TIME := by
      simp only [List.mem_cons, List.mem_singleton, List.not_mem_nil, or_false,
        Prod.mk.injEq] at hp
      rcases hp with ⟨_, h⟩ | ⟨_, h⟩ | ⟨_, h⟩ <;> rw [h] <;> decide
    have g0 := get_bit_set_bit K s.cec_rx.msgt 0 hbit hbyte hlen
    have g1 := get_bit_set_bit K s.cec_rx.msgt 1 hbit hbyte hlen
    have c0 : (msgt_set_bit K s.cec_rx.msgt 0).bit = s.cec_rx.msgt.bit ∧
        (msgt_set_bit K s.cec_rx.msgt 0).byte = s.cec_rx.msgt.byte := by
      rw [msgt_set_bit_eq K _ _ hbyte]
      exact ⟨rfl, rfl⟩
    have c1 : (msgt_set_bit K s.cec_rx.msgt 1).bit = s.cec_rx.msgt.bit ∧
        (msgt_set_bit K s.cec_rx.msgt 1).byte = s.cec_rx.msgt.byte := by
      rw [msgt_set_bit_eq K _ _ hbyte]
      exact ⟨rfl, rfl⟩
    rw [cap_data_low K s t lo hi hp hs, hf]
    by_cases hz : VALID_LOW f .DATA_ZERO t = true
    · rw [if_pos hz]
      have q := enter_follower_wait K hi { latched s t with cec_rx := { s.cec_rx with
        low_time := t, msgt := msgt_set_bit K s.cec_rx.msgt 0 } } hhi
      rw [q.1, q.2.1]
      have z : msgt_get_bit K (msgt_set_bit K s.cec_rx.msgt 0) = 0 := by
        by_contra hc
        exact g0.1 hc rfl
      refine ⟨⟨fun _ => wz.1 hz, fun _ => ⟨rfl, z⟩⟩, ⟨fun h => absurd z h.2,
        fun h => absurd (wz.1 hz) h.1⟩, fun _ => ⟨rfl, c0.1, c0.2⟩⟩
    · rw [if_neg hz]
      have nz : ¬ low_window f .DATA_ZERO t := fun h => hz (wz.2 h)
      by_cases ho : VALID_LOW f .DATA_ONE t = true
      · rw [if_pos ho]
        have q := enter_follower_wait K hi { latched s t with cec_rx := { s.cec_rx with
          low_time := t, msgt := msgt_set_bit K s.cec_rx.msgt 1 } } hhi
        rw [q.1, q.2.1]
        have z : msgt_get_bit K (msgt_set_bit K s.cec_rx.msgt 1) ≠ 0 := g1.2 Nat.one_ne_zero
        refine ⟨⟨fun h => absurd h.2 z, fun h => absurd h nz⟩,
          ⟨fun _ => ⟨nz, wo.1 ho⟩, fun _ => ⟨rfl, z⟩⟩, fun _ => ⟨rfl, c1.1, c1.2⟩⟩
      · rw [if_neg ho]
        have no : ¬ low_window f .DATA_ONE t := fun h => ho (wo.2 h)
        have hst : (enter_state K IDLE (latched s t)).cec_state ≠ hi := by
          rcases enter_idle_state K (latched s t) with h | h <;> rw [h]
          · exact fun e => hne.1 e.symm
          · exact fun e => hne.2 e.symm
        refine ⟨⟨fun h => absurd h.1 hst, fun h => absurd h nz⟩,
          ⟨fun h => absurd h.1 hst, fun h => absurd h.2 no⟩, fun h => absurd h hst⟩
  · intro hs ht
    have w := valid_high_window f (data_class (msgt_get_bit K s.cec_rx.msgt))
      s.cec_rx.low_time t g2 ht
    rw [cap_data_high K s t hs, hf, valid_data_high_class]
    by_cases hv : VALID_HIGH f (data_class (msgt_get_bit K s.cec_rx.msgt))
        s.cec_rx.low_time t = true
    · rw [if_pos hv]
      have hnext : (match s.cec_state with
          | FOLLOWER_HEADER_INIT_HIGH =>
            if (msgt_inc_bit K s.cec_rx.msgt).bit = 4 then FOLLOWER_HEADER_DEST_LOW
            else FOLLOWER_HEADER_INIT_LOW
          | FOLLOWER_HEADER_DEST_HIGH =>
            if (msgt_inc_bit K s.cec_rx.msgt).bit = 0 then FOLLOWER_EOM_LOW
            else FOLLOWER_HEADER_DEST_LOW
          | _ =>
            if (msgt_inc_bit K s.cec_rx.msgt).bit = 0 then FOLLOWER_EOM_LOW
            else FOLLOWER_DATA_LOW) ∈ [FOLLOWER_HEADER_INIT_LOW,
            FOLLOWER_HEADER_DEST_LOW, FOLLOWER_DATA_LOW, FOLLOWER_EOM_LOW] := by
        simp only [List.mem_cons, List.mem_singleton, List.not_mem_nil, or_false] at hs
        rcases hs with h | h | h <;> rw [h] <;> simp only <;> split <;> decide
      generalize (match s.cec_state with
          | FOLLOWER_HEADER_INIT_HIGH =>
            if (msgt_inc_bit K s.cec_rx.msgt).bit = 4 then FOLLOWER_HEADER_DEST_LOW
            else FOLLOWER_HEADER_INIT_LOW
          | FOLLOWER_HEADER_DEST_HIGH =>
            if (msgt_inc_bit K s.cec_rx.msgt).bit = 0 then FOLLOWER_EOM_LOW
            else FOLLOWER_HEADER_DEST_LOW
          | _ =>
            if (msgt_inc_bit K s.cec_rx.msgt).bit = 0 then FOLLOWER_EOM_LOW
            else FOLLOWER_DATA_LOW) = nx at hnext ⊢
      have hw : nx ∈ [FOLLOWER_START_LOW, FOLLOWER_START_HIGH, FOLLOWER_HEADER_INIT_LOW,
          FOLLOWER_HEADER_INIT_HIGH, FOLLOWER_HEADER_DEST_LOW, FOLLOWER_HEADER_DEST_HIGH,
          FOLLOWER_EOM_LOW, FOLLOWER_EOM_HIGH, FOLLOWER_DATA_LOW, FOLLOWER_DATA_HIGH] := by
        simp only [List.mem_cons, List.mem_singleton, List.not_mem_nil, or_false] at hnext ⊢
        rcases hnext with h | h | h | h <;> simp [h]
      have q := enter_follower_wait K nx { latched s t with cec_rx := { s.cec_rx with
        msgt := msgt_inc_bit K s.cec_rx.msgt } } hw
      rw [q.1, q.2.1]
      exact ⟨⟨fun _ => w.1 hv, fun _ => ⟨hnext, rfl⟩⟩, ⟨fun _ => w.1 hv, fun _ => hnext⟩⟩
    · rw [if_neg hv]
      have nw : ¬ duration_window f (data_class (msgt_get_bit K s.cec_rx.msgt))
          s.cec_rx.low_time t := fun h => hv (w.2 h)
      have hst : (enter_state K IDLE (latched s t)).cec_state ∉ [FOLLOWER_HEADER_INIT_LOW,
          FOLLOWER_HEADER_DEST_LOW, FOLLOWER_DATA_LOW, FOLLOWER_EOM_LOW] := by
        rcases enter_idle_state K (latched s t) with h | h <;> rw [h] <;> decide
      exact ⟨⟨fun h => absurd h.1 hst, fun h => absurd h nw⟩,
        ⟨fun h => absurd h hst, fun h => absurd h nw⟩⟩

section violations

/-- The rising edge of the start bit, as `cec_event_cap` handles it. -/
theorem cap_start_low (K : ec_commands) (s : engine) (t : Int)
    (hs : s.cec_state = FOLLOWER_START_LOW) :
    deliver K (.capture t) s =
      if VALID_LOW s.apb1_freq_div_10k .START_BIT t = true then
        enter_state K FOLLOWER_START_HIGH
          { latched s t with cec_rx := { s.cec_rx with low_time := t } }
      else enter_state K IDLE (latched s t) := by
  obtain ⟨st, rx, tx, cc, ev, f, go, gi, m, log⟩ := s
  simp only at hs
  subst hs
  simp only [deliver, cec_event_cap, tmr_cap_get, latched, sub_sub_cancel]

/-- The falling edge that ends the start bit, as `cec_event_cap` handles it. -/
theorem cap_start_high (K : ec_commands) (s : engine) (t : Int)
    (hs : s.cec_state = FOLLOWER_START_HIGH) :
    deliver K (.capture t) s =
      if VALID_HIGH s.apb1_freq_div_10k .START_BIT s.cec_rx.low_time t = true then
        enter_state K FOLLOWER_HEADER_INIT_LOW (latched s t)
      else enter_state K IDLE (latched s t) := by
  obtain ⟨st, rx, tx, cc, ev, f, go, gi, m, log⟩ := s
  simp only at hs
  subst hs
  simp only [deliver, cec_event_cap, tmr_cap_get, latched, sub_sub_cancel]

/-- The rising edge of the EOM bit, as `cec_event_cap` handles it. -/
theorem cap_eom_low (K : ec_commands) (s : engine) (t : Int)
    (hs : s.cec_state = FOLLOWER_EOM_LOW) :
    deliver K (.capture t) s =
      if VALID_LOW s.apb1_freq_div_10k .DATA_ZERO t = true then
        enter_state K FOLLOWER_EOM_HIGH
          { latched s t with cec_rx := { s.cec_rx with low_time := t, eom := 0 } }
      else if VALID_LOW s.apb1_freq_div_10k .DATA_ONE t = true then
        enter_state K FOLLOWER_EOM_HIGH
          { latched s t with cec_rx := { s.cec_rx with low_time := t, eom := 1 } }
      else enter_state K IDLE (latched s t) := by
  obtain ⟨st, rx, tx, cc, ev, f, go, gi, m, log⟩ := s
  simp only at hs
  subst hs
  simp only [deliver, cec_event_cap, tmr_cap_get, latched, sub_sub_cancel]

/-- The falling edge that ends the EOM bit, as `cec_event_cap` handles it. -/
theorem cap_eom_high (K : ec_commands) (s : engine) (t : Int)
    (hs : s.cec_state = FOLLOWER_EOM_HIGH) :
    deliver K (.capture t) s =
      if VALID_DATA_HIGH s.apb1_freq_div_10k s.cec_rx.eom s.cec_rx.low_time t = true then
        enter_state K FOLLOWER_ACK_LOW (latched s t)
      else enter_state K IDLE (latched s t) := by
  obtain ⟨st, rx, tx, cc, ev, f, go, gi, m, log⟩ := s
  simp only at hs
  subst hs
  simp only [deliver, cec_event_cap, tmr_cap_get, latched, sub_sub_cancel]

end violations

/-- C16. Timing violation recovers to Idle, for a clock divisor that `cec_init`
computes. In Follower.StartLow a rising edge whose low duration is outside the
start bit's low window, in Follower.HeaderInitLow, HeaderDestLow, DataLow and
EomLow a rising edge whose low duration is outside the low windows of both a
data zero and a data one, in Follower.StartHigh a falling edge whose low plus
high duration is outside the start bit's total-duration window, and in
Follower.HeaderInitHigh, HeaderDestHigh, DataHigh and EomHigh a falling edge
whose low plus high duration is outside the total-duration windows of the data
classes, all take the transition `enter_state(CEC_STATE_IDLE)`: the receive
cursor is reset to (0, 0) and, with no frame queued, the engine is in Idle. The
measured durations are values of a C `int`. -/
theorem timing_violation_recovers (K : ec_commands) (s : engine) (apb1_freq : Nat)
    (t : Int) (hq : apb1_freq < 4294967296) (hf : s.apb1_freq_div_10k = apb1_freq / 10000) :
    (s.cec_state = FOLLOWER_START_LOW → is_int t →
      ¬ low_window (apb1_freq / 10000) .START_BIT t →
      forced_idle K (latched s t) (deliver K (.capture t) s)) ∧
    (s.cec_state ∈ [FOLLOWER_HEADER_INIT_LOW, FOLLOWER_HEADER_DEST_LOW, FOLLOWER_DATA_LOW,
        FOLLOWER_EOM_LOW] → is_int t →
      ¬ low_window (apb1_freq / 10000) .DATA_ZERO t →
      ¬ low_window (apb1_freq / 10000) .DATA_ONE t →
      forced_idle K (latched s t) (deliver K (.capture t) s)) ∧
    (s.cec_state = FOLLOWER_START_HIGH → is_int (s.cec_rx.low_time + t) →
      ¬ duration_window (apb1_freq / 10000) .START_BIT s.cec_rx.low_time t →
      forced_idle K (latched s t) (deliver K (.capture t) s)) ∧
    (s.cec_state ∈ [FOLLOWER_HEADER_INIT_HIGH, FOLLOWER_HEADER_DEST_HIGH, FOLLOWER_DATA_HIGH,
        FOLLOWER_EOM_HIGH] → is_int (s.cec_rx.low_time + t) →
      ¬ duration_window (apb1_freq / 10000) .DATA_ZERO s.cec_rx.low_time t →
      ¬ duration_window (apb1_freq / 10000) .DATA_ONE s.cec_rx.low_time t →
      forced_idle K (latched s t) (deliver K (.capture t) s)) := by
  have g2 : apb1_freq / 10000 ≤ 429496 := by omega
  generalize apb1_freq / 10000 = f at hf g2
  refine ⟨?_, ?_, ?_, ?_⟩
  · intro hs ht hw
    apply forced_idle_intro
    have hv : ¬ VALID_LOW f .START_BIT t = true := fun h =>
      hw ((valid_low_window f _ t g2 ht).1 h)
    rw [cap_start_low K s t hs, hf, if_neg hv]
  · intro hs ht hz ho
    apply forced_idle_intro
    have hvz : ¬ VALID_LOW f .DATA_ZERO t = true := fun h =>
      hz ((valid_low_window f _ t g2 ht).1 h)
    have hvo : ¬ VALID_LOW f .DATA_ONE t = true := fun h =>
      ho ((valid_low_window f _ t g2 ht).1 h)
    simp only [List.mem_cons, List.mem_singleton, List.not_mem_nil, or_false] at hs
    rcases hs with h | h | h | h
    · rw [cap_data_low K s t _ FOLLOWER_HEADER_INIT_HIGH (by simp) h, hf, if_neg hvz,
        if_neg hvo]
    · rw [cap_data_low K s t _ FOLLOWER_HEADER_DEST_HIGH (by simp) h, hf, if_neg hvz,
        if_neg hvo]
    · rw [cap_data_low K s t _ FOLLOWER_DATA_HIGH (by simp) h, hf, if_neg hvz, if_neg hvo]
    · rw [cap_eom_low K s t h, hf, if_neg hvz, if_neg hvo]
  · intro hs ht hw
    apply forced_idle_intro
    have hv : ¬ VALID_HIGH f .START_BIT s.cec_rx.low_time t = true := fun h =>
      hw ((valid_high_window f _ _ t g2 ht).1 h)
    rw [cap_start_high K s t hs, hf, if_neg hv]
  · intro hs ht hz ho
    apply forced_idle_intro
    have hv : ∀ d, ¬ VALID_DATA_HIGH f d s.cec_rx.low_time t = true := by
      intro d h
      rw [valid_data_high_class, valid_high_window f _ _ t g2 ht] at h
      unfold data_class at h
      split at h
      · exact ho h
      · exact hz h
    simp only [List.mem_cons, List.mem_singleton, List.not_mem_nil, or_false] at hs
    rcases hs with h | h | h | h
    · rw [cap_data_high K s t (by simp [h]), hf, if_neg (hv _)]
    · rw [cap_data_high K s t (by simp [h]), hf, if_neg (hv _)]
    · rw [cap_data_high K s t (by simp [h]), hf, if_neg (hv _)]
    · rw [cap_eom_high K s t h, hf, if_neg (hv _)]

/-- C16, for a start bit whose low period lasts 100 ticks at one tick per
microsecond. -/
theorem timing_violation_recovers_witness :
    forced_idle example_constants
      (latched { example_idle with cec_state := FOLLOWER_START_LOW } 100)
      (deliver example_constants (.capture 100)
        { example_idle with cec_state := FOLLOWER_START_LOW }) :=
  (timing_violation_recovers example_constants
    { example_idle with cec_state := FOLLOWER_START_LOW } 1000000 100 (by decide) rfl).1 rfl
    ⟨by decide, by decide⟩ (fun h => absurd h.1 (by decide))

/-- C15, for a low period of 1500 ticks at one tick per microsecond in
Follower.DataLow: a data zero is recorded. -/
theorem two_stage_bit_classification_witness :
    (deliver example_constants (.capture 1500)
      { example_idle with cec_state := FOLLOWER_DATA_LOW }).cec_state = FOLLOWER_DATA_HIGH ∧
    msgt_get_bit example_constants (deliver example_constants (.capture 1500)
      { example_idle with cec_state := FOLLOWER_DATA_LOW }).cec_rx.msgt = 0 :=
  ((two_stage_bit_classification example_constants
    { example_idle with cec_state := FOLLOWER_DATA_LOW } 1000000 1500 (by decide) rfl).1
    FOLLOWER_DATA_LOW FOLLOWER_DATA_HIGH (by decide) rfl ⟨by decide, by decide⟩ (by decide)
    (by decide) (by decide)).1.2 ⟨by decide, by decide⟩

section reception

/-- Entering Idle or a follower state with no frame queued keeps the engine
listening and posts nothing. -/
theorem enter_listening (K : ec_commands) (st : cec_state) (x : engine)
    (hst : st ∈ [IDLE, FOLLOWER_START_LOW, FOLLOWER_START_HIGH, FOLLOWER_HEADER_INIT_LOW,
      FOLLOWER_HEADER_INIT_HIGH, FOLLOWER_HEADER_DEST_LOW, FOLLOWER_HEADER_DEST_HIGH,
      FOLLOWER_EOM_LOW, FOLLOWER_EOM_HIGH, FOLLOWER_ACK_LOW, FOLLOWER_ACK_VERIFY,
      FOLLOWER_ACK_FINISH, FOLLOWER_DATA_LOW, FOLLOWER_DATA_HIGH])
    (hx : x.cec_tx.len = 0) :
    listening (enter_state K st x) ∧ (enter_state K st x).cec_events = x.cec_events ∧
    (enter_state K st x).mkbp_log = x.mkbp_log := by
  unfold listening
  simp only [List.mem_cons, List.mem_singleton, List.not_mem_nil, or_false] at hst
  rcases hst with h | h | h | h | h | h | h | h | h | h | h | h | h | h <;> subst h
  · have q := enter_idle K x
    refine ⟨⟨?_, ?_⟩, q.2.2.2.2.2.2.2.2.2.2.1, q.2.2.2.2.2.2.2.2.2.2.2⟩
    · rw [q.2.2.2.2.2.2.2.2.2.1]
      exact hx
    · rw [q.2.2.2.2.2.1 hx]
      decide
  all_goals
    have hne : ¬ CEC_BROADCAST_ADDR = cec_addr := by decide
    have hne2 : ¬ cec_addr = CEC_BROADCAST_ADDR := by decide
    by_cases ha : x.cec_rx.msgt.buf[0]?.getD 0 &&& 15 = cec_addr <;>
    by_cases hb : x.cec_rx.msgt.buf[0]?.getD 0 &&& 15 = CEC_BROADCAST_ADDR <;>
    by_cases he : x.cec_rx.eom ≠ 0 ∨ x.cec_rx.msgt.byte ≥ K.MAX_CEC_MSG_LEN <;>
    simp [enter_state, enter_state_body, enter_state_program_eq, ha, hb, he, hx, hne, hne2]

/-- What a capture or a timeout does to a listening engine: either it enters
Idle or a follower state, from an engine with the same transmit context,
events and notifications, or it leaves the protocol state, the transmit
context, the events and the notifications as they are. -/
theorem deliver_cases (K : ec_commands) (e : cec_irq) (s : engine) (P : engine → Prop)
    (he : e ≠ .transmit) (hl : listening s)
    (h1 : ∀ st x, st ∈ [IDLE, FOLLOWER_START_LOW, FOLLOWER_START_HIGH,
        FOLLOWER_HEADER_INIT_LOW, FOLLOWER_HEADER_INIT_HIGH, FOLLOWER_HEADER_DEST_LOW,
        FOLLOWER_HEADER_DEST_HIGH, FOLLOWER_EOM_LOW, FOLLOWER_EOM_HIGH, FOLLOWER_ACK_LOW,
        FOLLOWER_ACK_VERIFY, FOLLOWER_ACK_FINISH, FOLLOWER_DATA_LOW, FOLLOWER_DATA_HIGH] →
      x.cec_tx = s.cec_tx → x.cec_events = s.cec_events → x.mkbp_log = s.mkbp_log →
      P (enter_state K st x))
    (h2 : ∀ x, x.cec_state = s.cec_state → x.cec_tx = s.cec_tx →
      x.cec_events = s.cec_events → x.mkbp_log = s.mkbp_log → P x) :
    P (deliver K e s) := by
  obtain ⟨hlen, hst⟩ := hl
  obtain ⟨st, rx, tx, cc, ev, f, go, gi, m, log⟩ := s
  simp only [List.mem_cons, List.mem_singleton, List.not_mem_nil, or_false] at hst
  cases e with
  | transmit => exact absurd rfl he
  | capture t =>
    rcases hst with h | h | h | h | h | h | h | h | h | h | h | h | h | h <;> subst h <;>
      simp only [deliver, cec_event_cap, cec_state.value, cec_state.of_value] <;>
      repeat' split
    all_goals first
      | exact h1 _ _ (by decide) rfl rfl rfl
      | exact h2 _ rfl rfl rfl rfl
  | timeout l =>
    rcases hst with h | h | h | h | h | h | h | h | h | h | h | h | h | h <;> subst h <;>
      simp only [deliver, cec_event_timeout] <;>
      repeat' split
    all_goals first
      | exact h1 _ _ (by decide) rfl rfl rfl
      | exact h2 _ rfl rfl rfl rfl

/-- A capture or a timeout keeps a listening engine listening and posts
nothing. -/
theorem deliver_listening (K : ec_commands) (e : cec_irq) (s : engine)
    (he : e ≠ .transmit) (hl : listening s) :
    listening (deliver K e s) ∧ (deliver K e s).cec_events = s.cec_events ∧
    (deliver K e s).mkbp_log = s.mkbp_log := by
  apply deliver_cases K e s
    (fun r => listening r ∧ r.cec_events = s.cec_events ∧ r.mkbp_log = s.mkbp_log) he hl
  · intro st x hst htx hev hlog
    have q := enter_listening K st x hst (by rw [htx]; exact hl.1)
    exact ⟨q.1, q.2.1.trans hev, q.2.2.trans hlog⟩
  · intro x hs htx hev hlog
    refine ⟨⟨?_, ?_⟩, hev, hlog⟩
    · rw [htx]
      exact hl.1
    · rw [hs]
      exact hl.2

/-- Captures and timeouts keep a listening engine listening and post nothing,
however many of them come. -/
theorem trace_listening (K : ec_commands) (es : List cec_irq) (s : engine)
    (hes : ∀ e ∈ es, e ≠ cec_irq.transmit) (hl : listening s) :
    (listening (run K es s) ∧ (run K es s).cec_events = s.cec_events ∧
      (run K es s).mkbp_log = s.mkbp_log) ∧
    ∀ x ∈ trace K es s, listening x ∧ x.cec_events = s.cec_events ∧
      x.mkbp_log = s.mkbp_log := by
  induction es generalizing s with
  | nil => exact ⟨⟨hl, rfl, rfl⟩, fun x hx => absurd hx (List.not_mem_nil _)⟩
  | cons e es ih =>
    have d := deliver_listening K e s (hes e (List.mem_cons_self _ _)) hl
    have q := ih (deliver K e s) (fun a ha => hes a (List.mem_cons_of_mem _ ha)) d.1
    refine ⟨⟨q.1.1, q.1.2.1.trans d.2.1, q.1.2.2.trans d.2.2⟩, ?_⟩
    intro x hx
    rcases List.mem_cons.1 hx with h | h
    · rw [h]
      exact d
    · have r := q.2 x h
      exact ⟨r.1, r.2.1.trans d.2.1, r.2.2.trans d.2.2⟩

end reception

/-- C19, evaluated on the code. With own address 5 and one tick per
microsecond an idle engine receives a start bit (low 3700, high 800) and the
header byte 0x15 with nominal bit periods and EOM = 1. It acknowledges and is
in Follower.AckFinish with receive buffer byte 0 equal to 0x15, the receive
cursor at byte 1 and EOM set, and the next timeout takes it back to Idle. But
no reception is reported: up to then, and through any captures and timeouts
that follow, no event is set in `cec_events` and `send_mkbp_event` is never
called. -/
theorem reception_not_reported :
    (run example_constants (frame_irqs (3700, 800) [example_header])
      example_idle).cec_state = FOLLOWER_ACK_FINISH ∧
    (run example_constants (frame_irqs (3700, 800) [example_header])
      example_idle).cec_rx.msgt.buf.getD 0 0 = 0x15 ∧
    (run example_constants (frame_irqs (3700, 800) [example_header])
      example_idle).cec_rx.msgt.byte = 1 ∧
    (run example_constants (frame_irqs (3700, 800) [example_header])
      example_idle).cec_rx.eom = 1 ∧
    (run example_constants (frame_irqs (3700, 800) [example_header] ++ [.timeout 1])
      example_idle).cec_state = IDLE ∧
    ∀ es : List cec_irq, (∀ e ∈ es, e ≠ cec_irq.transmit) →
      ∀ x ∈ trace example_constants
          (frame_irqs (3700, 800) [example_header] ++ [.timeout 1] ++ es) example_idle,
        x.cec_events = 0 ∧ x.mkbp_log = [] := by
  have hw : ∀ y ∈ [example_header], well_timed 100 y := by
    intro y hy
    have e : y = example_header := by simpa using hy
    subst e
    refine ⟨by decide, ?_, ⟨by decide, by decide⟩⟩
    intro i hi
    interval_cases i <;> exact ⟨by decide, by decide⟩
  have r := rx_frame example_constants example_idle 100 (List.replicate 16 0) (3700, 800)
    example_header [] (by decide) (by decide) (by decide) rfl (by decide)
    ⟨by decide, by decide⟩ hw (fun y _ hb => absurd hb (by decide))
    ⟨rfl, rfl, rfl, rfl, rfl, rfl⟩
  obtain ⟨⟨r1, r2, _, r4, _⟩, r3, _⟩ := r
  have hl : listening example_idle := ⟨rfl, by decide⟩
  have hfr : ∀ e ∈ frame_irqs (3700, 800) [example_header] ++ [cec_irq.timeout 1],
      e ≠ cec_irq.transmit := by
    simp [frame_irqs, byte_irqs, bits_irqs, rest_irqs]
  have t1 := trace_listening example_constants
    (frame_irqs (3700, 800) [example_header]) example_idle
    (fun e he => hfr e (List.mem_append_left _ he)) hl
  refine ⟨r1, ?_, r4, ?_, ?_, ?_⟩
  · rw [r2]
    rfl
  · rw [r3]
    rfl
  · rw [run_append]
    show (cec_event_timeout example_constants _).cec_state = IDLE
    unfold cec_event_timeout
    simp only [r1]
    exact (enter_idle example_constants _).2.2.2.2.2.1 t1.1.1.1
  · intro es hes x hx
    have t2 := trace_listening example_constants
      (frame_irqs (3700, 800) [example_header] ++ [cec_irq.timeout 1] ++ es) example_idle
      (fun e he => by
        rcases List.mem_append.1 he with h | h
        · exact hfr e h
        · exact hes e h) hl
    have q := t2.2 x hx
    exact ⟨q.2.1, q.2.2⟩

section cursor

/-- The mask of `msgt_get_bit` and `msgt_set_bit` for a bit offset up to 7. -/
theorem bit_flag_eq (b : Nat) (hb : b ≤ 7) :
    0x80 >>> b = 2 ^ (7 - b) ∧ (0x80 >>> b) % 256 = 2 ^ (7 - b) := by
  interval_cases b <;> decide

/-- The bit of a byte as `Nat.testBit` sees it. -/
theorem bit_of_eq_testBit (h k : Nat) : bit_of h k = (h.testBit k).toNat := by
  unfold bit_of
  rw [Nat.testBit_to_div_mod]
  rcases Nat.mod_two_eq_zero_or_one (h / 2 ^ k) with e | e <;> simp [e]

/-- `msgt_set_bit` leaves the other bits of the byte as they are. -/
theorem set_bit_byte_other (w b v j : Nat) (hb : b ≤ 7) (hj : j < 8) (hne : j ≠ 7 - b) :
    bit_of (set_bit_byte w b v) j = bit_of w j := by
  rw [bit_of_eq_testBit, bit_of_eq_testBit]
  congr 1
  unfold set_bit_byte
  simp only [(bit_flag_eq b hb).2]
  have h255 : Nat.testBit 255 j = true := by
    interval_cases j <;> rfl
  have hne2 : ¬ (7 - b = j) := fun h => hne h.symm
  by_cases hv : v ≠ 0
  · simp [hv, h255, Nat.testBit_two_pow, hne2]
  · simp [hv, h255, Nat.testBit_two_pow, hne2]

/-- Every cursor operation keeps the cursor in range and the buffer length. -/
theorem cursor_step_in_range (K : ec_commands) (m : cec_msg_transfer) (o : cursor_op)
    (h : cursor_in_range K m) :
    cursor_in_range K (cursor_step K m o) ∧ (cursor_step K m o).buf.length = m.buf.length := by
  obtain ⟨h1, h2⟩ := h
  cases o with
  | inc =>
    unfold cursor_in_range cursor_step msgt_inc_bit
    simp only
    by_cases h8 : (m.bit + 1) % 256 = 8
    · by_cases hx : m.byte ≥ K.MAX_CEC_MSG_LEN
      · simp only [h8, hx, if_true]
        exact ⟨⟨h1, fun hlt => absurd hx (by omega)⟩, trivial⟩
      · simp only [h8, hx, if_true, if_false]
        have hm : (m.byte + 1) % 256 ≤ m.byte + 1 := Nat.mod_le _ _
        exact ⟨⟨by omega, fun _ => by omega⟩, trivial⟩
    · simp only [h8, if_false]
      refine ⟨⟨h1, fun hlt => ?_⟩, trivial⟩
      have hb := h2 hlt
      have e : (m.bit + 1) % 256 = m.bit + 1 := Nat.mod_eq_of_lt (by omega)
      rw [e] at h8 ⊢
      omega
  | set val =>
    unfold cursor_in_range cursor_step msgt_set_bit
    by_cases hx : m.byte ≥ K.MAX_CEC_MSG_LEN
    · simp only [hx, if_true]
      exact ⟨⟨h1, h2⟩, trivial⟩
    · simp only [hx, if_false, List.length_set]
      exact ⟨⟨h1, h2⟩, trivial⟩
  | reset =>
    unfold cursor_in_range cursor_step
    exact ⟨⟨Nat.zero_le _, fun _ => Nat.zero_le _⟩, rfl⟩

/-- A sequence of cursor operations keeps the cursor in range and the buffer
length. -/
theorem cursor_run_in_range (K : ec_commands) (os : List cursor_op) (m : cec_msg_transfer)
    (h : cursor_in_range K m) :
    cursor_in_range K (cursor_run K os m) ∧ (cursor_run K os m).buf.length = m.buf.length := by
  induction os generalizing m with
  | nil => exact ⟨h, rfl⟩
  | cons o os ih =>
    have q := cursor_step_in_range K m o h
    have r := ih (cursor_step K m o) q.1
    exact ⟨r.1, r.2.trans q.2⟩

end cursor

/-- C21. Buffer accesses stay in range. For every cursor reached from (0, 0)
by a sequence of `msgt_inc_bit` calls, `msgt_set_bit` calls and resets to
(0, 0): the byte offset is at most MAX_CEC_MSG_LEN, the bit offset is at most
7 whenever the byte offset is below MAX_CEC_MSG_LEN, the access that
`msgt_get_bit` and `msgt_set_bit` make there is at a byte below
MAX_CEC_MSG_LEN with 0x80 shifted by at most 7, an exhausted cursor makes
`msgt_get_bit` return 0 and `msgt_set_bit` change nothing, and the buffer
keeps its length. -/
theorem buffer_accesses_in_range (K : ec_commands) (buf : List Nat) (ops : List cursor_op) :
    (cursor_run K ops ⟨buf, 0, 0⟩).byte ≤ K.MAX_CEC_MSG_LEN ∧
    ((cursor_run K ops ⟨buf, 0, 0⟩).byte < K.MAX_CEC_MSG_LEN →
      (cursor_run K ops ⟨buf, 0, 0⟩).bit ≤ 7) ∧
    (∀ a ∈ msgt_access K (cursor_run K ops ⟨buf, 0, 0⟩), a.1 < K.MAX_CEC_MSG_LEN ∧ a.2 ≤ 7) ∧
    (K.MAX_CEC_MSG_LEN ≤ (cursor_run K ops ⟨buf, 0, 0⟩).byte →
      msgt_access K (cursor_run K ops ⟨buf, 0, 0⟩) = none ∧
      msgt_get_bit K (cursor_run K ops ⟨buf, 0, 0⟩) = 0 ∧
      ∀ val, msgt_set_bit K (cursor_run K ops ⟨buf, 0, 0⟩) val = cursor_run K ops ⟨buf, 0, 0⟩) ∧
    (cursor_run K ops ⟨buf, 0, 0⟩).buf.length = buf.length := by
  have q := cursor_run_in_range K ops ⟨buf, 0, 0⟩ ⟨Nat.zero_le _, fun _ => Nat.zero_le _⟩
  generalize cursor_run K ops ⟨buf, 0, 0⟩ = m at q
  obtain ⟨⟨h1, h2⟩, h3⟩ := q
  refine ⟨h1, h2, ?_, ?_, h3⟩
  · intro a ha
    unfold msgt_access at ha
    by_cases hx : m.byte ≥ K.MAX_CEC_MSG_LEN
    · simp [hx] at ha
    · simp only [hx, if_false, Option.mem_def, Option.some.injEq] at ha
      subst ha
      exact ⟨by omega, h2 (by omega)⟩
  · intro hx
    unfold msgt_access msgt_get_bit msgt_set_bit
    have hx2 : m.byte ≥ K.MAX_CEC_MSG_LEN := hx
    simp only [hx2, if_true]
    exact ⟨trivial, trivial, fun _ => trivial⟩

/-- C22. `msgt_get_bit` reads MSB-first. It returns 0 whenever the byte offset
is MAX_CEC_MSG_LEN or more; otherwise, for a bit offset from 0 to 7, its result
is non-zero exactly when bit number `7 - bit` of `buf[byte]` is set. Its
argument is a pointer to const and it returns the value only: nothing is
modified. -/
theorem msgt_get_bit_msb_first (K : ec_commands) (m : cec_msg_transfer) :
    (K.MAX_CEC_MSG_LEN ≤ m.byte → msgt_get_bit K m = 0) ∧
    (m.byte < K.MAX_CEC_MSG_LEN → m.bit ≤ 7 →
      (msgt_get_bit K m ≠ 0 ↔ bit_of (m.buf.getD m.byte 0) (7 - m.bit) ≠ 0)) := by
  unfold msgt_get_bit
  refine ⟨fun h => ?_, fun h hb => ?_⟩
  · have h2 : m.byte ≥ K.MAX_CEC_MSG_LEN := h
    simp only [h2, if_true]
  · have h2 : ¬ m.byte ≥ K.MAX_CEC_MSG_LEN := by omega
    simp only [h2, if_false, (bit_flag_eq m.bit hb).1]
    exact and_two_pow_ne_zero _ _

/-- C23. `msgt_set_bit` and `msgt_get_bit` round trip, for a buffer of
MAX_CEC_MSG_LEN bytes. `msgt_set_bit` changes nothing when the byte offset is
MAX_CEC_MSG_LEN or more. Otherwise, for a bit offset from 0 to 7 and any value,
afterwards `msgt_get_bit` at the same cursor is non-zero exactly when the value
is non-zero, and every other bit of `buf[byte]`, every other byte of the
buffer, the cursor and the length of the buffer are unchanged. -/
theorem msgt_set_get_round_trip (K : ec_commands) (m : cec_msg_transfer) (val : Nat)
    (hlen : m.buf.length = K.MAX_CEC_MSG_LEN) :
    (K.MAX_CEC_MSG_LEN ≤ m.byte → msgt_set_bit K m val = m) ∧
    (m.byte < K.MAX_CEC_MSG_LEN → m.bit ≤ 7 →
      (msgt_get_bit K (msgt_set_bit K m val) ≠ 0 ↔ val ≠ 0) ∧
      (∀ j, j < 8 → j ≠ 7 - m.bit →
        bit_of ((msgt_set_bit K m val).buf.getD m.byte 0) j =
          bit_of (m.buf.getD m.byte 0) j) ∧
      (∀ i, i ≠ m.byte → (msgt_set_bit K m val).buf.getD i 0 = m.buf.getD i 0) ∧
      (msgt_set_bit K m val).bit = m.bit ∧ (msgt_set_bit K m val).byte = m.byte ∧
      (msgt_set_bit K m val).buf.length = m.buf.length) := by
  refine ⟨fun h => ?_, fun h hb => ?_⟩
  · unfold msgt_set_bit
    have h2 : m.byte ≥ K.MAX_CEC_MSG_LEN := h
    simp only [h2, if_true]
  · have hl : m.byte < m.buf.length := by omega
    refine ⟨get_bit_set_bit K m val (by omega) h hl, ?_, ?_, ?_, ?_, ?_⟩
    · intro j hj hne
      rw [msgt_set_bit_eq K m val h]
      have e : (m.buf.set m.byte (set_bit_byte (m.buf.getD m.byte 0) m.bit val)).getD m.byte 0 =
          set_bit_byte (m.buf.getD m.byte 0) m.bit val := by
        simp [List.getD_eq_getElem?_getD, hl]
      simp only [e]
      exact set_bit_byte_other _ _ _ _ hb hj hne
    · intro i hi
      rw [msgt_set_bit_eq K m val h]
      simp only [List.getD_eq_getElem?_getD]
      rw [List.getElem?_set_ne (fun hh => hi hh.symm)]
    · rw [msgt_set_bit_eq K m val h]
    · rw [msgt_set_bit_eq K m val h]
    · rw [msgt_set_bit_eq K m val h]
      simp

/-- C23, for the second bit of the first byte of a 16-byte buffer. -/
theorem msgt_set_get_round_trip_witness :
    msgt_get_bit example_constants
      (msgt_set_bit example_constants ⟨List.replicate 16 0, 1, 0⟩ 1) ≠ 0 ↔ 1 ≠ 0 :=
  ((msgt_set_get_round_trip example_constants ⟨List.replicate 16 0, 1, 0⟩ 1 rfl).2
    (by decide) (by decide)).1

section host

/-- `enter_state(CEC_STATE_DISABLED)` field by field. -/
theorem enter_disabled (K : ec_commands) (s : engine) :
    enter_state K DISABLED s =
      { s with
        cec_state := DISABLED,
        cec_rx := ⟨⟨List.replicate K.MAX_CEC_MSG_LEN 0, 0, 0⟩, 0, 0, 0⟩,
        cec_tx := ⟨⟨List.replicate K.MAX_CEC_MSG_LEN 0, 0, 0⟩, 0, 0, 0⟩,
        cap_charge := 0,
        cec_events := 0,
        gpio_out := 1 } := by
  simp [enter_state, enter_state_body, enter_state_program_eq, program_mft]

/-- Enabling a disabled engine leaves it enabled. -/
theorem enable_not_disabled (K : ec_commands) (s : engine) :
    (cec_set_enable K 1 s).2.cec_state ≠ DISABLED := by
  unfold cec_set_enable
  by_cases h : s.cec_state = DISABLED
  · simp only [h]
    simp only [ne_eq, one_ne_zero, not_false_eq_true, not_true_eq_false, and_false, if_false,
      and_true, if_true, tmr_cap_start]
    rcases enter_idle_state K s with q | q <;> simp [q]
  · simp [h]

end host

/-- C27. Enable and disable are idempotent. In every state other than
Disabled, in the middle of a send or a receive too, `cec_set_enable(1)` returns
EC_RES_SUCCESS and leaves the whole engine, so the protocol state, both
contexts and the pending events, unchanged; `cec_set_enable(0)` in Disabled
returns EC_RES_SUCCESS and changes nothing. So a second enable after an enable,
and a second disable after a disable, return EC_RES_SUCCESS and change
nothing. -/
theorem enable_disable_idempotent (K : ec_commands) (s : engine) :
    (s.cec_state ≠ DISABLED → cec_set_enable K 1 s = (.EC_RES_SUCCESS, s)) ∧
    (s.cec_state = DISABLED → cec_set_enable K 0 s = (.EC_RES_SUCCESS, s)) ∧
    cec_set_enable K 1 (cec_set_enable K 1 s).2 =
      (.EC_RES_SUCCESS, (cec_set_enable K 1 s).2) ∧
    cec_set_enable K 0 (cec_set_enable K 0 s).2 =
      (.EC_RES_SUCCESS, (cec_set_enable K 0 s).2) := by
  have h1 : ∀ x : engine, x.cec_state ≠ DISABLED →
      cec_set_enable K 1 x = (.EC_RES_SUCCESS, x) := by
    intro x hx
    unfold cec_set_enable
    simp [hx]
  have h0 : ∀ x : engine, x.cec_state = DISABLED →
      cec_set_enable K 0 x = (.EC_RES_SUCCESS, x) := by
    intro x hx
    unfold cec_set_enable
    simp [hx]
  refine ⟨h1 s, h0 s, h1 _ (enable_not_disabled K s), h0 _ ?_⟩
  by_cases h : s.cec_state = DISABLED
  · rw [h0 s h]
    exact h
  · unfold cec_set_enable
    simp [h, enter_disabled]

/-- C28. Disable zeroes everything. From every state other than Disabled,
`cec_set_enable(0)` returns EC_RES_SUCCESS and leaves the protocol state
Disabled, every field of the receive and transmit contexts zero (so
`tx.len = 0`: a queued frame is dropped), `cap_charge` and the pending-event
bitmap 0 and the line released; an enable that follows enters Idle and not
Initiator.FreeTime. -/
theorem disable_zeroes_everything (K : ec_commands) (s : engine)
    (h : s.cec_state ≠ DISABLED) :
    (cec_set_enable K 0 s).1 = .EC_RES_SUCCESS ∧
    (cec_set_enable K 0 s).2.cec_state = DISABLED ∧
    (cec_set_enable K 0 s).2.cec_rx = ⟨⟨List.replicate K.MAX_CEC_MSG_LEN 0, 0, 0⟩, 0, 0, 0⟩ ∧
    (cec_set_enable K 0 s).2.cec_tx = ⟨⟨List.replicate K.MAX_CEC_MSG_LEN 0, 0, 0⟩, 0, 0, 0⟩ ∧
    (cec_set_enable K 0 s).2.cec_tx.len = 0 ∧
    (cec_set_enable K 0 s).2.cap_charge = 0 ∧
    (cec_set_enable K 0 s).2.cec_events = 0 ∧
    (cec_set_enable K 0 s).2.gpio_out = 1 ∧
    (cec_set_enable K 1 (cec_set_enable K 0 s).2).2.cec_state = IDLE := by
  unfold cec_set_enable
  simp [h, enter_disabled, enter_state, enter_state_body, enter_state_program_eq, tmr_cap_start,
    tmr2_stop, tmr_cap_stop]

/-- C28, for the example engine in the middle of a send. -/
theorem disable_zeroes_everything_witness :
    (cec_set_enable example_constants 0 example_sending).2.cec_tx.len = 0 :=
  (disable_zeroes_everything example_constants example_sending (by decide)).2.2.2.2.1

/-- C29. Pending events are read and cleared. `cec_get_next_event` writes the
current pending-event bitmap to the output, returns 4 and leaves the bitmap 0
and the rest of the engine as it was, so a second call with no event posted in
between yields 0; the events that `send_mkbp_event` posts accumulate by bitwise
or until they are taken. -/
theorem pending_events_read_and_cleared (s : engine) (e1 e2 : Nat) :
    (cec_get_next_event s).1 = s.cec_events ∧
    (cec_get_next_event s).2.1 = 4 ∧
    (cec_get_next_event s).2.2 = { s with cec_events := 0 } ∧
    (cec_get_next_event (cec_get_next_event s).2.2).1 = 0 ∧
    (send_mkbp_event e1 s).cec_events = s.cec_events ||| e1 ∧
    (cec_get_next_event (send_mkbp_event e2 (send_mkbp_event e1 s))).1 =
      s.cec_events ||| e1 ||| e2 ∧
    (cec_get_next_event (send_mkbp_event e2 (send_mkbp_event e1 (cec_get_next_event s).2.2))).1 =
      e1 ||| e2 := by
  refine ⟨rfl, rfl, rfl, rfl, rfl, rfl, ?_⟩
  simp [cec_get_next_event, atomic_read_clear, send_mkbp_event, atomic_or]

section reachable

/-- What `enter_state` keeps: outside `CEC_STATE_DISABLED` the resend counter,
the queued length and the receive buffer, and outside `CEC_STATE_DISABLED` and
`CEC_STATE_IDLE` the receive cursor too, the engine then being in the state
entered. -/
theorem enter_state_keeps (K : ec_commands) (st : cec_state) (x : engine) (h : st ≠ DISABLED) :
    (enter_state K st x).cec_tx.resends = x.cec_tx.resends ∧
    (enter_state K st x).cec_tx.len = x.cec_tx.len ∧
    (enter_state K st x).cec_rx.msgt.buf = x.cec_rx.msgt.buf ∧
    (st ≠ IDLE → (enter_state K st x).cec_state = st ∧
      (enter_state K st x).cec_rx.msgt = x.cec_rx.msgt) := by
  cases st <;> first
    | exact absurd rfl h
    | (simp only [enter_state, enter_state_body, enter_state_program_eq]
       repeat' split
       all_goals simp)

/-- The resend counter after `enter_state` is at most the one before. -/
theorem enter_state_resends (K : ec_commands) (st : cec_state) (x : engine) :
    (enter_state K st x).cec_tx.resends ≤ x.cec_tx.resends := by
  by_cases h : st = DISABLED
  · subst h
    rw [enter_disabled]
    exact Nat.zero_le _
  · exact le_of_eq (enter_state_keeps K st x h).1

/-- No interrupt takes the resend counter above CEC_MAX_RESENDS. -/
theorem deliver_resends (K : ec_commands) (e : cec_irq) (s : engine)
    (h : s.cec_tx.resends ≤ CEC_MAX_RESENDS) :
    (deliver K e s).cec_tx.resends ≤ CEC_MAX_RESENDS := by
  obtain ⟨st, rx, tx, cc, ev, f, go, gi, m, log⟩ := s
  simp only at h
  cases e with
  | transmit =>
    simp only [deliver, cec_event_tx, tmr2_stop]
    split
    · exact le_trans (enter_state_resends K _ _) h
    · exact h
  | capture t =>
    cases st <;> simp only [deliver, cec_event_cap, cec_state.value, cec_state.of_value] <;>
      repeat' split
    all_goals first
      | exact h
      | exact le_trans (enter_state_resends K _ _) h
  | timeout l =>
    cases st <;> simp only [deliver, cec_event_timeout, send_mkbp_event] <;>
      repeat' split
    all_goals first
      | exact h
      | exact le_trans (enter_state_resends K _ _) h
      | exact le_trans (enter_state_resends K _ _) (Nat.zero_le _)
      | (apply le_trans (enter_state_resends K _ _)
         rename_i hr
         simp only [CEC_MAX_RESENDS] at hr ⊢
         omega)

/-- No call takes the resend counter above CEC_MAX_RESENDS. -/
theorem call_resends (K : ec_commands) (c : cec_call) (s : engine)
    (h : s.cec_tx.resends ≤ CEC_MAX_RESENDS) :
    (call K c s).cec_tx.resends ≤ CEC_MAX_RESENDS := by
  cases c with
  | irq e => exact deliver_resends K e s h
  | get_next_event => exact h
  | write msg n =>
    simp only [call, hc_cec_write, cec_send, tmr2_start]
    repeat' split
    all_goals exact h
  | set_enable v =>
    simp only [call, cec_set_enable, tmr_cap_start]
    repeat' split
    all_goals first
      | exact h
      | exact le_trans (enter_state_resends K _ _) h

/-- No sequence of calls takes the resend counter above CEC_MAX_RESENDS. -/
theorem calls_resends (K : ec_commands) (cs : List cec_call) (s : engine)
    (h : s.cec_tx.resends ≤ CEC_MAX_RESENDS) :
    (calls K cs s).cec_tx.resends ≤ CEC_MAX_RESENDS := by
  induction cs generalizing s with
  | nil => exact h
  | cons c cs ih => exact ih _ (call_resends K c s h)

/-- `msgt_inc_bit` leaves the buffer as it is. -/
theorem msgt_inc_bit_buf (K : ec_commands) (m : cec_msg_transfer) :
    (msgt_inc_bit K m).buf = m.buf := by
  unfold msgt_inc_bit
  simp only
  repeat' split
  all_goals rfl

/-- `msgt_set_bit` leaves the length of the buffer as it is. -/
theorem msgt_set_bit_length (K : ec_commands) (m : cec_msg_transfer) (v : Nat) :
    (msgt_set_bit K m v).buf.length = m.buf.length := by
  unfold msgt_set_bit
  split
  · rfl
  · simp

/-- Entering a state keeps the receive cursor reset: Disabled and Idle reset
it, a state in which bits are received need not have it reset, and every other
state leaves it as it is. -/
theorem enter_state_rx_reset (K : ec_commands) (st : cec_state) (x : engine)
    (hlen : x.cec_rx.msgt.buf.length = K.MAX_CEC_MSG_LEN)
    (hc : ¬ receiving st → st = IDLE ∨ st = DISABLED ∨
      (x.cec_rx.msgt.bit = 0 ∧ x.cec_rx.msgt.byte = 0)) :
    rx_reset K (enter_state K st x) := by
  by_cases hd : st = DISABLED
  · subst hd
    rw [enter_disabled]
    exact ⟨List.length_replicate _ _, fun _ => ⟨rfl, rfl⟩⟩
  · have k := enter_state_keeps K st x hd
    by_cases hi : st = IDLE
    · subst hi
      have q := enter_idle K x
      exact ⟨by rw [k.2.2.1]; exact hlen, fun _ => ⟨q.1, q.2.1⟩⟩
    · have k2 := k.2.2.2 hi
      refine ⟨by rw [k.2.2.1]; exact hlen, fun hn => ?_⟩
      rw [k2.1] at hn
      rcases hc hn with h | h | h
      · exact absurd h hi
      · exact absurd h hd
      · rw [k2.2]
        exact h

/-- Every interrupt keeps the receive cursor reset before the first bit of a
header. -/
theorem deliver_rx_reset (K : ec_commands) (e : cec_irq) (s : engine) (h : rx_reset K s) :
    rx_reset K (deliver K e s) := by
  obtain ⟨st, rx, tx, cc, ev, f, go, gi, m, log⟩ := s
  unfold rx_reset at h
  simp only at h
  cases e with
  | transmit =>
    simp only [deliver, cec_event_tx, tmr2_stop]
    split
    · rename_i hs
      subst hs
      exact enter_state_rx_reset K _ _ h.1 (fun _ => Or.inr (Or.inr (h.2 (by decide))))
    · exact h
  | capture t =>
    cases st <;> simp only [deliver, cec_event_cap, cec_state.value, cec_state.of_value] <;>
      repeat' split
    all_goals first
      | exact h
      | (refine enter_state_rx_reset K _ _ ?_ ?_
         · simp only [msgt_inc_bit_buf, msgt_set_bit_length]
           exact h.1
         · first
           | exact (fun _ => Or.inl rfl)
           | exact (fun hn => absurd (by decide) hn)
           | exact (fun _ => Or.inr (Or.inr (h.2 (by decide)))))
  | timeout l =>
    cases st <;> simp only [deliver, cec_event_timeout] <;>
      repeat' split
    all_goals first
      | exact h
      | (refine enter_state_rx_reset K _ _ ?_ ?_
         · exact h.1
         · first
           | exact (fun _ => Or.inl rfl)
           | exact (fun hn => absurd (by decide) hn)
           | exact (fun _ => Or.inr (Or.inr (h.2 (by decide)))))

/-- Every call keeps the receive cursor reset before the first bit of a
header. -/
theorem call_rx_reset (K : ec_commands) (c : cec_call) (s : engine) (h : rx_reset K s) :
    rx_reset K (call K c s) := by
  cases c with
  | irq e => exact deliver_rx_reset K e s h
  | get_next_event => exact h
  | write msg n =>
    simp only [call, hc_cec_write, cec_send, tmr2_start]
    repeat' split
    all_goals exact h
  | set_enable v =>
    simp only [call, cec_set_enable, tmr_cap_start]
    repeat' split
    all_goals first
      | exact h
      | exact enter_state_rx_reset K _ _ h.1 (fun _ => Or.inr (Or.inl rfl))
      | (have q := enter_state_rx_reset K IDLE s h.1 (fun _ => Or.inl rfl)
         exact q)

/-- Every sequence of calls keeps the receive cursor reset before the first bit
of a header. -/
theorem calls_rx_reset (K : ec_commands) (cs : List cec_call) (s : engine) (h : rx_reset K s) :
    rx_reset K (calls K cs s) := by
  induction cs generalizing s with
  | nil => exact h
  | cons c cs ih => exact ih _ (call_rx_reset K c s h)

/-- The initial engine has its receive cursor reset. -/
theorem initial_rx_reset (K : ec_commands) (s : engine) (h : initial K s) : rx_reset K s := by
  unfold rx_reset
  rw [h.2.1]
  exact ⟨List.length_replicate _ _, fun _ => ⟨rfl, rfl⟩⟩

/-- The byte that `msgt_set_bit` leaves at a cursor at the start of the
buffer has the bit written in bit 7. -/
theorem first_bit_stored (K : ec_commands) (m : cec_msg_transfer) (d : Nat)
    (hbit : m.bit = 0) (hbyte : m.byte = 0) (hlen : m.buf.length = K.MAX_CEC_MSG_LEN)
    (hN : 0 < K.MAX_CEC_MSG_LEN) :
    bit_of ((msgt_set_bit K m d).buf.getD 0 0) 7 ≠ 0 ↔ d ≠ 0 := by
  have hl : m.byte < m.buf.length := by omega
  rw [msgt_set_bit_eq K m d (by omega)]
  have e : (m.buf.set m.byte (set_bit_byte (m.buf.getD m.byte 0) m.bit d)).getD 0 0 =
      set_bit_byte (m.buf.getD m.byte 0) m.bit d := by
    rw [← hbyte]
    simp [List.getD_eq_getElem?_getD, hl]
  simp only [e]
  rw [← and_two_pow_ne_zero, hbit]
  exact get_after_set _ 0 d (by norm_num)

/-- A valid start bit and a valid low period after it, from
Follower.StartLow: the follower is in Follower.HeaderInitHigh and the receive
context is the one before the start bit with the bit recorded at its
cursor. -/
theorem first_bit_received (K : ec_commands) (s : engine) (t1 t2 t3 : Int)
    (hs : s.cec_state = FOLLOWER_START_LOW)
    (h1 : VALID_LOW s.apb1_freq_div_10k .START_BIT t1 = true)
    (h2 : VALID_HIGH s.apb1_freq_div_10k .START_BIT t1 t2 = true)
    (h3 : VALID_LOW s.apb1_freq_div_10k .DATA_ZERO t3 = true ∨
      VALID_LOW s.apb1_freq_div_10k .DATA_ONE t3 = true) :
    (run K [.capture t1, .capture t2, .capture t3] s).cec_state = FOLLOWER_HEADER_INIT_HIGH ∧
    (run K [.capture t1, .capture t2, .capture t3] s).cec_rx.msgt =
      msgt_set_bit K s.cec_rx.msgt
        (if VALID_LOW s.apb1_freq_div_10k .DATA_ZERO t3 = true then 0 else 1) := by
  have a1 := cap_start_low K s t1 hs
  rw [if_pos h1] at a1
  have w1 := enter_follower_wait K FOLLOWER_START_HIGH
    { latched s t1 with cec_rx := { s.cec_rx with low_time := t1 } } (by decide)
  rw [← a1] at w1
  have a2 := cap_start_high K (deliver K (.capture t1) s) t2 w1.1
  have f1 : (deliver K (.capture t1) s).apb1_freq_div_10k = s.apb1_freq_div_10k := w1.2.2.2.2.2.2
  have l1 : (deliver K (.capture t1) s).cec_rx.low_time = t1 := by
    rw [w1.2.1]
  rw [f1, l1, if_pos h2] at a2
  have w2 := enter_follower_wait K FOLLOWER_HEADER_INIT_LOW
    (latched (deliver K (.capture t1) s) t2) (by decide)
  rw [← a2] at w2
  have f2 : (deliver K (.capture t2) (deliver K (.capture t1) s)).apb1_freq_div_10k =
      s.apb1_freq_div_10k := w2.2.2.2.2.2.2.trans f1
  have r2 : (deliver K (.capture t2) (deliver K (.capture t1) s)).cec_rx.msgt = s.cec_rx.msgt := by
    rw [w2.2.1]
    show (deliver K (.capture t1) s).cec_rx.msgt = s.cec_rx.msgt
    rw [w1.2.1]
  have a3 := cap_data_low K (deliver K (.capture t2) (deliver K (.capture t1) s)) t3
    FOLLOWER_HEADER_INIT_LOW FOLLOWER_HEADER_INIT_HIGH (by decide) w2.1
  rw [f2, r2] at a3
  show (deliver K (.capture t3) (deliver K (.capture t2) (deliver K (.capture t1) s))).cec_state
      = FOLLOWER_HEADER_INIT_HIGH ∧
    (deliver K (.capture t3) (deliver K (.capture t2) (deliver K (.capture t1) s))).cec_rx.msgt
      = _
  rw [a3]
  by_cases hz : VALID_LOW s.apb1_freq_div_10k .DATA_ZERO t3 = true
  · rw [if_pos hz, if_pos hz]
    have w3 := enter_follower_wait K FOLLOWER_HEADER_INIT_HIGH
      { latched (deliver K (.capture t2) (deliver K (.capture t1) s)) t3 with
        cec_rx := { (deliver K (.capture t2) (deliver K (.capture t1) s)).cec_rx with
          low_time := t3, msgt := msgt_set_bit K s.cec_rx.msgt 0 } } (by decide)
    exact ⟨w3.1, by rw [w3.2.1]⟩
  · have ho : VALID_LOW s.apb1_freq_div_10k .DATA_ONE t3 = true := by
      rcases h3 with h | h
      · exact absurd h hz
      · exact h
    rw [if_neg hz, if_pos ho, if_neg hz]
    have w3 := enter_follower_wait K FOLLOWER_HEADER_INIT_HIGH
      { latched (deliver K (.capture t2) (deliver K (.capture t1) s)) t3 with
        cec_rx := { (deliver K (.capture t2) (deliver K (.capture t1) s)).cec_rx with
          low_time := t3, msgt := msgt_set_bit K s.cec_rx.msgt 1 } } (by decide)
    exact ⟨w3.1, by rw [w3.2.1]⟩

/-- A falling edge in Idle, Initiator.FreeTime, Initiator.StartHigh or
Initiator.HeaderInitHigh is taken as a frame start. -/
theorem cap_frame_start (K : ec_commands) (s : engine) (t : Int)
    (hs : s.cec_state ∈ [IDLE, INITIATOR_FREE_TIME, INITIATOR_START_HIGH,
      INITIATOR_HEADER_INIT_HIGH]) :
    (deliver K (.capture t) s).cec_state = FOLLOWER_START_LOW := by
  obtain ⟨st, rx, tx, cc, ev, f, go, gi, m, log⟩ := s
  simp only [List.mem_cons, List.mem_singleton, List.not_mem_nil, or_false] at hs
  rcases hs with h | h | h | h <;> subst h <;>
    simp [deliver, cec_event_cap, enter_state, enter_state_body, enter_state_program_eq]

end reachable

/-- C25. The receive cursor is reset at every frame start. Take an engine
reached from the initial Disabled state through any calls. If its protocol
state is Follower.StartLow, its receive cursor is (bit 0, byte 0). If it is in
Idle, Initiator.FreeTime, Initiator.StartHigh or Initiator.HeaderInitHigh, a
falling edge enters Follower.StartLow with the receive cursor at (0, 0): the
frame start seen from Idle and the one that pre-empts a send alike. And from
Follower.StartLow a valid start bit followed by a valid low period, where
MAX_CEC_MSG_LEN is not 0, leaves the follower in Follower.HeaderInitHigh with
the cursor still at (0, 0) and the bit decoded, 0 for a valid zero and 1
otherwise, in bit 7 of receive buffer byte 0. -/
theorem rx_cursor_reset_at_frame_start (K : ec_commands) (s : engine) (cs : List cec_call)
    (h : initial K s) :
    ((calls K cs s).cec_state = FOLLOWER_START_LOW →
      (calls K cs s).cec_rx.msgt.bit = 0 ∧ (calls K cs s).cec_rx.msgt.byte = 0) ∧
    (∀ t, (calls K cs s).cec_state ∈ [IDLE, INITIATOR_FREE_TIME, INITIATOR_START_HIGH,
        INITIATOR_HEADER_INIT_HIGH] →
      (deliver K (.capture t) (calls K cs s)).cec_state = FOLLOWER_START_LOW ∧
      (deliver K (.capture t) (calls K cs s)).cec_rx.msgt.bit = 0 ∧
      (deliver K (.capture t) (calls K cs s)).cec_rx.msgt.byte = 0) ∧
    (∀ t1 t2 t3, (calls K cs s).cec_state = FOLLOWER_START_LOW →
      0 < K.MAX_CEC_MSG_LEN →
      VALID_LOW (calls K cs s).apb1_freq_div_10k .START_BIT t1 = true →
      VALID_HIGH (calls K cs s).apb1_freq_div_10k .START_BIT t1 t2 = true →
      (VALID_LOW (calls K cs s).apb1_freq_div_10k .DATA_ZERO t3 = true ∨
        VALID_LOW (calls K cs s).apb1_freq_div_10k .DATA_ONE t3 = true) →
      (run K [.capture t1, .capture t2, .capture t3] (calls K cs s)).cec_state =
        FOLLOWER_HEADER_INIT_HIGH ∧
      (run K [.capture t1, .capture t2, .capture t3] (calls K cs s)).cec_rx.msgt.bit = 0 ∧
      (run K [.capture t1, .capture t2, .capture t3] (calls K cs s)).cec_rx.msgt.byte = 0 ∧
      (bit_of ((run K [.capture t1, .capture t2, .capture t3]
          (calls K cs s)).cec_rx.msgt.buf.getD 0 0) 7 ≠ 0 ↔
        ¬ VALID_LOW (calls K cs s).apb1_freq_div_10k .DATA_ZERO t3 = true)) := by
  have inv := calls_rx_reset K cs s (initial_rx_reset K s h)
  generalize calls K cs s = x at inv
  refine ⟨fun hs => ?_, fun t hs => ?_, fun t1 t2 t3 hs hN h1 h2 h3 => ?_⟩
  · apply inv.2
    rw [hs]
    decide
  · have c := cap_frame_start K x t hs
    have q := deliver_rx_reset K (.capture t) x inv
    refine ⟨c, q.2 ?_⟩
    rw [c]
    decide
  · have c0 := inv.2 (by rw [hs]; decide)
    have r := first_bit_received K x t1 t2 t3 hs h1 h2 h3
    have sb : ∀ d, (msgt_set_bit K x.cec_rx.msgt d).bit = 0 ∧
        (msgt_set_bit K x.cec_rx.msgt d).byte = 0 := by
      intro d
      rw [msgt_set_bit_eq K _ d (by omega)]
      exact c0
    refine ⟨r.1, ?_, ?_, ?_⟩
    · rw [r.2]
      exact (sb _).1
    · rw [r.2]
      exact (sb _).2
    · rw [r.2, first_bit_stored K _ _ c0.1 c0.2 inv.1 hN]
      by_cases hz : VALID_LOW x.apb1_freq_div_10k .DATA_ZERO t3 = true <;> simp [hz]

/-- C25, for the example engine enabled and shown a falling edge while a frame
waits in Initiator.FreeTime. -/
theorem rx_cursor_reset_at_frame_start_witness :
    (calls example_constants
      [.set_enable 1, .write [5, 130] 2, .irq .transmit, .irq (.capture 0)]
      example_disabled).cec_state = FOLLOWER_START_LOW ∧
    (calls example_constants
      [.set_enable 1, .write [5, 130] 2, .irq .transmit, .irq (.capture 0)]
      example_disabled).cec_rx.msgt.bit = 0 :=
  ⟨by decide, ((rx_cursor_reset_at_frame_start example_constants example_disabled
    [.set_enable 1, .write [5, 130] 2, .irq .transmit, .irq (.capture 0)]
    ⟨rfl, rfl, rfl, rfl, rfl, rfl⟩).1 (by decide)).1⟩

/-- C24. Resend counter bound. In every engine state reached from the initial
Disabled state through calls of `cec_set_enable` with any argument, send
requests through `hc_cec_write`, `cec_get_next_event`, and timeout, capture and
send-admission interrupts, in any order, `tx.resends` is at most
CEC_MAX_RESENDS, which is 5 (it is unsigned, so at least 0). -/
theorem resend_counter_bound (K : ec_commands) (s : engine) (cs : List cec_call)
    (h : initial K s) :
    (calls K cs s).cec_tx.resends ≤ CEC_MAX_RESENDS ∧ CEC_MAX_RESENDS = 5 := by
  refine ⟨calls_resends K cs s ?_, rfl⟩
  rw [h.2.2.1]
  exact Nat.zero_le _

/-- C24, for the example engine enabled, given a frame and taken through an
attempt that is not acknowledged. -/
theorem resend_counter_bound_witness :
    (calls example_constants
      ([.set_enable 1, .write [5, 130] 2, .irq .transmit] ++
        List.replicate 24 (.irq (.timeout 1))) example_disabled).cec_tx.resends
      ≤ CEC_MAX_RESENDS ∧ CEC_MAX_RESENDS = 5 :=
  resend_counter_bound example_constants example_disabled _
    ⟨rfl, rfl, rfl, rfl, rfl, rfl⟩

section termination

/-- A run of `a + b` timeouts is a run of `a` followed by a run of `b`. -/
theorem run_timeouts_add (K : ec_commands) (lv : Nat → Nat) (a b : Nat) (t : engine) :
    run K (timeouts lv (a + b)) t =
      run K (timeouts (fun j => lv (a + j)) b) (run K (timeouts lv a) t) := by
  rw [timeouts_add, run_append]

/-- An ACK that is not given ends the attempt two timeouts after the high
period of the ACK bit: with resends left the frame waits in
Initiator.FreeTime with one more resend counted, and otherwise the send is
over. -/
theorem tx_nack_ends (K : ec_commands) (t : engine) (lv : Nat → Nat) (buf : List Nat)
    (k len r : Nat) (log : List Nat) (ha : ¬ acknowledges buf (lv 0))
    (h : tx_at t INITIATOR_ACK_HIGH buf 0 k len r log) :
    ((run K (timeouts lv 2) t).cec_state = IDLE ∧ (run K (timeouts lv 2) t).cec_tx.len = 0) ∨
    (r < CEC_MAX_RESENDS ∧ ∃ bit byte,
      tx_at (run K (timeouts lv 2) t) INITIATOR_FREE_TIME buf bit byte len (r + 1) log) := by
  by_cases hr : r < CEC_MAX_RESENDS
  · exact Or.inr ⟨hr, 0, k, (tx_nack_resend K t lv buf k len r log hr ha h).1⟩
  · have b := (tx_nack_fail K t lv buf k len r log hr ha h).1
    exact Or.inl ⟨b.1, b.2.2.2.2.1⟩

/-- From the EOM bit of a byte an attempt ends within `5 + 21 d` timeouts,
where `d` is the number of bytes still to send, whatever the line reads. -/
theorem tx_attempt_ends (K : ec_commands) (buf : List Nat) (len : Nat) (log : List Nat)
    (h2 : len ≤ K.MAX_CEC_MSG_LEN) (hN : len ≤ 255) (d : Nat) :
    ∀ (k : Nat) (t : engine) (lv : Nat → Nat) (r : Nat), k + d = len →
      tx_at t INITIATOR_EOM_LOW buf 0 k len r log →
      ∃ n, n ≤ 5 + 21 * d ∧
        (((run K (timeouts lv n) t).cec_state = IDLE ∧
            (run K (timeouts lv n) t).cec_tx.len = 0) ∨
          (r < CEC_MAX_RESENDS ∧ ∃ bit byte,
            tx_at (run K (timeouts lv n) t) INITIATOR_FREE_TIME buf bit byte len (r + 1) log)) := by
  induction d with
  | zero =>
    intro k t lv r hk h
    have a := (tx_eom K t lv buf k len r log h).1
    have e : k = len := by omega
    subst e
    refine ⟨3 + 2, by omega, ?_⟩
    rw [run_timeouts_add]
    by_cases ha : acknowledges buf (lv 3)
    · have b := (tx_ack_done K _ (fun j => lv (3 + j)) buf k r log ha a).1
      exact Or.inl ⟨b.1, b.2.2.2.2.1⟩
    · exact tx_nack_ends K _ (fun j => lv (3 + j)) buf k k r log ha a
  | succ d ih =>
    intro k t lv r hk h
    have a := (tx_eom K t lv buf k len r log h).1
    by_cases ha : acknowledges buf (lv 3)
    · have b := (tx_ack_more K _ (fun j => lv (3 + j)) buf k len r log (by omega) ha a).1
      have c := (tx_data K _ (fun j => lv (3 + 2 + j)) buf k len r log (by omega) (by omega)
        b).1
      obtain ⟨n, hn, q⟩ := ih (k + 1) _ (fun j => lv (3 + 2 + 16 + j)) r (by omega) c
      refine ⟨3 + 2 + 16 + n, by omega, ?_⟩
      rw [run_timeouts_add, run_timeouts_add K lv (3 + 2) 16, run_timeouts_add K lv 3 2]
      exact q
    · refine ⟨3 + 2, by omega, ?_⟩
      rw [run_timeouts_add]
      exact tx_nack_ends K _ (fun j => lv (3 + j)) buf k len r log ha a

/-- From Initiator.FreeTime an attempt to send a frame of 1 to MAX_CEC_MSG_LEN
bytes ends within `3 + 21 len` timeouts, whatever the line reads. -/
theorem tx_attempt_bounded (K : ec_commands) (t : engine) (lv : Nat → Nat) (buf : List Nat)
    (bit byte len r : Nat) (log : List Nat)
    (h1 : 1 ≤ len) (h2 : len ≤ K.MAX_CEC_MSG_LEN) (hN : len ≤ 255)
    (h : tx_at t INITIATOR_FREE_TIME buf bit byte len r log) :
    ∃ n, n ≤ 3 + 21 * len ∧
      (((run K (timeouts lv n) t).cec_state = IDLE ∧
          (run K (timeouts lv n) t).cec_tx.len = 0) ∨
        (r < CEC_MAX_RESENDS ∧ ∃ bit byte,
          tx_at (run K (timeouts lv n) t) INITIATOR_FREE_TIME buf bit byte len (r + 1) log)) := by
  have a := (tx_start K t lv buf bit byte len r log h).1
  have b := (tx_header K _ (fun j => lv (3 + j)) buf len r log (by omega) a).1
  obtain ⟨n, hn, q⟩ := tx_attempt_ends K buf len log h2 hN (len - 1) 1 _
    (fun j => lv (3 + 16 + j)) r (by omega) b
  refine ⟨3 + 16 + n, by omega, ?_⟩
  rw [run_timeouts_add, run_timeouts_add K lv 3 16]
  exact q

/-- A send ends: from Initiator.FreeTime with `m` resends left at most, a frame
of 1 to MAX_CEC_MSG_LEN bytes is over within `(m + 1) (3 + 21 len)` timeouts,
whatever the line reads. -/
theorem tx_send_bounded (K : ec_commands) (buf : List Nat) (len : Nat) (log : List Nat)
    (h1 : 1 ≤ len) (h2 : len ≤ K.MAX_CEC_MSG_LEN) (hN : len ≤ 255) (m : Nat) :
    ∀ (t : engine) (lv : Nat → Nat) (bit byte r : Nat), CEC_MAX_RESENDS - r ≤ m →
      tx_at t INITIATOR_FREE_TIME buf bit byte len r log →
      ∃ n, n ≤ (m + 1) * (3 + 21 * len) ∧
        (run K (timeouts lv n) t).cec_state = IDLE ∧
        (run K (timeouts lv n) t).cec_tx.len = 0 := by
  induction m with
  | zero =>
    intro t lv bit byte r hm h
    obtain ⟨n, hn, q⟩ := tx_attempt_bounded K t lv buf bit byte len r log h1 h2 hN h
    rcases q with q | ⟨hr, _⟩
    · exact ⟨n, by omega, q⟩
    · omega
  | succ m ih =>
    intro t lv bit byte r hm h
    obtain ⟨n, hn, q⟩ := tx_attempt_bounded K t lv buf bit byte len r log h1 h2 hN h
    rcases q with q | ⟨hr, bit2, byte2, q⟩
    · refine ⟨n, ?_, q⟩
      have e : (m + 1 + 1) * (3 + 21 * len) = (m + 1) * (3 + 21 * len) + (3 + 21 * len) := by
        ring
      omega
    · obtain ⟨n2, hn2, q2⟩ := ih _ (fun j => lv (n + j)) bit2 byte2 (r + 1) (by omega) q
      refine ⟨n + n2, ?_, ?_⟩
      · have e : (m + 1 + 1) * (3 + 21 * len) = (m + 1) * (3 + 21 * len) + (3 + 21 * len) := by
          ring
        omega
      · rw [run_timeouts_add]
        exact q2

/-- No interrupt makes the queued length larger. -/
theorem deliver_len (K : ec_commands) (e : cec_irq) (s : engine) :
    (deliver K e s).cec_tx.len ≤ s.cec_tx.len := by
  have el : ∀ st x, (enter_state K st x).cec_tx.len ≤ x.cec_tx.len := by
    intro st x
    by_cases h : st = DISABLED
    · subst h
      rw [enter_disabled]
      exact Nat.zero_le _
    · exact le_of_eq (enter_state_keeps K st x h).2.1
  obtain ⟨st, rx, tx, cc, ev, f, go, gi, m, log⟩ := s
  cases e with
  | transmit =>
    simp only [deliver, cec_event_tx, tmr2_stop]
    split
    · exact el _ _
    · exact le_refl _
  | capture t =>
    cases st <;> simp only [deliver, cec_event_cap, cec_state.value, cec_state.of_value] <;>
      repeat' split
    all_goals first
      | exact le_refl _
      | exact el _ _
  | timeout l =>
    cases st <;> simp only [deliver, cec_event_timeout, send_mkbp_event] <;>
      repeat' split
    all_goals first
      | exact le_refl _
      | exact el _ _
      | exact le_trans (el _ _) (Nat.zero_le _)

/-- Every call keeps the queued length a length that `hc_cec_write` admits and
that fits its `uint8_t`. -/
theorem call_len (K : ec_commands) (c : cec_call) (s : engine)
    (h : s.cec_tx.len ≤ K.MAX_CEC_MSG_LEN ∧ s.cec_tx.len ≤ 255) :
    (call K c s).cec_tx.len ≤ K.MAX_CEC_MSG_LEN ∧ (call K c s).cec_tx.len ≤ 255 := by
  cases c with
  | irq e =>
    have q := deliver_len K e s
    exact ⟨le_trans q h.1, le_trans q h.2⟩
  | get_next_event => exact h
  | write msg n =>
    simp only [call, hc_cec_write, cec_send, tmr2_start]
    repeat' split
    all_goals first
      | exact h
      | (rename_i h1 h2 h3
         simp only
         have hm : n % 256 ≤ n := Nat.mod_le _ _
         have hl : n % 256 < 256 := Nat.mod_lt _ (by norm_num)
         omega)
  | set_enable v =>
    simp only [call, cec_set_enable, tmr_cap_start]
    repeat' split
    all_goals first
      | exact h
      | (rw [enter_disabled]
         exact ⟨Nat.zero_le _, Nat.zero_le _⟩)
      | (have q := (enter_state_keeps K IDLE s (by decide)).2.1
         exact ⟨le_trans (le_of_eq q) h.1, le_trans (le_of_eq q) h.2⟩)

/-- In every engine reached from the initial one the queued length is at most
MAX_CEC_MSG_LEN and at most 255. -/
theorem calls_len (K : ec_commands) (cs : List cec_call) (s : engine)
    (h : s.cec_tx.len ≤ K.MAX_CEC_MSG_LEN ∧ s.cec_tx.len ≤ 255) :
    (calls K cs s).cec_tx.len ≤ K.MAX_CEC_MSG_LEN ∧ (calls K cs s).cec_tx.len ≤ 255 := by
  induction cs generalizing s with
  | nil => exact h
  | cons c cs ih => exact ih _ (call_len K c s h)

/-- Entering a follower state leaves the transmit context and the
notifications as they are. -/
theorem enter_follower_tx (K : ec_commands) (st : cec_state) (x : engine)
    (hst : st ∈ [FOLLOWER_START_LOW, FOLLOWER_START_HIGH, FOLLOWER_HEADER_INIT_LOW,
      FOLLOWER_HEADER_INIT_HIGH, FOLLOWER_HEADER_DEST_LOW, FOLLOWER_HEADER_DEST_HIGH,
      FOLLOWER_EOM_LOW, FOLLOWER_EOM_HIGH, FOLLOWER_ACK_LOW, FOLLOWER_ACK_VERIFY,
      FOLLOWER_ACK_FINISH, FOLLOWER_DATA_LOW, FOLLOWER_DATA_HIGH]) :
    (enter_state K st x).cec_state = st ∧ (enter_state K st x).cec_tx = x.cec_tx ∧
    (enter_state K st x).mkbp_log = x.mkbp_log := by
  simp only [List.mem_cons, List.mem_singleton, List.not_mem_nil, or_false] at hst
  rcases hst with h | h | h | h | h | h | h | h | h | h | h | h | h <;> subst h <;>
    (simp only [enter_state, enter_state_body, enter_state_program_eq]
     repeat' split
     all_goals simp)

/-- What `enter_state(CEC_STATE_IDLE)` makes of the transmit side: with no frame
queued the engine is in Idle, and with one queued the frame waits in
Initiator.FreeTime with its resend count. -/
theorem enter_idle_tx (K : ec_commands) (x : engine) :
    (x.cec_tx.len = 0 → (enter_state K IDLE x).cec_state = IDLE ∧
      (enter_state K IDLE x).cec_tx.len = 0) ∧
    (x.cec_tx.len ≠ 0 → tx_at (enter_state K IDLE x) INITIATOR_FREE_TIME x.cec_tx.msgt.buf 0 0
      x.cec_tx.len x.cec_tx.resends x.mkbp_log) := by
  have q := enter_idle K x
  have k := enter_state_keeps K IDLE x (by decide)
  refine ⟨fun h => ⟨q.2.2.2.2.2.1 h, by rw [k.2.1]; exact h⟩, fun h => ?_⟩
  exact ⟨q.2.2.2.2.2.2.1 h, q.2.2.2.2.2.2.2.2.1, q.2.2.1, q.2.2.2.1, k.2.1, k.1,
    q.2.2.2.2.2.2.2.2.2.2.2⟩

/-- A timeout in a follower state other than the two timed ACK states takes the
transition to Idle. -/
theorem follower_timeout_idle (K : ec_commands) (s : engine) (l : Nat)
    (hs : s.cec_state ∈ [FOLLOWER_START_LOW, FOLLOWER_START_HIGH, FOLLOWER_HEADER_INIT_LOW,
      FOLLOWER_HEADER_INIT_HIGH, FOLLOWER_HEADER_DEST_LOW, FOLLOWER_HEADER_DEST_HIGH,
      FOLLOWER_EOM_LOW, FOLLOWER_EOM_HIGH, FOLLOWER_ACK_FINISH, FOLLOWER_DATA_LOW,
      FOLLOWER_DATA_HIGH]) :
    deliver K (.timeout l) s = enter_state K IDLE { s with gpio_in := l } := by
  obtain ⟨st, rx, tx, cc, ev, f, go, gi, m, log⟩ := s
  simp only [List.mem_cons, List.mem_singleton, List.not_mem_nil, or_false] at hs
  rcases hs with h | h | h | h | h | h | h | h | h | h | h <;> subst h <;>
    simp only [deliver, cec_event_timeout]

/-- A timeout in Follower.AckVerify. -/
theorem follower_timeout_ack_verify (K : ec_commands) (s : engine) (l : Nat)
    (hs : s.cec_state = FOLLOWER_ACK_VERIFY) :
    deliver K (.timeout l) s =
      if s.cec_rx.broadcast_nak ≠ 0 then enter_state K IDLE { s with gpio_in := l }
      else enter_state K FOLLOWER_ACK_FINISH { s with gpio_in := l } := by
  obtain ⟨st, rx, tx, cc, ev, f, go, gi, m, log⟩ := s
  simp only at hs
  subst hs
  simp only [deliver, cec_event_timeout]

/-- A timeout in Follower.AckLow. -/
theorem follower_timeout_ack_low (K : ec_commands) (s : engine) (l : Nat)
    (hs : s.cec_state = FOLLOWER_ACK_LOW) :
    deliver K (.timeout l) s = enter_state K FOLLOWER_ACK_VERIFY { s with gpio_in := l } := by
  obtain ⟨st, rx, tx, cc, ev, f, go, gi, m, log⟩ := s
  simp only at hs
  subst hs
  simp only [deliver, cec_event_timeout]

/-- One timeout interrupt, as a run. -/
theorem run_timeouts_one (K : ec_commands) (lv : Nat → Nat) (t : engine) :
    run K (timeouts lv 1) t = deliver K (.timeout (lv 0)) t := rfl

/-- From any follower state at most three timeouts take the transition to Idle,
from an engine with the same transmit context and notifications. -/
theorem follower_to_idle (K : ec_commands) (s : engine) (lv : Nat → Nat)
    (hs : s.cec_state ∈ [FOLLOWER_START_LOW, FOLLOWER_START_HIGH, FOLLOWER_HEADER_INIT_LOW,
      FOLLOWER_HEADER_INIT_HIGH, FOLLOWER_HEADER_DEST_LOW, FOLLOWER_HEADER_DEST_HIGH,
      FOLLOWER_EOM_LOW, FOLLOWER_EOM_HIGH, FOLLOWER_ACK_LOW, FOLLOWER_ACK_VERIFY,
      FOLLOWER_ACK_FINISH, FOLLOWER_DATA_LOW, FOLLOWER_DATA_HIGH]) :
    ∃ n x, n ≤ 3 ∧ run K (timeouts lv n) s = enter_state K IDLE x ∧ x.cec_tx = s.cec_tx ∧
      x.mkbp_log = s.mkbp_log := by
  have one : ∀ (t : engine) (lw : Nat → Nat),
      t.cec_state ∈ [FOLLOWER_START_LOW, FOLLOWER_START_HIGH, FOLLOWER_HEADER_INIT_LOW,
        FOLLOWER_HEADER_INIT_HIGH, FOLLOWER_HEADER_DEST_LOW, FOLLOWER_HEADER_DEST_HIGH,
        FOLLOWER_EOM_LOW, FOLLOWER_EOM_HIGH, FOLLOWER_ACK_FINISH, FOLLOWER_DATA_LOW,
        FOLLOWER_DATA_HIGH] →
      ∃ x, run K (timeouts lw 1) t = enter_state K IDLE x ∧ x.cec_tx = t.cec_tx ∧
        x.mkbp_log = t.mkbp_log := by
    intro t lw ht
    exact ⟨{ t with gpio_in := lw 0 }, follower_timeout_idle K t (lw 0) ht, rfl, rfl⟩
  have two : ∀ (t : engine) (lw : Nat → Nat), t.cec_state = FOLLOWER_ACK_VERIFY →
      ∃ n x, n ≤ 2 ∧ run K (timeouts lw n) t = enter_state K IDLE x ∧ x.cec_tx = t.cec_tx ∧
        x.mkbp_log = t.mkbp_log := by
    intro t lw ht
    have a := follower_timeout_ack_verify K t (lw 0) ht
    by_cases hn : t.cec_rx.broadcast_nak ≠ 0
    · rw [if_pos hn] at a
      exact ⟨1, { t with gpio_in := lw 0 }, by omega, a, rfl, rfl⟩
    · rw [if_neg hn] at a
      have w := enter_follower_tx K FOLLOWER_ACK_FINISH { t with gpio_in := lw 0 } (by decide)
      rw [← a] at w
      obtain ⟨x, hx, hx1, hx2⟩ := one (deliver K (.timeout (lw 0)) t) (fun j => lw (1 + j))
        (by rw [w.1]; decide)
      refine ⟨1 + 1, x, by omega, ?_, hx1.trans w.2.1, hx2.trans w.2.2⟩
      rw [run_timeouts_add, run_timeouts_one K lw]
      exact hx
  by_cases h1 : s.cec_state = FOLLOWER_ACK_LOW
  · have a := follower_timeout_ack_low K s (lv 0) h1
    have w := enter_follower_tx K FOLLOWER_ACK_VERIFY { s with gpio_in := lv 0 } (by decide)
    rw [← a] at w
    obtain ⟨n, x, hn, hx, hx1, hx2⟩ := two (deliver K (.timeout (lv 0)) s) (fun j => lv (1 + j))
      w.1
    refine ⟨1 + n, x, by omega, ?_, hx1.trans w.2.1, hx2.trans w.2.2⟩
    rw [run_timeouts_add, run_timeouts_one K lv]
    exact hx
  · by_cases h2 : s.cec_state = FOLLOWER_ACK_VERIFY
    · obtain ⟨n, x, hn, hx⟩ := two s lv h2
      exact ⟨n, x, by omega, hx⟩
    · have h3 : s.cec_state ∈ [FOLLOWER_START_LOW, FOLLOWER_START_HIGH,
          FOLLOWER_HEADER_INIT_LOW, FOLLOWER_HEADER_INIT_HIGH, FOLLOWER_HEADER_DEST_LOW,
          FOLLOWER_HEADER_DEST_HIGH, FOLLOWER_EOM_LOW, FOLLOWER_EOM_HIGH, FOLLOWER_ACK_FINISH,
          FOLLOWER_DATA_LOW, FOLLOWER_DATA_HIGH] := by
        simp only [List.mem_cons, List.mem_singleton, List.not_mem_nil, or_false] at hs ⊢
        tauto
      obtain ⟨x, hx⟩ := one s lv h3
      exact ⟨1, x, by omega, hx⟩

/-- An exchange ends: from a follower state, or from Initiator.FreeTime with a
frame queued, some number of timeouts within the bound leaves the engine in
Idle with no frame queued. -/
theorem exchange_ends (K : ec_commands) (s : engine) (lv : Nat → Nat)
    (hlen : s.cec_tx.len ≤ K.MAX_CEC_MSG_LEN) (h255 : s.cec_tx.len ≤ 255)
    (hs : s.cec_state ∈ [FOLLOWER_START_LOW, FOLLOWER_START_HIGH, FOLLOWER_HEADER_INIT_LOW,
        FOLLOWER_HEADER_INIT_HIGH, FOLLOWER_HEADER_DEST_LOW, FOLLOWER_HEADER_DEST_HIGH,
        FOLLOWER_EOM_LOW, FOLLOWER_EOM_HIGH, FOLLOWER_ACK_LOW, FOLLOWER_ACK_VERIFY,
        FOLLOWER_ACK_FINISH, FOLLOWER_DATA_LOW, FOLLOWER_DATA_HIGH] ∨
      (s.cec_state = INITIATOR_FREE_TIME ∧ 1 ≤ s.cec_tx.len)) :
    ∃ n, n ≤ 3 + (CEC_MAX_RESENDS + 1) * (3 + 21 * s.cec_tx.len) ∧
      (run K (timeouts lv n) s).cec_state = IDLE ∧
      (run K (timeouts lv n) s).cec_tx.len = 0 := by
  rcases hs with hs | ⟨hs, h1⟩
  · obtain ⟨n, x, hn, hx, hx1, hx2⟩ := follower_to_idle K s lv hs
    have q := enter_idle_tx K x
    rw [← hx, hx1] at q
    by_cases h0 : s.cec_tx.len = 0
    · exact ⟨n, by omega, q.1 h0⟩
    · obtain ⟨n2, hn2, r⟩ := tx_send_bounded K s.cec_tx.msgt.buf s.cec_tx.len x.mkbp_log
        (by omega) hlen h255 CEC_MAX_RESENDS _ (fun j => lv (n + j)) 0 0 s.cec_tx.resends
        (Nat.sub_le _ _) (q.2 h0)
      refine ⟨n + n2, by omega, ?_⟩
      rw [run_timeouts_add]
      exact r
  · obtain ⟨n, hn, r⟩ := tx_send_bounded K s.cec_tx.msgt.buf s.cec_tx.len s.mkbp_log
      h1 hlen h255 CEC_MAX_RESENDS s lv s.cec_tx.msgt.bit s.cec_tx.msgt.byte s.cec_tx.resends
      (Nat.sub_le _ _) ⟨hs, rfl, rfl, rfl, rfl, rfl, rfl⟩
    exact ⟨n, by omega, r⟩

end termination

/-- C26. Every exchange terminates in Idle. Start from any follower state, or
from Initiator.FreeTime with a queued frame of at least one byte; the queued
length, if any, is one that `hc_cec_write` admits, so at most MAX_CEC_MSG_LEN,
and is a `uint8_t`, so at most 255 (`calls_len`: this holds in every engine
reached from the initial one). Deliver timeouts only, the line reading whatever
it does at each. Then after some number `n` of timeouts, at most
`3 + 6 (3 + 21 len)`, and at every time from then on, the engine is in Idle
with `tx.len = 0`, and `cec_send` with any frame is accepted (returns 0). -/
theorem every_exchange_terminates (K : ec_commands) (s : engine) (lv : Nat → Nat)
    (hlen : s.cec_tx.len ≤ K.MAX_CEC_MSG_LEN) (h255 : s.cec_tx.len ≤ 255)
    (hs : s.cec_state ∈ [FOLLOWER_START_LOW, FOLLOWER_START_HIGH, FOLLOWER_HEADER_INIT_LOW,
        FOLLOWER_HEADER_INIT_HIGH, FOLLOWER_HEADER_DEST_LOW, FOLLOWER_HEADER_DEST_HIGH,
        FOLLOWER_EOM_LOW, FOLLOWER_EOM_HIGH, FOLLOWER_ACK_LOW, FOLLOWER_ACK_VERIFY,
        FOLLOWER_ACK_FINISH, FOLLOWER_DATA_LOW, FOLLOWER_DATA_HIGH] ∨
      (s.cec_state = INITIATOR_FREE_TIME ∧ 1 ≤ s.cec_tx.len)) :
    ∃ n, n ≤ 3 + 6 * (3 + 21 * s.cec_tx.len) ∧ ∀ m, n ≤ m →
      (run K (timeouts lv m) s).cec_state = IDLE ∧
      (run K (timeouts lv m) s).cec_tx.len = 0 ∧
      ∀ msg len, (cec_send msg len (run K (timeouts lv m) s)).1 = 0 := by
  obtain ⟨n, hn, h1, h2⟩ := exchange_ends K s lv hlen h255 hs
  refine ⟨n, hn, fun m hm => ?_⟩
  have e : m = n + (m - n) := by omega
  have i := idle_stays K (run K (timeouts lv n) s) (fun j => lv (n + j)) (m - n) h1
  rw [← run_timeouts_add, ← e] at i
  have l0 : (run K (timeouts lv m) s).cec_tx.len = 0 := by
    rw [i.2.1]
    exact h2
  refine ⟨i.1, l0, fun msg len => ?_⟩
  unfold cec_send
  rw [if_neg (by rw [l0]; exact fun h => h rfl)]

/-- C26, for the example engine sending the frame [0x05, 0x82] with the line
read low at every timeout. -/
theorem every_exchange_terminates_witness :
    ∃ n, n ≤ 3 + 6 * (3 + 21 * example_sending.cec_tx.len) ∧ ∀ m, n ≤ m →
      (run example_constants (timeouts (fun _ => 0) m) example_sending).cec_state = IDLE ∧
      (run example_constants (timeouts (fun _ => 0) m) example_sending).cec_tx.len = 0 ∧
      ∀ msg len,
        (cec_send msg len
          (run example_constants (timeouts (fun _ => 0) m) example_sending)).1 = 0 :=
  every_exchange_terminates example_constants example_sending (fun _ => 0) (by decide)
    (by decide) (Or.inr ⟨rfl, by decide⟩)

section ticks

/-- The tick counts that the timeouts are made of, for a clock divisor that
`cec_init` computes (no product wraps). -/
theorem tick_values (f : Nat) (hf : f ≤ 429496) :
    VALID_TOLERANCE f = f ∧ DATA_ONE_LOW f = 6 * f ∧ DATA_ZERO_LOW f = 15 * f ∧
    DATA_ZERO_HIGH f = 9 * f ∧ DATA_ONE_HIGH f = 18 * f ∧ NOMINAL_BIT_TIME f = 24 * f ∧
    NOMINAL_SAMPLE_TIME f = 1050 * f / 100 ∧
    CAP_START_LOW f = 40 * f ∧ CAP_START_HIGH f = 23 * f ∧ CAP_DATA_LOW f = 18 * f ∧
    CAP_DATA_HIGH f = 2750 * f / 100 - 3 * f := by
  have e1 : APB1_TICKS f 100 = f := by rw [ticks_eq f _ hf (by norm_num)]; omega
  have e6 : APB1_TICKS f 600 = 6 * f := by rw [ticks_eq f _ hf (by norm_num)]; omega
  have e15 : APB1_TICKS f 1500 = 15 * f := by rw [ticks_eq f _ hf (by norm_num)]; omega
  have e9 : APB1_TICKS f 900 = 9 * f := by rw [ticks_eq f _ hf (by norm_num)]; omega
  have e18 : APB1_TICKS f 1800 = 18 * f := by rw [ticks_eq f _ hf (by norm_num)]; omega
  have e24 : APB1_TICKS f 2400 = 24 * f := by rw [ticks_eq f _ hf (by norm_num)]; omega
  have e10 : APB1_TICKS f 1050 = 1050 * f / 100 := ticks_eq f _ hf (by norm_num)
  have e39 : APB1_TICKS f 3900 = 39 * f := by rw [ticks_eq f _ hf (by norm_num)]; omega
  have e35 : APB1_TICKS f 3500 = 35 * f := by rw [ticks_eq f _ hf (by norm_num)]; omega
  have e57 : APB1_TICKS f 5700 = 57 * f := by rw [ticks_eq f _ hf (by norm_num)]; omega
  have e17 : APB1_TICKS f 1700 = 17 * f := by rw [ticks_eq f _ hf (by norm_num)]; omega
  have e4 : APB1_TICKS f 400 = 4 * f := by rw [ticks_eq f _ hf (by norm_num)]; omega
  have e27 : APB1_TICKS f 2750 = 2750 * f / 100 := ticks_eq f _ hf (by norm_num)
  refine ⟨e1, e6, e15, e9, e18, e24, e10, ?_, ?_, ?_, ?_⟩
  · simp only [CAP_START_LOW, START_BIT_MAX_LOW, VALID_TOLERANCE, e39, e1]
    rw [u32_add_eq _ _ (by omega)]
    omega
  · simp only [CAP_START_HIGH, START_BIT_MAX_DURATION, START_BIT_MIN_LOW, VALID_TOLERANCE, e57,
      e35, e1]
    rw [u32_sub_eq _ _ (by omega) (by omega), u32_add_eq _ _ (by omega)]
    omega
  · simp only [CAP_DATA_LOW, DATA_ZERO_MAX_LOW, VALID_TOLERANCE, e17, e1]
    rw [u32_add_eq _ _ (by omega)]
    omega
  · simp only [CAP_DATA_HIGH, DATA_ONE_MAX_DURATION, DATA_ONE_MIN_LOW, VALID_TOLERANCE, e27,
      e4, e1]
    rw [u32_sub_eq _ _ (by omega) (by omega), u32_add_eq _ _ (by omega)]
    omega

/-- A timeout that is not negative is what `enter_state` leaves in the
counter, whichever timer helper runs. -/
theorem timeout_tcnt1 (l : entry_locals) (s : engine) (h : 0 ≤ l.timeout) :
    (enter_state_program l s).mft.tcnt1 = l.timeout := by
  rw [enter_state_program_eq]
  unfold program_mft
  by_cases hc : l.cap_edge ≥ 0 <;> simp only [ge_iff_le, h, hc, if_true, if_false]

/-- A capture timeout that is not zero is what `enter_state` leaves in the
counter and in `cap_charge`. -/
theorem capture_tcnt1 (l : entry_locals) (s : engine) (h : 0 < l.timeout)
    (hc : l.cap_edge ≥ 0) :
    (enter_state_program l s).mft.tcnt1 = l.timeout ∧
    (enter_state_program l s).cap_charge = l.timeout := by
  rw [enter_state_program_eq]
  unfold program_mft
  have h0 : 0 ≤ l.timeout := le_of_lt h
  simp only [ge_iff_le, gt_iff_lt, h, h0, hc, if_true, and_self]

/-- An `int` whose `uint32_t` value is below 2^31 is that value. -/
theorem int_to_u32_small (t : Int) (n : Nat) (ht : is_int t) (hn : n < 2147483648)
    (h : int_to_u32 t ≤ n) : 0 ≤ t ∧ t ≤ n ∧ (int_to_u32 t : Int) = t := by
  unfold is_int at ht
  unfold int_to_u32 at *
  have h0 : 0 ≤ t := by
    by_contra hc
    have e : t % 4294967296 = t + 4294967296 := by omega
    rw [e] at h
    omega
  have e : t % 4294967296 = t := by omega
  rw [e] at h ⊢
  omega

/-- The `uint32_t` value of a sum of a small `int` and an `int`, when below
2^31, is the sum. -/
theorem sum_small (lo hi : Int) (n : Nat) (h0 : 0 ≤ lo) (h1 : lo < 2147483648)
    (hhi : is_int hi) (hn : n < 2147483648) (h : int_to_u32 (lo + hi) ≤ n) :
    lo + hi ≤ n := by
  unfold is_int at hhi
  unfold int_to_u32 at h
  by_cases hc : 0 ≤ lo + hi
  · have e : (lo + hi) % 4294967296 = lo + hi := by omega
    rw [e] at h
    omega
  · omega

/-- The counter after a timeout given as a tick count. -/
theorem timeout_program (gpio edge : Int) (t n : Nat) (s : engine)
    (hv : u32_to_int t = (n : Int)) :
    (enter_state_program ⟨gpio, u32_to_int t, edge⟩ s).mft.tcnt1 = (n : Int) := by
  have h : (0 : Int) ≤ (⟨gpio, u32_to_int t, edge⟩ : entry_locals).timeout := by
    show (0 : Int) ≤ u32_to_int t
    rw [hv]
    omega
  rw [timeout_tcnt1 _ s h]
  exact hv

end ticks

/-- C35. Initiator ACK bit timing, for a clock divisor `f >= 1` that `cec_init`
computes from a 32-bit frequency. The timeouts programmed on entering
Initiator.AckLow and Initiator.AckHigh sum to NOMINAL_SAMPLE_TIME, so the ACK,
sampled on entering Initiator.AckVerify, is sampled NOMINAL_SAMPLE_TIME ticks
after the start of the ACK bit; NOMINAL_SAMPLE_TIME lies strictly between
DATA_ONE_LOW and DATA_ZERO_LOW; the three ACK phase timeouts are not negative
and total NOMINAL_BIT_TIME, which is also `DATA_LOW(d) + DATA_HIGH(d)` for
every bit value `d`. -/
theorem initiator_ack_timing (K : ec_commands) (s : engine) (f apb1_freq : Nat)
    (hq : apb1_freq < 4294967296) (hfa : f = apb1_freq / 10000) (h1 : 1 ≤ f)
    (hs : s.apb1_freq_div_10k = f) :
    (enter_state K INITIATOR_ACK_LOW s).mft.tcnt1 = (DATA_LOW f 1 : Nat) ∧
    (enter_state K INITIATOR_ACK_LOW s).mft.tcnt1 +
      (enter_state K INITIATOR_ACK_HIGH s).mft.tcnt1 = (NOMINAL_SAMPLE_TIME f : Nat) ∧
    DATA_ONE_LOW f < NOMINAL_SAMPLE_TIME f ∧ NOMINAL_SAMPLE_TIME f < DATA_ZERO_LOW f ∧
    0 ≤ (enter_state K INITIATOR_ACK_LOW s).mft.tcnt1 ∧
    0 ≤ (enter_state K INITIATOR_ACK_HIGH s).mft.tcnt1 ∧
    0 ≤ (enter_state K INITIATOR_ACK_VERIFY s).mft.tcnt1 ∧
    (enter_state K INITIATOR_ACK_LOW s).mft.tcnt1 +
      (enter_state K INITIATOR_ACK_HIGH s).mft.tcnt1 +
      (enter_state K INITIATOR_ACK_VERIFY s).mft.tcnt1 = (NOMINAL_BIT_TIME f : Nat) ∧
    (∀ d, DATA_LOW f d + DATA_HIGH f d = NOMINAL_BIT_TIME f) ∧
    (deliver K (.timeout 0) (enter_state K INITIATOR_ACK_LOW s)).cec_state =
      INITIATOR_ACK_HIGH ∧
    (deliver K (.timeout 0) (enter_state K INITIATOR_ACK_HIGH s)).cec_state =
      INITIATOR_ACK_VERIFY := by
  subst hs
  have g2 : s.apb1_freq_div_10k ≤ 429496 := by omega
  obtain ⟨-, e6, e15, e9, e18, e24, e10, -⟩ := tick_values s.apb1_freq_div_10k g2
  have dl1 : DATA_LOW s.apb1_freq_div_10k 1 = 6 * s.apb1_freq_div_10k := by
    unfold DATA_LOW
    rw [if_pos (by decide), e6]
  have tlow : (enter_state K INITIATOR_ACK_LOW s).mft.tcnt1 =
      ((6 * s.apb1_freq_div_10k : Nat) : Int) :=
    timeout_program 0 _ _ _ { s with cec_state := INITIATOR_ACK_LOW }
      (by rw [dl1, u32_to_int_of_lt _ (by omega)])
  have thigh : (enter_state K INITIATOR_ACK_HIGH s).mft.tcnt1 =
      ((1050 * s.apb1_freq_div_10k / 100 - 6 * s.apb1_freq_div_10k : Nat) : Int) := by
    apply timeout_program 1 _ _ _ { s with cec_state := INITIATOR_ACK_HIGH }
    rw [e6, e15, u32_add_eq _ _ (by omega), u32_sub_eq _ _ (by omega) (by omega),
      u32_to_int_of_lt _ (by omega)]
    congr 1
    omega
  have tver : (enter_state K INITIATOR_ACK_VERIFY s).mft.tcnt1 =
      ((24 * s.apb1_freq_div_10k - 1050 * s.apb1_freq_div_10k / 100 : Nat) : Int) := by
    have v : u32_to_int (u32_sub (NOMINAL_BIT_TIME s.apb1_freq_div_10k)
        (NOMINAL_SAMPLE_TIME s.apb1_freq_div_10k)) =
        ((24 * s.apb1_freq_div_10k - 1050 * s.apb1_freq_div_10k / 100 : Nat) : Int) := by
      rw [e24, e10, u32_sub_eq _ _ (by omega) (by omega), u32_to_int_of_lt _ (by omega)]
    have hv : (0 : Int) ≤ u32_to_int (u32_sub (NOMINAL_BIT_TIME s.apb1_freq_div_10k)
        (NOMINAL_SAMPLE_TIME s.apb1_freq_div_10k)) := by
      rw [v]
      omega
    rw [← v]
    by_cases hl : s.gpio_in = 0 <;>
      by_cases hb : s.cec_tx.msgt.buf[0]?.getD 0 &&& 15 = CEC_BROADCAST_ADDR <;>
      simp [enter_state, enter_state_body, enter_state_program_eq, program_mft, gpio_get_level,
        hl, hb, hv]
  refine ⟨?_, ?_, by omega, by omega, ?_, ?_, ?_, ?_, ?_, ?_, ?_⟩
  · rw [tlow, dl1]
  · rw [tlow, thigh, e10]
    omega
  · rw [tlow]
    omega
  · rw [thigh]
    omega
  · rw [tver]
    omega
  · rw [tlow, thigh, tver, e24]
    omega
  · intro d
    unfold DATA_LOW DATA_HIGH
    by_cases hd : d ≠ 0
    · rw [if_pos hd, if_pos hd, e6, e18, e24]
      omega
    · rw [if_neg hd, if_neg hd, e15, e9, e24]
      omega
  · simp [deliver, cec_event_timeout, enter_state, enter_state_body, enter_state_program_eq]
  · simp [deliver, cec_event_timeout, enter_state, enter_state_body, enter_state_program_eq]
    by_cases hb : s.cec_tx.msgt.buf[0]?.getD 0 &&& 15 = CEC_BROADCAST_ADDR <;> simp [hb]

/-- C35, at one tick per microsecond: the ACK is sampled 1050 ticks after the
start of the ACK bit. -/
theorem initiator_ack_timing_witness :
    (enter_state example_constants INITIATOR_ACK_LOW example_idle).mft.tcnt1 +
      (enter_state example_constants INITIATOR_ACK_HIGH example_idle).mft.tcnt1 =
      (NOMINAL_SAMPLE_TIME 100 : Nat) :=
  (initiator_ack_timing example_constants example_idle 100 1000000 (by decide) (by decide)
    (by decide) rfl).2.1

/-- C36. The follower releases the ACK at the end of the data-zero low period,
for a clock divisor `f >= 1` that `cec_init` computes from a 32-bit frequency.
For a frame addressed to the engine or broadcast, the timeout programmed on
entering Follower.AckLow is NOMINAL_SAMPLE_TIME; the one programmed on entering
Follower.AckVerify is `DATA_ZERO_LOW - NOMINAL_SAMPLE_TIME`; both are not
negative and they sum to DATA_ZERO_LOW. For a frame addressed to the engine the
line is driven low on entering Follower.AckLow, is still driven low after the
first of the two timeouts, in Follower.AckVerify, and is released by the second,
which enters Follower.AckFinish. -/
theorem follower_ack_release (K : ec_commands) (s : engine) (f apb1_freq : Nat)
    (hq : apb1_freq < 4294967296) (hfa : f = apb1_freq / 10000) (h1 : 1 ≤ f)
    (hs : s.apb1_freq_div_10k = f) :
    ((s.cec_rx.msgt.buf.getD 0 0 &&& 0x0f = cec_addr ∨
        s.cec_rx.msgt.buf.getD 0 0 &&& 0x0f = CEC_BROADCAST_ADDR) →
      (enter_state K FOLLOWER_ACK_LOW s).mft.tcnt1 = (NOMINAL_SAMPLE_TIME f : Nat) ∧
      (enter_state K FOLLOWER_ACK_LOW s).mft.tcnt1 +
        (enter_state K FOLLOWER_ACK_VERIFY s).mft.tcnt1 = (DATA_ZERO_LOW f : Nat)) ∧
    (enter_state K FOLLOWER_ACK_VERIFY s).mft.tcnt1 =
      (DATA_ZERO_LOW f : Nat) - (NOMINAL_SAMPLE_TIME f : Nat) ∧
    0 ≤ (enter_state K FOLLOWER_ACK_VERIFY s).mft.tcnt1 ∧
    (0 : Int) ≤ (NOMINAL_SAMPLE_TIME f : Nat) ∧
    (s.cec_rx.msgt.buf.getD 0 0 &&& 0x0f = cec_addr → ∀ l1 l2,
      (enter_state K FOLLOWER_ACK_LOW s).gpio_out = 0 ∧
      (run K [.timeout l1] (enter_state K FOLLOWER_ACK_LOW s)).cec_state =
        FOLLOWER_ACK_VERIFY ∧
      (run K [.timeout l1] (enter_state K FOLLOWER_ACK_LOW s)).gpio_out = 0 ∧
      (run K [.timeout l1, .timeout l2] (enter_state K FOLLOWER_ACK_LOW s)).cec_state =
        FOLLOWER_ACK_FINISH ∧
      (run K [.timeout l1, .timeout l2] (enter_state K FOLLOWER_ACK_LOW s)).gpio_out = 1) := by
  subst hs
  have g2 : s.apb1_freq_div_10k ≤ 429496 := by omega
  obtain ⟨-, e6, e15, e9, e18, e24, e10, -⟩ := tick_values s.apb1_freq_div_10k g2
  have hne : ¬ CEC_BROADCAST_ADDR = cec_addr := by decide
  have hne2 : ¬ cec_addr = CEC_BROADCAST_ADDR := by decide
  have vn : u32_to_int (NOMINAL_SAMPLE_TIME s.apb1_freq_div_10k) =
      ((NOMINAL_SAMPLE_TIME s.apb1_freq_div_10k : Nat) : Int) :=
    u32_to_int_of_lt _ (by omega)
  have vv : u32_to_int (u32_sub (DATA_ZERO_LOW s.apb1_freq_div_10k)
      (NOMINAL_SAMPLE_TIME s.apb1_freq_div_10k)) =
      ((DATA_ZERO_LOW s.apb1_freq_div_10k - NOMINAL_SAMPLE_TIME s.apb1_freq_div_10k : Nat) :
        Int) := by
    rw [u32_sub_eq _ _ (by omega) (by omega), u32_to_int_of_lt _ (by omega)]
  have hv : (0 : Int) ≤ u32_to_int (u32_sub (DATA_ZERO_LOW s.apb1_freq_div_10k)
      (NOMINAL_SAMPLE_TIME s.apb1_freq_div_10k)) := by
    rw [vv]
    omega
  have tver : (enter_state K FOLLOWER_ACK_VERIFY s).mft.tcnt1 =
      ((DATA_ZERO_LOW s.apb1_freq_div_10k - NOMINAL_SAMPLE_TIME s.apb1_freq_div_10k : Nat) :
        Int) := by
    rw [← vv]
    by_cases hl : s.gpio_in = 0 <;>
      by_cases hb : s.cec_rx.msgt.buf[0]?.getD 0 &&& 15 = CEC_BROADCAST_ADDR <;>
      simp [enter_state, enter_state_body, enter_state_program_eq, program_mft, gpio_get_level,
        hl, hb, hv]
  have tlow : (s.cec_rx.msgt.buf.getD 0 0 &&& 0x0f = cec_addr ∨
      s.cec_rx.msgt.buf.getD 0 0 &&& 0x0f = CEC_BROADCAST_ADDR) →
      (enter_state K FOLLOWER_ACK_LOW s).mft.tcnt1 =
        ((NOMINAL_SAMPLE_TIME s.apb1_freq_div_10k : Nat) : Int) := by
    intro h
    simp only [List.getD_eq_getElem?_getD] at h
    have hn : (0 : Int) ≤ u32_to_int (NOMINAL_SAMPLE_TIME s.apb1_freq_div_10k) := by
      rw [vn]
      omega
    rw [← vn]
    rcases h with h | h
    · simp [enter_state, enter_state_body, enter_state_program_eq, program_mft, h, hn]
    · have ha : ¬ s.cec_rx.msgt.buf[0]?.getD 0 &&& 15 = cec_addr := by
        rw [h]
        exact hne
      simp [enter_state, enter_state_body, enter_state_program_eq, program_mft, h, ha, hn, hne]
  refine ⟨fun h => ⟨tlow h, ?_⟩, ?_, ?_, by omega, ?_⟩
  · rw [tlow h, tver, e15, e10]
    omega
  · rw [tver, e15, e10]
    omega
  · rw [tver]
    omega
  · intro ha l1 l2
    simp only [List.getD_eq_getElem?_getD] at ha
    have hb : ¬ s.cec_rx.msgt.buf[0]?.getD 0 &&& 15 = CEC_BROADCAST_ADDR := by
      rw [ha]
      exact hne2
    have g0 : (enter_state K FOLLOWER_ACK_LOW s).gpio_out = 0 := by
      simp [enter_state, enter_state_body, enter_state_program_eq, ha]
    have k := enter_state_keeps K FOLLOWER_ACK_LOW s (by decide)
    have k2 := k.2.2.2 (by decide)
    have a1 := follower_timeout_ack_low K (enter_state K FOLLOWER_ACK_LOW s) l1 k2.1
    have b1 : (deliver K (.timeout l1) (enter_state K FOLLOWER_ACK_LOW s)).cec_state =
          FOLLOWER_ACK_VERIFY ∧
        (deliver K (.timeout l1) (enter_state K FOLLOWER_ACK_LOW s)).gpio_out = 0 ∧
        (deliver K (.timeout l1) (enter_state K FOLLOWER_ACK_LOW s)).cec_rx.broadcast_nak =
          0 := by
      rw [a1]
      have hb2 : ¬ (enter_state K FOLLOWER_ACK_LOW s).cec_rx.msgt.buf[0]?.getD 0 &&& 15 =
          CEC_BROADCAST_ADDR := by
        rw [k.2.2.1]
        exact hb
      generalize enter_state K FOLLOWER_ACK_LOW s = x at g0 hb2
      simp [enter_state, enter_state_body, enter_state_program_eq, hb2, g0]
    have a2 := follower_timeout_ack_verify K _ l2 b1.1
    rw [if_neg (by rw [b1.2.2]; exact fun h => h rfl)] at a2
    have b2 := enter_ack_finish_gpio K
      { deliver K (.timeout l1) (enter_state K FOLLOWER_ACK_LOW s) with gpio_in := l2 }
    rw [← a2] at b2
    exact ⟨g0, b1.1, b1.2.1, b2.2, b2.1⟩

/-- C36, at one tick per microsecond for a frame addressed to the engine. -/
theorem follower_ack_release_witness :
    (enter_state example_constants FOLLOWER_ACK_LOW
      { example_idle with cec_rx := ⟨⟨[5], 0, 1⟩, 1, 0, 0⟩ }).mft.tcnt1 +
      (enter_state example_constants FOLLOWER_ACK_VERIFY
        { example_idle with cec_rx := ⟨⟨[5], 0, 1⟩, 1, 0, 0⟩ }).mft.tcnt1 =
      (DATA_ZERO_LOW 100 : Nat) :=
  ((follower_ack_release example_constants
    { example_idle with cec_rx := ⟨⟨[5], 0, 1⟩, 1, 0, 0⟩ } 100 1000000 (by decide) (by decide)
    (by decide) rfl).1 (Or.inl (by decide))).2

/-- C33. Bit windows are disjoint, for a clock divisor `f >= 1` that `cec_init`
computes from a 32-bit frequency: no duration is both a valid DATA_ZERO low and
a valid DATA_ONE low, and no valid START_BIT low is a valid data low of either
kind. So the order of the two tests of `cec_event_cap` does not matter: in a
follower data-low state the rising edge does what it would with the DATA_ONE
window tested first. -/
theorem bit_windows_disjoint (K : ec_commands) (s : engine) (f apb1_freq : Nat)
    (hq : apb1_freq < 4294967296) (hfa : f = apb1_freq / 10000) (h1 : 1 ≤ f)
    (hs : s.apb1_freq_div_10k = f) :
    (∀ t, ¬ (VALID_LOW f .DATA_ZERO t = true ∧ VALID_LOW f .DATA_ONE t = true)) ∧
    (∀ t, VALID_LOW f .START_BIT t = true →
      VALID_LOW f .DATA_ZERO t = false ∧ VALID_LOW f .DATA_ONE t = false) ∧
    (∀ t lo hi, (lo, hi) ∈ [(FOLLOWER_HEADER_INIT_LOW, FOLLOWER_HEADER_INIT_HIGH),
        (FOLLOWER_HEADER_DEST_LOW, FOLLOWER_HEADER_DEST_HIGH),
        (FOLLOWER_DATA_LOW, FOLLOWER_DATA_HIGH)] → s.cec_state = lo →
      deliver K (.capture t) s =
        if VALID_LOW f .DATA_ONE t = true then
          enter_state K hi { latched s t with cec_rx := { s.cec_rx with
            low_time := t, msgt := msgt_set_bit K s.cec_rx.msgt 1 } }
        else if VALID_LOW f .DATA_ZERO t = true then
          enter_state K hi { latched s t with cec_rx := { s.cec_rx with
            low_time := t, msgt := msgt_set_bit K s.cec_rx.msgt 0 } }
        else enter_state K IDLE (latched s t)) := by
  subst hs
  have g2 : s.apb1_freq_div_10k ≤ 429496 := by omega
  have d : ∀ t, ¬ (VALID_LOW s.apb1_freq_div_10k .DATA_ZERO t = true ∧
      VALID_LOW s.apb1_freq_div_10k .DATA_ONE t = true) := by
    intro t h
    have h0 := h.1
    have h1 := h.2
    rw [valid_low_iff _ _ t g2] at h0 h1
    simp only at h0 h1
    omega
  refine ⟨d, ?_, ?_⟩
  · intro t h
    rw [valid_low_iff _ _ t g2] at h
    simp only at h
    refine ⟨?_, ?_⟩
    · rw [← Bool.not_eq_true, valid_low_iff _ _ t g2]
      simp only
      omega
    · rw [← Bool.not_eq_true, valid_low_iff _ _ t g2]
      simp only
      omega
  · intro t lo hi hp hlo
    rw [cap_data_low K s t lo hi hp hlo]
    by_cases h0 : VALID_LOW s.apb1_freq_div_10k .DATA_ZERO t = true
    · have hn : ¬ VALID_LOW s.apb1_freq_div_10k .DATA_ONE t = true := fun h => d t ⟨h0, h⟩
      rw [if_pos h0, if_neg hn, if_pos h0]
    · rw [if_neg h0]
      by_cases h1 : VALID_LOW s.apb1_freq_div_10k .DATA_ONE t = true
      · rw [if_pos h1, if_pos h1]
      · rw [if_neg h1, if_neg h1, if_neg h0]

/-- C33, at one tick per microsecond: a low period of 1500 ticks is a valid
zero and not a valid one. -/
theorem bit_windows_disjoint_witness :
    ¬ (VALID_LOW 100 .DATA_ZERO 1500 = true ∧ VALID_LOW 100 .DATA_ONE 1500 = true) :=
  (bit_windows_disjoint example_constants example_idle 100 1000000 (by decide) (by decide)
    (by decide) rfl).1 1500

/-- C31. The capture timeouts against the pulses that the validity checks
accept, for a clock divisor `f >= 1` that `cec_init` computes from a 32-bit
frequency. Every valid start-bit low duration is at most CAP_START_LOW and
every valid data low duration at most CAP_DATA_LOW. After a valid low duration
a high duration that passes the combined-duration check is at most
CAP_START_HIGH, respectively CAP_DATA_HIGH, plus VALID_TOLERANCE, and that is
reached: after a start-bit low of `34 f` ticks a high of `24 f` ticks passes
the check and is later than CAP_START_HIGH, `23 f`; after a data low of `3 f`
ticks a high of `2750 f / 100 - 2 f` ticks passes the check for a one and is
later than CAP_DATA_HIGH. In the engine: from Follower.StartLow the rising edge
after `34 f` ticks enters Follower.StartHigh with the capture timer charged
with CAP_START_HIGH; a falling edge `24 f` ticks later would be accepted
(Follower.HeaderInitLow), but the timeout comes first and takes the transition
to Idle. -/
theorem capture_timeout_before_valid_high (K : ec_commands) (s : engine) (f apb1_freq : Nat)
    (hq : apb1_freq < 4294967296) (hfa : f = apb1_freq / 10000) (h1 : 1 ≤ f)
    (hs : s.apb1_freq_div_10k = f) :
    (∀ t, VALID_LOW f .START_BIT t = true → int_to_u32 t ≤ CAP_START_LOW f) ∧
    (∀ t, VALID_LOW f .DATA_ZERO t = true ∨ VALID_LOW f .DATA_ONE t = true →
      int_to_u32 t ≤ CAP_DATA_LOW f) ∧
    (∀ lo hi, is_int lo → is_int hi → VALID_LOW f .START_BIT lo = true →
      VALID_HIGH f .START_BIT lo hi = true →
      hi ≤ (CAP_START_HIGH f : Nat) + (VALID_TOLERANCE f : Nat)) ∧
    (∀ c lo hi, c ≠ .START_BIT → is_int lo → is_int hi → VALID_LOW f c lo = true →
      VALID_HIGH f c lo hi = true →
      hi ≤ (CAP_DATA_HIGH f : Nat) + (VALID_TOLERANCE f : Nat)) ∧
    (VALID_LOW f .START_BIT ((34 * f : Nat) : Int) = true ∧
      VALID_HIGH f .START_BIT ((34 * f : Nat) : Int) ((24 * f : Nat) : Int) = true ∧
      CAP_START_HIGH f < 24 * f) ∧
    (VALID_LOW f .DATA_ONE ((3 * f : Nat) : Int) = true ∧
      VALID_HIGH f .DATA_ONE ((3 * f : Nat) : Int) ((2750 * f / 100 - 2 * f : Nat) : Int)
        = true ∧
      CAP_DATA_HIGH f < 2750 * f / 100 - 2 * f) ∧
    (s.cec_state = FOLLOWER_START_LOW →
      (deliver K (.capture ((34 * f : Nat) : Int)) s).cec_state = FOLLOWER_START_HIGH ∧
      (deliver K (.capture ((34 * f : Nat) : Int)) s).mft.tcnt1 = (CAP_START_HIGH f : Nat) ∧
      (deliver K (.capture ((24 * f : Nat) : Int))
        (deliver K (.capture ((34 * f : Nat) : Int)) s)).cec_state = FOLLOWER_HEADER_INIT_LOW ∧
      ∀ l, forced_idle K { deliver K (.capture ((34 * f : Nat) : Int)) s with gpio_in := l }
        (deliver K (.timeout l) (deliver K (.capture ((34 * f : Nat) : Int)) s))) := by
  subst hs
  have g2 : s.apb1_freq_div_10k ≤ 429496 := by omega
  obtain ⟨e1, -, -, -, -, -, -, c1, c2, c3, c4⟩ := tick_values s.apb1_freq_div_10k g2
  have v34 : VALID_LOW s.apb1_freq_div_10k .START_BIT ((34 * s.apb1_freq_div_10k : Nat) : Int)
      = true := by
    rw [valid_low_iff _ _ _ g2, int_to_u32_ofNat _ (by omega)]
    simp only
    omega
  have v24 : VALID_HIGH s.apb1_freq_div_10k .START_BIT
      ((34 * s.apb1_freq_div_10k : Nat) : Int) ((24 * s.apb1_freq_div_10k : Nat) : Int)
      = true := by
    rw [valid_high_iff _ _ _ _ g2]
    have e : ((34 * s.apb1_freq_div_10k : Nat) : Int) + ((24 * s.apb1_freq_div_10k : Nat) : Int)
        = ((58 * s.apb1_freq_div_10k : Nat) : Int) := by
      push_cast
      ring
    rw [e, int_to_u32_ofNat _ (by omega)]
    simp only
    omega
  refine ⟨?_, ?_, ?_, ?_, ⟨v34, v24, by omega⟩, ⟨?_, ?_, by omega⟩, ?_⟩
  · intro t h
    rw [valid_low_iff _ _ t g2] at h
    simp only at h
    omega
  · intro t h
    rcases h with h | h <;> rw [valid_low_iff _ _ t g2] at h <;> simp only at h <;> omega
  · intro lo hi hlo hhi vl vh
    rw [valid_low_iff _ _ lo g2] at vl
    rw [valid_high_iff _ _ lo hi g2] at vh
    simp only at vl vh
    have q := int_to_u32_small lo (40 * s.apb1_freq_div_10k) hlo (by omega) vl.2
    have w := sum_small lo hi (58 * s.apb1_freq_div_10k) q.1 (by omega) hhi (by omega) vh.2
    have q3 := q.2.2
    omega
  · intro c lo hi hc hlo hhi vl vh
    rw [valid_low_iff _ _ lo g2] at vl
    rw [valid_high_iff _ _ lo hi g2] at vh
    cases c
    · exact absurd rfl hc
    · simp only at vl vh
      have q := int_to_u32_small lo (18 * s.apb1_freq_div_10k) hlo (by omega) vl.2
      have w := sum_small lo hi (2750 * s.apb1_freq_div_10k / 100 + s.apb1_freq_div_10k) q.1
        (by omega) hhi (by omega) vh.2
      have q3 := q.2.2
      omega
    · simp only at vl vh
      have q := int_to_u32_small lo (9 * s.apb1_freq_div_10k) hlo (by omega) vl.2
      have w := sum_small lo hi (2750 * s.apb1_freq_div_10k / 100 + s.apb1_freq_div_10k) q.1
        (by omega) hhi (by omega) vh.2
      have q3 := q.2.2
      omega
  · rw [valid_low_iff _ _ _ g2, int_to_u32_ofNat _ (by omega)]
    simp only
    omega
  · rw [valid_high_iff _ _ _ _ g2]
    have e : ((3 * s.apb1_freq_div_10k : Nat) : Int) +
        ((2750 * s.apb1_freq_div_10k / 100 - 2 * s.apb1_freq_div_10k : Nat) : Int)
        = ((2750 * s.apb1_freq_div_10k / 100 + s.apb1_freq_div_10k : Nat) : Int) := by
      omega
    rw [e, int_to_u32_ofNat _ (by omega)]
    simp only
    omega
  · intro hst
    have a1 := cap_start_low K s ((34 * s.apb1_freq_div_10k : Nat) : Int) hst
    rw [if_pos v34] at a1
    have w1 := enter_follower_wait K FOLLOWER_START_HIGH
      { latched s ((34 * s.apb1_freq_div_10k : Nat) : Int) with
        cec_rx := { s.cec_rx with low_time := ((34 * s.apb1_freq_div_10k : Nat) : Int) } }
      (by decide)
    have vc : u32_to_int (CAP_START_HIGH s.apb1_freq_div_10k) =
        ((CAP_START_HIGH s.apb1_freq_div_10k : Nat) : Int) := u32_to_int_of_lt _ (by omega)
    have t1 := (capture_tcnt1
      ⟨-1, u32_to_int (CAP_START_HIGH s.apb1_freq_div_10k), CAP_EDGE_FALLING⟩
      { { latched s ((34 * s.apb1_freq_div_10k : Nat) : Int) with
          cec_rx := { s.cec_rx with low_time := ((34 * s.apb1_freq_div_10k : Nat) : Int) } } with
        cec_state := FOLLOWER_START_HIGH }
      (by show (0 : Int) < u32_to_int (CAP_START_HIGH s.apb1_freq_div_10k)
          rw [vc]
          omega)
      (by show CAP_EDGE_FALLING ≥ 0
          decide)).1
    have t2 : (deliver K (.capture ((34 * s.apb1_freq_div_10k : Nat) : Int)) s).mft.tcnt1 =
        ((CAP_START_HIGH s.apb1_freq_div_10k : Nat) : Int) := by
      rw [a1]
      exact t1.trans vc
    rw [← a1] at w1
    have a2 := cap_start_high K _ ((24 * s.apb1_freq_div_10k : Nat) : Int) w1.1
    have l1 : (deliver K (.capture ((34 * s.apb1_freq_div_10k : Nat) : Int)) s).cec_rx.low_time
        = ((34 * s.apb1_freq_div_10k : Nat) : Int) := by
      rw [w1.2.1]
    have f1 : (deliver K (.capture ((34 * s.apb1_freq_div_10k : Nat) : Int))
        s).apb1_freq_div_10k = s.apb1_freq_div_10k := w1.2.2.2.2.2.2
    rw [f1, l1, if_pos v24] at a2
    have w2 := enter_follower_wait K FOLLOWER_HEADER_INIT_LOW
      (latched (deliver K (.capture ((34 * s.apb1_freq_div_10k : Nat) : Int)) s)
        ((24 * s.apb1_freq_div_10k : Nat) : Int)) (by decide)
    rw [← a2] at w2
    refine ⟨w1.1, t2, w2.1, fun l => ?_⟩
    apply forced_idle_intro
    exact follower_timeout_idle K _ l (by rw [w1.1]; decide)

/-- C31, at one tick per microsecond: after a start-bit low of 3400 ticks a high
of 2400 ticks passes the check, and the capture timeout is 2300 ticks. -/
theorem capture_timeout_before_valid_high_witness :
    VALID_LOW 100 .START_BIT ((34 * 100 : Nat) : Int) = true ∧
    VALID_HIGH 100 .START_BIT ((34 * 100 : Nat) : Int) ((24 * 100 : Nat) : Int) = true ∧
    CAP_START_HIGH 100 < 24 * 100 :=
  (capture_timeout_before_valid_high example_constants example_idle 100 1000000 (by decide)
    (by decide) (by decide) rfl).2.2.2.2.1

/-- C34. Validation order and guard of the write command. `hc_cec_write`
returns EC_RES_UNAVAILABLE exactly when the state is Disabled; otherwise
EC_RES_INVALID_PARAM exactly when `params_size` is 0 or above MAX_CEC_MSG_LEN;
otherwise EC_RES_BUSY exactly when `tx.len` is not 0; otherwise
EC_RES_SUCCESS. The engine is as it was unless the result is EC_RES_SUCCESS.
On success, MAX_CEC_MSG_LEN fitting the `uint8_t` length of `cec_send`, the
number of bytes copied into the transfer buffer is `params_size`, between 1
and MAX_CEC_MSG_LEN, which is also the queued length; the rest of the transmit
context and the protocol state are as they were. -/
theorem hc_cec_write_validation (K : ec_commands) (msg : List Nat) (params_size : Nat)
    (s : engine) :
    ((hc_cec_write K msg params_size s).1 = .EC_RES_UNAVAILABLE ↔ s.cec_state = DISABLED) ∧
    (s.cec_state ≠ DISABLED →
      ((hc_cec_write K msg params_size s).1 = .EC_RES_INVALID_PARAM ↔
        (params_size = 0 ∨ params_size > K.MAX_CEC_MSG_LEN))) ∧
    (s.cec_state ≠ DISABLED → ¬ (params_size = 0 ∨ params_size > K.MAX_CEC_MSG_LEN) →
      ((hc_cec_write K msg params_size s).1 = .EC_RES_BUSY ↔ s.cec_tx.len ≠ 0)) ∧
    (s.cec_state ≠ DISABLED → ¬ (params_size = 0 ∨ params_size > K.MAX_CEC_MSG_LEN) →
      s.cec_tx.len = 0 → (hc_cec_write K msg params_size s).1 = .EC_RES_SUCCESS) ∧
    ((hc_cec_write K msg params_size s).1 ≠ .EC_RES_SUCCESS →
      (hc_cec_write K msg params_size s).2 = s) ∧
    ((hc_cec_write K msg params_size s).1 = .EC_RES_SUCCESS → K.MAX_CEC_MSG_LEN ≤ 255 →
      1 ≤ params_size ∧ params_size ≤ K.MAX_CEC_MSG_LEN ∧
      (hc_cec_write K msg params_size s).2.cec_tx.len = params_size ∧
      (hc_cec_write K msg params_size s).2.cec_tx.msgt.buf =
        memcpy s.cec_tx.msgt.buf msg params_size ∧
      (hc_cec_write K msg params_size s).2.cec_tx.msgt.bit = s.cec_tx.msgt.bit ∧
      (hc_cec_write K msg params_size s).2.cec_tx.msgt.byte = s.cec_tx.msgt.byte ∧
      (hc_cec_write K msg params_size s).2.cec_tx.resends = s.cec_tx.resends ∧
      (hc_cec_write K msg params_size s).2.cec_state = s.cec_state ∧
      (hc_cec_write K msg params_size s).2.cec_rx = s.cec_rx) := by
  unfold hc_cec_write cec_send
  by_cases hd : s.cec_state = DISABLED
  · simp [hd]
  · by_cases hp : params_size = 0 ∨ params_size > K.MAX_CEC_MSG_LEN
    · simp [hd, hp]
    · by_cases hl : s.cec_tx.len ≠ 0
      · simp [hd, hp, hl]
      · have hl0 : s.cec_tx.len = 0 := by omega
        simp only [hd, hp, hl, hl0, if_false, ne_eq, not_true_eq_false, not_false_eq_true,
          tmr2_start]
        refine ⟨by simp, by simp, by simp, by simp, by simp, ?_⟩
        intro _ hN
        have e : params_size % 256 = params_size := Nat.mod_eq_of_lt (by omega)
        refine ⟨by omega, by omega, ?_⟩
        simp [e]

section oversized

/-- `msgt_set_bit` leaves the bytes at MAX_CEC_MSG_LEN and beyond as they
are. -/
theorem msgt_set_bit_beyond (K : ec_commands) (m : cec_msg_transfer) (v j : Nat)
    (hj : K.MAX_CEC_MSG_LEN ≤ j) : (msgt_set_bit K m v).buf.getD j 0 = m.buf.getD j 0 := by
  unfold msgt_set_bit
  split
  · rfl
  · simp only [List.getD_eq_getElem?_getD]
    rw [List.getElem?_set_ne (by omega)]

/-- `msgt_set_bit` keeps the bytes at MAX_CEC_MSG_LEN and beyond and the length
of the buffer. -/
theorem msgt_set_bit_kept (K : ec_commands) (m : cec_msg_transfer) (v j : Nat)
    (hj : K.MAX_CEC_MSG_LEN ≤ j) :
    (msgt_set_bit K m v).buf.getD j 0 = m.buf.getD j 0 ∧
    (msgt_set_bit K m v).buf.length = m.buf.length :=
  ⟨msgt_set_bit_beyond K m v j hj, msgt_set_bit_length K m v⟩

/-- `msgt_inc_bit` keeps the bytes and the length of the buffer. -/
theorem msgt_inc_bit_kept (K : ec_commands) (m : cec_msg_transfer) (j : Nat) :
    (msgt_inc_bit K m).buf.getD j 0 = m.buf.getD j 0 ∧
    (msgt_inc_bit K m).buf.length = m.buf.length := by
  rw [msgt_inc_bit_buf]
  exact ⟨rfl, rfl⟩

/-- What an interrupt does to the receive buffer: nothing, or one
`msgt_set_bit` at the receive cursor. -/
theorem deliver_rx_buf (K : ec_commands) (e : cec_irq) (s : engine) :
    (deliver K e s).cec_rx.msgt.buf = s.cec_rx.msgt.buf ∨
    ∃ v, (deliver K e s).cec_rx.msgt.buf = (msgt_set_bit K s.cec_rx.msgt v).buf := by
  have eb : ∀ st x, st ≠ DISABLED →
      (enter_state K st x).cec_rx.msgt.buf = x.cec_rx.msgt.buf :=
    fun st x h => (enter_state_keeps K st x h).2.2.1
  obtain ⟨st, rx, tx, cc, ev, f, go, gi, m, log⟩ := s
  cases e with
  | transmit =>
    simp only [deliver, cec_event_tx, tmr2_stop]
    split
    · exact Or.inl (eb _ _ (by decide))
    · exact Or.inl rfl
  | capture t =>
    cases st <;> simp only [deliver, cec_event_cap, cec_state.value, cec_state.of_value] <;>
      repeat' split
    all_goals first
      | exact Or.inl rfl
      | exact Or.inl trivial
      | (refine Or.inr ⟨_, eb _ _ ?_⟩
         decide)
      | (refine Or.inl ((eb _ _ ?_).trans (msgt_inc_bit_buf K _))
         decide)
      | (refine Or.inl (eb _ _ ?_)
         decide)
  | timeout l =>
    cases st <;> simp only [deliver, cec_event_timeout, send_mkbp_event] <;>
      repeat' split
    all_goals first
      | exact Or.inl rfl
      | exact Or.inl trivial
      | (refine Or.inl (eb _ _ ?_)
         decide)

/-- No interrupt changes a byte of the receive buffer at MAX_CEC_MSG_LEN or
beyond, or the length of the buffer. -/
theorem deliver_rx_beyond (K : ec_commands) (e : cec_irq) (s : engine) (j : Nat)
    (hj : K.MAX_CEC_MSG_LEN ≤ j) :
    (deliver K e s).cec_rx.msgt.buf.getD j 0 = s.cec_rx.msgt.buf.getD j 0 ∧
    (deliver K e s).cec_rx.msgt.buf.length = s.cec_rx.msgt.buf.length := by
  rcases deliver_rx_buf K e s with h | ⟨v, h⟩
  · rw [h]
    exact ⟨rfl, rfl⟩
  · rw [h]
    exact msgt_set_bit_kept K _ v j hj

/-- No sequence of interrupts changes a byte of the receive buffer at
MAX_CEC_MSG_LEN or beyond, or the length of the buffer. -/
theorem run_rx_beyond (K : ec_commands) (es : List cec_irq) (s : engine) (j : Nat)
    (hj : K.MAX_CEC_MSG_LEN ≤ j) :
    (run K es s).cec_rx.msgt.buf.getD j 0 = s.cec_rx.msgt.buf.getD j 0 ∧
    (run K es s).cec_rx.msgt.buf.length = s.cec_rx.msgt.buf.length := by
  induction es generalizing s with
  | nil => exact ⟨rfl, rfl⟩
  | cons e es ih =>
    have a := deliver_rx_beyond K e s j hj
    have b := ih (deliver K e s)
    exact ⟨b.1.trans a.1, b.2.trans a.2⟩

end oversized

/-- A capture in Follower.AckFinish enters Follower.DataLow, whatever EOM and
the receive cursor are, and leaves the receive context as it is. -/
theorem cap_ack_finish (K : ec_commands) (s : engine) (t : Int)
    (hs : s.cec_state = FOLLOWER_ACK_FINISH) :
    (deliver K (.capture t) s).cec_state = FOLLOWER_DATA_LOW ∧
    (deliver K (.capture t) s).cec_rx = s.cec_rx := by
  obtain ⟨st, rx, tx, cc, ev, f, go, gi, m, log⟩ := s
  simp only at hs
  subst hs
  simp only [deliver, cec_event_cap]
  have k := enter_follower_wait K FOLLOWER_DATA_LOW
    ({ cec_state := FOLLOWER_ACK_FINISH, cec_rx := rx, cec_tx := tx, cap_charge := cc,
       cec_events := ev, apb1_freq_div_10k := f, gpio_out := go, gpio_in := gi,
       mft := { m with tcra := cc - t }, mkbp_log := log } : engine) (by decide)
  exact ⟨k.1, k.2.1⟩

/-- C37. What entering Follower.AckFinish does for an oversized frame. With the
receive cursor at byte MAX_CEC_MSG_LEN (or beyond), entering Follower.AckFinish
releases the line and programs the timeout DATA_ZERO_HIGH whatever EOM was,
where with EOM 0 and the cursor inside the buffer it programs CAP_DATA_HIGH.
But the timeout is programmed by `tmr_cap_start`, the local `cap_edge` holding
`cap_edge_init`: the falling edge is selected for capture and the capture timer
is charged with DATA_ZERO_HIGH, as for another byte; it is not the plain timeout
of `tmr_oneshot_start`. If the timeout comes first it takes the transition to
Idle. If a capture comes first, the engine enters Follower.DataLow with EOM and
the receive cursor as they were, so the frame goes on; the example engine, at
the ACK of a sixteenth byte, does so on a falling edge 850 ticks after it
released the line. Whatever the receive buffer holds at index MAX_CEC_MSG_LEN
or beyond (the list may be longer than the array), no sequence of interrupts
changes it or the length of the buffer, from any engine. -/
theorem oversized_frame_capture_armed (K : ec_commands) (s : engine) :
    (K.MAX_CEC_MSG_LEN ≤ s.cec_rx.msgt.byte →
      enter_state K FOLLOWER_ACK_FINISH s =
        tmr_cap_start cap_edge_init (u32_to_int (DATA_ZERO_HIGH s.apb1_freq_div_10k))
          (gpio_set_level 1 { s with cec_state := FOLLOWER_ACK_FINISH }) ∧
      (enter_state K FOLLOWER_ACK_FINISH s).mft.taedg = false ∧
      (enter_state K FOLLOWER_ACK_FINISH s).mft.tcnt1 =
        (DATA_ZERO_HIGH s.apb1_freq_div_10k : Nat) ∧
      (enter_state K FOLLOWER_ACK_FINISH s).mft.tcra = 0 ∧
      (0 < DATA_ZERO_HIGH s.apb1_freq_div_10k →
        (enter_state K FOLLOWER_ACK_FINISH s).mft.tcien = true ∧
        (enter_state K FOLLOWER_ACK_FINISH s).cap_charge =
          (DATA_ZERO_HIGH s.apb1_freq_div_10k : Nat)) ∧
      (∀ l, forced_idle K { enter_state K FOLLOWER_ACK_FINISH s with gpio_in := l }
        (deliver K (.timeout l) (enter_state K FOLLOWER_ACK_FINISH s))) ∧
      (∀ t, (deliver K (.capture t) (enter_state K FOLLOWER_ACK_FINISH s)).cec_state =
          FOLLOWER_DATA_LOW ∧
        (deliver K (.capture t) (enter_state K FOLLOWER_ACK_FINISH s)).cec_rx = s.cec_rx)) ∧
    (s.cec_rx.eom = 0 → s.cec_rx.msgt.byte < K.MAX_CEC_MSG_LEN →
      enter_state K FOLLOWER_ACK_FINISH s =
        enter_state_program ⟨1, u32_to_int (CAP_DATA_HIGH s.apb1_freq_div_10k), CAP_EDGE_FALLING⟩
          { s with cec_state := FOLLOWER_ACK_FINISH }) ∧
    (∀ es j, K.MAX_CEC_MSG_LEN ≤ j →
      (run K es s).cec_rx.msgt.buf.getD j 0 = s.cec_rx.msgt.buf.getD j 0 ∧
      (run K es s).cec_rx.msgt.buf.length = s.cec_rx.msgt.buf.length) ∧
    ((run example_constants [.timeout 1] example_oversized).cec_state = FOLLOWER_ACK_FINISH ∧
      (run example_constants [.timeout 1] example_oversized).mft.taedg = false ∧
      (run example_constants [.timeout 1] example_oversized).mft.tcien = true ∧
      (run example_constants [.timeout 1] example_oversized).mft.tcnt1 = 900 ∧
      (run example_constants [.timeout 1] example_oversized).cap_charge = 900 ∧
      run example_constants [.timeout 1] example_oversized ≠
        tmr_oneshot_start 900
          (gpio_set_level 1
            { example_oversized with cec_state := FOLLOWER_ACK_FINISH, gpio_in := 1 }) ∧
      (run example_constants [.timeout 1, .capture 850] example_oversized).cec_state =
        FOLLOWER_DATA_LOW ∧
      (run example_constants [.timeout 1, .capture 850] example_oversized).cec_rx.eom = 0 ∧
      (run example_constants [.timeout 1, .capture 850] example_oversized).cec_rx.msgt.byte =
        16) := by
  have hv : (0 : Int) ≤ u32_to_int (DATA_ZERO_HIGH s.apb1_freq_div_10k) := by
    unfold DATA_ZERO_HIGH
    rw [u32_to_int_APB1_TICKS]
    omega
  have hz : u32_to_int (DATA_ZERO_HIGH s.apb1_freq_div_10k) =
      (DATA_ZERO_HIGH s.apb1_freq_div_10k : Nat) := by
    unfold DATA_ZERO_HIGH
    exact u32_to_int_APB1_TICKS _ _
  refine ⟨fun h => ?_, fun h0 h => ?_, fun es j hj => run_rx_beyond K es s j hj, ?_⟩
  · have he : s.cec_rx.eom ≠ 0 ∨ s.cec_rx.msgt.byte ≥ K.MAX_CEC_MSG_LEN := Or.inr h
    have e : enter_state K FOLLOWER_ACK_FINISH s =
        tmr_cap_start cap_edge_init (u32_to_int (DATA_ZERO_HIGH s.apb1_freq_div_10k))
          (gpio_set_level 1 { s with cec_state := FOLLOWER_ACK_FINISH }) := by
      simp only [enter_state, enter_state_body, he, if_true, enter_state_program, ge_iff_le, hv]
      simp
    have k := enter_state_keeps K FOLLOWER_ACK_FINISH s (by decide)
    have k2 := k.2.2.2 (by decide)
    refine ⟨e, ?_, ?_, ?_, ?_, fun l => ?_, fun t => ?_⟩
    · simp [enter_state, enter_state_body, enter_state_program_eq, program_mft, he, hv,
        CAP_EDGE_RISING]
    · rw [← hz]
      simp [enter_state, enter_state_body, enter_state_program_eq, program_mft, he, hv]
    · simp [enter_state, enter_state_body, enter_state_program_eq, program_mft, he, hv]
    · intro hp
      have hp2 : u32_to_int (DATA_ZERO_HIGH s.apb1_freq_div_10k) > 0 := by
        rw [hz]
        omega
      rw [← hz]
      simp [enter_state, enter_state_body, enter_state_program_eq, program_mft, he, hv, hp2]
    · apply forced_idle_intro
      exact follower_timeout_idle K _ l (by rw [(enter_ack_finish_gpio K s).2]; decide)
    · have c := cap_ack_finish K (enter_state K FOLLOWER_ACK_FINISH s) t k2.1
      refine ⟨c.1, c.2.trans ?_⟩
      by_cases he2 : s.cec_rx.eom ≠ 0 ∨ s.cec_rx.msgt.byte ≥ K.MAX_CEC_MSG_LEN <;>
        simp [enter_state, enter_state_body, enter_state_program_eq, he2]
  · have he : ¬ (s.cec_rx.eom ≠ 0 ∨ s.cec_rx.msgt.byte ≥ K.MAX_CEC_MSG_LEN) := by
      intro hc
      rcases hc with hc | hc
      · exact hc h0
      · omega
    simp only [enter_state, enter_state_body, he, if_false]
  · decide

end Cec

/-! # Theorems on `common/ccd_config.c` -/

namespace Ccd

open password_reset_phase vendor_cmd_rc

/-- What `manage_ccd_password` leaves in `password_state`. -/
theorem manage_ccd_password_state (E : ec_error_list) (buf : List Nat) (input_size : Nat)
    (st : password_reset_phase) :
    (manage_ccd_password E buf input_size st).password_state =
      if input_size ≠ 1 then st
      else if buf.getD 0 0 = 0 then PASSWORD_NOT_ALLOWED_STATE
      else if st = POST_RESET_STATE then PASSWORD_ALLOWED_STATE
      else PASSWORD_NOT_ALLOWED_STATE := by
  unfold manage_ccd_password manage_ccd_password_block
  simp only [List.getD_eq_getElem?_getD]
  by_cases h1 : input_size ≠ 1 <;> by_cases h2 : buf[0]?.getD 0 = 0 <;>
    by_cases h3 : st = POST_RESET_STATE <;> simp [h1, h2, h3]

/-- C30. The CCD password phase is one-way. Once `password_state` is
PASSWORD_NOT_ALLOWED_STATE, which it is initially, no sequence of
`manage_ccd_password` calls, whatever their payloads and sizes, changes it, so
none makes it PASSWORD_ALLOWED_STATE; `ccd_tpm_reset_callback` does leave that
state, for POST_RESET_STATE. A call of `manage_ccd_password` that ends in
PASSWORD_ALLOWED_STATE without having started there started in
POST_RESET_STATE with a one-byte payload that is not zero, and every such call
in POST_RESET_STATE ends there. Every call with a one-byte payload that is zero
ends in PASSWORD_NOT_ALLOWED_STATE. -/
theorem password_phase_one_way (E : ec_error_list) :
    password_state_init = PASSWORD_NOT_ALLOWED_STATE ∧
    (∀ cs, manage_calls E cs PASSWORD_NOT_ALLOWED_STATE = PASSWORD_NOT_ALLOWED_STATE) ∧
    ccd_tpm_reset_callback PASSWORD_NOT_ALLOWED_STATE = POST_RESET_STATE ∧
    (∀ buf input_size st,
      (manage_ccd_password E buf input_size st).password_state = PASSWORD_ALLOWED_STATE →
      st ≠ PASSWORD_ALLOWED_STATE →
      st = POST_RESET_STATE ∧ input_size = 1 ∧ buf.getD 0 0 ≠ 0) ∧
    (∀ buf, buf.getD 0 0 ≠ 0 →
      (manage_ccd_password E buf 1 POST_RESET_STATE).password_state =
        PASSWORD_ALLOWED_STATE) ∧
    (∀ buf st, buf.getD 0 0 = 0 →
      (manage_ccd_password E buf 1 st).password_state = PASSWORD_NOT_ALLOWED_STATE) := by
  refine ⟨rfl, ?_, rfl, ?_, ?_, ?_⟩
  · intro cs
    induction cs with
    | nil => rfl
    | cons c cs ih =>
      have e : (manage_ccd_password E c.1 c.2 PASSWORD_NOT_ALLOWED_STATE).password_state =
          PASSWORD_NOT_ALLOWED_STATE := by
        rw [manage_ccd_password_state]
        repeat' split
        all_goals first
          | rfl
          | (rename_i h; exact absurd h (by decide))
      simp only [manage_calls, e]
      exact ih
  · intro buf n st h hne
    rw [manage_ccd_password_state] at h
    by_cases h1 : n ≠ 1
    · rw [if_pos h1] at h
      exact absurd h hne
    · rw [if_neg h1] at h
      by_cases h2 : buf.getD 0 0 = 0
      · rw [if_pos h2] at h
        exact absurd h (by decide)
      · rw [if_neg h2] at h
        by_cases h3 : st = POST_RESET_STATE
        · exact ⟨h3, by omega, h2⟩
        · rw [if_neg h3] at h
          exact absurd h (by decide)
  · intro buf h
    rw [manage_ccd_password_state, if_neg (by decide), if_neg h, if_pos rfl]
  · intro buf st h
    rw [manage_ccd_password_state, if_neg (by decide), if_pos h]

/-! ## The configuration and its capabilities -/

open ccd_state

set_option maxRecDepth 1000000 in
/-- The two assignments of `raw_set_cap` on one byte: field `i` of the byte
becomes `s`, the result is a byte, and the other three fields are kept. -/
theorem set_cap_byte (i s : Nat) (hi : i < 4) (hs : s < 4) :
    ∀ w, w < 256 →
      ((((w &&& (255 ^^^ (3 <<< (2 * i)))) ||| ((s &&& 3) <<< (2 * i))) % 256) >>> (2 * i)) &&& 3
        = s ∧
      ((w &&& (255 ^^^ (3 <<< (2 * i)))) ||| ((s &&& 3) <<< (2 * i))) % 256 < 256 ∧
      ∀ j, j < 4 → j ≠ i →
        ((((w &&& (255 ^^^ (3 <<< (2 * i)))) ||| ((s &&& 3) <<< (2 * i))) % 256) >>> (2 * j))
          &&& 3 = (w >>> (2 * j)) &&& 3 := by
  interval_cases i <;> interval_cases s <;> decide

/-- The capability bytes after `raw_set_cap`, when the byte exists. -/
theorem raw_set_cap_capabilities (c : ccd_config) (cap state : Nat)
    (h : cap / 4 < c.capabilities.length) :
    (raw_set_cap c cap state).capabilities =
      c.capabilities.set (cap / 4)
        (((c.capabilities.getD (cap / 4) 0 &&& (255 ^^^ (3 <<< (2 * (cap % 4))))) |||
          ((state &&& 3) <<< (2 * (cap % 4)))) % 256) := by
  unfold raw_set_cap
  simp only [List.getD_eq_getElem?_getD, List.set_set]
  rw [List.getElem?_set_self h]
  rfl

/-- `raw_set_cap` writes the capability bytes only. -/
theorem raw_set_cap_others (c : ccd_config) (cap state : Nat) :
    (raw_set_cap c cap state).version = c.version ∧
    (raw_set_cap c cap state).flags = c.flags ∧
    (raw_set_cap c cap state).password_salt = c.password_salt ∧
    (raw_set_cap c cap state).password_digest = c.password_digest ∧
    (raw_set_cap c cap state).capabilities.length = c.capabilities.length := by
  unfold raw_set_cap
  simp

/-- `raw_get_cap` without translation of the default reads a two-bit field. -/
theorem raw_get_cap_zero (c : ccd_config) (cap : Nat) :
    raw_get_cap c cap 0 = (c.capabilities.getD (cap / 4) 0 >>> (2 * (cap % 4))) &&& 3 := by
  unfold raw_get_cap
  simp

/-- C38. Capability packing round trip. For a configuration whose eight
capability bytes are bytes, every capability `cap` below `CCD_CAP_COUNT` (at
most 32, four capabilities to a byte) and every state `s` in 0..3:
after `raw_set_cap(cap, s)`, `raw_get_cap(cap, 0)` is `s`, `raw_get_cap(c2, 0)`
is what it was for every other capability `c2`, the version, the flags, the
password salt and the password digest are unchanged, and the capability bytes
are again eight bytes. -/
theorem cap_packing_round_trip (H : ccd_config_h) (c : ccd_config) (cap s : Nat)
    (hH : H.CCD_CAP_COUNT ≤ 32) (hcap : cap < H.CCD_CAP_COUNT) (hs : s < 4)
    (hlen : c.capabilities.length = 8) (hb : ∀ b ∈ c.capabilities, b < 256) :
    raw_get_cap (raw_set_cap c cap s) cap 0 = s ∧
    (∀ c2, c2 ≠ cap → raw_get_cap (raw_set_cap c cap s) c2 0 = raw_get_cap c c2 0) ∧
    (raw_set_cap c cap s).version = c.version ∧
    (raw_set_cap c cap s).flags = c.flags ∧
    (raw_set_cap c cap s).password_salt = c.password_salt ∧
    (raw_set_cap c cap s).password_digest = c.password_digest ∧
    (raw_set_cap c cap s).capabilities.length = 8 ∧
    (∀ b ∈ (raw_set_cap c cap s).capabilities, b < 256) := by
  have hi : cap / 4 < c.capabilities.length := by omega
  have hw : c.capabilities.getD (cap / 4) 0 < 256 := by
    rw [List.getD_eq_getElem _ _ hi]
    exact hb _ (List.getElem_mem _)
  have hbyte := set_cap_byte (cap % 4) s (Nat.mod_lt _ (by norm_num)) hs _ hw
  have ho := raw_set_cap_others c cap s
  have hc := raw_set_cap_capabilities c cap s hi
  refine ⟨?_, ?_, ho.1, ho.2.1, ho.2.2.1, ho.2.2.2.1, by rw [ho.2.2.2.2, hlen], ?_⟩
  · rw [raw_get_cap_zero, hc, List.getD_eq_getElem?_getD, List.getElem?_set_self hi]
    exact hbyte.1
  · intro c2 h2
    rw [raw_get_cap_zero, raw_get_cap_zero, hc]
    by_cases hq : c2 / 4 = cap / 4
    · have hj : c2 % 4 ≠ cap % 4 := by omega
      rw [hq, List.getD_eq_getElem?_getD, List.getElem?_set_self hi]
      exact hbyte.2.2 (c2 % 4) (Nat.mod_lt _ (by norm_num)) hj
    · simp only [List.getD_eq_getElem?_getD, List.getElem?_set_ne (Ne.symm hq)]
  · intro b hm
    rw [hc] at hm
    rcases List.mem_or_eq_of_mem_set hm with h | h
    · exact hb b h
    · rw [h]
      exact hbyte.2.1

/-- Instance of C38: capability 5 of an all-ones configuration is set to
state 2. -/
theorem cap_packing_round_trip_witness :
    example_ccd_config_h.CCD_CAP_COUNT ≤ 32 ∧ 5 < example_ccd_config_h.CCD_CAP_COUNT ∧
    raw_get_cap (raw_set_cap ⟨16, [0, 0, 0], List.replicate 8 255, [1, 2, 3, 4],
      List.replicate 16 7⟩ 5 2) 5 0 = 2 :=
  ⟨by decide, by decide,
    (cap_packing_round_trip example_ccd_config_h
      ⟨16, [0, 0, 0], List.replicate 8 255, [1, 2, 3, 4], List.replicate 16 7⟩ 5 2
      (by decide) (by decide) (by decide) (by decide) (by decide)).1⟩

/-- C39. Capability access is monotone in the CCD state.
`ccd_is_cap_enabled` returns 0 or 1, and 0 whenever the configuration is not
loaded or CCD is force-disabled. Otherwise a capability whose resolved state
`raw_get_cap(cap, 1)` is Always is enabled, one whose resolved state is
UnlessLocked is enabled iff the CCD state is not Locked, and one with any other
resolved state (IfOpened among them) is enabled iff the CCD state is Opened.
Hence, the other variables being equal, a capability enabled in Locked is
enabled in Unlocked, and one enabled in Unlocked is enabled in Opened. -/
theorem cap_access_monotone (v : ccd_vars) (cap : Nat) :
    (ccd_is_cap_enabled v cap = 0 ∨ ccd_is_cap_enabled v cap = 1) ∧
    (v.ccd_config_loaded = 0 ∨ v.force_disabled ≠ 0 → ccd_is_cap_enabled v cap = 0) ∧
    (¬ (v.ccd_config_loaded = 0 ∨ v.force_disabled ≠ 0) →
      (raw_get_cap v.config cap 1 = CCD_CAP_STATE_ALWAYS → ccd_is_cap_enabled v cap = 1) ∧
      (raw_get_cap v.config cap 1 = CCD_CAP_STATE_UNLESS_LOCKED →
        (ccd_is_cap_enabled v cap = 1 ↔ v.ccd_state ≠ CCD_STATE_LOCKED)) ∧
      (raw_get_cap v.config cap 1 ≠ CCD_CAP_STATE_ALWAYS →
        raw_get_cap v.config cap 1 ≠ CCD_CAP_STATE_UNLESS_LOCKED →
        (ccd_is_cap_enabled v cap = 1 ↔ v.ccd_state = CCD_STATE_OPENED))) ∧
    (ccd_is_cap_enabled { v with ccd_state := CCD_STATE_LOCKED } cap = 1 →
      ccd_is_cap_enabled { v with ccd_state := CCD_STATE_UNLOCKED } cap = 1) ∧
    (ccd_is_cap_enabled { v with ccd_state := CCD_STATE_UNLOCKED } cap = 1 →
      ccd_is_cap_enabled { v with ccd_state := CCD_STATE_OPENED } cap = 1) := by
  obtain ⟨st, config, loaded, forced⟩ := v
  unfold ccd_is_cap_enabled
  simp only []
  by_cases hd : loaded = 0 ∨ forced ≠ 0
  · simp [hd]
  · by_cases ha : raw_get_cap config cap 1 = CCD_CAP_STATE_ALWAYS
    · simp [hd, ha, CCD_CAP_STATE_ALWAYS, CCD_CAP_STATE_UNLESS_LOCKED]
    · by_cases hu : raw_get_cap config cap 1 = CCD_CAP_STATE_UNLESS_LOCKED
      · cases st <;> simp [hd, ha, hu, CCD_CAP_STATE_ALWAYS, CCD_CAP_STATE_UNLESS_LOCKED]
      · cases st <;> simp [hd, ha, hu]

/-- The flags of a configuration whose three flag bytes are zero. -/
theorem raw_set_flag_zero (c : ccd_config) (flag : Nat) (h : c.flags = [0, 0, 0]) :
    raw_set_flag c flag 0 = c := by
  unfold raw_set_flag raw_get_flags
  obtain ⟨ver, fl, caps, salt, dig⟩ := c
  simp only at h
  subst h
  simp

/-- C32. What `ccd_load_config` does on a mismatch. When the configuration is
not yet loaded and the stored data is at least 2 bytes long with a wrong
version byte or a wrong size, then after the load every field of the
configuration has its default value, the flags included: the version is
`CCD_CONFIG_VERSION` and all other bytes are zero. So `CCD_FLAG_TEST_LAB`, like
every flag, is 0 afterwards whatever the stored first flags byte was; the test
lab bit of the stored data is not preserved, because `ccd_reset_config` reads
the old flag through `ccd_get_flag`, which returns 0 while the configuration is
not loaded. -/
theorem test_lab_flag_after_mismatch (H : ccd_config_h) (val : List Nat)
    (first_factory_boot : Bool) (v : ccd_vars)
    (hl : v.ccd_config_loaded = 0) (h2 : 2 ≤ val.length)
    (hm : val.getD 0 0 ≠ CCD_CONFIG_VERSION ∨ val.length ≠ sizeof_config) :
    (ccd_load_config H (some val) first_factory_boot v).config =
      ⟨CCD_CONFIG_VERSION, [0, 0, 0], List.replicate 8 0, List.replicate 4 0,
        List.replicate 16 0⟩ ∧
    (ccd_load_config H (some val) first_factory_boot v).ccd_config_loaded = 1 ∧
    raw_get_flags (ccd_load_config H (some val) first_factory_boot v).config = 0 ∧
    ccd_get_flag (ccd_load_config H (some val) first_factory_boot v) H.CCD_FLAG_TEST_LAB = 0 ∧
    (∀ c, ccd_get_flag { v with config := c } H.CCD_FLAG_TEST_LAB = 0) := by
  have hv : (config_of_bytes (val.take (min sizeof_config val.length) ++
      (config_bytes v.config).drop (min sizeof_config val.length))).version = val.getD 0 0 := by
    obtain _ | ⟨a, _ | ⟨b, l⟩⟩ := val
    · simp at h2
    · simp at h2
    · have e : min sizeof_config (a :: b :: l).length = (min 31 (b :: l).length) + 1 := by
        simp only [sizeof_config, List.length_cons]
        omega
      rw [e]
      simp [config_of_bytes]
  have hc : (ccd_load_config H (some val) first_factory_boot v).config =
      ⟨CCD_CONFIG_VERSION, [0, 0, 0], List.replicate 8 0, List.replicate 4 0,
        List.replicate 16 0⟩ := by
    unfold ccd_load_config
    rw [if_neg (by simp [hl])]
    simp only []
    rw [if_pos (by rw [hv]; exact hm), if_neg (by omega)]
    unfold ccd_reset_config ccd_get_flag
    simp only [hl, true_or, if_true, Nat.zero_and, ne_eq, not_true_eq_false, if_false]
    rw [raw_set_flag_zero _ _ rfl]
    rfl
  have hld : (ccd_load_config H (some val) first_factory_boot v).ccd_config_loaded = 1 := by
    unfold ccd_load_config
    rw [if_neg (by simp [hl])]
  refine ⟨hc, hld, ?_, ?_, ?_⟩
  · rw [hc]
    rfl
  · unfold ccd_get_flag
    rw [hc]
    simp [raw_get_flags]
  · intro c
    unfold ccd_get_flag
    simp [hl]

/-- Instance of C32: the stored data is two bytes, the current version and a
first flags byte whose least significant bit, the test lab bit, is 1; after
the load the three flag bytes are zero. -/
theorem test_lab_flag_after_mismatch_witness :
    example_ccd_vars.ccd_config_loaded = 0 ∧ 2 ≤ [0x10, 0x01].length ∧
    ([0x10, 0x01].getD 0 0 ≠ CCD_CONFIG_VERSION ∨ [0x10, 0x01].length ≠ sizeof_config) ∧
    [0x10, 0x01].getD 1 0 % 2 = 1 ∧
    (ccd_load_config example_ccd_config_h (some [0x10, 0x01]) false example_ccd_vars).config =
      ⟨CCD_CONFIG_VERSION, [0, 0, 0], List.replicate 8 0, List.replicate 4 0,
        List.replicate 16 0⟩ :=
  ⟨by decide, by decide, by decide, by decide,
    (test_lab_flag_after_mismatch example_ccd_config_h [0x10, 0x01] false example_ccd_vars
      (by decide) (by decide) (by decide)).1⟩

end Ccd
